import Mathlib

/-!
# qaopenmdgateway: market-data fan-out server

A shallow embedding of the subscription dispatcher, the upstream connection
pool with its health monitor, the peek-driven diff delivery engine and the
configuration check
(`src/src/market_data_server.cpp`, `src/src/subscription_dispatcher.cpp`,
`src/src/ctp_connection_manager.cpp`, `src/src/multi_ctp_config.cpp`), and
theorems about them.

Conventions of the embedding.

* `std::string` is `String` (text without embedded NUL characters, so that a
  `std::string` and its `c_str()` carry the same text).
* `std::set<std::string>` is a `List String` kept in increasing order without
  duplicates by `setInsert`/`setErase`; `std::map<std::string, V>` is an
  association list kept in increasing key order by `mapInsert`/`mapErase`.
  Iteration over a set or map is iteration over the list.
* A `rapidjson::Value` is a `Json`.  Members of an object keep their order and
  may repeat a name; `FindMember` returns the first member of that name.
* `rapidjson::Document::Parse` and `rapidjson::Writer` belong to a library that
  is not part of the repository.  They are parameters `parse` and `write` of
  the functions that call them.
* A rapidjson accessor called outside its precondition (`GetInt` on a number
  that is no `int`, `MemberCount` on a value that is no object) trips
  `RAPIDJSON_ASSERT`.  Functions that can reach such a call return `Option`,
  and `none` stands for the tripped assertion.
* The CTP driver (`CThostFtdcMdApi`) and `std::hash` are outside the
  repository as well: an `Env` carries the return codes of the driver calls and
  the hash function.
* Times are integer counts of clock ticks; an operation that reads the clock
  takes the time as its argument `now`.
* A counter of type `int` is a mathematical integer (its overflow is undefined
  in C++); `std::atomic<int>` and `size_t` counters wrap around.
* Mutexes are not modelled: every operation is one atomic step.
* A callback of the CTP driver on a connection is a step of that connection,
  taken with any arguments; the call it makes into the dispatcher is an
  operation of the dispatcher.  `CTPConnection.Reachable` and
  `SubscriptionDispatcher.Reachable` are the states reachable from construction.
* A run of the health monitor is a sequence of events (`HealthEvent`): a pass of
  the body of its loop for one connection, with the clock readings it takes, or
  a change of the connections by another thread.
* Of `WebSocketSession::handle_message` the branch `subscribe_quote` is
  embedded; the session is the one registered under its id in `sessions_`.
* The write path of a session is a `SessionWriter`: the queue and `is_writing_`
  of the source, and two records of what `async_write` was given, the write in
  flight and the sequence of all messages handed over.  A completion handler
  runs only for a write in flight.
* Floating point is not computed: `build_quote_data` takes the tests and
  roundings it applies to a `double` as a `DoubleOps`; the load thresholds of
  `update_connection_quality` and `calculate_connection_score` are compared as
  fractions.
-/

namespace MdGateway

/-! ## Strings, sets and maps -/

/-- Lexicographic comparison of two character sequences by code point, which is
how `std::string::operator<` orders texts. -/
def charsLt : List Char → List Char → Bool
  | [], [] => false
  | [], _ :: _ => true
  | _ :: _, [] => false
  | a :: as, b :: bs =>
    if a.toNat < b.toNat then true
    else if b.toNat < a.toNat then false
    else charsLt as bs

/-- The strict order of the keys of `std::set<std::string>` and `std::map`. -/
def strLt (a b : String) : Bool := charsLt a.data b.data

/-- The `std::set::insert` operation: the set with `x` added, order kept. -/
def setInsert (x : String) : List String → List String
  | [] => [x]
  | y :: ys =>
    if x = y then y :: ys
    else if strLt x y then x :: y :: ys
    else y :: setInsert x ys

/-- The `std::set::erase(key)` operation. -/
def setErase (x : String) (s : List String) : List String :=
  s.filter (fun y => y ≠ x)

/-- The `std::map::find` operation: the value stored under `k`, if any. -/
def mapFind {V : Type} (k : String) : List (String × V) → Option V
  | [] => none
  | (k', v) :: rest => if k' = k then some v else mapFind k rest

/-- The assignment `m[k] = v` on a `std::map`: replaces the value under `k` or
adds the key at its place in the order. -/
def mapInsert {V : Type} (k : String) (v : V) : List (String × V) → List (String × V)
  | [] => [(k, v)]
  | (k', v') :: rest =>
    if k' = k then (k, v) :: rest
    else if strLt k k' then (k, v) :: (k', v') :: rest
    else (k', v') :: mapInsert k v rest

/-- The `std::map::erase(key)` operation. -/
def mapErase {V : Type} (k : String) (m : List (String × V)) : List (String × V) :=
  m.filter (fun p => p.1 ≠ k)

/-! ## JSON values -/

/-- A finite IEEE-754 double, as sign, integer significand and binary exponent:
its value is `(-1)^neg * mant * 2^exp`.  JSON text cannot carry NaN or an
infinity, so parsed documents hold finite doubles only. -/
structure Dbl where
  neg : Bool
  mant : Nat
  exp : Int
  deriving DecidableEq

/-- A JSON number as rapidjson stores it: an integer (flags `Int`, `Uint`,
`Int64`, `Uint64` follow from its range) or a double. -/
inductive Num where
  | int (i : Int)
  | dbl (d : Dbl)
  deriving DecidableEq

/-- A `rapidjson::Value`. -/
inductive Json where
  | null
  | bool (b : Bool)
  | num (n : Num)
  | str (s : String)
  | arr (xs : List Json)
  | obj (ms : List (String × Json))

/-- The values of `rapidjson::Type`. -/
inductive JType where
  | kNullType | kFalseType | kTrueType | kObjectType | kArrayType | kStringType | kNumberType
  deriving DecidableEq

/-- The `Value::GetType` accessor. -/
def Json.GetType : Json → JType
  | .null => .kNullType
  | .bool false => .kFalseType
  | .bool true => .kTrueType
  | .num _ => .kNumberType
  | .str _ => .kStringType
  | .arr _ => .kArrayType
  | .obj _ => .kObjectType

/-- The `Value::FindMember` lookup on the member list of an object: the value of
the first member named `key`. -/
def FindMember (key : String) : List (String × Json) → Option Json
  | [] => none
  | (k, v) :: rest => if k = key then some v else FindMember key rest

/-- The value of a double as a rational number. -/
def Dbl.val (d : Dbl) : ℚ :=
  (if d.neg then -1 else 1) * (d.mant : ℚ) * (2 : ℚ) ^ d.exp

/-- The value of a JSON number as a rational number. -/
def Num.val : Num → ℚ
  | .int i => (i : ℚ)
  | .dbl d => d.val

/-- The comparison `a != b` of two finite doubles: both zero (of either sign)
are equal; otherwise the signs and the magnitudes, brought to the smaller
exponent, are compared. -/
def Dbl.ne (a b : Dbl) : Bool :=
  if a.mant = 0 ∧ b.mant = 0 then false
  else
    let m := min a.exp b.exp
    !(a.neg = b.neg ∧ a.mant * 2 ^ (a.exp - m).toNat = b.mant * 2 ^ (b.exp - m).toNat)

/-- The number of low bits that do not fit a 53-bit significand: the least `s`
with `n / 2^s < 2^53`, searched up to `fuel` (11 suffices below `2^64`). -/
def excessBits : Nat → Nat → Nat
  | 0, _ => 0
  | fuel + 1, n => if n < 2 ^ 53 then 0 else 1 + excessBits fuel (n / 2)

/-- Rounding of a natural number below `2^64` to a 53-bit significand, ties to
even: the result `(q, e)` stands for `q * 2^e`. -/
def roundTo53 (n : Nat) : Nat × Nat :=
  let sh := excessBits 11 n
  if sh = 0 then (n, 0)
  else
    let q := n / 2 ^ sh
    let r := n % 2 ^ sh
    let half := 2 ^ (sh - 1)
    if half < r ∨ (r = half ∧ q % 2 = 1) then (q + 1, sh) else (q, sh)

/-- The conversion `static_cast<double>(i)` of a 64-bit integer, rounding to
nearest, ties to even. -/
def intToDouble (i : Int) : Dbl :=
  let r := roundTo53 i.natAbs
  { neg := decide (i < 0), mant := r.1, exp := (r.2 : Int) }

/-- The `Value::IsInt` flag of an integer number. -/
def isInt32 (i : Int) : Bool := decide (-(2 : Int) ^ 31 ≤ i ∧ i < 2 ^ 31)

/-- The `Value::IsInt64` flag of an integer number. -/
def isInt64 (i : Int) : Bool := decide (-(2 : Int) ^ 63 ≤ i ∧ i < 2 ^ 63)

/-- The `Value::IsDouble` flag. -/
def Num.IsDouble : Num → Bool
  | .dbl _ => true
  | .int _ => false

/-- The `Value::IsInt64` flag. -/
def Num.IsInt64 : Num → Bool
  | .dbl _ => false
  | .int i => isInt64 i

/-- The `Value::GetDouble` accessor: a double as it is, an integer converted. -/
def Num.GetDouble : Num → Dbl
  | .dbl d => d
  | .int i => intToDouble i

/-- The `Value::GetInt64` accessor, defined on numbers with the `Int64` flag. -/
def Num.GetInt64 : Num → Option Int
  | .int i => if isInt64 i then some i else none
  | .dbl _ => none

/-- The `Value::GetInt` accessor, defined on numbers with the `Int` flag. -/
def Num.GetInt : Num → Option Int
  | .int i => if isInt32 i then some i else none
  | .dbl _ => none

/-- The number comparison of `ComputeJsonDiff` (`is_different`): doubles are
compared when either side is a double, 64-bit integers when either side has the
`Int64` flag, and `int`s otherwise. -/
def numIsDifferent (new_field old_field : Num) : Option Bool :=
  if new_field.IsDouble || old_field.IsDouble then
    some (Dbl.ne new_field.GetDouble old_field.GetDouble)
  else if new_field.IsInt64 || old_field.IsInt64 then
    match new_field.GetInt64, old_field.GetInt64 with
    | some a, some b => some (decide (a ≠ b))
    | _, _ => none
  else
    match new_field.GetInt, old_field.GetInt with
    | some a, some b => some (decide (a ≠ b))
    | _, _ => none

/-! ## The incremental JSON diff -/

mutual
/-- The function `ComputeJsonDiff` of `market_data_server.cpp`: the value stored
into `diff_val` for `old_val` and `new_val`. -/
def ComputeJsonDiff (write : Json → String) (old_val new_val : Json) : Option Json :=
  if old_val.GetType ≠ new_val.GetType then some new_val
  else
    match new_val with
    | .obj new_members =>
      match old_val with
      | .obj old_members => (diffMembers write old_members new_members).map Json.obj
      | _ => none
    | _ => some new_val
/-- The member loop of `ComputeJsonDiff`: the members added to `diff_val` for
the members of the new object, in their order. -/
def diffMembers (write : Json → String) (old_members : List (String × Json)) :
    List (String × Json) → Option (List (String × Json))
  | [] => some []
  | (key, new_field) :: rest =>
    let added : Option (List (String × Json)) :=
      match FindMember key old_members with
      | none => some [(key, new_field)]
      | some old_field =>
        if new_field.GetType ≠ old_field.GetType then some [(key, new_field)]
        else
          match new_field with
          | .obj new_inner =>
            match ComputeJsonDiff write old_field (.obj new_inner) with
            | some (.obj []) => some []
            | some (.obj (m :: ms)) => some [(key, .obj (m :: ms))]
            | _ => none
          | .arr xs =>
            if write old_field ≠ write (.arr xs) then some [(key, .arr xs)] else some []
          | .null => some []
          | .str s =>
            match old_field with
            | .str t => if s ≠ t then some [(key, .str s)] else some []
            | _ => none
          | .num n =>
            match old_field with
            | .num o =>
              match numIsDifferent n o with
              | some true => some [(key, .num n)]
              | some false => some []
              | none => none
            | _ => none
          | .bool b =>
            match old_field with
            | .bool c => if b ≠ c then some [(key, .bool b)] else some []
            | _ => none
    match added, diffMembers write old_members rest with
    | some here, some tail => some (here ++ tail)
    | _, _ => none
end

/-! ## Applying a diff (the client side of the protocol) -/

mutual
/-- The recursive merge of a diff into an old value, written from the
specification of the diff protocol: two objects are merged member by member,
anything else is overwritten by the diff. -/
def applyDiff : Json → Json → Json
  | .obj old_members, .obj diff_members =>
    .obj (applyMembers old_members diff_members ++
      diff_members.filter (fun p => (FindMember p.1 old_members).isNone))
  | _, diff => diff
/-- The members of the old object after the merge: a member whose name the diff
carries is merged with the diff's value, any other member is kept. -/
def applyMembers : List (String × Json) → List (String × Json) → List (String × Json)
  | [], _ => []
  | (k, v) :: rest, diff_members =>
    (match FindMember k diff_members with
      | some d => (k, applyDiff v d)
      | none => (k, v)) :: applyMembers rest diff_members
end

/-- The value of member `k` of a JSON value, when the value is an object that
has such a member. -/
def Json.member (j : Json) (k : String) : Option Json :=
  match j with
  | .obj ms => FindMember k ms
  | _ => none

/-- A scalar of the quote schema: null, a string or a number. -/
def IsQuoteScalar : Json → Prop
  | .null => True
  | .str _ => True
  | .num _ => True
  | _ => False

/-- A flat quote object: an object with pairwise distinct member names whose
values are null, strings or numbers. -/
def IsFlatQuote : Json → Prop
  | .obj ms => (ms.map Prod.fst).Nodup ∧ ∀ p ∈ ms, IsQuoteScalar p.2
  | _ => False

/-- A quotes object: an object with pairwise distinct member names (the
instruments) whose values are flat quote objects. -/
def IsQuotes : Json → Prop
  | .obj ms => (ms.map Prod.fst).Nodup ∧ ∀ p ∈ ms, IsFlatQuote p.2
  | _ => False

/-- Numeric equality, written from the description of the diff ("numeric
equality uses double comparison if either side is a double, int64 otherwise"):
two integers are equal when they are the same integer; when either number is a
double, both are taken as doubles and compared. -/
def numericallyEqual : Num → Num → Bool
  | .int a, .int b => decide (a = b)
  | .int a, .dbl b => !(Dbl.ne (intToDouble a) b)
  | .dbl a, .int b => !(Dbl.ne a (intToDouble b))
  | .dbl a, .dbl b => !(Dbl.ne a b)

/-- Equality of two scalars with numbers compared numerically. -/
def SameValue : Json → Json → Prop
  | .num a, .num b => numericallyEqual a b = true
  | .num _, _ => False
  | _, .num _ => False
  | a, b => a = b

/-- The round-trip law of the diff for one pair of quotes objects: the diff is
computed, and merging it into `old` gives an object that agrees with `new` on
every member of `new`, at both levels, and keeps the members only `old` has. -/
def DiffRoundTrip (write : Json → String) (old new : Json) : Prop :=
  ∃ d, ComputeJsonDiff write old new = some d ∧
    (∀ inst q, new.member inst = some q →
      ∃ rq, (applyDiff old d).member inst = some rq ∧
        (∀ f v, q.member f = some v → ∃ rv, rq.member f = some rv ∧ SameValue rv v) ∧
        (∀ oq, old.member inst = some oq → ∀ f, q.member f = none →
          rq.member f = oq.member f)) ∧
    (∀ inst, new.member inst = none →
      (applyDiff old d).member inst = old.member inst)

/-- A scalar that, when it is an integer, has the `Int64` flag (as the `int` and
`int64_t` fields written by `build_quote_data` have). -/
def ScalarInt64 : Json → Prop
  | .num (.int i) => isInt64 i = true
  | _ => True

/-- Every integer of a flat quote object has the `Int64` flag. -/
def FlatInt64 : Json → Prop
  | .obj ms => ∀ p ∈ ms, ScalarInt64 p.2
  | _ => True

/-- Every integer of every quote of a quotes object has the `Int64` flag. -/
def QuotesInt64 : Json → Prop
  | .obj ms => ∀ p ∈ ms, FlatInt64 p.2
  | _ => True

instance IsQuoteScalar.decide : (j : Json) → Decidable (IsQuoteScalar j)
  | .null => isTrue trivial
  | .str _ => isTrue trivial
  | .num _ => isTrue trivial
  | .bool _ => isFalse (fun h => h)
  | .arr _ => isFalse (fun h => h)
  | .obj _ => isFalse (fun h => h)

instance ScalarInt64.decide : (j : Json) → Decidable (ScalarInt64 j)
  | .num (.int i) => inferInstanceAs (Decidable (isInt64 i = true))
  | .num (.dbl _) => isTrue trivial
  | .null => isTrue trivial
  | .str _ => isTrue trivial
  | .bool _ => isTrue trivial
  | .arr _ => isTrue trivial
  | .obj _ => isTrue trivial

instance IsFlatQuote.decide : (j : Json) → Decidable (IsFlatQuote j)
  | .obj ms => inferInstanceAs (Decidable ((ms.map Prod.fst).Nodup ∧ ∀ p ∈ ms, IsQuoteScalar p.2))
  | .null => isFalse (fun h => h)
  | .str _ => isFalse (fun h => h)
  | .num _ => isFalse (fun h => h)
  | .bool _ => isFalse (fun h => h)
  | .arr _ => isFalse (fun h => h)

instance FlatInt64.decide : (j : Json) → Decidable (FlatInt64 j)
  | .obj ms => inferInstanceAs (Decidable (∀ p ∈ ms, ScalarInt64 p.2))
  | .null => isTrue trivial
  | .str _ => isTrue trivial
  | .num _ => isTrue trivial
  | .bool _ => isTrue trivial
  | .arr _ => isTrue trivial

instance IsQuotes.decide : (j : Json) → Decidable (IsQuotes j)
  | .obj ms => inferInstanceAs (Decidable ((ms.map Prod.fst).Nodup ∧ ∀ p ∈ ms, IsFlatQuote p.2))
  | .null => isFalse (fun h => h)
  | .str _ => isFalse (fun h => h)
  | .num _ => isFalse (fun h => h)
  | .bool _ => isFalse (fun h => h)
  | .arr _ => isFalse (fun h => h)

instance QuotesInt64.decide : (j : Json) → Decidable (QuotesInt64 j)
  | .obj ms => inferInstanceAs (Decidable (∀ p ∈ ms, FlatInt64 p.2))
  | .null => isTrue trivial
  | .str _ => isTrue trivial
  | .num _ => isTrue trivial
  | .bool _ => isTrue trivial
  | .arr _ => isTrue trivial

/-! ## Auxiliary definitions for the diff -/

/-- The contribution of one member of the new object whose name the old object
also has: the part of the loop body of `ComputeJsonDiff` after `FindMember`
found `old_field` (`diffMembers_cons` states that `diffMembers` runs it). -/
def fieldDiff (write : Json → String) (key : String) (old_field new_field : Json) :
    Option (List (String × Json)) :=
  if new_field.GetType ≠ old_field.GetType then some [(key, new_field)]
  else
    match new_field with
    | .obj new_inner =>
      match ComputeJsonDiff write old_field (.obj new_inner) with
      | some (.obj []) => some []
      | some (.obj (m :: ms)) => some [(key, .obj (m :: ms))]
      | _ => none
    | .arr xs =>
      if write old_field ≠ write (.arr xs) then some [(key, .arr xs)] else some []
    | .null => some []
    | .str s =>
      match old_field with
      | .str t => if s ≠ t then some [(key, .str s)] else some []
      | _ => none
    | .num n =>
      match old_field with
      | .num o =>
        match numIsDifferent n o with
        | some true => some [(key, .num n)]
        | some false => some []
        | none => none
      | _ => none
    | .bool b =>
      match old_field with
      | .bool c => if b ≠ c then some [(key, .bool b)] else some []
      | _ => none

/-- The lookup of a member in the merge of a diff into an old member list. -/
def lookupMerged (old_members diff_members : List (String × Json)) (f : String) : Option Json :=
  match FindMember f old_members with
  | some ov =>
    some (match FindMember f diff_members with
      | some d => applyDiff ov d
      | none => ov)
  | none => FindMember f diff_members

/-- An integer number is exact when its magnitude is at most `2^53`. -/
def Num.Exact : Num → Prop
  | .int i => i.natAbs ≤ 2 ^ 53
  | .dbl _ => True

/-! ## The market-data server: sessions, quote cache and peek delivery -/

/-- A `WebSocketSession`, as far as the server uses it: its subscription set and
the messages handed to `send_message`, oldest first. -/
structure WebSocketSession where
  subscriptions_ : List String
  sent : List String

/-- The `WebSocketSession::send_message` operation: the message joins the
session's outbound sequence. -/
def WebSocketSession.send_message (s : WebSocketSession) (message : String) :
    WebSocketSession :=
  { s with sent := s.sent ++ [message] }

/-- The state of `MarketDataServer` that the peek protocol reads and writes. -/
structure MarketDataServer where
  sessions_ : List (String × WebSocketSession)
  instrument_subscribers_ : List (String × List String)
  market_data_cache_ : List (String × String)
  session_last_sent_json_ : List (String × String)
  pending_peek_sessions_ : List String
  noheadtohead_instruments_map_ : List (String × String)

/-- The second element of the `data` array of every `rtn_data` frame. -/
def metaObj : Json :=
  .obj [("account_id", .str ""), ("ins_list", .str ""), ("mdhis_more_data", .bool false)]

/-- The `rtn_data` document with the given `quotes` object:
`{"aid":"rtn_data","data":[{"quotes":quotes},{"account_id":"","ins_list":"","mdhis_more_data":false}]}`. -/
def rtnData (quotes : Json) : Json :=
  .obj [("aid", .str "rtn_data"), ("data", .arr [.obj [("quotes", quotes)], metaObj])]

/-- The function `MarketDataServer::send_empty_rtn_data`: an `rtn_data` frame
with an empty `quotes` object goes to the session, if it is registered. -/
def send_empty_rtn_data (write : Json → String) (st : MarketDataServer) (session_id : String) :
    MarketDataServer :=
  match mapFind session_id st.sessions_ with
  | none => st
  | some session =>
    { st with sessions_ :=
        mapInsert session_id (session.send_message (write (rtnData (.obj [])))) st.sessions_ }

/-- The display name of an instrument: its entry in
`noheadtohead_instruments_map_`, or the raw id when it has none. -/
def displayInstrument (st : MarketDataServer) (instrument_id : String) : String :=
  match mapFind instrument_id st.noheadtohead_instruments_map_ with
  | some display => display
  | none => instrument_id

/-- The subscribed instruments of a session that have a cache entry
(`cached_instruments` of `handle_peek_message`). -/
def cachedInstruments (st : MarketDataServer) (session : WebSocketSession) : List String :=
  session.subscriptions_.filter (fun instrument_id =>
    (mapFind instrument_id st.market_data_cache_).isSome)

/-- The loop of `handle_peek_message` that fills `quotes_obj`: one member per
instrument whose cached text parses to an object, under its display name. -/
def buildQuotes (parse : String → Option Json) (st : MarketDataServer) :
    List String → List (String × Json)
  | [] => []
  | instrument_id :: rest =>
    match mapFind instrument_id st.market_data_cache_ with
    | none => buildQuotes parse st rest
    | some text =>
      match parse text with
      | some (.obj members) =>
        (displayInstrument st instrument_id, .obj members) :: buildQuotes parse st rest
      | _ => buildQuotes parse st rest

/-- The full snapshot document (`full_response`) of a session. -/
def fullResponse (parse : String → Option Json) (st : MarketDataServer)
    (session : WebSocketSession) : Json :=
  rtnData (.obj (buildQuotes parse st (cachedInstruments st session)))

/-- The state after the full snapshot was sent to the session and stored as its
last-sent text (the two statements `send_message(full_response_str)` and
`session_last_sent_json_[session_id] = full_response_str`). -/
def sendAndStore (st : MarketDataServer) (session_id : String) (session : WebSocketSession)
    (frame full_response_str : String) : MarketDataServer :=
  { st with
    sessions_ := mapInsert session_id (session.send_message frame) st.sessions_
    session_last_sent_json_ := mapInsert session_id full_response_str st.session_last_sent_json_ }

/-- The function `MarketDataServer::handle_peek_message`.  `parse` is
`rapidjson::Document::Parse` (`none` for a parse error) and `write` is
`rapidjson::Writer`. -/
def handle_peek_message (parse : String → Option Json) (write : Json → String)
    (st : MarketDataServer) (session_id : String) : Option MarketDataServer :=
  match mapFind session_id st.sessions_ with
  | none => some st
  | some session =>
    if session.subscriptions_ = [] then some st
    else if cachedInstruments st session = [] then
      some (send_empty_rtn_data write st session_id)
    else
      let full_response := fullResponse parse st session
      let full_response_str := write full_response
      let send_full := sendAndStore st session_id session full_response_str full_response_str
      match mapFind session_id st.session_last_sent_json_ with
      | none => some send_full
      | some last_sent =>
        match parse last_sent with
        | some (.obj old_doc) =>
          match FindMember "data" old_doc with
          | some (.arr (.obj old_data0 :: _)) =>
            match FindMember "quotes" old_data0 with
            | some old_quotes =>
              let new_quotes := Json.obj (buildQuotes parse st (cachedInstruments st session))
              match ComputeJsonDiff write old_quotes new_quotes with
              | some (.obj []) =>
                some { st with
                  pending_peek_sessions_ := setInsert session_id st.pending_peek_sessions_ }
              | some (.obj (m :: ms)) =>
                some (sendAndStore st session_id session
                  (write (rtnData (.obj (m :: ms)))) full_response_str)
              | _ => none
            | none => some send_full
          | _ => some send_full
        | _ => some send_full

/-- The sessions woken by an update of `instrument_id`: the subscribers of the
instrument that are in the pending set (`sessions_to_notify`). -/
def sessionsToNotify (st : MarketDataServer) (instrument_id : String) : List String :=
  match mapFind instrument_id st.instrument_subscribers_ with
  | none => []
  | some subscribers => subscribers.filter (fun s => decide (s ∈ st.pending_peek_sessions_))

/-- The loop of `notify_pending_sessions` that re-runs the peek of every woken
session, in order. -/
def wakeSessions (parse : String → Option Json) (write : Json → String) :
    MarketDataServer → List String → Option MarketDataServer
  | st, [] => some st
  | st, session_id :: rest =>
    match handle_peek_message parse write st session_id with
    | none => none
    | some st' => wakeSessions parse write st' rest

/-- The function `MarketDataServer::notify_pending_sessions`. -/
def notify_pending_sessions (parse : String → Option Json) (write : Json → String)
    (st : MarketDataServer) (instrument_id : String) : Option MarketDataServer :=
  let sessions_to_notify := sessionsToNotify st instrument_id
  let st1 := { st with
    pending_peek_sessions_ :=
      st.pending_peek_sessions_.filter (fun s => decide (s ∉ sessions_to_notify)) }
  wakeSessions parse write st1 sessions_to_notify

/-- The function `MarketDataServer::cache_market_data`. -/
def cache_market_data (parse : String → Option Json) (write : Json → String)
    (st : MarketDataServer) (instrument_id json_data : String) : Option MarketDataServer :=
  notify_pending_sessions parse write
    { st with market_data_cache_ := mapInsert instrument_id json_data st.market_data_cache_ }
    instrument_id

/-- The object at `data[0].quotes` of a last-sent text, when the text parses to
a document of that form (the checks of `handle_peek_message` on `old_doc`). -/
def lastSentQuotes (parse : String → Option Json) (last_sent : String) : Option Json :=
  match parse last_sent with
  | some (.obj old_doc) =>
    match FindMember "data" old_doc with
    | some (.arr (.obj old_data0 :: _)) => FindMember "quotes" old_data0
    | _ => none
  | _ => none

/-- The quotes object of the freshly built snapshot of a session. -/
def newQuotes (parse : String → Option Json) (st : MarketDataServer)
    (session : WebSocketSession) : Json :=
  .obj (buildQuotes parse st (cachedInstruments st session))

/-- The cached quote object of an instrument: the object its cached text parses
to, if the cache has a text for it that parses to an object. -/
def cachedQuote (parse : String → Option Json) (st : MarketDataServer)
    (instrument_id : String) : Option Json :=
  match mapFind instrument_id st.market_data_cache_ with
  | none => none
  | some text =>
    match parse text with
    | some (.obj members) => some (.obj members)
    | _ => none

/-- The entries of a full snapshot as the specification describes them: one per
subscribed instrument with a cached quote object, named by the display name. -/
def snapshotEntries (parse : String → Option Json) (st : MarketDataServer)
    (session : WebSocketSession) : List (String × Json) :=
  session.subscriptions_.filterMap (fun instrument_id =>
    (cachedQuote parse st instrument_id).map (fun q => (displayInstrument st instrument_id, q)))

/-- The messages handed to `send_message` for a session so far (none for a
session that is not registered). -/
def sentTo (st : MarketDataServer) (session_id : String) : List String :=
  match mapFind session_id st.sessions_ with
  | some session => session.sent
  | none => []

/-- The reply that the specification gives to a peek of a session without any
cached quote: exactly one frame, the empty `rtn_data` document, while the
last-sent text and the pending set stay as they are. -/
def RepliesEmpty (parse : String → Option Json) (write : Json → String)
    (st : MarketDataServer) (session_id : String) : Prop :=
  ∃ st', handle_peek_message parse write st session_id = some st' ∧
    sentTo st' session_id = sentTo st session_id ++ [write (rtnData (.obj []))] ∧
    st'.session_last_sent_json_ = st.session_last_sent_json_ ∧
    st'.pending_peek_sessions_ = st.pending_peek_sessions_

/-- The subscriber set of an instrument in `instrument_subscribers_` (empty when
the instrument has no entry). -/
def subscribersOf (st : MarketDataServer) (instrument_id : String) : List String :=
  match mapFind instrument_id st.instrument_subscribers_ with
  | some subscribers => subscribers
  | none => []

/-- What a session can observe of the server: its own session object, its
last-sent text, and whether it is in the pending set. -/
def sessionView (st : MarketDataServer) (session_id : String) :
    Option WebSocketSession × Option String × Bool :=
  (mapFind session_id st.sessions_, mapFind session_id st.session_last_sent_json_,
    decide (session_id ∈ st.pending_peek_sessions_))

/-- The state in which `notify_pending_sessions` re-runs the peeks after an
update of `instrument_id` to `json_data`: the cache holds the new text and the
woken sessions have left the pending set. -/
def wakeState (st : MarketDataServer) (instrument_id json_data : String) : MarketDataServer :=
  { st with
    market_data_cache_ := mapInsert instrument_id json_data st.market_data_cache_
    pending_peek_sessions_ :=
      st.pending_peek_sessions_.filter
        (fun s => decide (s ∉ sessionsToNotify st instrument_id)) }

/-! ## The upstream connection pool -/

/-- The states of an upstream connection (`CTPConnectionStatus`). -/
inductive CTPConnectionStatus where
  | DISCONNECTED | CONNECTING | CONNECTED | LOGGED_IN | ERROR
  deriving DecidableEq

/-- The configuration of one upstream connection (`CTPConnectionConfig`). -/
structure CTPConnectionConfig where
  front_addr : String
  broker_id : String
  connection_id : String
  max_subscriptions : Int
  priority : Int
  enabled : Bool
  deriving DecidableEq

/-- The state of a `CTPConnection`.  Times are counts of clock ticks. -/
structure CTPConnection where
  config_ : CTPConnectionConfig
  status_ : CTPConnectionStatus
  subscribed_instruments_ : List String
  connection_quality_ : Int
  last_heartbeat_ : Int
  error_count_ : Int
  request_id_ : Int
  deriving DecidableEq

/-- What the operations take from outside the repository: the return codes of
the CTP driver calls `SubscribeMarketData` and `UnSubscribeMarketData` (by
connection id and instrument) and the hash function `std::hash<std::string>`. -/
structure Env where
  SubscribeMarketData : String → String → Int
  UnSubscribeMarketData : String → String → Int
  hasher : String → Nat

/-- The conversion `static_cast<size_t>(n)` of an `int` on a 64-bit platform. -/
def toSizeT (n : Int) : Nat := (n % 2 ^ 64).toNat

/-- The increment of a `std::atomic<int>`, which wraps around. -/
def incrAtomicInt (n : Int) : Int := (n + 1 + 2 ^ 31) % 2 ^ 32 - 2 ^ 31

/-- The function `CTPConnection::subscribe_instrument`: the connection
afterwards and the value returned. -/
def CTPConnection.subscribe_instrument (env : Env) (c : CTPConnection) (instrument_id : String) :
    CTPConnection × Bool :=
  if c.status_ ≠ .LOGGED_IN then (c, false)
  else if instrument_id ∈ c.subscribed_instruments_ then (c, true)
  else if c.subscribed_instruments_.length ≥ toSizeT c.config_.max_subscriptions then (c, false)
  else if env.SubscribeMarketData c.config_.connection_id instrument_id = 0 then
    ({ c with subscribed_instruments_ := setInsert instrument_id c.subscribed_instruments_ }, true)
  else ({ c with error_count_ := incrAtomicInt c.error_count_ }, false)

/-- The function `CTPConnection::unsubscribe_instrument`. -/
def CTPConnection.unsubscribe_instrument (env : Env) (c : CTPConnection)
    (instrument_id : String) : CTPConnection × Bool :=
  if c.status_ ≠ .LOGGED_IN then (c, false)
  else if instrument_id ∉ c.subscribed_instruments_ then (c, true)
  else if env.UnSubscribeMarketData c.config_.connection_id instrument_id = 0 then
    ({ c with subscribed_instruments_ := setErase instrument_id c.subscribed_instruments_ }, true)
  else ({ c with error_count_ := incrAtomicInt c.error_count_ }, false)

/-- The function `CTPConnection::get_subscription_count`. -/
def CTPConnection.get_subscription_count (c : CTPConnection) : Nat :=
  c.subscribed_instruments_.length

/-- The function `CTPConnection::can_accept_more_subscriptions`. -/
def CTPConnection.can_accept_more_subscriptions (c : CTPConnection) : Bool :=
  if c.status_ ≠ .LOGGED_IN then false
  else decide (c.subscribed_instruments_.length < toSizeT c.config_.max_subscriptions)

/-- The state of the `CTPConnectionManager`: the map `connections_` from
connection id to connection, and the map `next_restart_allowed_` of the health
monitor. -/
structure CTPConnectionManager where
  connections_ : List (String × CTPConnection)
  next_restart_allowed_ : List (String × Int)
  deriving DecidableEq

/-- The function `CTPConnectionManager::get_connection`. -/
def CTPConnectionManager.get_connection (m : CTPConnectionManager) (connection_id : String) :
    Option CTPConnection :=
  mapFind connection_id m.connections_

/-- The function `CTPConnectionManager::get_available_connections`: the
connections that are logged in and below their cap, in the order of the map. -/
def CTPConnectionManager.get_available_connections (m : CTPConnectionManager) :
    List CTPConnection :=
  (m.connections_.filter (fun p =>
    decide (p.2.status_ = .LOGGED_IN) && p.2.can_accept_more_subscriptions)).map Prod.snd

/-! ## The subscription dispatcher -/

/-- The states of a subscription (`SubscriptionStatus`). -/
inductive SubscriptionStatus where
  | PENDING | SUBSCRIBING | ACTIVE | FAILED | CANCELLED
  deriving DecidableEq

/-- The record kept per instrument (`SubscriptionInfo`). -/
structure SubscriptionInfo where
  instrument_id : String
  assigned_connection_id : String
  status : SubscriptionStatus
  requesting_sessions : List String
  created_time : Int
  last_update_time : Int
  retry_count : Int
  deriving DecidableEq

/-- The constructor `SubscriptionInfo(inst_id)` at time `now`. -/
def SubscriptionInfo.new (inst_id : String) (now : Int) : SubscriptionInfo :=
  { instrument_id := inst_id
    assigned_connection_id := ""
    status := .PENDING
    requesting_sessions := []
    created_time := now
    last_update_time := now
    retry_count := 0 }

/-- The load-balancing strategies (`LoadBalanceStrategy`). -/
inductive LoadBalanceStrategy where
  | ROUND_ROBIN | LEAST_CONNECTIONS | CONNECTION_QUALITY | HASH_BASED
  deriving DecidableEq

/-- The state of the `SubscriptionDispatcher`, with the state of the
`CTPConnectionManager` it points to (`connection_manager_`). -/
structure SubscriptionDispatcher where
  global_subscriptions_ : List (String × SubscriptionInfo)
  session_subscriptions_ : List (String × List String)
  connection_subscriptions_ : List (String × List String)
  load_balance_strategy_ : LoadBalanceStrategy
  round_robin_counter_ : Nat
  retry_queue_ : List String
  max_retry_count_ : Int
  total_subscriptions_processed_ : Nat
  successful_subscriptions_ : Nat
  failed_subscriptions_ : Nat
  connection_manager_ : CTPConnectionManager
  deriving DecidableEq

/-- The insertion `m[k].insert(x)` on a map of sets: the set under `k` is
created empty when it is missing. -/
def mapSetInsert (k x : String) (m : List (String × List String)) : List (String × List String) :=
  match mapFind k m with
  | some s => mapInsert k (setInsert x s) m
  | none => mapInsert k [x] m

/-- The function `SubscriptionDispatcher::select_connection_round_robin`: the
connection chosen and the counter afterwards. -/
def select_connection_round_robin (d : SubscriptionDispatcher) : Option CTPConnection × Nat :=
  let available_connections := d.connection_manager_.get_available_connections
  if available_connections = [] then (none, d.round_robin_counter_)
  else
    (available_connections[d.round_robin_counter_ % available_connections.length]?,
      (d.round_robin_counter_ + 1) % 2 ^ 64)

/-- The loop of `select_connection_least_connections`. -/
def leastLoop : CTPConnection → Nat → List CTPConnection → CTPConnection
  | best_connection, _, [] => best_connection
  | best_connection, min_subscriptions, conn :: rest =>
    if conn.get_subscription_count < min_subscriptions then
      leastLoop conn conn.get_subscription_count rest
    else leastLoop best_connection min_subscriptions rest

/-- The function `SubscriptionDispatcher::select_connection_least_connections`. -/
def select_connection_least_connections (d : SubscriptionDispatcher) : Option CTPConnection :=
  match d.connection_manager_.get_available_connections with
  | [] => none
  | first :: rest => some (leastLoop first first.get_subscription_count (first :: rest))

/-- The function `SubscriptionDispatcher::calculate_connection_score`.  The
constants `max_subs * 0.5` and `max_subs * 0.8` with `max_subs = 500` are the
doubles `250` and `400`. -/
def calculate_connection_score (connection : CTPConnection) : Int :=
  let score := connection.connection_quality_
  let sub_count := connection.get_subscription_count
  let score :=
    if sub_count < 250 then score + 20
    else if sub_count > 400 then score - 30
    else score
  let score := score - min (connection.error_count_ * 5) 40
  max 0 score

/-- The loop of `select_connection_by_quality`. -/
def qualityLoop : CTPConnection → Int → List CTPConnection → CTPConnection
  | best_connection, _, [] => best_connection
  | best_connection, best_score, conn :: rest =>
    if calculate_connection_score conn > best_score then
      qualityLoop conn (calculate_connection_score conn) rest
    else qualityLoop best_connection best_score rest

/-- The function `SubscriptionDispatcher::select_connection_by_quality`. -/
def select_connection_by_quality (d : SubscriptionDispatcher) : Option CTPConnection :=
  match d.connection_manager_.get_available_connections with
  | [] => none
  | first :: rest => some (qualityLoop first (calculate_connection_score first) (first :: rest))

/-- The function `SubscriptionDispatcher::select_connection_by_hash`. -/
def select_connection_by_hash (env : Env) (d : SubscriptionDispatcher) (instrument_id : String) :
    Option CTPConnection :=
  let available_connections := d.connection_manager_.get_available_connections
  if available_connections = [] then none
  else available_connections[env.hasher instrument_id % 2 ^ 64 % available_connections.length]?

/-- The function `SubscriptionDispatcher::execute_subscription`: the pool
afterwards and the value returned. -/
def execute_subscription (env : Env) (connection_manager_ : CTPConnectionManager)
    (instrument_id connection_id : String) : CTPConnectionManager × Bool :=
  match connection_manager_.get_connection connection_id with
  | none => (connection_manager_, false)
  | some connection =>
    let r := connection.subscribe_instrument env instrument_id
    ({ connection_manager_ with
        connections_ := mapInsert connection_id r.1 connection_manager_.connections_ }, r.2)

/-- The function `SubscriptionDispatcher::execute_unsubscription`. -/
def execute_unsubscription (env : Env) (connection_manager_ : CTPConnectionManager)
    (instrument_id connection_id : String) : CTPConnectionManager × Bool :=
  match connection_manager_.get_connection connection_id with
  | none => (connection_manager_, true)
  | some connection =>
    let r := connection.unsubscribe_instrument env instrument_id
    ({ connection_manager_ with
        connections_ := mapInsert connection_id r.1 connection_manager_.connections_ }, r.2)

/-- The function `SubscriptionDispatcher::add_subscription` at time `now`: the
state afterwards and the value returned. -/
def add_subscription (env : Env) (now : Int) (d : SubscriptionDispatcher)
    (session_id instrument_id : String) : SubscriptionDispatcher × Bool :=
  let d := { d with total_subscriptions_processed_ := d.total_subscriptions_processed_ + 1 }
  match mapFind instrument_id d.global_subscriptions_ with
  | some info =>
    ({ d with
        global_subscriptions_ := mapInsert instrument_id
          { info with requesting_sessions := setInsert session_id info.requesting_sessions }
          d.global_subscriptions_
        session_subscriptions_ := mapSetInsert session_id instrument_id d.session_subscriptions_ },
      true)
  | none =>
    let subscription_info : SubscriptionInfo :=
      { SubscriptionInfo.new instrument_id now with requesting_sessions := [session_id] }
    let d := { d with
      global_subscriptions_ := mapInsert instrument_id subscription_info d.global_subscriptions_
      session_subscriptions_ := mapSetInsert session_id instrument_id d.session_subscriptions_ }
    let selected : Option CTPConnection × Nat :=
      match d.load_balance_strategy_ with
      | .ROUND_ROBIN => select_connection_round_robin d
      | .LEAST_CONNECTIONS => (select_connection_least_connections d, d.round_robin_counter_)
      | .CONNECTION_QUALITY => (select_connection_by_quality d, d.round_robin_counter_)
      | .HASH_BASED => (select_connection_by_hash env d instrument_id, d.round_robin_counter_)
    let d := { d with round_robin_counter_ := selected.2 }
    match selected.1 with
    | none =>
      ({ d with
          global_subscriptions_ := mapInsert instrument_id
            { subscription_info with status := .FAILED } d.global_subscriptions_
          failed_subscriptions_ := d.failed_subscriptions_ + 1 },
        false)
    | some best_connection =>
      let r := execute_subscription env d.connection_manager_ instrument_id
        best_connection.config_.connection_id
      let assigned : SubscriptionInfo :=
        { subscription_info with
          assigned_connection_id := best_connection.config_.connection_id
          status := .SUBSCRIBING }
      if r.2 then
        ({ d with
            global_subscriptions_ := mapInsert instrument_id assigned d.global_subscriptions_
            connection_manager_ := r.1 },
          true)
      else
        ({ d with
            global_subscriptions_ := mapInsert instrument_id
              { assigned with status := .FAILED } d.global_subscriptions_
            failed_subscriptions_ := d.failed_subscriptions_ + 1
            connection_manager_ := r.1 },
          false)

/-- The erasure of an instrument from a session's set in
`session_subscriptions_`, dropping the session when its set becomes empty (the
first block of `remove_subscription`). -/
def mapSetErase (k x : String) (m : List (String × List String)) : List (String × List String) :=
  match mapFind k m with
  | none => m
  | some s =>
    if setErase x s = [] then mapErase k m
    else mapInsert k (setErase x s) m

/-- The function `SubscriptionDispatcher::remove_subscription`. -/
def remove_subscription (env : Env) (d : SubscriptionDispatcher) (session_id instrument_id : String) :
    SubscriptionDispatcher × Bool :=
  let d := { d with
    session_subscriptions_ := mapSetErase session_id instrument_id d.session_subscriptions_ }
  match mapFind instrument_id d.global_subscriptions_ with
  | none => (d, true)
  | some info =>
    let sessions := setErase session_id info.requesting_sessions
    if sessions = [] then
      let r := execute_unsubscription env d.connection_manager_ instrument_id
        info.assigned_connection_id
      ({ d with
          global_subscriptions_ := mapErase instrument_id d.global_subscriptions_
          connection_manager_ := r.1 },
        true)
    else
      ({ d with
          global_subscriptions_ := mapInsert instrument_id
            { info with requesting_sessions := sessions } d.global_subscriptions_ },
        true)

/-- The function `SubscriptionDispatcher::remove_all_subscriptions_for_session`. -/
def remove_all_subscriptions_for_session (env : Env) (d : SubscriptionDispatcher) (session_id : String) :
    SubscriptionDispatcher :=
  let instruments_to_remove :=
    match mapFind session_id d.session_subscriptions_ with
    | some s => s
    | none => []
  instruments_to_remove.foldl
    (fun acc instrument_id => (remove_subscription env acc session_id instrument_id).1) d

/-- The function `SubscriptionDispatcher::migrate_subscription`
(`from_connection_id` is only logged). -/
def migrate_subscription (env : Env) (d : SubscriptionDispatcher)
    (instrument_id _from_connection_id to_connection_id : String) : SubscriptionDispatcher :=
  match mapFind instrument_id d.global_subscriptions_ with
  | none => d
  | some info =>
    let moved : SubscriptionInfo :=
      { info with
        assigned_connection_id := to_connection_id
        status := .SUBSCRIBING
        retry_count := 0 }
    let r := execute_subscription env d.connection_manager_ instrument_id to_connection_id
    { d with
      global_subscriptions_ := mapInsert instrument_id
        (if r.2 then moved else { moved with status := .FAILED }) d.global_subscriptions_
      connection_manager_ := r.1 }

/-- The first loop of `handle_connection_failure`: the instruments whose entry
is assigned to the connection and `ACTIVE`. -/
def affectedInstruments (d : SubscriptionDispatcher) (connection_id : String) : List String :=
  (d.global_subscriptions_.filter (fun p =>
    decide (p.2.assigned_connection_id = connection_id) && decide (p.2.status = .ACTIVE))).map
    Prod.fst

/-- The marking of the first loop of `handle_connection_failure`: every affected
entry becomes `FAILED`. -/
def markFailed (d : SubscriptionDispatcher) (connection_id : String) : SubscriptionDispatcher :=
  { d with
    global_subscriptions_ := d.global_subscriptions_.map (fun p =>
      if p.2.assigned_connection_id = connection_id ∧ p.2.status = .ACTIVE then
        (p.1, { p.2 with status := .FAILED })
      else p) }

/-- The function `SubscriptionDispatcher::handle_connection_failure`. -/
def handle_connection_failure (env : Env) (d : SubscriptionDispatcher) (connection_id : String) :
    SubscriptionDispatcher :=
  let affected_instruments := affectedInstruments d connection_id
  let d := markFailed d connection_id
  let d := affected_instruments.foldl (fun acc instrument_id =>
    match select_connection_by_quality acc with
    | some new_connection =>
      if new_connection.config_.connection_id ≠ connection_id then
        migrate_subscription env acc instrument_id connection_id
          new_connection.config_.connection_id
      else acc
    | none => acc) d
  { d with connection_subscriptions_ := mapErase connection_id d.connection_subscriptions_ }

/-- The function `SubscriptionDispatcher::on_subscription_success` at time
`now`. -/
def on_subscription_success (now : Int) (d : SubscriptionDispatcher)
    (connection_id instrument_id : String) : SubscriptionDispatcher :=
  match mapFind instrument_id d.global_subscriptions_ with
  | none => d
  | some info =>
    { d with
      global_subscriptions_ := mapInsert instrument_id
        { info with status := .ACTIVE, last_update_time := now } d.global_subscriptions_
      connection_subscriptions_ :=
        mapSetInsert connection_id instrument_id d.connection_subscriptions_
      successful_subscriptions_ := d.successful_subscriptions_ + 1 }

/-- The function `SubscriptionDispatcher::on_subscription_failed` at time `now`
(`connection_id` is only logged). -/
def on_subscription_failed (now : Int) (d : SubscriptionDispatcher)
    (_connection_id instrument_id : String) : SubscriptionDispatcher :=
  match mapFind instrument_id d.global_subscriptions_ with
  | none => d
  | some info =>
    { d with
      global_subscriptions_ := mapInsert instrument_id
        { info with
          status := .FAILED
          retry_count := info.retry_count + 1
          last_update_time := now } d.global_subscriptions_
      failed_subscriptions_ := d.failed_subscriptions_ + 1
      retry_queue_ :=
        if info.retry_count + 1 < d.max_retry_count_ then d.retry_queue_ ++ [instrument_id]
        else d.retry_queue_ }

/-- The function `SubscriptionDispatcher::on_unsubscription_success`. -/
def on_unsubscription_success (d : SubscriptionDispatcher) (connection_id instrument_id : String) :
    SubscriptionDispatcher :=
  { d with
    connection_subscriptions_ :=
      mapSetErase connection_id instrument_id d.connection_subscriptions_ }

/-- One round of the loop of `process_pending_subscriptions`. -/
def retryOne (env : Env) (d : SubscriptionDispatcher) (instrument_id : String) : SubscriptionDispatcher :=
  match mapFind instrument_id d.global_subscriptions_ with
  | none => d
  | some info =>
    if info.status ≠ .FAILED then d
    else
      match select_connection_by_quality d with
      | none => d
      | some new_connection =>
        let r := execute_subscription env d.connection_manager_ instrument_id
          new_connection.config_.connection_id
        let assigned : SubscriptionInfo :=
          { info with
            assigned_connection_id := new_connection.config_.connection_id
            status := .SUBSCRIBING }
        if r.2 then
          { d with
            global_subscriptions_ := mapInsert instrument_id assigned d.global_subscriptions_
            connection_manager_ := r.1 }
        else
          { d with
            global_subscriptions_ := mapInsert instrument_id
              { assigned with status := .FAILED } d.global_subscriptions_
            connection_manager_ := r.1
            retry_queue_ :=
              if info.retry_count < d.max_retry_count_ then d.retry_queue_ ++ [instrument_id]
              else d.retry_queue_ }

/-- The function `SubscriptionDispatcher::process_pending_subscriptions`. -/
def process_pending_subscriptions (env : Env) (d : SubscriptionDispatcher) : SubscriptionDispatcher :=
  d.retry_queue_.foldl (retryOne env) { d with retry_queue_ := [] }

/-- The function `SubscriptionDispatcher::handle_connection_recovery`
(`connection_id` is only logged). -/
def handle_connection_recovery (env : Env) (d : SubscriptionDispatcher) (_connection_id : String) :
    SubscriptionDispatcher :=
  process_pending_subscriptions env d

/-- Ten minutes in clock ticks of the system clock (nanoseconds). -/
def tenMinutes : Int := 600000000000

/-- The function `SubscriptionDispatcher::cleanup_expired_subscriptions` at time
`now`. -/
def cleanup_expired_subscriptions (now : Int) (d : SubscriptionDispatcher) : SubscriptionDispatcher :=
  let to_remove := (d.global_subscriptions_.filter (fun p =>
    decide (p.2.status = .FAILED) && decide (now - p.2.last_update_time > tenMinutes))).map
    Prod.fst
  { d with
    global_subscriptions_ :=
      to_remove.foldl (fun m instrument_id => mapErase instrument_id m) d.global_subscriptions_ }

/-- Index consistency of a dispatcher state: an instrument is in the set of a
session in `session_subscriptions_` exactly when `global_subscriptions_` has an
entry for the instrument whose `requesting_sessions` holds the session. -/
def IndexConsistent (d : SubscriptionDispatcher) : Prop :=
  ∀ session_id instrument_id : String,
    (∃ instruments, mapFind session_id d.session_subscriptions_ = some instruments ∧
      instrument_id ∈ instruments) ↔
    (∃ info, mapFind instrument_id d.global_subscriptions_ = some info ∧
      session_id ∈ info.requesting_sessions)

/-! ## The life cycle of a connection and of the pool

The callbacks of the CTP driver on a `CTPConnection` are given by their effect
on the connection itself.  Where a callback also calls into the dispatcher
(`OnFrontDisconnected` calls `handle_connection_failure`, `OnRspUserLogin` calls
`handle_connection_recovery`, `OnRspSubMarketData` calls
`on_subscription_success` or `on_subscription_failed`, `OnRspUnSubMarketData`
calls `on_unsubscription_success`), that call is the dispatcher operation of that
name, a step of its own. -/

/-- The constructor of `CTPConnection` at time `now` (milliseconds). -/
def CTPConnection.new (config : CTPConnectionConfig) (now : Int) : CTPConnection :=
  { config_ := config
    status_ := .DISCONNECTED
    subscribed_instruments_ := []
    connection_quality_ := 0
    last_heartbeat_ := now
    error_count_ := 0
    request_id_ := 0 }

/-- The function `CTPConnection::start`.  `api_created` tells whether
`CreateFtdcMdApi` returned an API object (an exception thrown on the way leaves
the same state as a null API). -/
def CTPConnection.start (api_created : Bool) (c : CTPConnection) : CTPConnection × Bool :=
  if c.status_ ≠ .DISCONNECTED then (c, false)
  else if api_created then ({ c with status_ := .CONNECTING }, true)
  else ({ c with status_ := .ERROR }, false)

/-- The function `CTPConnection::stop`. -/
def CTPConnection.stop (c : CTPConnection) : CTPConnection :=
  { c with status_ := .DISCONNECTED, subscribed_instruments_ := [] }

/-- The function `CTPConnection::restart`: `stop()` followed by `start()`. -/
def CTPConnection.restart (api_created : Bool) (c : CTPConnection) : CTPConnection × Bool :=
  c.stop.start api_created

/-- The function `CTPConnection::login`; `ret` is the return code of
`ReqUserLogin`. -/
def CTPConnection.login (ret : Int) (c : CTPConnection) : CTPConnection :=
  let c := { c with request_id_ := incrAtomicInt c.request_id_ }
  if ret ≠ 0 then { c with status_ := .ERROR, error_count_ := incrAtomicInt c.error_count_ }
  else c

/-- The callback `CTPConnection::OnFrontConnected` at time `now`; `ret` is the
return code of the login request. -/
def CTPConnection.OnFrontConnected (now ret : Int) (c : CTPConnection) : CTPConnection :=
  CTPConnection.login ret { c with status_ := .CONNECTED, last_heartbeat_ := now }

/-- The callback `CTPConnection::OnFrontDisconnected`, on the connection. -/
def CTPConnection.OnFrontDisconnected (c : CTPConnection) : CTPConnection :=
  { c with
    status_ := .DISCONNECTED
    connection_quality_ := 0
    error_count_ := incrAtomicInt c.error_count_ }

/-- The callback `CTPConnection::OnRspUserLogin`, on the connection.  `failed`
is the test `pRspInfo && pRspInfo->ErrorID != 0`. -/
def CTPConnection.OnRspUserLogin (failed : Bool) (c : CTPConnection) : CTPConnection :=
  if failed then { c with status_ := .ERROR, error_count_ := incrAtomicInt c.error_count_ }
  else { c with status_ := .LOGGED_IN, connection_quality_ := 80 }

/-- The callback `CTPConnection::OnRspSubMarketData`, on the connection. -/
def CTPConnection.OnRspSubMarketData (failed : Bool) (c : CTPConnection) : CTPConnection :=
  if failed then { c with error_count_ := incrAtomicInt c.error_count_ } else c

/-- The callback `CTPConnection::OnRspUnSubMarketData`, on the connection. -/
def CTPConnection.OnRspUnSubMarketData (failed : Bool) (c : CTPConnection) : CTPConnection :=
  if failed then { c with error_count_ := incrAtomicInt c.error_count_ } else c

/-- The function `CTPConnection::update_connection_quality` at time `now`.  The
tests `subscription_count > max_subscriptions * 0.8` and `... * 0.6` compare
doubles; for an `int` cap and a count below `2^53` the products round to the
exact fifths wherever these are integers, so the tests are `5 * count > 4 * max`
and `5 * count > 3 * max`. -/
def CTPConnection.update_connection_quality (now : Int) (c : CTPConnection) : CTPConnection :=
  let time_since_heartbeat := now - c.last_heartbeat_
  let quality : Int := 100
  let quality :=
    if time_since_heartbeat > 10000 then quality - 30
    else if time_since_heartbeat > 5000 then quality - 15
    else quality
  let error_penalty := min (c.error_count_ * 10) 50
  let quality := quality - error_penalty
  let subscription_count : Int := c.get_subscription_count
  let quality :=
    if 5 * subscription_count > 4 * c.config_.max_subscriptions then quality - 20
    else if 5 * subscription_count > 3 * c.config_.max_subscriptions then quality - 10
    else quality
  { c with connection_quality_ := max 0 (min 100 quality) }

/-- The callback `CTPConnection::OnRtnDepthMarketData` for a record, on the
connection: the heartbeat is set to the clock reading `now` and the quality is
recomputed at the later reading `now2`. -/
def CTPConnection.OnRtnDepthMarketData (now now2 : Int) (c : CTPConnection) : CTPConnection :=
  CTPConnection.update_connection_quality now2 { c with last_heartbeat_ := now }

/-- The function `CTPConnection::handle_connection_error`. -/
def CTPConnection.handle_connection_error (c : CTPConnection) : CTPConnection :=
  if c.error_count_ > 10 then { c with status_ := .ERROR, connection_quality_ := 0 } else c

/-- The callback `CTPConnection::OnRspError`; `failed` is the test
`pRspInfo && pRspInfo->ErrorID != 0`. -/
def CTPConnection.OnRspError (failed : Bool) (c : CTPConnection) : CTPConnection :=
  if failed then
    CTPConnection.handle_connection_error { c with error_count_ := incrAtomicInt c.error_count_ }
  else c

/-- One step of a connection: a call of `start`, `stop`, `subscribe_instrument`
or `unsubscribe_instrument`, or a callback of the driver, with any arguments and
any answers of the driver. -/
inductive CTPConnection.Step : CTPConnection → CTPConnection → Prop
  | start (c : CTPConnection) (api_created : Bool) : Step c (c.start api_created).1
  | stop (c : CTPConnection) : Step c c.stop
  | subscribe_instrument (env : Env) (c : CTPConnection) (instrument_id : String) :
    Step c (c.subscribe_instrument env instrument_id).1
  | unsubscribe_instrument (env : Env) (c : CTPConnection) (instrument_id : String) :
    Step c (c.unsubscribe_instrument env instrument_id).1
  | OnFrontConnected (c : CTPConnection) (now ret : Int) : Step c (c.OnFrontConnected now ret)
  | OnFrontDisconnected (c : CTPConnection) : Step c c.OnFrontDisconnected
  | OnRspUserLogin (c : CTPConnection) (failed : Bool) : Step c (c.OnRspUserLogin failed)
  | OnRspSubMarketData (c : CTPConnection) (failed : Bool) : Step c (c.OnRspSubMarketData failed)
  | OnRspUnSubMarketData (c : CTPConnection) (failed : Bool) :
    Step c (c.OnRspUnSubMarketData failed)
  | OnRtnDepthMarketData (c : CTPConnection) (now now2 : Int) :
    Step c (c.OnRtnDepthMarketData now now2)
  | OnRspError (c : CTPConnection) (failed : Bool) : Step c (c.OnRspError failed)

/-- The states of a connection that are reachable from its construction. -/
inductive CTPConnection.Reachable : CTPConnection → Prop
  | new (config : CTPConnectionConfig) (now : Int) : Reachable (CTPConnection.new config now)
  | step (c c' : CTPConnection) : Reachable c → CTPConnection.Step c c' → Reachable c'

/-- The cap in the form the code tests it: the size of the subscribed set never
exceeds `static_cast<size_t>(max_subscriptions)`. -/
def CTPConnection.WithinCap (c : CTPConnection) : Prop :=
  c.subscribed_instruments_.length ≤ toSizeT c.config_.max_subscriptions

/-- The function `CTPConnectionManager::add_connection` at time `now`: the pool
afterwards and the value returned. -/
def CTPConnectionManager.add_connection (now : Int) (m : CTPConnectionManager)
    (config : CTPConnectionConfig) : CTPConnectionManager × Bool :=
  match mapFind config.connection_id m.connections_ with
  | some _ => (m, false)
  | none =>
    ({ m with
        connections_ :=
          mapInsert config.connection_id (CTPConnection.new config now) m.connections_ },
      true)

/-- The representation invariant of a `std::map`: the keys of the association
list are strictly increasing, so no key occurs twice. -/
def KeysSorted {V : Type} (m : List (String × V)) : Prop :=
  (m.map Prod.fst).Pairwise (fun a b => strLt a b = true)

instance KeysSorted.decide {V : Type} (m : List (String × V)) : Decidable (KeysSorted m) := by
  unfold KeysSorted
  exact inferInstance

/-- The pool of a `CTPConnectionManager` is well formed when `connections_` is a
map (keys strictly increasing) and every connection is stored under the id of
its own configuration (`add_connection` stores it so). -/
def CTPConnectionManager.WellFormed (m : CTPConnectionManager) : Prop :=
  KeysSorted m.connections_ ∧ ∀ p ∈ m.connections_, p.2.config_.connection_id = p.1

instance CTPConnectionManager.WellFormed.decide (m : CTPConnectionManager) :
    Decidable m.WellFormed := by
  unfold CTPConnectionManager.WellFormed
  exact inferInstance

/-- The constructor of `SubscriptionDispatcher` followed by `initialize` with
the given `CTPConnectionManager`. -/
def SubscriptionDispatcher.new (connection_manager : CTPConnectionManager) :
    SubscriptionDispatcher :=
  { global_subscriptions_ := []
    session_subscriptions_ := []
    connection_subscriptions_ := []
    load_balance_strategy_ := .CONNECTION_QUALITY
    round_robin_counter_ := 0
    retry_queue_ := []
    max_retry_count_ := 3
    total_subscriptions_processed_ := 0
    successful_subscriptions_ := 0
    failed_subscriptions_ := 0
    connection_manager_ := connection_manager }

/-- The function `SubscriptionDispatcher::shutdown`. -/
def shutdown (d : SubscriptionDispatcher) : SubscriptionDispatcher :=
  { d with
    global_subscriptions_ := []
    session_subscriptions_ := []
    connection_subscriptions_ := [] }

/-- The function `SubscriptionDispatcher::set_load_balance_strategy`. -/
def set_load_balance_strategy (d : SubscriptionDispatcher) (strategy : LoadBalanceStrategy) :
    SubscriptionDispatcher :=
  { d with load_balance_strategy_ := strategy }

/-- The operations on a dispatcher, each with its arguments, the time at which it
runs and the answers of the driver during it.  `pool` stands for any change of
the pool between two operations of the dispatcher (connections are added,
started, stopped, and moved by the driver callbacks). -/
inductive DispatcherOp where
  | pool (connection_manager : CTPConnectionManager)
  | set_load_balance_strategy (strategy : LoadBalanceStrategy)
  | add_subscription (env : Env) (now : Int) (session_id instrument_id : String)
  | remove_subscription (env : Env) (session_id instrument_id : String)
  | remove_all_subscriptions_for_session (env : Env) (session_id : String)
  | handle_connection_failure (env : Env) (connection_id : String)
  | handle_connection_recovery (env : Env) (connection_id : String)
  | on_subscription_success (now : Int) (connection_id instrument_id : String)
  | on_subscription_failed (now : Int) (connection_id instrument_id : String)
  | on_unsubscription_success (connection_id instrument_id : String)
  | process_pending_subscriptions (env : Env)
  | cleanup_expired_subscriptions (now : Int)
  | shutdown

/-- The state after an operation. -/
def DispatcherOp.run : DispatcherOp → SubscriptionDispatcher → SubscriptionDispatcher
  | .pool connection_manager, d => { d with connection_manager_ := connection_manager }
  | .set_load_balance_strategy strategy, d => MdGateway.set_load_balance_strategy d strategy
  | .add_subscription env now session_id instrument_id, d =>
    (MdGateway.add_subscription env now d session_id instrument_id).1
  | .remove_subscription env session_id instrument_id, d =>
    (MdGateway.remove_subscription env d session_id instrument_id).1
  | .remove_all_subscriptions_for_session env session_id, d =>
    MdGateway.remove_all_subscriptions_for_session env d session_id
  | .handle_connection_failure env connection_id, d =>
    MdGateway.handle_connection_failure env d connection_id
  | .handle_connection_recovery env connection_id, d =>
    MdGateway.handle_connection_recovery env d connection_id
  | .on_subscription_success now connection_id instrument_id, d =>
    MdGateway.on_subscription_success now d connection_id instrument_id
  | .on_subscription_failed now connection_id instrument_id, d =>
    MdGateway.on_subscription_failed now d connection_id instrument_id
  | .on_unsubscription_success connection_id instrument_id, d =>
    MdGateway.on_unsubscription_success d connection_id instrument_id
  | .process_pending_subscriptions env, d => MdGateway.process_pending_subscriptions env d
  | .cleanup_expired_subscriptions now, d => MdGateway.cleanup_expired_subscriptions now d
  | .shutdown, d => MdGateway.shutdown d

/-- Whether the operation is the acknowledgement `on_subscription_success`. -/
def DispatcherOp.isAck : DispatcherOp → Bool
  | .on_subscription_success _ _ _ => true
  | _ => false

/-- The dispatcher states that are reachable from its construction by its
operations, called with any arguments, at any time and with any answers of the
driver. -/
inductive SubscriptionDispatcher.Reachable : SubscriptionDispatcher → Prop
  | new (connection_manager : CTPConnectionManager) :
    Reachable (SubscriptionDispatcher.new connection_manager)
  | step (op : DispatcherOp) (d : SubscriptionDispatcher) : Reachable d → Reachable (op.run d)

/-- The requesting sessions of an instrument: the set of its entry in
`global_subscriptions_`, empty when it has no entry. -/
def requestingSessions (d : SubscriptionDispatcher) (instrument_id : String) : List String :=
  match mapFind instrument_id d.global_subscriptions_ with
  | some info => info.requesting_sessions
  | none => []

/-- The reverse index may lag behind but never misses: every requesting session
of an entry has the instrument in its set in `session_subscriptions_`, and no
session is kept with an empty set. -/
def SessionsIndexed (d : SubscriptionDispatcher) : Prop :=
  (∀ session_id instrument_id, session_id ∈ requestingSessions d instrument_id →
    ∃ instruments, mapFind session_id d.session_subscriptions_ = some instruments ∧
      instrument_id ∈ instruments) ∧
  ∀ session_id, mapFind session_id d.session_subscriptions_ ≠ some []

/-- The instruments of a session in `session_subscriptions_`, none when the
session has no entry. -/
def sessionInstruments (d : SubscriptionDispatcher) (session_id : String) : List String :=
  match mapFind session_id d.session_subscriptions_ with
  | some instruments => instruments
  | none => []

/-- The relation between the states before and after an operation that leaves
`session_subscriptions_` alone and adds no requesting session to any entry. -/
def KeepsSessions (d d' : SubscriptionDispatcher) : Prop :=
  d'.session_subscriptions_ = d.session_subscriptions_ ∧
    ∀ instrument_id session_id, session_id ∈ requestingSessions d' instrument_id →
      session_id ∈ requestingSessions d instrument_id

/-- The pool after the connection `connection_id` took the step `f` (a call or
a driver callback on that connection); a pool without that connection is
unchanged. -/
def CTPConnectionManager.update (m : CTPConnectionManager) (connection_id : String)
    (f : CTPConnection → CTPConnection) : CTPConnectionManager :=
  match m.get_connection connection_id with
  | none => m
  | some c => { m with connections_ := mapInsert connection_id (f c) m.connections_ }

/-- One round of the second loop of `handle_connection_failure`. -/
def failoverStep (env : Env) (connection_id : String) (acc : SubscriptionDispatcher)
    (instrument_id : String) : SubscriptionDispatcher :=
  match select_connection_by_quality acc with
  | some new_connection =>
    if new_connection.config_.connection_id ≠ connection_id then
      migrate_subscription env acc instrument_id connection_id
        new_connection.config_.connection_id
    else acc
  | none => acc

/-- The pool is ready to take over `n` instruments from the connection
`connection_id`: it is well formed, that connection is not logged in, and
another connection is logged in with room for `n` more instruments. -/
def FailoverReady (connection_id : String) (n : Nat) (m : CTPConnectionManager) : Prop :=
  m.WellFormed ∧
  (∀ c, m.get_connection connection_id = some c → c.status_ ≠ .LOGGED_IN) ∧
  ∃ k c, k ≠ connection_id ∧ m.get_connection k = some c ∧ c.status_ = .LOGGED_IN ∧
    c.subscribed_instruments_.length + n ≤ toSizeT c.config_.max_subscriptions

/-- The entry of an instrument is re-subscribed away from `connection_id`: it is
assigned to another connection with status `SUBSCRIBING` and retry count 0, and
the instrument is in the subscribed set of that connection. -/
def Resubscribed (connection_id : String) (d : SubscriptionDispatcher)
    (instrument_id : String) : Prop :=
  ∃ info c, mapFind instrument_id d.global_subscriptions_ = some info ∧
    info.assigned_connection_id ≠ connection_id ∧ info.status = .SUBSCRIBING ∧
    info.retry_count = 0 ∧
    d.connection_manager_.get_connection info.assigned_connection_id = some c ∧
    instrument_id ∈ c.subscribed_instruments_

/-- The relation between the states before and after an operation that makes no
entry `ACTIVE`: an entry that is `ACTIVE` afterwards was an `ACTIVE` entry of the
same instrument before. -/
def NoNewActive (d d' : SubscriptionDispatcher) : Prop :=
  ∀ instrument_id info', mapFind instrument_id d'.global_subscriptions_ = some info' →
    info'.status = .ACTIVE →
    ∃ info, mapFind instrument_id d.global_subscriptions_ = some info ∧ info.status = .ACTIVE

/-! ## The server's bookkeeping of subscriptions and the closing of a session

The members `use_multi_ctp_mode_` and `subscription_dispatcher_` of
`MarketDataServer` are arguments of the functions below, beside the state that
the peek protocol uses, and the dispatcher is returned with the state.  In
single-CTP mode the calls to the driver change nothing in this state: their
return code is only logged. -/

/-- The function `MarketDataServer::subscribe_instrument` at time `now`. -/
def MarketDataServer.subscribe_instrument (env : Env) (now : Int) (use_multi_ctp_mode_ : Bool)
    (subscription_dispatcher_ : Option SubscriptionDispatcher) (st : MarketDataServer)
    (session_id instrument_id : String) : MarketDataServer × Option SubscriptionDispatcher :=
  if use_multi_ctp_mode_ then
    ({ st with
        instrument_subscribers_ :=
          mapSetInsert instrument_id session_id st.instrument_subscribers_ },
      subscription_dispatcher_.map
        (fun d => (add_subscription env now d session_id instrument_id).1))
  else
    ({ st with
        instrument_subscribers_ :=
          mapSetInsert instrument_id session_id st.instrument_subscribers_ },
      subscription_dispatcher_)

/-- The function `MarketDataServer::unsubscribe_instrument`. -/
def MarketDataServer.unsubscribe_instrument (env : Env) (use_multi_ctp_mode_ : Bool)
    (subscription_dispatcher_ : Option SubscriptionDispatcher) (st : MarketDataServer)
    (session_id instrument_id : String) : MarketDataServer × Option SubscriptionDispatcher :=
  if use_multi_ctp_mode_ then
    ({ st with
        instrument_subscribers_ :=
          mapSetErase instrument_id session_id st.instrument_subscribers_ },
      subscription_dispatcher_.map
        (fun d => (remove_subscription env d session_id instrument_id).1))
  else
    ({ st with
        instrument_subscribers_ :=
          mapSetErase instrument_id session_id st.instrument_subscribers_ },
      subscription_dispatcher_)

/-- The function `MarketDataServer::remove_session`. -/
def MarketDataServer.remove_session (env : Env) (use_multi_ctp_mode_ : Bool)
    (subscription_dispatcher_ : Option SubscriptionDispatcher) (st : MarketDataServer)
    (session_id : String) : MarketDataServer × Option SubscriptionDispatcher :=
  let r : MarketDataServer × Option SubscriptionDispatcher :=
    if use_multi_ctp_mode_ then
      (st, subscription_dispatcher_.map
        (fun d => remove_all_subscriptions_for_session env d session_id))
    else
      match mapFind session_id st.sessions_ with
      | none => (st, subscription_dispatcher_)
      | some session =>
        ({ st with
            instrument_subscribers_ :=
              session.subscriptions_.foldl
                (fun subscribers instrument_id =>
                  mapSetErase instrument_id session_id subscribers)
                st.instrument_subscribers_ },
          subscription_dispatcher_)
  ({ r.1 with
      sessions_ := mapErase session_id r.1.sessions_
      session_last_sent_json_ := mapErase session_id r.1.session_last_sent_json_
      pending_peek_sessions_ := setErase session_id r.1.pending_peek_sessions_ },
    r.2)

/-! ## Sample data -/

/-- A sample quote object. -/
def sampleQuote : Json :=
  .obj [("last_price", .num (.dbl ⟨false, 71230, 0⟩)), ("volume", .num (.int 10))]

/-- A second sample quote object, a later tick of the same instrument. -/
def sampleQuote2 : Json :=
  .obj [("last_price", .num (.dbl ⟨false, 71235, 0⟩)), ("volume", .num (.int 12))]

/-- A sample writer.  It tells three kinds of documents apart: `rtn_data` with
no quote, `rtn_data` with one quote of two fields, and anything else. -/
def sampleWrite : Json → String
  | .obj [("aid", _), ("data", .arr [.obj [("quotes", .obj [])], _])] => "quotes0"
  | .obj [("aid", _), ("data", .arr [.obj [("quotes", .obj [(_, .obj [(_, _), (_, _)])])], _])] =>
    "quotes1"
  | _ => "other"

/-- A sample parser: two texts of quotes, and the text of the snapshot that
holds the first of them for `SHFE.cu2501`. -/
def sampleParse : String → Option Json
  | "tick1" => some sampleQuote
  | "tick2" => some sampleQuote2
  | "quotes1" => some (rtnData (.obj [("SHFE.cu2501", sampleQuote)]))
  | _ => none

/-- A server with one session subscribed to `cu2501` (display name
`SHFE.cu2501`), no cached quote. -/
def sampleServer0 : MarketDataServer :=
  { sessions_ := [("s1", { subscriptions_ := ["cu2501"], sent := [] })]
    instrument_subscribers_ := [("cu2501", ["s1"])]
    market_data_cache_ := []
    session_last_sent_json_ := []
    pending_peek_sessions_ := []
    noheadtohead_instruments_map_ := [("cu2501", "SHFE.cu2501")] }

/-- The sample server after the first tick of `cu2501` was cached. -/
def sampleServer1 : MarketDataServer :=
  { sampleServer0 with market_data_cache_ := [("cu2501", "tick1")] }

/-- The sample server after the session received its first snapshot. -/
def sampleServer2 : MarketDataServer :=
  { sampleServer1 with
    sessions_ := [("s1", { subscriptions_ := ["cu2501"], sent := ["quotes1"] })]
    session_last_sent_json_ := [("s1", "quotes1")] }

/-- The sample server with the session parked. -/
def sampleServer3 : MarketDataServer :=
  { sampleServer2 with pending_peek_sessions_ := ["s1"] }

/-- A server whose only session has no subscription. -/
def idleServer : MarketDataServer :=
  { sessions_ := [("s1", { subscriptions_ := [], sent := [] })]
    instrument_subscribers_ := []
    market_data_cache_ := []
    session_last_sent_json_ := []
    pending_peek_sessions_ := []
    noheadtohead_instruments_map_ := [] }

/-- A parked session with two subscriptions whose last-sent snapshot holds only
`cu2501`: it subscribed to `ag2501`, which has a cached quote, while parked. -/
def lateSubscriberServer : MarketDataServer :=
  { sessions_ := [("s1", { subscriptions_ := ["ag2501", "cu2501"], sent := ["quotes1"] })]
    instrument_subscribers_ := [("ag2501", ["s1"]), ("cu2501", ["s1"])]
    market_data_cache_ := [("ag2501", "tick2"), ("cu2501", "tick1")]
    session_last_sent_json_ := [("s1", "quotes1")]
    pending_peek_sessions_ := ["s1"]
    noheadtohead_instruments_map_ := [("cu2501", "SHFE.cu2501")] }

/-- A driver that accepts every request but the subscription of `bad` on `c1`,
and a constant hash. -/
def sampleEnv : Env :=
  { SubscribeMarketData := fun connection_id instrument_id =>
      if connection_id = "c1" ∧ instrument_id = "bad" then -1 else 0
    UnSubscribeMarketData := fun _ _ => 0
    hasher := fun _ => 0 }

/-- A connection with the given id and status, as it is after login (quality
80) or before start (quality 0), without subscriptions. -/
def sampleConnection (connection_id : String) (status : CTPConnectionStatus) : CTPConnection :=
  { config_ :=
      { front_addr := "tcp://front", broker_id := "9999", connection_id := connection_id
        max_subscriptions := 500, priority := 1, enabled := true }
    status_ := status
    subscribed_instruments_ := []
    connection_quality_ := if status = .LOGGED_IN then 80 else 0
    last_heartbeat_ := 0
    error_count_ := 0
    request_id_ := 0 }

/-- A dispatcher without subscriptions over the given pool, as constructed
(strategy `CONNECTION_QUALITY`, `max_retry_count_ = 3`). -/
def freshDispatcher (connections_ : List (String × CTPConnection)) :
    SubscriptionDispatcher :=
  { global_subscriptions_ := []
    session_subscriptions_ := []
    connection_subscriptions_ := []
    load_balance_strategy_ := .CONNECTION_QUALITY
    round_robin_counter_ := 0
    retry_queue_ := []
    max_retry_count_ := 3
    total_subscriptions_processed_ := 0
    successful_subscriptions_ := 0
    failed_subscriptions_ := 0
    connection_manager_ := { connections_ := connections_, next_restart_allowed_ := [] } }

/-- A dispatcher whose only connection has not been started. -/
def offlineDispatcher : SubscriptionDispatcher :=
  freshDispatcher [("c1", sampleConnection "c1" .DISCONNECTED)]

/-- The state after session `A` asked for `cu2501` while no connection was
available. -/
def failedDispatcher : SubscriptionDispatcher :=
  (add_subscription sampleEnv 0 offlineDispatcher "A" "cu2501").1

/-- The state after the maintenance loop ran more than ten minutes later. -/
def cleanedDispatcher : SubscriptionDispatcher :=
  cleanup_expired_subscriptions (tenMinutes + 1) failedDispatcher

/-- A dispatcher over two logged-in connections. -/
def onlineDispatcher : SubscriptionDispatcher :=
  freshDispatcher [("c1", sampleConnection "c1" .LOGGED_IN),
    ("c2", sampleConnection "c2" .LOGGED_IN)]

/-- The state after session `A` subscribed to `cu2501` and the upstream
acknowledged it. -/
def activeDispatcher : SubscriptionDispatcher :=
  on_subscription_success 1 (add_subscription sampleEnv 0 onlineDispatcher "A" "cu2501").1
    "c1" "cu2501"

/-- The state after a driver error on `c1` (the subscription of `bad` is
refused) followed by a heartbeat timeout of `c1`, which is still logged in. -/
def migratedDispatcher : SubscriptionDispatcher :=
  handle_connection_failure sampleEnv
    (add_subscription sampleEnv 2 activeDispatcher "A" "bad").1 "c1"

/-- A configuration with a cap of one subscription. -/
def smallConfig : CTPConnectionConfig :=
  { front_addr := "tcp://front", broker_id := "9999", connection_id := "c1"
    max_subscriptions := 1, priority := 1, enabled := true }

/-- The connection of `smallConfig` after it was started, connected and logged
in, and after two subscribe requests, the second of which is refused at the
cap. -/
def cappedConnection : CTPConnection :=
  (((((CTPConnection.new smallConfig 0).start true).1.OnFrontConnected 1 0).OnRspUserLogin
    false).subscribe_instrument sampleEnv "cu2501").1.subscribe_instrument sampleEnv "ag2501" |>.1

/-- A driver that accepts every subscribe request and refuses every unsubscribe
request. -/
def refusingEnv : Env :=
  { SubscribeMarketData := fun _ _ => 0
    UnSubscribeMarketData := fun _ _ => -1
    hasher := fun _ => 0 }

/-- The state after session `B` joined the subscription of `cu2501` that session
`A` holds. -/
def sharedDispatcher : SubscriptionDispatcher :=
  (add_subscription sampleEnv 3 activeDispatcher "B" "cu2501").1

/-- The state after the front of `c1` dropped while `cu2501` was active on it:
the callback `OnFrontDisconnected` has marked `c1` as disconnected and the
dispatcher has not been told yet. -/
def droppedDispatcher : SubscriptionDispatcher :=
  { activeDispatcher with
    connection_manager_ :=
      activeDispatcher.connection_manager_.update "c1" CTPConnection.OnFrontDisconnected }

/-- A driver that refuses every subscribe request on `c2`. -/
def c2RefusingEnv : Env :=
  { SubscribeMarketData := fun connection_id _ => if connection_id = "c2" then -1 else 0
    UnSubscribeMarketData := fun _ _ => 0
    hasher := fun _ => 0 }

/-- Two instruments active on `c1`, a second connection `c2` with a cap of one
instrument, and the front of `c1` dropped. -/
def crowdedDispatcher : SubscriptionDispatcher :=
  let c2 : CTPConnection :=
    { sampleConnection "c2" .LOGGED_IN with
      config_ := { (sampleConnection "c2" .LOGGED_IN).config_ with max_subscriptions := 1 } }
  let d0 := freshDispatcher [("c1", sampleConnection "c1" .LOGGED_IN), ("c2", c2)]
  let d1 := on_subscription_success 1 (add_subscription sampleEnv 0 d0 "A" "cu2501").1
    "c1" "cu2501"
  let d2 := on_subscription_success 3 (add_subscription sampleEnv 2 d1 "A" "ag2501").1
    "c1" "ag2501"
  { d2 with
    connection_manager_ :=
      d2.connection_manager_.update "c1" CTPConnection.OnFrontDisconnected }

/-- The state after session `A` asked for `cu2501`, the subscribe request went
out on `c1`, and the front of `c1` dropped before the answer. -/
def pendingDispatcher : SubscriptionDispatcher :=
  { (add_subscription sampleEnv 0 onlineDispatcher "A" "cu2501").1 with
    connection_manager_ :=
      (add_subscription sampleEnv 0 onlineDispatcher "A" "cu2501").1.connection_manager_.update
        "c1" CTPConnection.OnFrontDisconnected }

/-- A server in multi-CTP mode with its dispatcher: the parked session `s1` of
`sampleServer3`, whose subscription of `cu2501` was made through
`MarketDataServer::subscribe_instrument`. -/
def multiCtpServer : MarketDataServer × Option SubscriptionDispatcher :=
  MarketDataServer.subscribe_instrument sampleEnv 0 true (some onlineDispatcher)
    { sampleServer3 with instrument_subscribers_ := [] } "s1" "cu2501"

/-! ## Retry accounting of the dispatcher -/

/-- The state after a sequence of operations, run in order. -/
def runOps : List DispatcherOp → SubscriptionDispatcher → SubscriptionDispatcher
  | [], d => d
  | op :: ops, d => runOps ops (op.run d)

/-- The number of times an operation pushes `instrument_id` onto `retry_queue_`.
`process_pending_subscriptions` (also when called through
`handle_connection_recovery`) empties the queue before it pushes, so its pushes
are the occurrences in the queue afterwards; any other operation leaves the
queue alone or pushes at its end, so its pushes are the occurrences gained. -/
def DispatcherOp.pushes (op : DispatcherOp) (d : SubscriptionDispatcher)
    (instrument_id : String) : Nat :=
  match op with
  | .process_pending_subscriptions _ => (op.run d).retry_queue_.count instrument_id
  | .handle_connection_recovery _ _ => (op.run d).retry_queue_.count instrument_id
  | _ => (op.run d).retry_queue_.count instrument_id - d.retry_queue_.count instrument_id

/-- The number of pushes of `instrument_id` onto the retry queue over a sequence
of operations. -/
def pushesAlong (instrument_id : String) : List DispatcherOp → SubscriptionDispatcher → Nat
  | [], _ => 0
  | op :: ops, d => op.pushes d instrument_id + pushesAlong instrument_id ops (op.run d)

/-- Whether the operation is the callback `on_subscription_failed`. -/
def DispatcherOp.isFailure : DispatcherOp → Bool
  | .on_subscription_failed _ _ _ => true
  | _ => false

/-- The number of pushes of `instrument_id` onto the retry queue that
`on_subscription_failed` makes over a sequence of operations. -/
def failurePushesAlong (instrument_id : String) :
    List DispatcherOp → SubscriptionDispatcher → Nat
  | [], _ => 0
  | op :: ops, d =>
    (if op.isFailure then op.pushes d instrument_id else 0) +
      failurePushesAlong instrument_id ops (op.run d)

/-- The `retry_count` of the entry of an instrument, if it has an entry. -/
def retryCount (d : SubscriptionDispatcher) (instrument_id : String) : Option Int :=
  (mapFind instrument_id d.global_subscriptions_).map (fun info => info.retry_count)

/-- The entry of `instrument_id` lives through the operations without a reset:
it exists before and after each of them (it is not deleted), and none of them
lowers its `retry_count` (as `migrate_subscription` does, which sets it to 0). -/
def EntryKept (instrument_id : String) : SubscriptionDispatcher → List DispatcherOp → Prop
  | _, [] => True
  | d, op :: ops =>
    (match retryCount d instrument_id, retryCount (op.run d) instrument_id with
      | some r, some r' => r ≤ r'
      | _, _ => False) ∧
    EntryKept instrument_id (op.run d) ops

instance EntryKept.decide (instrument_id : String) :
    (d : SubscriptionDispatcher) → (ops : List DispatcherOp) →
      Decidable (EntryKept instrument_id d ops)
  | _, [] => isTrue trivial
  | d, op :: ops =>
    have : Decidable (EntryKept instrument_id (op.run d) ops) :=
      EntryKept.decide instrument_id (op.run d) ops
    have : Decidable (match retryCount d instrument_id,
        retryCount (op.run d) instrument_id with
      | some r, some r' => r ≤ r'
      | _, _ => False) := by
      cases retryCount d instrument_id <;> cases retryCount (op.run d) instrument_id <;>
        simp only <;> exact inferInstance
    by
      unfold EntryKept
      exact inferInstance

/-- The entry of `instrument_id` exists after every operation of the sequence:
from its creation on it is never deleted. -/
def EntryLives (instrument_id : String) : SubscriptionDispatcher → List DispatcherOp → Prop
  | _, [] => True
  | d, op :: ops =>
    (mapFind instrument_id (op.run d).global_subscriptions_).isSome = true ∧
      EntryLives instrument_id (op.run d) ops

instance EntryLives.decide (instrument_id : String) :
    (d : SubscriptionDispatcher) → (ops : List DispatcherOp) →
      Decidable (EntryLives instrument_id d ops)
  | _, [] => isTrue trivial
  | d, op :: ops =>
    have : Decidable (EntryLives instrument_id (op.run d) ops) :=
      EntryLives.decide instrument_id (op.run d) ops
    by
      unfold EntryLives
      exact inferInstance

/-! ## The best connection of the pool -/

/-- The loop of `get_best_connection_for_subscription`. -/
def bestLoop : CTPConnection → Int → List CTPConnection → CTPConnection
  | best_connection, _, [] => best_connection
  | best_connection, best_quality, conn :: rest =>
    if conn.connection_quality_ > best_quality then
      bestLoop conn conn.connection_quality_ rest
    else bestLoop best_connection best_quality rest

/-- The function `CTPConnectionManager::get_best_connection_for_subscription`. -/
def CTPConnectionManager.get_best_connection_for_subscription (m : CTPConnectionManager) :
    Option CTPConnection :=
  match m.get_available_connections with
  | [] => none
  | first :: rest => some (bestLoop first first.connection_quality_ (first :: rest))

/-! ## The health monitor -/

/-- Ten seconds in ticks of the steady clock (nanoseconds). -/
def tenSeconds : Int := 10000000000

/-- The restart gate of `health_check_loop` at the reading `now` of the steady
clock: the map `next_restart_allowed_` afterwards and `should_restart`. -/
def restartGate (now : Int) (next_restart_allowed_ : List (String × Int)) (conn_id : String) :
    List (String × Int) × Bool :=
  match mapFind conn_id next_restart_allowed_ with
  | none => (mapInsert conn_id (now + tenSeconds) next_restart_allowed_, true)
  | some allowed =>
    if now ≥ allowed then (mapInsert conn_id (now + tenSeconds) next_restart_allowed_, true)
    else (next_restart_allowed_, false)

/-- The body of the inner loop of `health_check_loop` for the connection stored
under `key`, at the reading `now` of the steady clock and the reading `now_ms`
of the system clock: the pool afterwards, whether `restart()` was called, and
whether `handle_connection_failure` was called for a heartbeat timeout (the
status tested there is the one read at the start). -/
def health_check_connection (api_created : Bool) (now now_ms : Int) (m : CTPConnectionManager)
    (key : String) : CTPConnectionManager × Bool × Bool :=
  match mapFind key m.connections_ with
  | none => (m, false, false)
  | some conn =>
    let status := conn.status_
    let conn_id := conn.config_.connection_id
    let gate : List (String × Int) × Bool :=
      if status = .ERROR ∨ (status = .DISCONNECTED ∧ conn.error_count_ > 5) then
        restartGate now m.next_restart_allowed_ conn_id
      else (m.next_restart_allowed_, false)
    let conn := if gate.2 then (conn.restart api_created).1 else conn
    let heartbeat_timeout := now_ms - conn.last_heartbeat_
    ({ connections_ := mapInsert key conn m.connections_, next_restart_allowed_ := gate.1 },
      gate.2, decide (status = .LOGGED_IN ∧ heartbeat_timeout > 60000))

/-- What happens to a pool while its health monitor runs: a pass of the loop
body for one connection, or any change of the connections by the other threads
(calls and driver callbacks), which leave `next_restart_allowed_` alone. -/
inductive HealthEvent where
  | check (api_created : Bool) (now now_ms : Int) (key : String)
  | connections (connections_ : List (String × CTPConnection))

/-- The restart attempts of a run of the health monitor, oldest first: the id of
the connection restarted and the reading of the steady clock at which the gate
let the restart pass. -/
def restartLog : List HealthEvent → CTPConnectionManager → List (String × Int)
  | [], _ => []
  | .check api_created now now_ms key :: rest, m =>
    let r := health_check_connection api_created now now_ms m key
    let conn_id :=
      match mapFind key m.connections_ with
      | some conn => conn.config_.connection_id
      | none => key
    (if r.2.1 then [(conn_id, now)] else []) ++ restartLog rest r.1
  | .connections connections_ :: rest, m =>
    restartLog rest { m with connections_ := connections_ }

/-! ## The configuration check -/

/-- The configuration of the gateway (`MultiCTPConfig`). -/
structure MultiCTPConfig where
  websocket_port : Int
  redis_host : String
  redis_port : Int
  connections : List CTPConnectionConfig
  load_balance_strategy : LoadBalanceStrategy
  health_check_interval : Int
  maintenance_interval : Int
  max_retry_count : Int
  auto_failover : Bool

/-- The loop of `ConfigLoader::validate_config` over the connections, with the
set `connection_ids` of the ids met so far. -/
def validateConnections : List String → List CTPConnectionConfig → Bool
  | _, [] => true
  | connection_ids, conn :: rest =>
    if conn.connection_id = "" then false
    else if conn.connection_id ∈ connection_ids then false
    else if conn.front_addr = "" then false
    else if conn.broker_id = "" then false
    else if conn.max_subscriptions ≤ 0 then false
    else validateConnections (setInsert conn.connection_id connection_ids) rest

/-- The function `ConfigLoader::validate_config`. -/
def validate_config (config : MultiCTPConfig) : Bool :=
  if config.websocket_port ≤ 0 ∨ config.websocket_port > 65535 then false
  else if config.connections = [] then false
  else validateConnections [] config.connections

/-! ## The diff of flat objects, as a filter -/

/-- A JSON scalar: null, a boolean, a number or a string. -/
def IsJsonScalar : Json → Prop
  | .null => True
  | .bool _ => True
  | .num _ => True
  | .str _ => True
  | _ => False

instance IsJsonScalar.decide : (j : Json) → Decidable (IsJsonScalar j)
  | .null => isTrue trivial
  | .bool _ => isTrue trivial
  | .num _ => isTrue trivial
  | .str _ => isTrue trivial
  | .arr _ => isFalse (fun h => h)
  | .obj _ => isFalse (fun h => h)

/-- A flat object: an object with pairwise distinct member names whose values
are scalars. -/
def IsFlatObject : Json → Prop
  | .obj ms => (ms.map Prod.fst).Nodup ∧ ∀ p ∈ ms, IsJsonScalar p.2
  | _ => False

instance IsFlatObject.decide : (j : Json) → Decidable (IsFlatObject j)
  | .obj ms => by
    unfold IsFlatObject
    exact inferInstance
  | .null => isFalse (fun h => h)
  | .bool _ => isFalse (fun h => h)
  | .num _ => isFalse (fun h => h)
  | .str _ => isFalse (fun h => h)
  | .arr _ => isFalse (fun h => h)

/-- Whether two scalars differ, as the description of the diff reads: values
of different kinds differ, and two numbers differ when they are not numerically
equal (compared as doubles if either is a double, as integers otherwise). -/
def valueDiffers : Json → Json → Bool
  | .null, .null => false
  | .bool a, .bool b => a != b
  | .num a, .num b => !(numericallyEqual a b)
  | .str a, .str b => a != b
  | _, _ => true

/-- The diff of two flat objects as its description reads: the members of the
new object whose name the old object lacks or whose value differs from the old
one, in the order of the new object. -/
def flatDiff (old_members new_members : List (String × Json)) : List (String × Json) :=
  new_members.filter (fun p =>
    match FindMember p.1 old_members with
    | none => true
    | some old_field => valueDiffers old_field p.2)

/-! ## The `subscribe_quote` message -/

/-- The items that the loop `while (std::getline(iss, instrument, ','))` reads
from the rest of a text: the pieces between commas; after the last comma an item
is read only when characters remain.  `current` holds the characters of the item
being read. -/
def getlineItems : List Char → List Char → List String
  | current, [] => if current = [] then [] else [String.mk current]
  | current, c :: rest =>
    if c = ',' then String.mk current :: getlineItems [] rest
    else getlineItems (current ++ [c]) rest

/-- The raw id of an item: `instrument.substr(dot_pos + 1)` when
`instrument.find('.')` finds a dot, the item itself otherwise. -/
def nohead_instrument (instrument : String) : String :=
  match instrument.data.dropWhile (fun c => c != '.') with
  | [] => instrument
  | _ :: after => String.mk after

/-- The body of the loop of the `subscribe_quote` branch of
`WebSocketSession::handle_message` for one item.  The session is the one
registered under `session_id` (`handle_accept` registers it before its first
read); `now` is the clock reading of the dispatcher. -/
def subscribeQuoteItem (env : Env) (now : Int) (use_multi_ctp_mode_ : Bool) (session_id : String)
    (acc : MarketDataServer × Option SubscriptionDispatcher) (instrument : String) :
    MarketDataServer × Option SubscriptionDispatcher :=
  if instrument = "" then acc
  else
    let nohead := nohead_instrument instrument
    let st : MarketDataServer :=
      { acc.1 with
        sessions_ :=
          match mapFind session_id acc.1.sessions_ with
          | some session =>
            mapInsert session_id
              { session with subscriptions_ := setInsert nohead session.subscriptions_ }
              acc.1.sessions_
          | none => acc.1.sessions_
        noheadtohead_instruments_map_ :=
          mapInsert nohead instrument acc.1.noheadtohead_instruments_map_ }
    MarketDataServer.subscribe_instrument env now use_multi_ctp_mode_ acc.2 st session_id nohead

/-- The reply to a `subscribe_quote` message:
`{"aid":"subscribe_quote","status":"ok"}`. -/
def subscribeQuoteResponse : Json :=
  .obj [("aid", .str "subscribe_quote"), ("status", .str "ok")]

/-- The branch `aid == "subscribe_quote"` of `WebSocketSession::handle_message`
for a message whose `ins_list` is the string `ins_list`: the loop over the items,
then the reply. -/
def handle_message_subscribe_quote (write : Json → String) (env : Env) (now : Int)
    (use_multi_ctp_mode_ : Bool) (subscription_dispatcher_ : Option SubscriptionDispatcher)
    (st : MarketDataServer) (session_id ins_list : String) :
    MarketDataServer × Option SubscriptionDispatcher :=
  let r := (getlineItems [] ins_list.data).foldl
    (subscribeQuoteItem env now use_multi_ctp_mode_ session_id) (st, subscription_dispatcher_)
  ({ r.1 with
      sessions_ :=
        match mapFind session_id r.1.sessions_ with
        | some session =>
          mapInsert session_id (session.send_message (write subscribeQuoteResponse)) r.1.sessions_
        | none => r.1.sessions_ },
    r.2)

/-! ### Sample data for the pool, the retry queue and the messages -/

/-- A pool without connections. -/
def emptyPool : CTPConnectionManager :=
  { connections_ := [], next_restart_allowed_ := [] }

/-- The steps that bring a new connection to `LOGGED_IN`: `start`, the callback
`OnFrontConnected` and the callback `OnRspUserLogin` without error. -/
def loginSteps (c : CTPConnection) : CTPConnection :=
  ((c.start true).1.OnFrontConnected 2 0).OnRspUserLogin false

/-- A pool to which the connection `b` was added first and the connection `a`
second, both logged in afterwards (quality 80). -/
def tiePool : CTPConnectionManager :=
  (((emptyPool.add_connection 0 (sampleConnection "b" .DISCONNECTED).config_).1.add_connection 1
    (sampleConnection "a" .DISCONNECTED).config_).1.update "b" loginSteps).update "a" loginSteps

/-- A connection that was created, started, connected and logged in, and on
which `cu2501` was subscribed. -/
def subscribedConnection : CTPConnection :=
  ((loginSteps (CTPConnection.new (sampleConnection "c1" .DISCONNECTED).config_ 0)).subscribe_instrument
    sampleEnv "cu2501").1

/-- A flat quote whose open interest is the integer `2^53 + 1`. -/
def flatRoundingOld : Json :=
  .obj [("open_interest", .num (.int 9007199254740993))]

/-- A flat quote whose open interest is the double `2^53`. -/
def flatRoundingNew : Json :=
  .obj [("open_interest", .num (.dbl ⟨false, 1, 53⟩))]

/-- A server with one session `s1` that has no subscription yet. -/
def newSessionServer : MarketDataServer :=
  { sessions_ := [("s1", { subscriptions_ := [], sent := [] })]
    instrument_subscribers_ := []
    market_data_cache_ := []
    session_last_sent_json_ := []
    pending_peek_sessions_ := []
    noheadtohead_instruments_map_ := [] }

/-- A run in which `cu2501` fails twice on `c1`, becomes active, is migrated to
`c2` when the front of `c1` drops, and fails twice on `c2`; every retry of the
maintenance loop goes through. -/
def migrationOps : List DispatcherOp :=
  let front : List DispatcherOp :=
    [.add_subscription sampleEnv 0 "A" "cu2501",
      .on_subscription_failed 1 "c1" "cu2501",
      .process_pending_subscriptions sampleEnv,
      .on_subscription_failed 2 "c1" "cu2501",
      .process_pending_subscriptions sampleEnv,
      .on_subscription_success 3 "c1" "cu2501"]
  front ++
    [.pool ((runOps front onlineDispatcher).connection_manager_.update "c1"
        CTPConnection.OnFrontDisconnected),
      .handle_connection_failure sampleEnv "c1",
      .on_subscription_failed 4 "c2" "cu2501",
      .process_pending_subscriptions sampleEnv,
      .on_subscription_failed 5 "c2" "cu2501"]

/-- A run in which `cu2501` fails once on `c1`, the front of `c1` drops, and the
maintenance loop retries four times on `c2`, where the driver refuses the
request each time. -/
def refusedRetryOps : List DispatcherOp :=
  let front : List DispatcherOp :=
    [.add_subscription sampleEnv 0 "A" "cu2501",
      .on_subscription_failed 1 "c1" "cu2501"]
  front ++
    [.pool ((runOps front onlineDispatcher).connection_manager_.update "c1"
        CTPConnection.OnFrontDisconnected),
      .handle_connection_failure sampleEnv "c1",
      .process_pending_subscriptions c2RefusingEnv,
      .process_pending_subscriptions c2RefusingEnv,
      .process_pending_subscriptions c2RefusingEnv,
      .process_pending_subscriptions c2RefusingEnv]

/-- A pool whose only connection is in status `ERROR`. -/
def failingPool : CTPConnectionManager :=
  { connections_ := [("c1", sampleConnection "c1" .ERROR)], next_restart_allowed_ := [] }

/-! ## The write path of a session -/

/-- The write path of a `WebSocketSession`: the members `message_queue_`,
`current_write_message_` and `is_writing_`, and the transport as the session
drives it: the writes started by `async_write` and not completed yet, oldest
first (`in_flight`), and all the messages handed to `async_write` so far, oldest
first (`handed`). -/
structure SessionWriter where
  message_queue_ : List String
  current_write_message_ : String
  is_writing_ : Bool
  in_flight : List String
  handed : List String
  deriving DecidableEq

/-- The write path of a session after its construction. -/
def SessionWriter.new : SessionWriter :=
  { message_queue_ := [], current_write_message_ := "", is_writing_ := false
    in_flight := [], handed := [] }

/-- The function `WebSocketSession::start_write`. -/
def SessionWriter.start_write (w : SessionWriter) : SessionWriter :=
  match w.message_queue_ with
  | [] => { w with is_writing_ := false }
  | front :: rest =>
    { w with
      message_queue_ := rest
      current_write_message_ := front
      in_flight := w.in_flight ++ [front]
      handed := w.handed ++ [front] }

/-- The function `WebSocketSession::send_message` of the write path. -/
def SessionWriter.send_message (w : SessionWriter) (message : String) : SessionWriter :=
  let w := { w with message_queue_ := w.message_queue_ ++ [message] }
  if !w.is_writing_ then SessionWriter.start_write { w with is_writing_ := true } else w

/-- The completion handler `WebSocketSession::on_write` of the oldest write in
flight, which leaves the transport; `ec` tells whether the write ended in an
error. -/
def SessionWriter.on_write (w : SessionWriter) (ec : Bool) : SessionWriter :=
  let w := { w with in_flight := w.in_flight.tail }
  if ec then { w with is_writing_ := false } else w.start_write

/-- The events that drive the write path. -/
inductive WriterEvent where
  | send_message (message : String)
  | on_write (ec : Bool)
  deriving DecidableEq

/-- The state after an event. -/
def WriterEvent.run : WriterEvent → SessionWriter → SessionWriter
  | .send_message message, w => w.send_message message
  | .on_write ec, w => w.on_write ec

/-- The state after a sequence of events. -/
def runWriter : List WriterEvent → SessionWriter → SessionWriter
  | [], w => w
  | e :: rest, w => runWriter rest (e.run w)

/-- The messages passed to `send_message` by a sequence of events, in order. -/
def passedMessages : List WriterEvent → List String
  | [] => []
  | .send_message message :: rest => message :: passedMessages rest
  | .on_write _ :: rest => passedMessages rest

/-- A sequence of events is a run of the write path from a state when every
completion `on_write` comes while a write is in flight: the transport calls the
handler once for each `async_write`. -/
def WriterRun : SessionWriter → List WriterEvent → Prop
  | _, [] => True
  | w, .send_message message :: rest => WriterRun (w.send_message message) rest
  | w, .on_write ec :: rest => w.in_flight ≠ [] ∧ WriterRun (w.on_write ec) rest

instance WriterRun.decide : (w : SessionWriter) → (events : List WriterEvent) →
    Decidable (WriterRun w events)
  | _, [] => isTrue trivial
  | w, .send_message message :: rest => by
    unfold WriterRun
    exact WriterRun.decide (w.send_message message) rest
  | w, .on_write ec :: rest =>
    have : Decidable (WriterRun (w.on_write ec) rest) := WriterRun.decide (w.on_write ec) rest
    by
      unfold WriterRun
      exact inferInstance

/-! ## The quote object of a depth record -/

/-- What `build_quote_data` takes from IEEE arithmetic, which is not embedded:
for a `double` field `v` of a depth record (a value of type `D`), the outcome of
the test `v > 1e-6 && v < 1e300`, the number `round(v * 100.0) / 100.0`, the
number `v` itself and the integer `static_cast<int64_t>(v)`. -/
structure DoubleOps (D : Type) where
  isValid : D → Bool
  roundCents : D → Dbl
  value : D → Dbl
  toInt64 : D → Int

/-- The fields of `CThostFtdcDepthMarketDataField` that `build_quote_data`
reads; `D` is the type of the `double` fields. -/
structure CThostFtdcDepthMarketDataField (D : Type) where
  TradingDay : String
  UpdateTime : String
  UpdateMillisec : Int
  LastPrice : D
  PreSettlementPrice : D
  PreClosePrice : D
  PreOpenInterest : D
  OpenPrice : D
  HighestPrice : D
  LowestPrice : D
  Volume : Int
  Turnover : D
  OpenInterest : D
  ClosePrice : D
  SettlementPrice : D
  UpperLimitPrice : D
  LowerLimitPrice : D
  BidPrice1 : D
  BidVolume1 : Int
  AskPrice1 : D
  AskVolume1 : Int
  BidPrice2 : D
  BidVolume2 : Int
  AskPrice2 : D
  AskVolume2 : Int
  BidPrice3 : D
  BidVolume3 : Int
  AskPrice3 : D
  AskVolume3 : Int
  BidPrice4 : D
  BidVolume4 : Int
  AskPrice4 : D
  AskVolume4 : Int
  BidPrice5 : D
  BidVolume5 : Int
  AskPrice5 : D
  AskVolume5 : Int

/-- The `std::string::substr(pos, len)` operation, for `pos` within the text. -/
def substr (s : String) (pos len : Nat) : String :=
  String.mk ((s.data.drop pos).take len)

/-- The text written by `oss << std::setw(5) << std::setfill('0') << frac5`:
the decimal text of the number, filled with zeros on the left up to five
characters. -/
def setw5 (frac5 : Int) : String :=
  String.mk (List.replicate (5 - (toString frac5).length) '0') ++ toString frac5

/-- The text `datetime_str` of `build_quote_data`. -/
def datetime_str (TradingDay UpdateTime : String) (UpdateMillisec : Int) : String :=
  let update_time := if UpdateTime = "" then "00:00:00" else UpdateTime
  let date_part :=
    if TradingDay.length ≥ 8 then
      substr TradingDay 0 4 ++ "-" ++ substr TradingDay 4 2 ++ "-" ++ substr TradingDay 6 2
    else TradingDay
  let frac5 := UpdateMillisec * 100
  date_part ++ " " ++ update_time ++ "." ++ setw5 frac5

/-- The two members that `build_quote_data` adds for one of the five levels of
the book: the rounded price and the volume when the price is valid, two nulls
otherwise. -/
def levelMembers {D : Type} (ops : DoubleOps D) (price_key volume_key : String) (price : D)
    (volume : Int) : List (String × Json) :=
  if ops.isValid price then
    [(price_key, .num (.dbl (ops.roundCents price))), (volume_key, .num (.int volume))]
  else [(price_key, .null), (volume_key, .null)]

/-- The member that `build_quote_data` adds for a price: the rounded price when
it is valid, `missing` otherwise. -/
def priceMember {D : Type} (ops : DoubleOps D) (key : String) (price : D) (missing : Json) :
    String × Json :=
  (key, if ops.isValid price then .num (.dbl (ops.roundCents price)) else missing)

/-- The function `MarketDataServer::build_quote_data`: the object returned.  (The
out-parameter `timestamp_ms` is not part of the object.) -/
def build_quote_data {D : Type} (ops : DoubleOps D)
    (pDepthMarketData : CThostFtdcDepthMarketDataField D) (display_instrument : String) : Json :=
  .obj (
    [("instrument_id", .str display_instrument),
      ("datetime", .str (datetime_str pDepthMarketData.TradingDay pDepthMarketData.UpdateTime
        pDepthMarketData.UpdateMillisec)),
      ("ask_price10", .null), ("ask_volume10", .null),
      ("ask_price9", .null), ("ask_volume9", .null),
      ("ask_price8", .null), ("ask_volume8", .null),
      ("ask_price7", .null), ("ask_volume7", .null),
      ("ask_price6", .null), ("ask_volume6", .null)] ++
    levelMembers ops "ask_price5" "ask_volume5" pDepthMarketData.AskPrice5
      pDepthMarketData.AskVolume5 ++
    levelMembers ops "ask_price4" "ask_volume4" pDepthMarketData.AskPrice4
      pDepthMarketData.AskVolume4 ++
    levelMembers ops "ask_price3" "ask_volume3" pDepthMarketData.AskPrice3
      pDepthMarketData.AskVolume3 ++
    levelMembers ops "ask_price2" "ask_volume2" pDepthMarketData.AskPrice2
      pDepthMarketData.AskVolume2 ++
    levelMembers ops "ask_price1" "ask_volume1" pDepthMarketData.AskPrice1
      pDepthMarketData.AskVolume1 ++
    levelMembers ops "bid_price1" "bid_volume1" pDepthMarketData.BidPrice1
      pDepthMarketData.BidVolume1 ++
    levelMembers ops "bid_price2" "bid_volume2" pDepthMarketData.BidPrice2
      pDepthMarketData.BidVolume2 ++
    levelMembers ops "bid_price3" "bid_volume3" pDepthMarketData.BidPrice3
      pDepthMarketData.BidVolume3 ++
    levelMembers ops "bid_price4" "bid_volume4" pDepthMarketData.BidPrice4
      pDepthMarketData.BidVolume4 ++
    levelMembers ops "bid_price5" "bid_volume5" pDepthMarketData.BidPrice5
      pDepthMarketData.BidVolume5 ++
    [("bid_price6", .null), ("bid_volume6", .null),
      ("bid_price7", .null), ("bid_volume7", .null),
      ("bid_price8", .null), ("bid_volume8", .null),
      ("bid_price9", .null), ("bid_volume9", .null),
      ("bid_price10", .null), ("bid_volume10", .null),
      priceMember ops "last_price" pDepthMarketData.LastPrice .null,
      priceMember ops "highest" pDepthMarketData.HighestPrice .null,
      priceMember ops "lowest" pDepthMarketData.LowestPrice .null,
      priceMember ops "open" pDepthMarketData.OpenPrice .null,
      priceMember ops "close" pDepthMarketData.ClosePrice (.str "-"),
      ("average", .null),
      ("volume", .num (.int pDepthMarketData.Volume)),
      ("amount", .num (.dbl (ops.value pDepthMarketData.Turnover))),
      ("open_interest", .num (.int (ops.toInt64 pDepthMarketData.OpenInterest))),
      priceMember ops "settlement" pDepthMarketData.SettlementPrice (.str "-"),
      priceMember ops "upper_limit" pDepthMarketData.UpperLimitPrice .null,
      priceMember ops "lower_limit" pDepthMarketData.LowerLimitPrice .null,
      ("pre_open_interest", .num (.int (ops.toInt64 pDepthMarketData.PreOpenInterest))),
      priceMember ops "pre_settlement" pDepthMarketData.PreSettlementPrice .null,
      priceMember ops "pre_close" pDepthMarketData.PreClosePrice .null])

/-- The keys of the quote schema, in their order. -/
def quoteKeys : List String :=
  ["instrument_id", "datetime",
    "ask_price10", "ask_volume10", "ask_price9", "ask_volume9", "ask_price8", "ask_volume8",
    "ask_price7", "ask_volume7", "ask_price6", "ask_volume6", "ask_price5", "ask_volume5",
    "ask_price4", "ask_volume4", "ask_price3", "ask_volume3", "ask_price2", "ask_volume2",
    "ask_price1", "ask_volume1",
    "bid_price1", "bid_volume1", "bid_price2", "bid_volume2", "bid_price3", "bid_volume3",
    "bid_price4", "bid_volume4", "bid_price5", "bid_volume5", "bid_price6", "bid_volume6",
    "bid_price7", "bid_volume7", "bid_price8", "bid_volume8", "bid_price9", "bid_volume9",
    "bid_price10", "bid_volume10",
    "last_price", "highest", "lowest", "open", "close", "average", "volume", "amount",
    "open_interest", "settlement", "upper_limit", "lower_limit", "pre_open_interest",
    "pre_settlement", "pre_close"]

/-- The keys of the levels 6 to 10 of both sides of the book. -/
def deepLevelKeys : List String :=
  ["ask_price10", "ask_volume10", "ask_price9", "ask_volume9", "ask_price8", "ask_volume8",
    "ask_price7", "ask_volume7", "ask_price6", "ask_volume6",
    "bid_price6", "bid_volume6", "bid_price7", "bid_volume7", "bid_price8", "bid_volume8",
    "bid_price9", "bid_volume9", "bid_price10", "bid_volume10"]

/-! ## Further views of the dispatcher and of the pool -/

/-- The instruments recorded for a connection in `connection_subscriptions_`,
none when the connection has no entry. -/
def connectionInstruments (d : SubscriptionDispatcher) (connection_id : String) : List String :=
  match mapFind connection_id d.connection_subscriptions_ with
  | some instruments => instruments
  | none => []

/-- The dispatcher after `k` calls of `select_connection_round_robin`, which
change nothing but the counter. -/
def roundRobinAfter : Nat → SubscriptionDispatcher → SubscriptionDispatcher
  | 0, d => d
  | k + 1, d =>
    roundRobinAfter k { d with round_robin_counter_ := (select_connection_round_robin d).2 }

/-- The bonus of the score as its description reads, for a connection with
`subs` subscriptions and the cap `max`: 20 below half the cap, -30 above four
fifths of it, 0 otherwise. -/
def loadBonus (subs : Nat) (max : Int) : Int :=
  if (subs : ℚ) < (1 / 2 : ℚ) * max then 20
  else if (subs : ℚ) > (4 / 5 : ℚ) * max then -30
  else 0

/-- The penalty for the heartbeat as its description reads: 30 after more than
ten seconds without a tick, 15 after more than five, 0 otherwise (times in
milliseconds). -/
def heartbeatPenalty (now last_heartbeat : Int) : Int :=
  if now - last_heartbeat > 10000 then 30
  else if now - last_heartbeat > 5000 then 15
  else 0

/-- The penalty for the load as its description reads: 20 above four fifths of
the cap, 10 above three fifths, 0 otherwise. -/
def loadPenalty (subscribed : Nat) (max_subscriptions : Int) : Int :=
  if (subscribed : ℚ) > (4 / 5 : ℚ) * max_subscriptions then 20
  else if (subscribed : ℚ) > (3 / 5 : ℚ) * max_subscriptions then 10
  else 0

/-! ### Sample data for the quote object, the acknowledgements and the errors -/

/-- Sample operations on prices given in cents: a price is valid when it is
positive, and the numbers are the cents as they are. -/
def sampleDoubleOps : DoubleOps Int :=
  { isValid := fun v => decide (0 < v)
    roundCents := fun v => ⟨decide (v < 0), v.natAbs, 0⟩
    value := fun v => ⟨decide (v < 0), v.natAbs, 0⟩
    toInt64 := fun v => v }

/-- A sample depth record with one level on each side of the book. -/
def sampleDepthRecord : CThostFtdcDepthMarketDataField Int :=
  { TradingDay := "20250102", UpdateTime := "09:30:00", UpdateMillisec := 500
    LastPrice := 7123000, PreSettlementPrice := 7100000, PreClosePrice := 7110000
    PreOpenInterest := 1000, OpenPrice := 7105000, HighestPrice := 7130000
    LowestPrice := 7101000, Volume := 10, Turnover := 71230000, OpenInterest := 1200
    ClosePrice := 0, SettlementPrice := 0, UpperLimitPrice := 7800000
    LowerLimitPrice := 6400000
    BidPrice1 := 7122000, BidVolume1 := 3, AskPrice1 := 7124000, AskVolume1 := 4
    BidPrice2 := 0, BidVolume2 := 0, AskPrice2 := 0, AskVolume2 := 0
    BidPrice3 := 0, BidVolume3 := 0, AskPrice3 := 0, AskVolume3 := 0
    BidPrice4 := 0, BidVolume4 := 0, AskPrice4 := 0, AskVolume4 := 0
    BidPrice5 := 0, BidVolume5 := 0, AskPrice5 := 0, AskVolume5 := 0 }

/-- The state after the last session gave up `cu2501`, which was active on
`c1`: the unsubscribe request went out and its acknowledgement has not come. -/
def unsubscribedDispatcher : SubscriptionDispatcher :=
  (remove_subscription sampleEnv activeDispatcher "A" "cu2501").1

/-- The state after a failed response for `cu2501`, which was active on `c1`. -/
def failedActiveDispatcher : SubscriptionDispatcher :=
  on_subscription_failed 2 activeDispatcher "c1" "cu2501"

/-- The state in which `cu2501` is still active on `c1` more than ten minutes
after its acknowledgement (session `B` joins at that time) and both connections
have lost their front. -/
def bothDroppedDispatcher : SubscriptionDispatcher :=
  { (add_subscription sampleEnv (tenMinutes + 1) activeDispatcher "B" "cu2501").1 with
    connection_manager_ :=
      ((add_subscription sampleEnv (tenMinutes + 1) activeDispatcher "B"
        "cu2501").1.connection_manager_.update "c1" CTPConnection.OnFrontDisconnected).update
          "c2" CTPConnection.OnFrontDisconnected }

/-- The state after the dispatcher was told of the failure of `c1`, with no
connection to migrate to. -/
def lateFailureDispatcher : SubscriptionDispatcher :=
  handle_connection_failure sampleEnv bothDroppedDispatcher "c1"

/-- A logged-in connection with a cap of two instruments and one subscription. -/
def halfLoadedConnection : CTPConnection :=
  ((loginSteps (CTPConnection.new { smallConfig with max_subscriptions := 2 }
    0)).subscribe_instrument sampleEnv "cu2501").1

/-- A dispatcher over three logged-in connections whose round-robin counter is
at the last value of `size_t`. -/
def wrappingDispatcher : SubscriptionDispatcher :=
  { freshDispatcher [("c1", sampleConnection "c1" .LOGGED_IN),
      ("c2", sampleConnection "c2" .LOGGED_IN), ("c3", sampleConnection "c3" .LOGGED_IN)] with
    load_balance_strategy_ := .ROUND_ROBIN
    round_robin_counter_ := 2 ^ 64 - 1 }

/-- A logged-in connection after ten failed responses to subscribe requests. -/
def tenErrorsConnection : CTPConnection :=
  (List.range 10).foldl (fun c _ => c.OnRspSubMarketData true)
    (loginSteps (CTPConnection.new (sampleConnection "c1" .DISCONNECTED).config_ 0))

/-- The state after `cu2501`, active on `c1`, was migrated to `c2` when the
front of `c1` dropped. -/
def failedOverDispatcher : SubscriptionDispatcher :=
  handle_connection_failure sampleEnv droppedDispatcher "c1"

/-- The double `0x1.9e1159e30691dp+135`; its shortest decimal text is
`7.044998175012238e40`. -/
def driftAmount1 : Dbl := ⟨false, 0x19e1159e30691d, 83⟩

/-- The next double above `driftAmount1`, `0x1.9e1159e30691ep+135`; its shortest
decimal text is `7.044998175012239e40`. -/
def driftAmount2 : Dbl := ⟨false, 0x19e1159e30691e, 83⟩

/-- The double nearest to `10^25`, which is `10000000000000000905969664`: the
factor by which a parser that scales the digits of a text with a table of
powers of ten multiplies for the decimal exponent 25. -/
def pow10_25 : Dbl := ⟨false, 0x108b2a2c280291, 31⟩

theorem diffMembers_nil (write : Json → String) (old_members : List (String × Json)) :
    diffMembers write old_members [] = some [] := rfl

theorem diffMembers_cons (write : Json → String) (old_members rest : List (String × Json))
    (key : String) (new_field : Json) :
    diffMembers write old_members ((key, new_field) :: rest) =
      match (match FindMember key old_members with
            | none => some [(key, new_field)]
            | some old_field => fieldDiff write key old_field new_field),
          diffMembers write old_members rest with
      | some here, some tail => some (here ++ tail)
      | _, _ => none := by
  cases new_field <;> rfl

theorem ComputeJsonDiff_obj (write : Json → String) (old_members new_members : List (String × Json)) :
    ComputeJsonDiff write (.obj old_members) (.obj new_members) =
      (diffMembers write old_members new_members).map Json.obj := rfl

/-! ## Lemmas on member lookup -/

theorem FindMember_append (k : String) (a b : List (String × Json)) :
    FindMember k (a ++ b) = (FindMember k a).orElse (fun _ => FindMember k b) := by
  induction a with
  | nil => simp [FindMember]
  | cons p a ih =>
    obtain ⟨k', v⟩ := p
    by_cases h : k' = k
    · simp [FindMember, h]
    · simp [FindMember, h, ih]

theorem mem_of_FindMember {k : String} {v : Json} {ms : List (String × Json)}
    (h : FindMember k ms = some v) : (k, v) ∈ ms := by
  induction ms with
  | nil => simp [FindMember] at h
  | cons p ms ih =>
    obtain ⟨k', v'⟩ := p
    by_cases hk : k' = k
    · simp [FindMember, hk] at h
      simp [hk, h]
    · simp [FindMember, hk] at h
      exact List.mem_cons_of_mem _ (ih h)

theorem FindMember_eq_none_iff {k : String} {ms : List (String × Json)} :
    FindMember k ms = none ↔ ∀ v, (k, v) ∉ ms := by
  induction ms with
  | nil => simp [FindMember]
  | cons p ms ih =>
    obtain ⟨k', v'⟩ := p
    by_cases hk : k' = k
    · subst hk
      simp only [FindMember, if_true]
      constructor
      · intro h; cases h
      · intro h; exact absurd (List.mem_cons_self _ _) (h v')
    · simp only [FindMember, hk, if_false, ih, List.mem_cons, Prod.mk.injEq]
      constructor
      · intro h v hv
        rcases hv with ⟨h1, _⟩ | hv
        · exact hk h1.symm
        · exact h v hv
      · intro h v hv
        exact h v (Or.inr hv)

theorem FindMember_of_mem_nodup {k : String} {v : Json} {ms : List (String × Json)}
    (hnd : (ms.map Prod.fst).Nodup) (h : (k, v) ∈ ms) : FindMember k ms = some v := by
  induction ms with
  | nil => simp at h
  | cons p ms ih =>
    obtain ⟨k', v'⟩ := p
    simp only [List.map_cons, List.nodup_cons] at hnd
    rcases List.mem_cons.mp h with heq | hmem
    · cases heq
      simp [FindMember]
    · have hk : k' ≠ k := by
        intro hk
        subst hk
        exact hnd.1 (List.mem_map.mpr ⟨(k', v), hmem, rfl⟩)
      simp [FindMember, hk, ih hnd.2 hmem]

theorem FindMember_applyMembers (f : String) (oms dms : List (String × Json)) :
    FindMember f (applyMembers oms dms) =
      (FindMember f oms).map (fun ov =>
        match FindMember f dms with
        | some d => applyDiff ov d
        | none => ov) := by
  induction oms with
  | nil => simp [applyMembers, FindMember]
  | cons p oms ih =>
    obtain ⟨k, v⟩ := p
    by_cases hk : k = f
    · subst hk
      cases hd : FindMember k dms <;> simp [applyMembers, FindMember, hd]
    · cases hd : FindMember k dms <;> simp [applyMembers, FindMember, hd, hk, ih]

theorem FindMember_filter_absent (f : String) (oms dms : List (String × Json)) :
    FindMember f (dms.filter (fun p => (FindMember p.1 oms).isNone)) =
      if (FindMember f oms).isNone then FindMember f dms else none := by
  induction dms with
  | nil => simp [FindMember]
  | cons p dms ih =>
    obtain ⟨k, v⟩ := p
    by_cases hk : k = f
    · subst hk
      cases ho : FindMember k oms with
      | none => simp [List.filter, ho, FindMember]
      | some ov =>
        simp [List.filter, ho, FindMember] at ih ⊢
        exact ih
    · cases ho : FindMember k oms with
      | none => simp [List.filter, ho, FindMember, hk, ih]
      | some ov => simp [List.filter, ho, ih, FindMember, hk]

theorem member_applyDiff_obj (oms dms : List (String × Json)) (f : String) :
    (applyDiff (.obj oms) (.obj dms)).member f = lookupMerged oms dms f := by
  simp only [applyDiff, Json.member, FindMember_append, FindMember_applyMembers,
    FindMember_filter_absent, lookupMerged]
  cases FindMember f oms <;> simp

theorem lookupMerged_nil (oms : List (String × Json)) (f : String) :
    lookupMerged oms [] f = FindMember f oms := by
  simp only [lookupMerged, FindMember]
  cases FindMember f oms <;> rfl



/-! ## Lemmas on the number comparison -/

theorem zpow_split (e m : Int) (h : m ≤ e) :
    (2 : ℚ) ^ e = (2 : ℚ) ^ (e - m).toNat * (2 : ℚ) ^ m := by
  have h2 : (2 : ℚ) ≠ 0 := by norm_num
  have hn : ((e - m).toNat : Int) = e - m := Int.toNat_of_nonneg (by omega)
  rw [← zpow_natCast, hn, ← zpow_add₀ h2]
  congr 1
  omega

theorem Dbl.val_eq_of_ne_false (a b : Dbl) (h : Dbl.ne a b = false) : a.val = b.val := by
  unfold Dbl.ne at h
  by_cases h0 : a.mant = 0 ∧ b.mant = 0
  · simp [Dbl.val, h0.1, h0.2]
  · simp only [h0, if_false, Bool.not_eq_false', decide_eq_true_eq] at h
    obtain ⟨hs, hm⟩ := h
    have hq : (a.mant : ℚ) * (2 : ℚ) ^ (a.exp - min a.exp b.exp).toNat =
        (b.mant : ℚ) * (2 : ℚ) ^ (b.exp - min a.exp b.exp).toNat := by
      exact_mod_cast hm
    unfold Dbl.val
    rw [hs, zpow_split a.exp (min a.exp b.exp) (min_le_left _ _),
      zpow_split b.exp (min a.exp b.exp) (min_le_right _ _)]
    calc (if b.neg = true then (-1 : ℚ) else 1) * (a.mant : ℚ) *
          ((2 : ℚ) ^ (a.exp - min a.exp b.exp).toNat * (2 : ℚ) ^ min a.exp b.exp)
        = (if b.neg = true then (-1 : ℚ) else 1) *
            ((a.mant : ℚ) * (2 : ℚ) ^ (a.exp - min a.exp b.exp).toNat) *
            (2 : ℚ) ^ min a.exp b.exp := by ring
      _ = (if b.neg = true then (-1 : ℚ) else 1) *
            ((b.mant : ℚ) * (2 : ℚ) ^ (b.exp - min a.exp b.exp).toNat) *
            (2 : ℚ) ^ min a.exp b.exp := by rw [hq]
      _ = _ := by ring

theorem roundTo53_small (n : Nat) (h : n < 2 ^ 53) : roundTo53 n = (n, 0) := by
  have h0 : excessBits 11 n = 0 := by
    rw [excessBits, if_pos h]
  simp only [roundTo53, h0, if_true]

theorem roundTo53_pow53 : roundTo53 (2 ^ 53) = (2 ^ 52, 1) := by decide

theorem intToDouble_val (i : Int) (h : i.natAbs ≤ 2 ^ 53) : (intToDouble i).val = (i : ℚ) := by
  have hval : ∀ q e : Nat, (q : ℚ) * 2 ^ e = (i.natAbs : ℚ) → roundTo53 i.natAbs = (q, e) →
      (intToDouble i).val = (i : ℚ) := by
    intro q e hqe hr
    simp only [intToDouble, Dbl.val, hr]
    rw [zpow_natCast, mul_assoc, hqe]
    by_cases hi : i < 0
    · simp only [hi, decide_True, if_true]
      have hi' : i = -(i.natAbs : Int) := by omega
      have : (i : ℚ) = -(i.natAbs : ℚ) := by
        conv_lhs => rw [hi']
        rw [Int.cast_neg, Int.cast_natCast]
      rw [this]; ring
    · simp only [hi, decide_False]
      have hi' : i = (i.natAbs : Int) := by omega
      have : (i : ℚ) = (i.natAbs : ℚ) := by
        conv_lhs => rw [hi']
        rw [Int.cast_natCast]
      rw [this]; simp
  rcases Nat.lt_or_ge i.natAbs (2 ^ 53) with hlt | hge
  · exact hval i.natAbs 0 (by simp) (roundTo53_small _ hlt)
  · have heq : i.natAbs = 2 ^ 53 := le_antisymm h hge
    refine hval (2 ^ 52) 1 ?_ (by rw [heq]; exact roundTo53_pow53)
    rw [heq]; norm_num

theorem Num.GetDouble_val (n : Num) (h : n.Exact) : n.GetDouble.val = n.val := by
  cases n with
  | int i => exact intToDouble_val i h
  | dbl d => rfl

theorem Dbl.ne_self (d : Dbl) : Dbl.ne d d = false := by
  simp [Dbl.ne]

theorem Dbl.ne_comm (a b : Dbl) : Dbl.ne a b = Dbl.ne b a := by
  unfold Dbl.ne
  rw [min_comm a.exp b.exp]
  by_cases h : a.mant = 0 ∧ b.mant = 0
  · rw [if_pos h, if_pos ⟨h.2, h.1⟩]
  · rw [if_neg h, if_neg (fun h2 => h ⟨h2.2, h2.1⟩)]
    simp only
    congr 1
    apply decide_eq_decide.mpr
    constructor
    · rintro ⟨h1, h2⟩
      exact ⟨h1.symm, h2.symm⟩
    · rintro ⟨h1, h2⟩
      exact ⟨h1.symm, h2.symm⟩

theorem numericallyEqual_self (n : Num) : numericallyEqual n n = true := by
  cases n with
  | int i => simp [numericallyEqual]
  | dbl d => simp [numericallyEqual, Dbl.ne_self]

/-- On numbers that are doubles or 64-bit integers the comparison of
`ComputeJsonDiff` returns, and it finds a difference exactly when the old and
the new number are not numerically equal. -/
theorem numIsDifferent_int64 (n o : Num) (hn : ScalarInt64 (.num n))
    (ho : ScalarInt64 (.num o)) :
    numIsDifferent n o = some (!(numericallyEqual o n)) := by
  cases n with
  | dbl d =>
    cases o with
    | dbl e =>
      simp [numIsDifferent, Num.IsDouble, Num.GetDouble, numericallyEqual, Dbl.ne_comm e d]
    | int b =>
      simp [numIsDifferent, Num.IsDouble, Num.GetDouble, numericallyEqual,
        Dbl.ne_comm (intToDouble b) d]
  | int a =>
    cases o with
    | dbl e =>
      simp [numIsDifferent, Num.IsDouble, Num.GetDouble, numericallyEqual,
        Dbl.ne_comm e (intToDouble a)]
    | int b =>
      have ha : isInt64 a = true := hn
      have hb : isInt64 b = true := ho
      have hres : numIsDifferent (.int a) (.int b) = some (decide (a ≠ b)) := by
        simp [numIsDifferent, Num.IsDouble, Num.IsInt64, Num.GetInt64, ha, hb]
      rw [hres]
      by_cases hab : a = b
      · simp [numericallyEqual, hab]
      · have hba : ¬ b = a := fun h => hab h.symm
        simp [numericallyEqual, hab, hba]

/-! ## The diff of two flat quote objects -/

theorem SameValue_refl (v : Json) : SameValue v v := by
  cases v <;> simp [SameValue, numericallyEqual_self]

theorem GetType_num_eq {n : Num} {o : Json} (h : (Json.num n).GetType = o.GetType) :
    ∃ m, o = .num m := by
  cases o with
  | num m => exact ⟨m, rfl⟩
  | bool b => cases b <;> simp [Json.GetType] at h
  | _ => simp [Json.GetType] at h

theorem GetType_str_eq {s : String} {o : Json} (h : (Json.str s).GetType = o.GetType) :
    ∃ t, o = .str t := by
  cases o with
  | str t => exact ⟨t, rfl⟩
  | bool b => cases b <;> simp [Json.GetType] at h
  | _ => simp [Json.GetType] at h

theorem GetType_null_eq {o : Json} (h : Json.null.GetType = o.GetType) : o = .null := by
  cases o with
  | null => rfl
  | bool b => cases b <;> simp [Json.GetType] at h
  | _ => simp [Json.GetType] at h

theorem GetType_obj_eq {ms : List (String × Json)} {o : Json}
    (h : (Json.obj ms).GetType = o.GetType) : ∃ os, o = .obj os := by
  cases o with
  | obj os => exact ⟨os, rfl⟩
  | bool b => cases b <;> simp [Json.GetType] at h
  | _ => simp [Json.GetType] at h

theorem diffMembers_cons_scalar (write : Json → String) (ofs rest : List (String × Json))
    (k : String) (v : Json) (tail : List (String × Json))
    (hrest : diffMembers write ofs rest = some tail)
    (hv : IsQuoteScalar v) (hve : ScalarInt64 v) (hoe : ∀ p ∈ ofs, ScalarInt64 p.2) :
    (diffMembers write ofs ((k, v) :: rest) = some ((k, v) :: tail)) ∨
    (diffMembers write ofs ((k, v) :: rest) = some tail ∧
      ∃ ov, FindMember k ofs = some ov ∧ SameValue ov v) := by
  rw [diffMembers_cons, hrest]
  cases hfo : FindMember k ofs with
  | none => left; simp
  | some ov =>
    simp only [fieldDiff]
    by_cases ht : v.GetType = ov.GetType
    · have hmem := mem_of_FindMember hfo
      cases v with
      | null =>
        right
        have := GetType_null_eq ht
        subst this
        simp [SameValue]
      | str s =>
        obtain ⟨t, rfl⟩ := GetType_str_eq ht
        by_cases hst : s = t
        · right; simp [hst, SameValue, Json.GetType]
        · left; simp [hst, Json.GetType]
      | num n =>
        obtain ⟨o, rfl⟩ := GetType_num_eq ht
        have hc := numIsDifferent_int64 n o hve (hoe _ hmem)
        cases he : numericallyEqual o n with
        | false =>
          rw [he] at hc
          left; simp [hc, Json.GetType]
        | true =>
          rw [he] at hc
          right; simp [hc, SameValue, he, Json.GetType]
      | bool b => exact absurd hv (by simp [IsQuoteScalar])
      | arr xs => exact absurd hv (by simp [IsQuoteScalar])
      | obj ms => exact absurd hv (by simp [IsQuoteScalar])
    · left; simp [ht]

theorem diffMembers_flat (write : Json → String) (ofs nfs : List (String × Json))
    (hn : ∀ p ∈ nfs, IsQuoteScalar p.2) (hne : ∀ p ∈ nfs, ScalarInt64 p.2)
    (hoe : ∀ p ∈ ofs, ScalarInt64 p.2) :
    ∃ ds, diffMembers write ofs nfs = some ds ∧ (∀ p ∈ ds, p ∈ nfs) ∧
      (∀ k v, (k, v) ∈ nfs → FindMember k ds = none →
        ∃ ov, FindMember k ofs = some ov ∧ SameValue ov v) := by
  induction nfs with
  | nil => exact ⟨[], diffMembers_nil _ _, by simp, by simp⟩
  | cons p rest ih =>
    obtain ⟨k, v⟩ := p
    obtain ⟨tail, htail, hsub, hkeep⟩ := ih (fun p hp => hn p (List.mem_cons_of_mem _ hp))
      (fun p hp => hne p (List.mem_cons_of_mem _ hp))
    rcases diffMembers_cons_scalar write ofs rest k v tail htail
        (hn _ (List.mem_cons_self _ _)) (hne _ (List.mem_cons_self _ _)) hoe with h | ⟨h, hsame⟩
    · refine ⟨(k, v) :: tail, h, ?_, ?_⟩
      · intro p hp
        rcases List.mem_cons.mp hp with rfl | hp
        · exact List.mem_cons_self _ _
        · exact List.mem_cons_of_mem _ (hsub p hp)
      · intro k' v' hmem hnone
        by_cases hk : k = k'
        · simp [FindMember, hk] at hnone
        · simp only [FindMember, hk, if_false] at hnone
          rcases List.mem_cons.mp hmem with heq | hmem
          · cases heq; exact absurd rfl hk
          · exact hkeep k' v' hmem hnone
    · refine ⟨tail, h, fun p hp => List.mem_cons_of_mem _ (hsub p hp), ?_⟩
      intro k' v' hmem hnone
      rcases List.mem_cons.mp hmem with heq | hmem
      · cases heq; exact hsame
      · exact hkeep k' v' hmem hnone


theorem applyDiff_scalar (ov v : Json) (hv : IsQuoteScalar v) : applyDiff ov v = v := by
  cases v with
  | null => cases ov <;> rfl
  | str s => cases ov <;> rfl
  | num n => cases ov <;> rfl
  | bool b => exact absurd hv (by simp [IsQuoteScalar])
  | arr xs => exact absurd hv (by simp [IsQuoteScalar])
  | obj ms => exact absurd hv (by simp [IsQuoteScalar])

theorem FindMember_none_of_subset {ds nfs : List (String × Json)} (hsub : ∀ p ∈ ds, p ∈ nfs)
    {f : String} (h : FindMember f nfs = none) : FindMember f ds = none := by
  rw [FindMember_eq_none_iff] at h ⊢
  intro v hv
  exact h v (hsub _ hv)

theorem flat_roundtrip (write : Json → String) (ofs nfs : List (String × Json))
    (hnd : (nfs.map Prod.fst).Nodup)
    (hn : ∀ p ∈ nfs, IsQuoteScalar p.2) (hne : ∀ p ∈ nfs, ScalarInt64 p.2)
    (hoe : ∀ p ∈ ofs, ScalarInt64 p.2) :
    ∃ ds, diffMembers write ofs nfs = some ds ∧
      (∀ f v, FindMember f nfs = some v →
        ∃ rv, lookupMerged ofs ds f = some rv ∧ SameValue rv v) ∧
      (∀ f, FindMember f nfs = none → lookupMerged ofs ds f = FindMember f ofs) := by
  obtain ⟨ds, hds, hsub, hkeep⟩ := diffMembers_flat write ofs nfs hn hne hoe
  refine ⟨ds, hds, ?_, ?_⟩
  · intro f v hfv
    have hmem := mem_of_FindMember hfv
    cases hd : FindMember f ds with
    | none =>
      obtain ⟨ov, hov, hsame⟩ := hkeep f v hmem hd
      exact ⟨ov, by simp [lookupMerged, hov, hd], hsame⟩
    | some d =>
      have hdv : d = v := by
        have h1 := FindMember_of_mem_nodup hnd (hsub _ (mem_of_FindMember hd))
        rw [hfv] at h1
        exact (Option.some.inj h1).symm
      subst hdv
      cases ho : FindMember f ofs with
      | none => exact ⟨d, by simp [lookupMerged, ho, hd], SameValue_refl d⟩
      | some ov =>
        exact ⟨d, by simp [lookupMerged, ho, hd, applyDiff_scalar ov d (hn _ hmem)],
          SameValue_refl d⟩
  · intro f hf
    have hd := FindMember_none_of_subset hsub hf
    simp only [lookupMerged, hd]
    cases FindMember f ofs <;> rfl


/-! ## The diff of two quotes objects -/

theorem IsFlatQuote_obj {q : Json} (h : IsFlatQuote q) :
    ∃ fs, q = .obj fs ∧ (fs.map Prod.fst).Nodup ∧ ∀ p ∈ fs, IsQuoteScalar p.2 := by
  cases q with
  | obj fs => exact ⟨fs, rfl, h.1, h.2⟩
  | _ => exact absurd h (by simp [IsFlatQuote])

theorem diffMembers_quotes (write : Json → String) (oms nms : List (String × Json))
    (hn : ∀ p ∈ nms, IsFlatQuote p.2 ∧ FlatInt64 p.2)
    (ho : ∀ p ∈ oms, IsFlatQuote p.2 ∧ FlatInt64 p.2) :
    ∃ Ds, diffMembers write oms nms = some Ds ∧
      (∀ p ∈ Ds, (p ∈ nms ∧ FindMember p.1 oms = none) ∨
        (∃ nfs ofs ds, (p.1, Json.obj nfs) ∈ nms ∧ FindMember p.1 oms = some (.obj ofs) ∧
          diffMembers write ofs nfs = some ds ∧ p.2 = .obj ds)) ∧
      (∀ k q, (k, q) ∈ nms → FindMember k Ds = none →
        ∃ ofs nfs, q = .obj nfs ∧ FindMember k oms = some (.obj ofs) ∧
          diffMembers write ofs nfs = some []) := by
  induction nms with
  | nil => exact ⟨[], diffMembers_nil _ _, by simp, by simp⟩
  | cons p rest ih =>
    obtain ⟨k, q⟩ := p
    obtain ⟨tail, htail, hchar, hkeep⟩ := ih (fun p hp => hn p (List.mem_cons_of_mem _ hp))
    obtain ⟨hq, hqe⟩ := hn (k, q) (List.mem_cons_self _ _)
    obtain ⟨nfs, rfl, _, hnsc⟩ := IsFlatQuote_obj hq
    -- the characterisation of the members that come from the tail
    have hchar' : ∀ p ∈ tail, (p ∈ (k, Json.obj nfs) :: rest ∧ FindMember p.1 oms = none) ∨
        (∃ nfs' ofs ds, (p.1, Json.obj nfs') ∈ (k, Json.obj nfs) :: rest ∧
          FindMember p.1 oms = some (.obj ofs) ∧
          diffMembers write ofs nfs' = some ds ∧ p.2 = .obj ds) := by
      intro p hp
      rcases hchar p hp with ⟨h1, h2⟩ | ⟨nfs', ofs, ds, h1, h2, h3, h4⟩
      · exact Or.inl ⟨List.mem_cons_of_mem _ h1, h2⟩
      · exact Or.inr ⟨nfs', ofs, ds, List.mem_cons_of_mem _ h1, h2, h3, h4⟩
    cases hfo : FindMember k oms with
    | none =>
      refine ⟨(k, .obj nfs) :: tail, by rw [diffMembers_cons, htail, hfo]; rfl, ?_, ?_⟩
      · intro p hp
        rcases List.mem_cons.mp hp with rfl | hp
        · exact Or.inl ⟨List.mem_cons_self _ _, hfo⟩
        · exact hchar' p hp
      · intro k' q' hmem hnone
        by_cases hk : k = k'
        · simp [FindMember, hk] at hnone
        · simp only [FindMember, hk, if_false] at hnone
          rcases List.mem_cons.mp hmem with heq | hmem
          · cases heq; exact absurd rfl hk
          · exact hkeep k' q' hmem hnone
    | some oq =>
      obtain ⟨hoq, hoqe⟩ := ho (k, oq) (mem_of_FindMember hfo)
      obtain ⟨ofs, rfl, _, _⟩ := IsFlatQuote_obj hoq
      obtain ⟨ds, hds, _, _⟩ := diffMembers_flat write ofs nfs hnsc hqe hoqe
      have hfd : fieldDiff write k (.obj ofs) (.obj nfs) =
          match ds with
          | [] => some []
          | m :: ms => some [(k, .obj (m :: ms))] := by
        simp only [fieldDiff, Json.GetType, ne_eq, not_true_eq_false, if_false,
          ComputeJsonDiff_obj, hds, Option.map_some']
        cases ds <;> rfl
      cases ds with
      | nil =>
        refine ⟨tail, by rw [diffMembers_cons, htail, hfo]; simp only [hfd]; rfl, hchar', ?_⟩
        intro k' q' hmem hnone
        rcases List.mem_cons.mp hmem with heq | hmem
        · cases heq; exact ⟨ofs, nfs, rfl, hfo, hds⟩
        · exact hkeep k' q' hmem hnone
      | cons m ms =>
        refine ⟨(k, .obj (m :: ms)) :: tail,
          by rw [diffMembers_cons, htail, hfo]; simp only [hfd]; rfl, ?_, ?_⟩
        · intro p hp
          rcases List.mem_cons.mp hp with rfl | hp
          · exact Or.inr ⟨nfs, ofs, m :: ms, List.mem_cons_self _ _, hfo, hds, rfl⟩
          · exact hchar' p hp
        · intro k' q' hmem hnone
          by_cases hk : k = k'
          · simp [FindMember, hk] at hnone
          · simp only [FindMember, hk, if_false] at hnone
            rcases List.mem_cons.mp hmem with heq | hmem
            · cases heq; exact absurd rfl hk
            · exact hkeep k' q' hmem hnone


theorem IsQuotes_obj {j : Json} (h : IsQuotes j) :
    ∃ ms, j = .obj ms ∧ (ms.map Prod.fst).Nodup ∧ ∀ p ∈ ms, IsFlatQuote p.2 := by
  cases j with
  | obj ms => exact ⟨ms, rfl, h.1, h.2⟩
  | _ => exact absurd h (by simp [IsQuotes])

/-! ## Lemmas on sets and maps -/

theorem mapFind_mapInsert_self {V : Type} (k : String) (v : V) (m : List (String × V)) :
    mapFind k (mapInsert k v m) = some v := by
  induction m with
  | nil => simp [mapInsert, mapFind]
  | cons p m ih =>
    obtain ⟨k', v'⟩ := p
    by_cases h1 : k' = k
    · simp [mapInsert, mapFind, h1]
    · by_cases h2 : strLt k k' = true
      · simp [mapInsert, mapFind, h1, h2]
      · simp [mapInsert, mapFind, h1, h2, ih]

theorem mapFind_mapInsert_other {V : Type} (k k2 : String) (v : V) (m : List (String × V))
    (h : k2 ≠ k) : mapFind k2 (mapInsert k v m) = mapFind k2 m := by
  induction m with
  | nil => simp [mapInsert, mapFind, h.symm]
  | cons p m ih =>
    obtain ⟨k', v'⟩ := p
    by_cases h1 : k' = k
    · subst h1
      simp [mapInsert, mapFind, h.symm]
    · by_cases h2 : strLt k k' = true
      · simp [mapInsert, mapFind, h1, h2, h.symm]
      · by_cases h3 : k' = k2
        · subst h3
          simp [mapInsert, mapFind, h1, h2]
        · simp [mapInsert, mapFind, h1, h2, h3, ih]

theorem mem_setInsert (x y : String) (s : List String) :
    y ∈ setInsert x s ↔ y = x ∨ y ∈ s := by
  induction s with
  | nil => simp [setInsert]
  | cons z s ih =>
    by_cases h1 : x = z
    · subst h1
      simp [setInsert]
    · by_cases h2 : strLt x z = true
      · simp [setInsert, h1, h2]
      · have h2' : strLt x z = false := by simpa using h2
        simp only [setInsert, h1, h2', if_false, List.mem_cons, ih, Bool.false_eq_true]
        tauto

/-! ## Lemmas on peek delivery -/

theorem sentTo_sendAndStore (st : MarketDataServer) (session_id : String)
    (session : WebSocketSession) (frame full : String)
    (h : mapFind session_id st.sessions_ = some session) :
    sentTo (sendAndStore st session_id session frame full) session_id =
      sentTo st session_id ++ [frame] := by
  simp [sentTo, sendAndStore, mapFind_mapInsert_self, h, WebSocketSession.send_message]

theorem cachedInstruments_ne_nil {st : MarketDataServer} {session : WebSocketSession}
    (h : cachedInstruments st session ≠ []) : session.subscriptions_ ≠ [] := by
  intro h0
  apply h
  simp [cachedInstruments, h0]

theorem handle_peek_message_eq (parse : String → Option Json) (write : Json → String)
    (st : MarketDataServer) (session_id : String) (session : WebSocketSession)
    (hreg : mapFind session_id st.sessions_ = some session)
    (hcached : cachedInstruments st session ≠ []) :
    handle_peek_message parse write st session_id =
      match (mapFind session_id st.session_last_sent_json_).bind (lastSentQuotes parse) with
      | none =>
        some (sendAndStore st session_id session (write (fullResponse parse st session))
          (write (fullResponse parse st session)))
      | some old_quotes =>
        match ComputeJsonDiff write old_quotes (newQuotes parse st session) with
        | some (.obj []) =>
          some { st with
            pending_peek_sessions_ := setInsert session_id st.pending_peek_sessions_ }
        | some (.obj (m :: ms)) =>
          some (sendAndStore st session_id session (write (rtnData (.obj (m :: ms))))
            (write (fullResponse parse st session)))
        | _ => none := by
  have hsub := cachedInstruments_ne_nil hcached
  simp only [handle_peek_message, hreg, hsub, hcached, if_false]
  cases hl : mapFind session_id st.session_last_sent_json_ with
  | none => rfl
  | some last =>
    simp only [Option.bind, lastSentQuotes]
    cases hp : parse last with
    | none => rfl
    | some doc =>
      cases doc with
      | obj old_doc =>
        simp only []
        cases hd : FindMember "data" old_doc with
        | none => rfl
        | some data =>
          cases data with
          | arr xs =>
            cases xs with
            | nil => rfl
            | cons x xs =>
              cases x with
              | obj old_data0 =>
                simp only []
                cases hq : FindMember "quotes" old_data0 with
                | none => rfl
                | some old_quotes => rfl
              | _ => rfl
          | _ => rfl
      | _ => rfl

/-! ## Self-diff of a quotes object -/

theorem buildQuotes_congr (parse : String → Option Json) (st1 st2 : MarketDataServer)
    (hc : st1.market_data_cache_ = st2.market_data_cache_)
    (hm : st1.noheadtohead_instruments_map_ = st2.noheadtohead_instruments_map_)
    (l : List String) : buildQuotes parse st1 l = buildQuotes parse st2 l := by
  induction l with
  | nil => rfl
  | cons i rest ih => simp only [buildQuotes, displayInstrument, hc, hm, ih]

theorem cachedInstruments_congr (st1 st2 : MarketDataServer)
    (hc : st1.market_data_cache_ = st2.market_data_cache_)
    (s1 s2 : WebSocketSession) (hs : s1.subscriptions_ = s2.subscriptions_) :
    cachedInstruments st1 s1 = cachedInstruments st2 s2 := by
  simp only [cachedInstruments, hc, hs]

theorem fullResponse_congr (parse : String → Option Json) (st1 st2 : MarketDataServer)
    (hc : st1.market_data_cache_ = st2.market_data_cache_)
    (hm : st1.noheadtohead_instruments_map_ = st2.noheadtohead_instruments_map_)
    (s1 s2 : WebSocketSession) (hs : s1.subscriptions_ = s2.subscriptions_) :
    fullResponse parse st1 s1 = fullResponse parse st2 s2 := by
  simp only [fullResponse, cachedInstruments_congr st1 st2 hc s1 s2 hs,
    buildQuotes_congr parse st1 st2 hc hm]

theorem newQuotes_congr (parse : String → Option Json) (st1 st2 : MarketDataServer)
    (hc : st1.market_data_cache_ = st2.market_data_cache_)
    (hm : st1.noheadtohead_instruments_map_ = st2.noheadtohead_instruments_map_)
    (s1 s2 : WebSocketSession) (hs : s1.subscriptions_ = s2.subscriptions_) :
    newQuotes parse st1 s1 = newQuotes parse st2 s2 := by
  simp only [newQuotes, cachedInstruments_congr st1 st2 hc s1 s2 hs,
    buildQuotes_congr parse st1 st2 hc hm]

/-- The state after a peek that parks the session. -/
theorem peek_parked_again (parse : String → Option Json) (write : Json → String)
    (st : MarketDataServer) (session_id : String) (session : WebSocketSession)
    (old_quotes : Json)
    (hreg : mapFind session_id st.sessions_ = some session)
    (hcached : cachedInstruments st session ≠ [])
    (hlast : (mapFind session_id st.session_last_sent_json_).bind (lastSentQuotes parse) =
      some old_quotes)
    (hdiff : ComputeJsonDiff write old_quotes (newQuotes parse st session) = some (.obj [])) :
    handle_peek_message parse write st session_id =
      some { st with
        pending_peek_sessions_ := setInsert session_id st.pending_peek_sessions_ } := by
  rw [handle_peek_message_eq parse write st session_id session hreg hcached, hlast]
  simp only [hdiff]

/-! ## Wake-up of parked sessions -/

theorem sessionView_sendAndStore_other (st : MarketDataServer) (session_id s : String)
    (session : WebSocketSession) (frame full : String) (h : s ≠ session_id) :
    sessionView (sendAndStore st session_id session frame full) s = sessionView st s := by
  simp [sessionView, sendAndStore, mapFind_mapInsert_other _ _ _ _ h]

theorem sessionView_park_other (st : MarketDataServer) (session_id s : String)
    (h : s ≠ session_id) :
    sessionView { st with
      pending_peek_sessions_ := setInsert session_id st.pending_peek_sessions_ } s =
      sessionView st s := by
  simp [sessionView, mem_setInsert, h]

/-- A peek of one session leaves the cache, the display names and the
subscriber index as they are, and does not touch what other sessions see. -/
theorem handle_peek_message_other (parse : String → Option Json) (write : Json → String)
    (st r : MarketDataServer) (session_id : String)
    (h : handle_peek_message parse write st session_id = some r) :
    r.market_data_cache_ = st.market_data_cache_ ∧
    r.noheadtohead_instruments_map_ = st.noheadtohead_instruments_map_ ∧
    r.instrument_subscribers_ = st.instrument_subscribers_ ∧
    ∀ s, s ≠ session_id → sessionView r s = sessionView st s := by
  cases hreg : mapFind session_id st.sessions_ with
  | none =>
    simp only [handle_peek_message, hreg] at h
    cases h
    exact ⟨rfl, rfl, rfl, fun _ _ => rfl⟩
  | some session =>
    by_cases hsub : session.subscriptions_ = []
    · simp only [handle_peek_message, hreg, hsub, if_true] at h
      cases h
      exact ⟨rfl, rfl, rfl, fun _ _ => rfl⟩
    · by_cases hc : cachedInstruments st session = []
      · simp only [handle_peek_message, hreg, hsub, hc, if_true, if_false] at h
        cases h
        refine ⟨by simp [send_empty_rtn_data, hreg], by simp [send_empty_rtn_data, hreg],
          by simp [send_empty_rtn_data, hreg], ?_⟩
        intro s hs
        simp [sessionView, send_empty_rtn_data, hreg, mapFind_mapInsert_other _ _ _ _ hs]
      · rw [handle_peek_message_eq parse write st session_id session hreg hc] at h
        split at h
        · cases h
          exact ⟨rfl, rfl, rfl, fun s hs => sessionView_sendAndStore_other _ _ _ _ _ _ hs⟩
        · split at h
          · cases h
            exact ⟨rfl, rfl, rfl, fun s hs => sessionView_park_other _ _ _ hs⟩
          · cases h
            exact ⟨rfl, rfl, rfl, fun s hs => sessionView_sendAndStore_other _ _ _ _ _ _ hs⟩
          · cases h

/-- The peek of a session depends on the cache, the display names and on what
the session sees only. -/
theorem handle_peek_message_congr (parse : String → Option Json) (write : Json → String)
    (st1 st2 r1 : MarketDataServer) (session_id : String)
    (hc : st1.market_data_cache_ = st2.market_data_cache_)
    (hm : st1.noheadtohead_instruments_map_ = st2.noheadtohead_instruments_map_)
    (hv : sessionView st1 session_id = sessionView st2 session_id)
    (h : handle_peek_message parse write st1 session_id = some r1) :
    ∃ r2, handle_peek_message parse write st2 session_id = some r2 ∧
      sessionView r2 session_id = sessionView r1 session_id := by
  simp only [sessionView, Prod.mk.injEq] at hv
  obtain ⟨hs, hl, hp⟩ := hv
  cases hreg : mapFind session_id st1.sessions_ with
  | none =>
    have hreg2 : mapFind session_id st2.sessions_ = none := by rw [← hs, hreg]
    simp only [handle_peek_message, hreg] at h
    cases h
    exact ⟨st2, by simp [handle_peek_message, hreg2], by simp [sessionView, hs, hl, hp]⟩
  | some session =>
    have hreg2 : mapFind session_id st2.sessions_ = some session := by rw [← hs, hreg]
    by_cases hsub : session.subscriptions_ = []
    · simp only [handle_peek_message, hreg, hsub, if_true] at h
      cases h
      exact ⟨st2, by simp [handle_peek_message, hreg2, hsub],
        by simp [sessionView, hs, hl, hp]⟩
    · have hci := cachedInstruments_congr st1 st2 hc session session rfl
      by_cases hca : cachedInstruments st1 session = []
      · simp only [handle_peek_message, hreg, hsub, hca, if_true, if_false] at h
        cases h
        refine ⟨send_empty_rtn_data write st2 session_id, ?_, ?_⟩
        · simp [handle_peek_message, hreg2, hsub, ← hci, hca]
        · simp [sessionView, send_empty_rtn_data, hreg, hreg2, mapFind_mapInsert_self, hl, hp]
      · have hca2 : cachedInstruments st2 session ≠ [] := by rw [← hci]; exact hca
        have hf := fullResponse_congr parse st1 st2 hc hm session session rfl
        have hn := newQuotes_congr parse st1 st2 hc hm session session rfl
        rw [handle_peek_message_eq parse write st1 session_id session hreg hca] at h
        rw [handle_peek_message_eq parse write st2 session_id session hreg2 hca2, ← hl,
          ← hf, ← hn]
        split at h
        · cases h
          exact ⟨_, rfl, by simp [sessionView, sendAndStore, mapFind_mapInsert_self, hp]⟩
        · split at h
          · cases h
            exact ⟨_, rfl, by simp [sessionView, hs, hl, mem_setInsert]⟩
          · cases h
            exact ⟨_, rfl, by simp [sessionView, sendAndStore, mapFind_mapInsert_self, hp]⟩
          · cases h

/-- The wake-up loop: if the peek of every session of the list returns from the
starting state, the loop returns, and every session of the list sees what its
own peek from the starting state leaves; every other session sees no change. -/
theorem wakeSessions_spec (parse : String → Option Json) (write : Json → String) :
    ∀ (l : List String) (cur : MarketDataServer), l.Nodup →
      (∀ s ∈ l, (handle_peek_message parse write cur s).isSome) →
      ∃ st', wakeSessions parse write cur l = some st' ∧
        st'.market_data_cache_ = cur.market_data_cache_ ∧
        st'.noheadtohead_instruments_map_ = cur.noheadtohead_instruments_map_ ∧
        (∀ s ∈ l, ∀ r, handle_peek_message parse write cur s = some r →
          sessionView st' s = sessionView r s) ∧
        (∀ s, s ∉ l → sessionView st' s = sessionView cur s) := by
  intro l
  induction l with
  | nil =>
    intro cur _ _
    exact ⟨cur, rfl, rfl, rfl, by simp, fun _ _ => rfl⟩
  | cons a rest ih =>
    intro cur hnd hdef
    obtain ⟨hanot, hnd'⟩ := List.nodup_cons.mp hnd
    obtain ⟨ra, hra⟩ := Option.isSome_iff_exists.mp (hdef a (List.mem_cons_self _ _))
    obtain ⟨hc, hm, _, hother⟩ := handle_peek_message_other parse write cur ra a hra
    have hne : ∀ s ∈ rest, s ≠ a := fun s hs h => hanot (h ▸ hs)
    have hdef' : ∀ s ∈ rest, (handle_peek_message parse write ra s).isSome := by
      intro s hs
      obtain ⟨r, hr⟩ := Option.isSome_iff_exists.mp (hdef s (List.mem_cons_of_mem _ hs))
      obtain ⟨r2, hr2, _⟩ := handle_peek_message_congr parse write cur ra r s hc.symm hm.symm
        (hother s (hne s hs)).symm hr
      simp [hr2]
    obtain ⟨st', hst', hc', hm', hin, hout⟩ := ih ra hnd' hdef'
    refine ⟨st', by simp [wakeSessions, hra, hst'], hc'.trans hc, hm'.trans hm, ?_, ?_⟩
    · intro s hs r hr
      rcases List.mem_cons.mp hs with rfl | hs
      · rw [hra] at hr
        cases hr
        exact hout s hanot
      · obtain ⟨r2, hr2, hv2⟩ := handle_peek_message_congr parse write cur ra r s hc.symm
          hm.symm (hother s (hne s hs)).symm hr
        rw [hin s hs r2 hr2, hv2]
    · intro s hs
      have hsa : s ≠ a := fun h => hs (h ▸ List.mem_cons_self _ _)
      have hsr : s ∉ rest := fun h => hs (List.mem_cons_of_mem _ h)
      rw [hout s hsr, hother s hsa]

theorem cache_market_data_eq (parse : String → Option Json) (write : Json → String)
    (st : MarketDataServer) (instrument_id json_data : String) :
    cache_market_data parse write st instrument_id json_data =
      wakeSessions parse write (wakeState st instrument_id json_data)
        (sessionsToNotify st instrument_id) := rfl

theorem mem_sessionsToNotify (st : MarketDataServer) (instrument_id s : String) :
    s ∈ sessionsToNotify st instrument_id ↔
      s ∈ subscribersOf st instrument_id ∧ s ∈ st.pending_peek_sessions_ := by
  unfold sessionsToNotify subscribersOf
  cases mapFind instrument_id st.instrument_subscribers_ <;> simp

theorem sessionsToNotify_nodup (st : MarketDataServer) (instrument_id : String)
    (h : (subscribersOf st instrument_id).Nodup) :
    (sessionsToNotify st instrument_id).Nodup := by
  unfold sessionsToNotify subscribersOf at *
  cases hs : mapFind instrument_id st.instrument_subscribers_ with
  | none => simp
  | some subs =>
    rw [hs] at h
    exact h.filter _

theorem sentTo_of_sessionView {a b : MarketDataServer} {s : String}
    (h : sessionView a s = sessionView b s) :
    sentTo a s = sentTo b s ∧
      mapFind s a.session_last_sent_json_ = mapFind s b.session_last_sent_json_ ∧
      (s ∈ a.pending_peek_sessions_ ↔ s ∈ b.pending_peek_sessions_) := by
  simp only [sessionView, Prod.mk.injEq, decide_eq_decide] at h
  exact ⟨by simp [sentTo, h.1], h.2.1, h.2.2⟩

theorem buildQuotes_eq_snapshotEntries (parse : String → Option Json) (st : MarketDataServer)
    (session : WebSocketSession) :
    buildQuotes parse st (cachedInstruments st session) = snapshotEntries parse st session := by
  simp only [cachedInstruments, snapshotEntries]
  induction session.subscriptions_ with
  | nil => rfl
  | cons i rest ih =>
    cases hc : mapFind i st.market_data_cache_ with
    | none => simp [List.filter, hc, cachedQuote, ih]
    | some text =>
      cases hp : parse text with
      | none => simp [List.filter, hc, cachedQuote, hp, buildQuotes, ih]
      | some doc =>
        cases doc <;> simp [List.filter, hc, cachedQuote, hp, buildQuotes, ih]

/-- The arithmetic behind `driftParse`.  The significand of `pow10_25` has 53
bits and `pow10_25` is within half a unit of its last place of `10^25`.  The
text `7.044998175012238e40` denotes `driftAmount1` to within half a unit of the
last place, and `7.044998175012239e40` denotes `driftAmount2`.  The products
`7044998175012237 * pow10_25` and `7044998175012238 * pow10_25`, whose first
factors are below `2^53`, lie within half a unit of the last place of
`driftAmount1` and of `driftAmount2`: scaling the digits of the text of
`driftAmount1` by `pow10_25` gives the next double. -/
theorem drift_amount_arithmetic :
    2 ^ 52 ≤ pow10_25.mant ∧ pow10_25.mant < 2 ^ 53 ∧
    pow10_25.mant * 2 ^ 31 < 10 ^ 25 + 2 ^ 30 ∧ 10 ^ 25 < pow10_25.mant * 2 ^ 31 + 2 ^ 30 ∧
    2 ^ 52 ≤ driftAmount1.mant ∧ driftAmount2.mant = driftAmount1.mant + 1 ∧
    driftAmount2.mant < 2 ^ 53 ∧
    driftAmount1.mant * 2 ^ 83 < 7044998175012238 * 10 ^ 25 + 2 ^ 82 ∧
    7044998175012238 * 10 ^ 25 < driftAmount1.mant * 2 ^ 83 + 2 ^ 82 ∧
    driftAmount2.mant * 2 ^ 83 < 7044998175012239 * 10 ^ 25 + 2 ^ 82 ∧
    7044998175012239 * 10 ^ 25 < driftAmount2.mant * 2 ^ 83 + 2 ^ 82 ∧
    7044998175012238 < 2 ^ 53 ∧
    driftAmount1.mant * 2 ^ 83 < 7044998175012237 * (pow10_25.mant * 2 ^ 31) + 2 ^ 82 ∧
    7044998175012237 * (pow10_25.mant * 2 ^ 31) < driftAmount1.mant * 2 ^ 83 + 2 ^ 82 ∧
    driftAmount2.mant * 2 ^ 83 < 7044998175012238 * (pow10_25.mant * 2 ^ 31) + 2 ^ 82 ∧
    7044998175012238 * (pow10_25.mant * 2 ^ 31) < driftAmount2.mant * 2 ^ 83 + 2 ^ 82 := by
  simp only [pow10_25, driftAmount1, driftAmount2]
  norm_num

/-! ## Peeks that return -/

theorem numIsDifferent_returns (n o : Num) (hn : ScalarInt64 (.num n))
    (ho : ScalarInt64 (.num o)) : ∃ c, numIsDifferent n o = some c := by
  cases n with
  | dbl d => exact ⟨Dbl.ne d o.GetDouble, by simp [numIsDifferent, Num.IsDouble, Num.GetDouble]⟩
  | int a =>
    cases o with
    | dbl d =>
      exact ⟨Dbl.ne (intToDouble a) d, by simp [numIsDifferent, Num.IsDouble, Num.GetDouble]⟩
    | int b =>
      have ha : isInt64 a = true := hn
      have hb : isInt64 b = true := ho
      exact ⟨decide (a ≠ b),
        by simp [numIsDifferent, Num.IsDouble, Num.IsInt64, Num.GetInt64, ha, hb]⟩

theorem diffMembers_flat_returns (write : Json → String) (ofs nfs : List (String × Json))
    (hn : ∀ p ∈ nfs, IsQuoteScalar p.2) (hni : ∀ p ∈ nfs, ScalarInt64 p.2)
    (hoi : ∀ f y, FindMember f ofs = some y → ScalarInt64 y) :
    ∃ ds, diffMembers write ofs nfs = some ds := by
  induction nfs with
  | nil => exact ⟨[], diffMembers_nil _ _⟩
  | cons p rest ih =>
    obtain ⟨k, v⟩ := p
    obtain ⟨tail, htail⟩ := ih (fun p hp => hn p (List.mem_cons_of_mem _ hp))
      (fun p hp => hni p (List.mem_cons_of_mem _ hp))
    have hv := hn (k, v) (List.mem_cons_self _ _)
    have hvi := hni (k, v) (List.mem_cons_self _ _)
    rw [diffMembers_cons, htail]
    cases hfo : FindMember k ofs with
    | none => exact ⟨_, rfl⟩
    | some y =>
      by_cases ht : v.GetType = y.GetType
      · cases v with
        | null =>
          have hy := GetType_null_eq ht
          subst hy
          exact ⟨tail, by simp [fieldDiff]⟩
        | str s =>
          obtain ⟨t, rfl⟩ := GetType_str_eq ht
          by_cases hst : s = t
          · exact ⟨tail, by simp [fieldDiff, hst, Json.GetType]⟩
          · exact ⟨(k, .str s) :: tail, by simp [fieldDiff, hst, Json.GetType]⟩
        | num n =>
          obtain ⟨o, rfl⟩ := GetType_num_eq ht
          obtain ⟨c, hc⟩ := numIsDifferent_returns n o hvi (hoi k _ hfo)
          cases c with
          | true => exact ⟨(k, .num n) :: tail, by simp [fieldDiff, hc, Json.GetType]⟩
          | false => exact ⟨tail, by simp [fieldDiff, hc, Json.GetType]⟩
        | bool b => exact absurd hv (by simp [IsQuoteScalar])
        | arr xs => exact absurd hv (by simp [IsQuoteScalar])
        | obj ms => exact absurd hv (by simp [IsQuoteScalar])
      · exact ⟨(k, v) :: tail, by simp [fieldDiff, ht]⟩

theorem diffMembers_quotes_returns (write : Json → String) (oms nms : List (String × Json))
    (hn : ∀ p ∈ nms, IsFlatQuote p.2) (hni : ∀ p ∈ nms, FlatInt64 p.2)
    (hoi : ∀ p ∈ oms, FlatInt64 p.2) :
    ∃ ds, diffMembers write oms nms = some ds := by
  induction nms with
  | nil => exact ⟨[], diffMembers_nil _ _⟩
  | cons p rest ih =>
    obtain ⟨k, q⟩ := p
    obtain ⟨tail, htail⟩ := ih (fun p hp => hn p (List.mem_cons_of_mem _ hp))
      (fun p hp => hni p (List.mem_cons_of_mem _ hp))
    obtain ⟨nfs, rfl, _, hsc⟩ := IsFlatQuote_obj (hn (k, q) (List.mem_cons_self _ _))
    have hqi : FlatInt64 (.obj nfs) := hni (k, .obj nfs) (List.mem_cons_self _ _)
    rw [diffMembers_cons, htail]
    cases hfo : FindMember k oms with
    | none => exact ⟨_, rfl⟩
    | some v =>
      by_cases ht : (Json.obj nfs).GetType = v.GetType
      · obtain ⟨ofs, rfl⟩ := GetType_obj_eq ht
        obtain ⟨ds, hds⟩ := diffMembers_flat_returns write ofs nfs hsc hqi
          (fun f y hy => hoi (k, .obj ofs) (mem_of_FindMember hfo) (f, y) (mem_of_FindMember hy))
        cases ds with
        | nil => exact ⟨tail, by simp [fieldDiff, ComputeJsonDiff_obj, hds, Json.GetType]⟩
        | cons m ms =>
          exact ⟨(k, .obj (m :: ms)) :: tail, by simp [fieldDiff, ComputeJsonDiff_obj, hds, Json.GetType]⟩
      · exact ⟨(k, .obj nfs) :: tail, by simp [fieldDiff, ht]⟩

/-- The diff of the quotes of a last-sent snapshot against a fresh quotes object
of the schema returns, and returns an object. -/
theorem ComputeJsonDiff_returns (write : Json → String) (old new : Json)
    (hn : IsQuotes new) (hni : QuotesInt64 new) (hoi : QuotesInt64 old) :
    ∃ ds, ComputeJsonDiff write old new = some (.obj ds) := by
  obtain ⟨nms, rfl, _, hfl⟩ := IsQuotes_obj hn
  by_cases ht : old.GetType = (Json.obj nms).GetType
  · obtain ⟨oms, rfl⟩ := GetType_obj_eq ht.symm
    obtain ⟨ds, hds⟩ := diffMembers_quotes_returns write oms nms hfl hni hoi
    exact ⟨ds, by rw [ComputeJsonDiff_obj, hds]; rfl⟩
  · exact ⟨nms, by cases old <;> simp_all [ComputeJsonDiff]⟩

/-- A peek returns when the fresh snapshot is a quotes object of the schema with
64-bit integers and the quotes of the last-sent snapshot hold such numbers. -/
theorem handle_peek_message_returns (parse : String → Option Json) (write : Json → String)
    (st : MarketDataServer) (session_id : String)
    (hnew : ∀ session, mapFind session_id st.sessions_ = some session →
      IsQuotes (newQuotes parse st session) ∧ QuotesInt64 (newQuotes parse st session))
    (hold : ∀ old_quotes,
      (mapFind session_id st.session_last_sent_json_).bind (lastSentQuotes parse) =
        some old_quotes → QuotesInt64 old_quotes) :
    (handle_peek_message parse write st session_id).isSome := by
  cases hreg : mapFind session_id st.sessions_ with
  | none => simp [handle_peek_message, hreg]
  | some session =>
    by_cases hsub : session.subscriptions_ = []
    · simp [handle_peek_message, hreg, hsub]
    · by_cases hc : cachedInstruments st session = []
      · simp [handle_peek_message, hreg, hsub, hc]
      · rw [handle_peek_message_eq parse write st session_id session hreg hc]
        cases hl : (mapFind session_id st.session_last_sent_json_).bind
            (lastSentQuotes parse) with
        | none => rfl
        | some old_quotes =>
          obtain ⟨hq, hqi⟩ := hnew session hreg
          obtain ⟨ds, hds⟩ := ComputeJsonDiff_returns write old_quotes
            (newQuotes parse st session) hq hqi (hold old_quotes hl)
          simp only [hds]
          cases ds <;> rfl

/-- The wake-up after a cache update, provided the peek of every woken session
returns from the state in which the peeks are re-run. -/
theorem cache_market_data_spec (parse : String → Option Json)
    (write : Json → String) (st : MarketDataServer) (instrument_id json_data : String)
    (hnd : (subscribersOf st instrument_id).Nodup)
    (hdef : ∀ s ∈ sessionsToNotify st instrument_id,
      (handle_peek_message parse write (wakeState st instrument_id json_data) s).isSome) :
    ∃ st', cache_market_data parse write st instrument_id json_data = some st' ∧
      mapFind instrument_id st'.market_data_cache_ = some json_data ∧
      (∀ s session old_quotes,
        s ∈ st.pending_peek_sessions_ → s ∈ subscribersOf st instrument_id →
        mapFind s st.sessions_ = some session → instrument_id ∈ session.subscriptions_ →
        (mapFind s st.session_last_sent_json_).bind (lastSentQuotes parse) = some old_quotes →
        (ComputeJsonDiff write old_quotes
            (newQuotes parse (wakeState st instrument_id json_data) session) = some (.obj []) →
          s ∈ st'.pending_peek_sessions_ ∧ sentTo st' s = sentTo st s) ∧
        (∀ m ms, ComputeJsonDiff write old_quotes
            (newQuotes parse (wakeState st instrument_id json_data) session) =
              some (.obj (m :: ms)) →
          sentTo st' s = sentTo st s ++ [write (rtnData (.obj (m :: ms)))] ∧
          s ∉ st'.pending_peek_sessions_)) ∧
      (∀ s, s ∈ st.pending_peek_sessions_ → s ∉ subscribersOf st instrument_id →
        s ∈ st'.pending_peek_sessions_ ∧ sentTo st' s = sentTo st s) := by
  obtain ⟨st', hst', hc, _, hin, hout⟩ := wakeSessions_spec parse write
    (sessionsToNotify st instrument_id) (wakeState st instrument_id json_data)
    (sessionsToNotify_nodup st instrument_id hnd) hdef
  refine ⟨st', by rw [cache_market_data_eq]; exact hst', ?_, ?_, ?_⟩
  · rw [hc]
    simp [wakeState, mapFind_mapInsert_self]
  · intro s session old_quotes hpend hsub hreg hinst hlast
    have hwoken : s ∈ sessionsToNotify st instrument_id :=
      (mem_sessionsToNotify st instrument_id s).mpr ⟨hsub, hpend⟩
    have hreg' : mapFind s (wakeState st instrument_id json_data).sessions_ = some session :=
      hreg
    have hcached : cachedInstruments (wakeState st instrument_id json_data) session ≠ [] := by
      have : instrument_id ∈ cachedInstruments (wakeState st instrument_id json_data) session := by
        simp only [cachedInstruments, List.mem_filter]
        exact ⟨hinst, by simp [wakeState, mapFind_mapInsert_self]⟩
      exact List.ne_nil_of_mem this
    have heq := handle_peek_message_eq parse write (wakeState st instrument_id json_data) s
      session hreg' hcached
    have hlast' : (mapFind s (wakeState st instrument_id json_data).session_last_sent_json_).bind
        (lastSentQuotes parse) = some old_quotes := hlast
    rw [hlast'] at heq
    constructor
    · intro hd
      simp only [hd] at heq
      obtain ⟨h1, _, h3⟩ := sentTo_of_sessionView (hin s hwoken _ heq)
      refine ⟨h3.mpr (by simp [mem_setInsert]), ?_⟩
      rw [h1]
      rfl
    · intro m ms hd
      simp only [hd] at heq
      obtain ⟨h1, _, h3⟩ := sentTo_of_sessionView (hin s hwoken _ heq)
      constructor
      · rw [h1, sentTo_sendAndStore _ s session _ _ hreg']
        rfl
      · intro hmem
        have := h3.mp hmem
        simp only [sendAndStore, wakeState, List.mem_filter, decide_eq_true_eq] at this
        exact this.2 hwoken
  · intro s hpend hsub
    have hnot : s ∉ sessionsToNotify st instrument_id := fun h =>
      hsub ((mem_sessionsToNotify st instrument_id s).mp h).1
    obtain ⟨h1, _, h3⟩ := sentTo_of_sessionView (hout s hnot)
    refine ⟨h3.mpr ?_, by rw [h1]; rfl⟩
    simp only [wakeState, List.mem_filter, decide_eq_true_eq]
    exact ⟨hpend, hnot⟩

theorem mapFind_mapSetInsert_self (k x : String) (m : List (String × List String)) :
    ∃ s, mapFind k (mapSetInsert k x m) = some s ∧ x ∈ s := by
  unfold mapSetInsert
  cases h : mapFind k m with
  | none => exact ⟨[x], mapFind_mapInsert_self _ _ _, by simp⟩
  | some s => exact ⟨setInsert x s, mapFind_mapInsert_self _ _ _, by simp [mem_setInsert]⟩

theorem subscribe_instrument_subscribed (env : Env) (c : CTPConnection) (instrument_id : String) :
    (c.subscribe_instrument env instrument_id).1.subscribed_instruments_ =
        c.subscribed_instruments_ ∨
      (c.subscribe_instrument env instrument_id).1.subscribed_instruments_ =
        setInsert instrument_id c.subscribed_instruments_ := by
  unfold CTPConnection.subscribe_instrument
  split
  · exact Or.inl rfl
  · split
    · exact Or.inl rfl
    · split
      · exact Or.inl rfl
      · split
        · exact Or.inr rfl
        · exact Or.inl rfl

theorem subscribe_instrument_true (env : Env) (c : CTPConnection) (instrument_id : String)
    (h : (c.subscribe_instrument env instrument_id).2 = true) :
    instrument_id ∈ (c.subscribe_instrument env instrument_id).1.subscribed_instruments_ := by
  unfold CTPConnection.subscribe_instrument at h ⊢
  split
  · rename_i h1; simp [h1] at h
  · split
    · rename_i h2; exact h2
    · split
      · rename_i h1 h2 h3; simp [h1, h2, h3] at h
      · split
        · simp [mem_setInsert]
        · rename_i h1 h2 h3 h4; simp [h1, h2, h3, h4] at h

/-- The pool after `execute_subscription` differs from the pool before at the
connection `connection_id` at most. -/
theorem execute_subscription_other (env : Env) (m : CTPConnectionManager)
    (instrument_id connection_id k : String) (hk : k ≠ connection_id) :
    mapFind k (execute_subscription env m instrument_id connection_id).1.connections_ =
      mapFind k m.connections_ := by
  unfold execute_subscription CTPConnectionManager.get_connection
  cases mapFind connection_id m.connections_ with
  | none => rfl
  | some c => exact mapFind_mapInsert_other _ _ _ _ hk

theorem execute_subscription_subscribed (env : Env) (m : CTPConnectionManager)
    (instrument_id connection_id k : String)
    (c c' : CTPConnection) (h : mapFind k m.connections_ = some c)
    (h' : mapFind k (execute_subscription env m instrument_id connection_id).1.connections_ =
      some c') :
    c'.subscribed_instruments_ = c.subscribed_instruments_ ∨
      c'.subscribed_instruments_ = setInsert instrument_id c.subscribed_instruments_ := by
  by_cases hk : k = connection_id
  · subst hk
    simp only [execute_subscription, CTPConnectionManager.get_connection, h,
      mapFind_mapInsert_self, Option.some.injEq] at h'
    rw [← h']
    exact subscribe_instrument_subscribed env c instrument_id
  · rw [execute_subscription_other env m instrument_id connection_id k hk, h] at h'
    cases h'
    exact Or.inl rfl

theorem execute_subscription_true (env : Env) (m : CTPConnectionManager)
    (instrument_id connection_id : String)
    (h : (execute_subscription env m instrument_id connection_id).2 = true) :
    ∃ c, mapFind connection_id
        (execute_subscription env m instrument_id connection_id).1.connections_ = some c ∧
      instrument_id ∈ c.subscribed_instruments_ := by
  unfold execute_subscription CTPConnectionManager.get_connection at h ⊢
  cases hc : mapFind connection_id m.connections_ with
  | none => simp [hc] at h
  | some c =>
    simp only [hc] at h ⊢
    exact ⟨_, mapFind_mapInsert_self _ _ _, subscribe_instrument_true env c instrument_id h⟩

/-- The new-instrument branch of `add_subscription`: the connection selected
(if any) and the result of `execute_subscription` on it. -/
theorem add_subscription_new (env : Env) (now : Int) (d : SubscriptionDispatcher)
    (session_id instrument_id : String)
    (hnew : mapFind instrument_id d.global_subscriptions_ = none) :
    ((add_subscription env now d session_id instrument_id).1.connection_manager_ =
        d.connection_manager_ ∧
      (add_subscription env now d session_id instrument_id).2 = false) ∨
    ∃ cid,
      (add_subscription env now d session_id instrument_id).1.connection_manager_ =
        (execute_subscription env d.connection_manager_ instrument_id cid).1 ∧
      (add_subscription env now d session_id instrument_id).2 =
        (execute_subscription env d.connection_manager_ instrument_id cid).2 ∧
      ((add_subscription env now d session_id instrument_id).2 = true →
        ∃ info, mapFind instrument_id
            (add_subscription env now d session_id instrument_id).1.global_subscriptions_ =
              some info ∧
          info.assigned_connection_id = cid) := by
  simp only [add_subscription, hnew]
  split
  · exact Or.inl ⟨rfl, rfl⟩
  · rename_i best hbest
    right
    refine ⟨best.config_.connection_id, ?_⟩
    split
    · rename_i hr
      exact ⟨rfl, hr.symm, fun _ => ⟨_, mapFind_mapInsert_self _ _ _, rfl⟩⟩
    · rename_i hr
      refine ⟨rfl, ?_, fun h => by cases h⟩
      simp only [Bool.not_eq_true] at hr
      exact hr.symm

/-! ## The claims on the diff and on peek delivery -/

/-- Claim C1: diff round trip.  For quotes objects `old` and `new` (instrument
names pairwise distinct, each quote a flat object with pairwise distinct names
and null, string or number values; numbers are doubles or 64-bit integers),
`ComputeJsonDiff old new` returns a diff, and merging it into `old` gives an
object that agrees with `new` on every member of `new`, at both levels, and
keeps the members that only `old` has.  Numbers are compared numerically: as
doubles if either is a double, as integers otherwise. -/
theorem diff_round_trip (write : Json → String) (old new : Json)
    (ho : IsQuotes old) (hn : IsQuotes new)
    (hoe : QuotesInt64 old) (hne : QuotesInt64 new) :
    DiffRoundTrip write old new := by
  obtain ⟨oms, rfl, _, hofl⟩ := IsQuotes_obj ho
  obtain ⟨nms, rfl, hnnd, hnfl⟩ := IsQuotes_obj hn
  obtain ⟨Ds, hDs, hchar, hkeep⟩ := diffMembers_quotes write oms nms
    (fun p hp => ⟨hnfl p hp, hne p hp⟩) (fun p hp => ⟨hofl p hp, hoe p hp⟩)
  refine ⟨.obj Ds, by rw [ComputeJsonDiff_obj, hDs]; rfl, ?_, ?_⟩
  · intro inst q hq
    simp only [Json.member] at hq
    have hqmem := mem_of_FindMember hq
    obtain ⟨nfs, rfl, hnfnd, hnsc⟩ := IsFlatQuote_obj (hnfl _ hqmem)
    rw [member_applyDiff_obj]
    cases hfo : FindMember inst oms with
    | none =>
      cases hD : FindMember inst Ds with
      | none =>
        obtain ⟨ofs, _, _, h, _⟩ := hkeep inst _ hqmem hD
        rw [hfo] at h; cases h
      | some D =>
        rcases hchar _ (mem_of_FindMember hD) with ⟨h1, _⟩ | ⟨_, ofs, _, _, h2, _, _⟩
        · have h3 := FindMember_of_mem_nodup hnnd h1
          rw [hq] at h3
          cases h3
          refine ⟨.obj nfs, by simp [lookupMerged, hfo, hD], ?_, ?_⟩
          · intro f v hv
            exact ⟨v, hv, SameValue_refl v⟩
          · intro oq hoq
            simp [Json.member, hfo] at hoq
        · rw [hfo] at h2; cases h2
    | some oq =>
      have homem := mem_of_FindMember hfo
      obtain ⟨ofs, rfl, _, _⟩ := IsFlatQuote_obj (hofl _ homem)
      obtain ⟨ds, hds, hagree, hold⟩ := flat_roundtrip write ofs nfs hnfnd hnsc
        (hne _ hqmem) (hoe _ homem)
      cases hD : FindMember inst Ds with
      | none =>
        obtain ⟨ofs', nfs', hq', h, hnil⟩ := hkeep inst _ hqmem hD
        cases hq'
        rw [hfo] at h; cases h
        rw [hds] at hnil; cases hnil
        refine ⟨.obj ofs, by simp [lookupMerged, hfo, hD], ?_, ?_⟩
        · intro f v hv
          obtain ⟨rv, hrv, hsame⟩ := hagree f v hv
          rw [lookupMerged_nil] at hrv
          exact ⟨rv, hrv, hsame⟩
        · intro oq hoq f _
          simp only [Json.member, hfo, Option.some.injEq] at hoq
          rw [← hoq]
      | some D =>
        rcases hchar _ (mem_of_FindMember hD) with ⟨_, h2⟩ | ⟨nfs', ofs', ds', h1, h2, h3, h4⟩
        · rw [hfo] at h2; cases h2
        · have h5 := FindMember_of_mem_nodup hnnd h1
          simp only at h5 h2 h4
          rw [hq] at h5; cases h5
          rw [hfo] at h2; cases h2
          rw [hds] at h3; cases h3
          subst h4
          refine ⟨applyDiff (.obj ofs) (.obj ds), by simp [lookupMerged, hfo, hD], ?_, ?_⟩
          · intro f v hv
            rw [member_applyDiff_obj]
            exact hagree f v hv
          · intro oq hoq f hf
            simp only [Json.member, hfo, Option.some.injEq] at hoq
            rw [← hoq, member_applyDiff_obj]
            exact hold f hf
  · intro inst hinst
    simp only [Json.member] at hinst
    rw [member_applyDiff_obj]
    have hD : FindMember inst Ds = none := by
      rw [FindMember_eq_none_iff] at hinst ⊢
      intro v hv
      rcases hchar _ hv with ⟨h1, _⟩ | ⟨nfs', _, _, h1, _⟩
      · exact hinst _ h1
      · exact hinst _ h1
    simp only [lookupMerged, hD, Json.member]
    cases FindMember inst oms <;> rfl


/-- Claim C1, witness: the round trip from the first sample quote to the
second. -/
theorem diff_round_trip_witness :
    DiffRoundTrip sampleWrite (.obj [("SHFE.cu2501", sampleQuote)])
      (.obj [("SHFE.cu2501", sampleQuote2)]) :=
  diff_round_trip sampleWrite (.obj [("SHFE.cu2501", sampleQuote)])
    (.obj [("SHFE.cu2501", sampleQuote2)]) (by decide) (by decide) (by decide) (by decide)

/-- Claim C2: whenever `handle_peek_message` sends a frame that carries quotes
to a registered session (the first full snapshot or a non-empty diff), the
session's last-sent text afterwards is the serialised full snapshot built from
the current cache, not the diff frame. -/
theorem peek_stores_full_snapshot (parse : String → Option Json) (write : Json → String)
    (st st' : MarketDataServer) (session_id : String) (session : WebSocketSession)
    (hreg : mapFind session_id st.sessions_ = some session)
    (hcached : cachedInstruments st session ≠ [])
    (hpeek : handle_peek_message parse write st session_id = some st')
    (hsent : sentTo st' session_id ≠ sentTo st session_id) :
    mapFind session_id st'.session_last_sent_json_ =
      some (write (fullResponse parse st session)) := by
  have hsub := cachedInstruments_ne_nil hcached
  have hfull : ∀ frame, mapFind session_id
      (sendAndStore st session_id session frame
        (write (fullResponse parse st session))).session_last_sent_json_ =
      some (write (fullResponse parse st session)) := by
    intro frame
    simp [sendAndStore, mapFind_mapInsert_self]
  have hpark : ∀ p, sentTo { st with pending_peek_sessions_ := p } session_id =
      sentTo st session_id := fun _ => rfl
  simp only [handle_peek_message, hreg, hsub, hcached, if_false] at hpeek
  split at hpeek
  · cases hpeek; exact hfull _
  · split at hpeek
    · split at hpeek
      · split at hpeek
        · split at hpeek
          · cases hpeek; exact absurd (hpark _) hsent
          · cases hpeek; exact hfull _
          · cases hpeek
        · cases hpeek; exact hfull _
      · cases hpeek; exact hfull _
    · cases hpeek; exact hfull _

/-- Claim C2, witness: the first peek of the sample session sends the snapshot
and stores it. -/
theorem peek_stores_full_snapshot_witness :
    mapFind "s1" sampleServer2.session_last_sent_json_ =
      some (sampleWrite (fullResponse sampleParse sampleServer1
        { subscriptions_ := ["cu2501"], sent := [] })) :=
  peek_stores_full_snapshot sampleParse sampleWrite sampleServer1 sampleServer2 "s1"
    { subscriptions_ := ["cu2501"], sent := [] } rfl (by decide) rfl (by decide)

/-- Claim C4 as stated fails: a registered session without any subscription has
no subscribed instrument with a cached quote, and a peek sends it no frame. -/
theorem peek_idle_session_no_reply :
    mapFind "s1" idleServer.sessions_ = some { subscriptions_ := [], sent := [] } ∧
    (∀ i ∈ ([] : List String), mapFind i idleServer.market_data_cache_ = none) ∧
    ¬ RepliesEmpty sampleParse sampleWrite idleServer "s1" := by
  refine ⟨rfl, by simp, ?_⟩
  rintro ⟨st', h, hsent, _, _⟩
  have h0 : handle_peek_message sampleParse sampleWrite idleServer "s1" = some idleServer := rfl
  rw [h0] at h
  cases h
  have : sentTo idleServer "s1" = [] := rfl
  rw [this] at hsent
  simp at hsent

/-- Claim C4, amended: a registered session with at least one subscription, none of
them with a cache entry, gets exactly one frame from a peek, the empty
`rtn_data` document; its last-sent text and the pending set are unchanged. -/
theorem peek_no_cached_quote_replies_empty (parse : String → Option Json)
    (write : Json → String) (st : MarketDataServer) (session_id : String)
    (session : WebSocketSession)
    (hreg : mapFind session_id st.sessions_ = some session)
    (hsub : session.subscriptions_ ≠ [])
    (hnone : ∀ i ∈ session.subscriptions_, mapFind i st.market_data_cache_ = none) :
    RepliesEmpty parse write st session_id := by
  have hc : cachedInstruments st session = [] := by
    simp only [cachedInstruments, List.filter_eq_nil_iff]
    intro i hi
    simp [hnone i hi]
  refine ⟨send_empty_rtn_data write st session_id, ?_, ?_, ?_, ?_⟩
  · simp [handle_peek_message, hreg, hsub, hc]
  · simp [sentTo, send_empty_rtn_data, hreg, mapFind_mapInsert_self,
      WebSocketSession.send_message]
  · simp [send_empty_rtn_data, hreg]
  · simp [send_empty_rtn_data, hreg]

/-- Claim C4, amended, witness: the sample session before any tick. -/
theorem peek_no_cached_quote_replies_empty_witness :
    RepliesEmpty sampleParse sampleWrite sampleServer0 "s1" :=
  peek_no_cached_quote_replies_empty sampleParse sampleWrite sampleServer0 "s1"
    { subscriptions_ := ["cu2501"], sent := [] } rfl (by decide) (by decide)

/-- Claim C5: when the session has a last-sent snapshot and the diff between its
`data[0].quotes` and the quotes of the freshly built snapshot is empty,
`handle_peek_message` sends no frame, inserts the session into the pending set
and leaves the last-sent texts unchanged. -/
theorem peek_empty_diff_parks (parse : String → Option Json) (write : Json → String)
    (st : MarketDataServer) (session_id : String) (session : WebSocketSession)
    (last_sent : String) (old_quotes : Json)
    (hreg : mapFind session_id st.sessions_ = some session)
    (hcached : cachedInstruments st session ≠ [])
    (hlast : mapFind session_id st.session_last_sent_json_ = some last_sent)
    (hold : lastSentQuotes parse last_sent = some old_quotes)
    (hdiff : ComputeJsonDiff write old_quotes (newQuotes parse st session) = some (.obj [])) :
    ∃ st', handle_peek_message parse write st session_id = some st' ∧
      sentTo st' session_id = sentTo st session_id ∧
      session_id ∈ st'.pending_peek_sessions_ ∧
      (∀ s, s ∈ st'.pending_peek_sessions_ ↔ s = session_id ∨ s ∈ st.pending_peek_sessions_) ∧
      st'.session_last_sent_json_ = st.session_last_sent_json_ := by
  refine ⟨_, peek_parked_again parse write st session_id session old_quotes hreg hcached
    (by simp [hlast, hold]) hdiff, rfl, by simp [mem_setInsert], ?_, rfl⟩
  intro s
  exact mem_setInsert session_id s st.pending_peek_sessions_

/-- Claim C5, witness: the sample session peeks again before any further tick. -/
theorem peek_empty_diff_parks_witness :
    ∃ st', handle_peek_message sampleParse sampleWrite sampleServer2 "s1" = some st' ∧
      sentTo st' "s1" = sentTo sampleServer2 "s1" ∧
      "s1" ∈ st'.pending_peek_sessions_ ∧
      (∀ s, s ∈ st'.pending_peek_sessions_ ↔
        s = "s1" ∨ s ∈ sampleServer2.pending_peek_sessions_) ∧
      st'.session_last_sent_json_ = sampleServer2.session_last_sent_json_ :=
  peek_empty_diff_parks sampleParse sampleWrite sampleServer2 "s1"
    { subscriptions_ := ["cu2501"], sent := ["quotes1"] } "quotes1"
    (.obj [("SHFE.cu2501", sampleQuote)]) rfl (by decide) rfl rfl rfl

/-- Claim C6, amended: after `cache_market_data(I, q)` the cache maps `I` to `q`;
every session that was parked and is a subscriber of `I` has left the pending
set and had its peek re-evaluated against the new cache: it is parked again
without a frame if the diff of its fresh snapshot against its last-sent quotes
is empty, and receives exactly one frame, that diff, if it is not; every parked
session that is no subscriber of `I` stays parked and receives no frame.  The
snapshots of the woken sessions are quotes objects of the schema with 64-bit
integers, and the quotes of their last-sent snapshots hold such numbers. -/
theorem cache_update_wakes_parked_subscribers (parse : String → Option Json)
    (write : Json → String) (st : MarketDataServer) (instrument_id json_data : String)
    (hnd : (subscribersOf st instrument_id).Nodup)
    (hnew : ∀ s ∈ sessionsToNotify st instrument_id, ∀ session,
      mapFind s st.sessions_ = some session →
      IsQuotes (newQuotes parse (wakeState st instrument_id json_data) session) ∧
        QuotesInt64 (newQuotes parse (wakeState st instrument_id json_data) session))
    (hold : ∀ s ∈ sessionsToNotify st instrument_id, ∀ old_quotes,
      (mapFind s st.session_last_sent_json_).bind (lastSentQuotes parse) = some old_quotes →
      QuotesInt64 old_quotes) :
    ∃ st', cache_market_data parse write st instrument_id json_data = some st' ∧
      mapFind instrument_id st'.market_data_cache_ = some json_data ∧
      (∀ s session old_quotes,
        s ∈ st.pending_peek_sessions_ → s ∈ subscribersOf st instrument_id →
        mapFind s st.sessions_ = some session → instrument_id ∈ session.subscriptions_ →
        (mapFind s st.session_last_sent_json_).bind (lastSentQuotes parse) = some old_quotes →
        (ComputeJsonDiff write old_quotes
            (newQuotes parse (wakeState st instrument_id json_data) session) = some (.obj []) →
          s ∈ st'.pending_peek_sessions_ ∧ sentTo st' s = sentTo st s) ∧
        (∀ m ms, ComputeJsonDiff write old_quotes
            (newQuotes parse (wakeState st instrument_id json_data) session) =
              some (.obj (m :: ms)) →
          sentTo st' s = sentTo st s ++ [write (rtnData (.obj (m :: ms)))] ∧
          s ∉ st'.pending_peek_sessions_)) ∧
      (∀ s, s ∈ st.pending_peek_sessions_ → s ∉ subscribersOf st instrument_id →
        s ∈ st'.pending_peek_sessions_ ∧ sentTo st' s = sentTo st s) :=
  cache_market_data_spec parse write st instrument_id json_data hnd
    (fun s hs => handle_peek_message_returns parse write
      (wakeState st instrument_id json_data) s (hnew s hs) (hold s hs))

/-- Claim C6 as stated fails: a parked session that subscribed to a second,
already cached instrument is sent a frame by an update of `cu2501` that
repeats the quote its last-sent snapshot holds, instead of being parked again. -/
theorem wake_sends_frame_for_unchanged_quote :
    "s1" ∈ lateSubscriberServer.pending_peek_sessions_ ∧
    "s1" ∈ subscribersOf lateSubscriberServer "cu2501" ∧
    (lastSentQuotes sampleParse "quotes1").bind (fun q => q.member "SHFE.cu2501") =
      sampleParse "tick1" ∧
    ∃ st', cache_market_data sampleParse sampleWrite lateSubscriberServer "cu2501" "tick1" =
        some st' ∧
      sentTo st' "s1" = sentTo lateSubscriberServer "s1" ++ ["quotes1"] ∧
      "s1" ∉ st'.pending_peek_sessions_ := by
  refine ⟨by decide, by decide, rfl, _, rfl, rfl, by decide⟩

/-- Claim C6, amended, witness: the parked sample session is woken by the second
tick of `cu2501`. -/
theorem cache_update_wakes_parked_subscribers_witness :
    ∃ st', cache_market_data sampleParse sampleWrite sampleServer3 "cu2501" "tick2" = some st' ∧
      mapFind "cu2501" st'.market_data_cache_ = some "tick2" ∧
      (∀ s session old_quotes,
        s ∈ sampleServer3.pending_peek_sessions_ → s ∈ subscribersOf sampleServer3 "cu2501" →
        mapFind s sampleServer3.sessions_ = some session → "cu2501" ∈ session.subscriptions_ →
        (mapFind s sampleServer3.session_last_sent_json_).bind (lastSentQuotes sampleParse) =
          some old_quotes →
        (ComputeJsonDiff sampleWrite old_quotes
            (newQuotes sampleParse (wakeState sampleServer3 "cu2501" "tick2") session) =
              some (.obj []) →
          s ∈ st'.pending_peek_sessions_ ∧ sentTo st' s = sentTo sampleServer3 s) ∧
        (∀ m ms, ComputeJsonDiff sampleWrite old_quotes
            (newQuotes sampleParse (wakeState sampleServer3 "cu2501" "tick2") session) =
              some (.obj (m :: ms)) →
          sentTo st' s = sentTo sampleServer3 s ++ [sampleWrite (rtnData (.obj (m :: ms)))] ∧
          s ∉ st'.pending_peek_sessions_)) ∧
      (∀ s, s ∈ sampleServer3.pending_peek_sessions_ → s ∉ subscribersOf sampleServer3 "cu2501" →
        s ∈ st'.pending_peek_sessions_ ∧ sentTo st' s = sentTo sampleServer3 s) := by
  have hwoken : sessionsToNotify sampleServer3 "cu2501" = ["s1"] := by decide
  refine cache_update_wakes_parked_subscribers sampleParse sampleWrite sampleServer3 "cu2501"
    "tick2" (by decide) ?_ ?_
  · intro s hs session hreg
    rw [hwoken, List.mem_singleton] at hs
    subst hs
    have hsession : session = { subscriptions_ := ["cu2501"], sent := ["quotes1"] } := by
      have h : mapFind "s1" sampleServer3.sessions_ =
          some { subscriptions_ := ["cu2501"], sent := ["quotes1"] } := rfl
      rw [h] at hreg
      exact (Option.some.inj hreg).symm
    subst hsession
    have hq : newQuotes sampleParse (wakeState sampleServer3 "cu2501" "tick2")
        { subscriptions_ := ["cu2501"], sent := ["quotes1"] } =
        .obj [("SHFE.cu2501", sampleQuote2)] := rfl
    rw [hq]
    exact ⟨by decide, by decide⟩
  · intro s hs old_quotes hold
    rw [hwoken, List.mem_singleton] at hs
    subst hs
    have h : (mapFind "s1" sampleServer3.session_last_sent_json_).bind
        (lastSentQuotes sampleParse) = some (.obj [("SHFE.cu2501", sampleQuote)]) := rfl
    rw [h] at hold
    cases hold
    decide

/-- Claim C7: for a registered session without a last-sent snapshot and with at
least one subscribed instrument that has a cached quote, `handle_peek_message`
sends exactly one frame, the `rtn_data` document whose quotes object has one
entry per subscribed instrument with a cached quote, named by the display name
of the instrument and holding its cached quote object. -/
theorem first_peek_sends_full_snapshot (parse : String → Option Json) (write : Json → String)
    (st : MarketDataServer) (session_id : String) (session : WebSocketSession)
    (hreg : mapFind session_id st.sessions_ = some session)
    (hnolast : mapFind session_id st.session_last_sent_json_ = none)
    (hquote : ∃ i ∈ session.subscriptions_, ∃ q, cachedQuote parse st i = some q) :
    ∃ st', handle_peek_message parse write st session_id = some st' ∧
      sentTo st' session_id =
        sentTo st session_id ++ [write (rtnData (.obj (snapshotEntries parse st session)))] := by
  have hcached : cachedInstruments st session ≠ [] := by
    obtain ⟨i, hi, q, hq⟩ := hquote
    have hmem : i ∈ cachedInstruments st session := by
      simp only [cachedInstruments, List.mem_filter]
      refine ⟨hi, ?_⟩
      cases hc : mapFind i st.market_data_cache_ with
      | none => simp [cachedQuote, hc] at hq
      | some text => rfl
    exact List.ne_nil_of_mem hmem
  refine ⟨sendAndStore st session_id session (write (fullResponse parse st session))
    (write (fullResponse parse st session)), ?_, ?_⟩
  · rw [handle_peek_message_eq parse write st session_id session hreg hcached, hnolast]
    rfl
  · rw [sentTo_sendAndStore st session_id session _ _ hreg, fullResponse,
      buildQuotes_eq_snapshotEntries]

/-- Claim C7, witness: the first peek of the sample session after the first tick. -/
theorem first_peek_sends_full_snapshot_witness :
    ∃ st', handle_peek_message sampleParse sampleWrite sampleServer1 "s1" = some st' ∧
      sentTo st' "s1" = sentTo sampleServer1 "s1" ++
        [sampleWrite (rtnData (.obj (snapshotEntries sampleParse sampleServer1
          { subscriptions_ := ["cu2501"], sent := [] })))] :=
  first_peek_sends_full_snapshot sampleParse sampleWrite sampleServer1 "s1"
    { subscriptions_ := ["cu2501"], sent := [] } rfl rfl
    ⟨"cu2501", by decide, sampleQuote, rfl⟩

/-! ## The claims on the dispatcher -/

/-- Claim C8 fails on the code: session `A` asks for `cu2501` while no connection
is available, so the entry is `FAILED`; ten minutes later
`cleanup_expired_subscriptions` erases the entry from `global_subscriptions_`
but not the instrument from `session_subscriptions_["A"]`, and the two indexes
disagree. -/
theorem cleanup_breaks_index_consistency :
    IndexConsistent offlineDispatcher ∧ IndexConsistent failedDispatcher ∧
      mapFind "A" cleanedDispatcher.session_subscriptions_ = some ["cu2501"] ∧
      mapFind "cu2501" cleanedDispatcher.global_subscriptions_ = none ∧
      ¬ IndexConsistent cleanedDispatcher := by
  have h1 : mapFind "A" cleanedDispatcher.session_subscriptions_ = some ["cu2501"] := by decide
  have h2 : mapFind "cu2501" cleanedDispatcher.global_subscriptions_ = none := by decide
  refine ⟨?_, ?_, h1, h2, ?_⟩
  · intro s i
    simp [offlineDispatcher, freshDispatcher, mapFind]
  · intro s i
    have hs : failedDispatcher.session_subscriptions_ = [("A", ["cu2501"])] := by decide
    have hg : failedDispatcher.global_subscriptions_ =
        [("cu2501", ⟨"cu2501", "", .FAILED, ["A"], 0, 0, 0⟩)] := by decide
    rw [hs, hg]
    by_cases h : s = "A" <;> by_cases h' : i = "cu2501" <;>
      simp [mapFind, h, h', eq_comm]
  · intro hcons
    have := (hcons "A" "cu2501").mp ⟨["cu2501"], h1, by simp⟩
    rw [h2] at this
    simp at this

/-- Claim C9 as stated fails in both directions.  After session `A` asked for
`cu2501` while no connection was available, the entry has a requesting session
and the instrument is in the subscribed set of no connection; after `cu2501`
was subscribed on `c1` and then migrated to `c2` by a heartbeat time-out of
`c1`, it is in the subscribed sets of both connections. -/
theorem deduplication_zero_or_two_connections :
    (∃ info, mapFind "cu2501" failedDispatcher.global_subscriptions_ = some info ∧
      info.requesting_sessions = ["A"]) ∧
    (∀ p ∈ failedDispatcher.connection_manager_.connections_, "cu2501" ∉ p.2.subscribed_instruments_) ∧
    (∃ info, mapFind "cu2501" migratedDispatcher.global_subscriptions_ = some info ∧
      info.requesting_sessions = ["A"]) ∧
    (∃ c1 c2, mapFind "c1" migratedDispatcher.connection_manager_.connections_ = some c1 ∧
      mapFind "c2" migratedDispatcher.connection_manager_.connections_ = some c2 ∧
      "cu2501" ∈ c1.subscribed_instruments_ ∧ "cu2501" ∈ c2.subscribed_instruments_) := by
  refine ⟨⟨⟨"cu2501", "", .FAILED, ["A"], 0, 0, 0⟩, by decide, rfl⟩, by decide,
    ⟨⟨"cu2501", "c2", .SUBSCRIBING, ["A"], 0, 1, 0⟩, by decide, rfl⟩, ?_⟩
  refine ⟨{ sampleConnection "c1" .LOGGED_IN with
      subscribed_instruments_ := ["cu2501"], error_count_ := 1 },
    { sampleConnection "c2" .LOGGED_IN with subscribed_instruments_ := ["cu2501"] },
    by decide, by decide, by decide, by decide⟩

/-- Claim C9, amended: deduplication of upstream subscribes, per call.
`add_subscription(s, I)` changes no connection when `I` already has an entry;
otherwise it changes at most one connection, whose subscribed set gains at most
`I`; and when it returns true for a new instrument, `I` is in the subscribed
set of the connection the entry is assigned to. -/
theorem add_subscription_subscribes_on_one_connection (env : Env) (now : Int) (d : SubscriptionDispatcher)
    (session_id instrument_id : String) :
    (mapFind instrument_id d.global_subscriptions_ ≠ none →
      (add_subscription env now d session_id instrument_id).1.connection_manager_.connections_ = d.connection_manager_.connections_) ∧
    (∃ cid, ∀ k, k ≠ cid →
      mapFind k (add_subscription env now d session_id instrument_id).1.connection_manager_.connections_ =
        mapFind k d.connection_manager_.connections_) ∧
    (∀ k c c', mapFind k d.connection_manager_.connections_ = some c →
      mapFind k (add_subscription env now d session_id instrument_id).1.connection_manager_.connections_ = some c' →
      c'.subscribed_instruments_ = c.subscribed_instruments_ ∨
        c'.subscribed_instruments_ = setInsert instrument_id c.subscribed_instruments_) ∧
    (mapFind instrument_id d.global_subscriptions_ = none →
      (add_subscription env now d session_id instrument_id).2 = true →
      ∃ info c,
        mapFind instrument_id
          (add_subscription env now d session_id instrument_id).1.global_subscriptions_ =
            some info ∧
        mapFind info.assigned_connection_id
          (add_subscription env now d session_id instrument_id).1.connection_manager_.connections_ = some c ∧
        instrument_id ∈ c.subscribed_instruments_) := by
  cases hg : mapFind instrument_id d.global_subscriptions_ with
  | some info =>
    have hconn : (add_subscription env now d session_id instrument_id).1.connection_manager_.connections_ =
        d.connection_manager_.connections_ := by
      simp [add_subscription, hg]
    refine ⟨fun _ => hconn, ⟨"", fun k _ => by rw [hconn]⟩, ?_, fun h => by cases h⟩
    intro k c c' hc hc'
    rw [hconn, hc] at hc'
    cases hc'
    exact Or.inl rfl
  | none =>
    refine ⟨fun h => absurd rfl h, ?_, ?_, ?_⟩
    · rcases add_subscription_new env now d session_id instrument_id hg with
        ⟨hconn, _⟩ | ⟨cid, hconn, _, _⟩
      · exact ⟨"", fun k _ => by rw [hconn]⟩
      · exact ⟨cid, fun k hk => by
          rw [hconn]; exact execute_subscription_other env _ _ _ k hk⟩
    · intro k c c' hc hc'
      rcases add_subscription_new env now d session_id instrument_id hg with
        ⟨hconn, _⟩ | ⟨cid, hconn, _, _⟩
      · rw [hconn, hc] at hc'
        cases hc'
        exact Or.inl rfl
      · rw [hconn] at hc'
        exact execute_subscription_subscribed env _ _ _ k c c' hc hc'
    · intro _ htrue
      rcases add_subscription_new env now d session_id instrument_id hg with
        ⟨_, hfalse⟩ | ⟨cid, hconn, hres, hinfo⟩
      · rw [hfalse] at htrue
        cases htrue
      · obtain ⟨info, hi, hcid⟩ := hinfo htrue
        obtain ⟨c, hc, hmem⟩ := execute_subscription_true env d.connection_manager_ instrument_id cid
          (by rw [← hres]; exact htrue)
        exact ⟨info, c, hi, by rw [hcid, hconn]; exact hc, hmem⟩

/-- Claim C10: `add_subscription(s, I)` for an instrument that already has an
entry returns true, adds `s` to the entry's `requesting_sessions` and `I` to
`session_subscriptions_[s]`, leaves the entry's status, assigned connection and
retry count as they are, and leaves every connection (so every subscribed set)
unchanged: it makes no subscribe call. -/
theorem add_subscription_existing_entry (env : Env) (now : Int) (d : SubscriptionDispatcher)
    (session_id instrument_id : String) (info : SubscriptionInfo)
    (h : mapFind instrument_id d.global_subscriptions_ = some info) :
    (add_subscription env now d session_id instrument_id).2 = true ∧
    (∃ info', mapFind instrument_id
        (add_subscription env now d session_id instrument_id).1.global_subscriptions_ =
          some info' ∧
      (∀ s, s ∈ info'.requesting_sessions ↔ s = session_id ∨ s ∈ info.requesting_sessions) ∧
      info'.status = info.status ∧
      info'.assigned_connection_id = info.assigned_connection_id ∧
      info'.retry_count = info.retry_count) ∧
    (∃ instruments, mapFind session_id
        (add_subscription env now d session_id instrument_id).1.session_subscriptions_ =
          some instruments ∧
      instrument_id ∈ instruments) ∧
    (add_subscription env now d session_id instrument_id).1.connection_manager_.connections_ = d.connection_manager_.connections_ := by
  have hr : add_subscription env now d session_id instrument_id =
      ({ d with
          total_subscriptions_processed_ := d.total_subscriptions_processed_ + 1
          global_subscriptions_ := mapInsert instrument_id
            { info with requesting_sessions := setInsert session_id info.requesting_sessions }
            d.global_subscriptions_
          session_subscriptions_ :=
            mapSetInsert session_id instrument_id d.session_subscriptions_ }, true) := by
    simp [add_subscription, h]
  rw [hr]
  refine ⟨rfl, ⟨_, mapFind_mapInsert_self _ _ _, ?_, rfl, rfl, rfl⟩,
    mapFind_mapSetInsert_self _ _ _, rfl⟩
  intro s
  exact mem_setInsert session_id s info.requesting_sessions

/-- Claim C10, witness: session `B` joins the subscription of `cu2501` that
session `A` holds on `c1`. -/
theorem add_subscription_existing_entry_witness :
    (add_subscription sampleEnv 3 activeDispatcher "B" "cu2501").2 = true ∧
    (∃ info', mapFind "cu2501"
        (add_subscription sampleEnv 3 activeDispatcher "B" "cu2501").1.global_subscriptions_ =
          some info' ∧
      (∀ s, s ∈ info'.requesting_sessions ↔
        s = "B" ∨ s ∈ (⟨"cu2501", "c1", .ACTIVE, ["A"], 0, 1, 0⟩ :
          SubscriptionInfo).requesting_sessions) ∧
      info'.status = .ACTIVE ∧
      info'.assigned_connection_id = "c1" ∧
      info'.retry_count = 0) ∧
    (∃ instruments, mapFind "B"
        (add_subscription sampleEnv 3 activeDispatcher "B" "cu2501").1.session_subscriptions_ =
          some instruments ∧
      "cu2501" ∈ instruments) ∧
    (add_subscription sampleEnv 3 activeDispatcher "B" "cu2501").1.connection_manager_.connections_ =
      activeDispatcher.connection_manager_.connections_ :=
  add_subscription_existing_entry sampleEnv 3 activeDispatcher "B" "cu2501"
    ⟨"cu2501", "c1", .ACTIVE, ["A"], 0, 1, 0⟩ (by decide)

/-! ## Lemmas on connections -/

theorem length_setInsert_le (x : String) (s : List String) :
    (setInsert x s).length ≤ s.length + 1 := by
  induction s with
  | nil => simp [setInsert]
  | cons y ys ih =>
    unfold setInsert
    split
    · simp
    · split
      · simp
      · simp only [List.length_cons]
        omega

theorem length_setErase_le (x : String) (s : List String) :
    (setErase x s).length ≤ s.length := by
  unfold setErase
  exact List.length_filter_le _ _

theorem mem_setErase (x y : String) (s : List String) :
    y ∈ setErase x s ↔ y ∈ s ∧ y ≠ x := by
  simp [setErase]

theorem subscribe_instrument_config (env : Env) (c : CTPConnection) (instrument_id : String) :
    (c.subscribe_instrument env instrument_id).1.config_ = c.config_ := by
  unfold CTPConnection.subscribe_instrument
  repeat' split
  all_goals rfl

theorem subscribe_instrument_withinCap (env : Env) (c : CTPConnection) (instrument_id : String)
    (h : c.WithinCap) : (c.subscribe_instrument env instrument_id).1.WithinCap := by
  unfold CTPConnection.WithinCap at h ⊢
  unfold CTPConnection.subscribe_instrument
  split
  · exact h
  · split
    · exact h
    · split
      · exact h
      · rename_i hlt
        split
        · have := length_setInsert_le instrument_id c.subscribed_instruments_
          simp only [ge_iff_le, not_le] at hlt
          simp only
          omega
        · exact h

theorem unsubscribe_instrument_withinCap (env : Env) (c : CTPConnection) (instrument_id : String)
    (h : c.WithinCap) : (c.unsubscribe_instrument env instrument_id).1.WithinCap := by
  unfold CTPConnection.WithinCap at h ⊢
  unfold CTPConnection.unsubscribe_instrument
  split
  · exact h
  · split
    · exact h
    · split
      · have := length_setErase_le instrument_id c.subscribed_instruments_
        simp only
        omega
      · exact h

theorem step_withinCap (c c' : CTPConnection) (hs : CTPConnection.Step c c') (h : c.WithinCap) :
    c'.WithinCap := by
  cases hs with
  | start api_created =>
    unfold CTPConnection.start
    repeat' split
    all_goals exact h
  | stop => simp [CTPConnection.WithinCap, CTPConnection.stop]
  | subscribe_instrument env _ instrument_id =>
    exact subscribe_instrument_withinCap env c instrument_id h
  | unsubscribe_instrument env _ instrument_id =>
    exact unsubscribe_instrument_withinCap env c instrument_id h
  | OnFrontConnected now ret =>
    unfold CTPConnection.OnFrontConnected CTPConnection.login
    split
    all_goals exact h
  | OnFrontDisconnected => exact h
  | OnRspUserLogin failed =>
    unfold CTPConnection.OnRspUserLogin
    split
    all_goals exact h
  | OnRspSubMarketData failed =>
    unfold CTPConnection.OnRspSubMarketData
    split
    all_goals exact h
  | OnRspUnSubMarketData failed =>
    unfold CTPConnection.OnRspUnSubMarketData
    split
    all_goals exact h
  | OnRtnDepthMarketData now now2 => exact h
  | OnRspError failed =>
    unfold CTPConnection.OnRspError CTPConnection.handle_connection_error
    repeat' split
    all_goals exact h

theorem reachable_withinCap (c : CTPConnection) (h : c.Reachable) : c.WithinCap := by
  induction h with
  | new config now => simp [CTPConnection.WithinCap, CTPConnection.new]
  | step c c' _ hs ih => exact step_withinCap c c' hs ih

theorem toSizeT_le (n : Int) (h : 0 ≤ n) : (toSizeT n : Int) ≤ n := by
  unfold toSizeT
  omega

/-! ## Further lemmas on maps and sets -/

theorem mapFind_mapErase_self {V : Type} (k : String) (m : List (String × V)) :
    mapFind k (mapErase k m) = none := by
  induction m with
  | nil => rfl
  | cons p m ih =>
    obtain ⟨k', v'⟩ := p
    by_cases h : k' = k
    · simpa [mapErase, h] using ih
    · simpa [mapErase, h, mapFind] using ih

theorem mapFind_mapErase_other {V : Type} (k k2 : String) (m : List (String × V))
    (h : k2 ≠ k) : mapFind k2 (mapErase k m) = mapFind k2 m := by
  induction m with
  | nil => rfl
  | cons p m ih =>
    obtain ⟨k', v'⟩ := p
    unfold mapErase at ih ⊢
    by_cases h1 : k' = k
    · subst h1
      have h2 : ¬ k' = k2 := fun e => h e.symm
      rw [List.filter_cons_of_neg (by simp)]
      simp only [mapFind, h2, if_false]
      exact ih
    · rw [List.filter_cons_of_pos (by simpa using h1)]
      by_cases h2 : k' = k2
      · simp only [mapFind, h2, if_true]
      · simp only [mapFind, h2, if_false]
        exact ih

theorem mem_of_mapFind {V : Type} {k : String} {v : V} {m : List (String × V)}
    (h : mapFind k m = some v) : (k, v) ∈ m := by
  induction m with
  | nil => simp [mapFind] at h
  | cons p m ih =>
    obtain ⟨k', v'⟩ := p
    by_cases h1 : k' = k
    · simp only [mapFind, h1, if_true, Option.some.injEq] at h
      simp [h1, h]
    · simp only [mapFind, h1, if_false] at h
      exact List.mem_cons_of_mem _ (ih h)

theorem mapFind_of_mem_nodup {V : Type} {k : String} {v : V} {m : List (String × V)}
    (hnd : (m.map Prod.fst).Nodup) (h : (k, v) ∈ m) : mapFind k m = some v := by
  induction m with
  | nil => simp at h
  | cons p m ih =>
    obtain ⟨k', v'⟩ := p
    simp only [List.map_cons, List.nodup_cons] at hnd
    rcases List.mem_cons.mp h with h1 | h1
    · cases h1
      simp [mapFind]
    · have hne : k' ≠ k := by
        intro e
        apply hnd.1
        rw [e]
        exact List.mem_map_of_mem Prod.fst h1
      simp only [mapFind, hne, if_false]
      exact ih hnd.2 h1

theorem charsLt_irrefl (a : List Char) : charsLt a a = false := by
  induction a with
  | nil => rfl
  | cons x xs ih => simp [charsLt, ih]

theorem charsLt_asymm (a b : List Char) (h : charsLt a b = true) : charsLt b a = false := by
  induction a generalizing b with
  | nil =>
    cases b with
    | nil => rfl
    | cons y ys => rfl
  | cons x xs ih =>
    cases b with
    | nil => simp [charsLt] at h
    | cons y ys =>
      unfold charsLt at h ⊢
      by_cases h1 : x.toNat < y.toNat
      · have h2 : ¬ y.toNat < x.toNat := by omega
        simp [h2, h1]
      · by_cases h2 : y.toNat < x.toNat
        · simp [h1, h2] at h
        · simp only [h1, h2, if_false] at h ⊢
          exact ih ys h

theorem strLt_irrefl (a : String) : strLt a a = false := charsLt_irrefl _

theorem strLt_asymm (a b : String) (h : strLt a b = true) : strLt b a = false :=
  charsLt_asymm _ _ h

theorem KeysSorted.nodup {V : Type} {m : List (String × V)} (h : KeysSorted m) :
    (m.map Prod.fst).Nodup := by
  unfold KeysSorted at h
  refine List.Pairwise.imp ?_ h
  intro a b hab e
  rw [e, strLt_irrefl] at hab
  cases hab

theorem KeysSorted.tail {V : Type} {p : String × V} {m : List (String × V)}
    (h : KeysSorted (p :: m)) : KeysSorted m := by
  unfold KeysSorted at h ⊢
  simp only [List.map_cons, List.pairwise_cons] at h
  exact h.2

/-- In a sorted map an assignment to a key that is present replaces the value in
place: the keys stay as they are. -/
theorem keys_mapInsert_of_mapFind {V : Type} (k : String) (v w : V) (m : List (String × V))
    (hs : KeysSorted m) (h : mapFind k m = some w) :
    (mapInsert k v m).map Prod.fst = m.map Prod.fst := by
  induction m with
  | nil => simp [mapFind] at h
  | cons p m ih =>
    obtain ⟨k', v'⟩ := p
    by_cases h1 : k' = k
    · simp [mapInsert, h1]
    · simp only [mapFind, h1, if_false] at h
      have hmem : k ∈ m.map Prod.fst := List.mem_map_of_mem Prod.fst (mem_of_mapFind h)
      have hlt : strLt k k' = false := by
        unfold KeysSorted at hs
        simp only [List.map_cons, List.pairwise_cons] at hs
        exact strLt_asymm _ _ (hs.1 k hmem)
      simp [mapInsert, h1, hlt, ih hs.tail h]

theorem KeysSorted.mapInsert_of_mapFind {V : Type} (k : String) (v w : V)
    (m : List (String × V)) (hs : KeysSorted m) (h : mapFind k m = some w) :
    KeysSorted (mapInsert k v m) := by
  unfold KeysSorted
  rw [keys_mapInsert_of_mapFind k v w m hs h]
  exact hs

theorem mem_mapInsert_of_mapFind {V : Type} (k : String) (v w : V) (m : List (String × V))
    (hs : KeysSorted m) (h : mapFind k m = some w) (p : String × V)
    (hp : p ∈ mapInsert k v m) : p = (k, v) ∨ (p ∈ m ∧ p.1 ≠ k) := by
  induction m with
  | nil => simp [mapFind] at h
  | cons q m ih =>
    obtain ⟨k', v'⟩ := q
    by_cases h1 : k' = k
    · subst h1
      simp only [mapInsert, if_true, List.mem_cons] at hp
      rcases hp with hp | hp
      · exact Or.inl hp
      · right
        refine ⟨List.mem_cons_of_mem _ hp, ?_⟩
        intro e
        have hnd := hs.nodup
        simp only [List.map_cons, List.nodup_cons] at hnd
        apply hnd.1
        rw [← e]
        exact List.mem_map_of_mem Prod.fst hp
    · simp only [mapFind, h1, if_false] at h
      have hmem : k ∈ m.map Prod.fst := List.mem_map_of_mem Prod.fst (mem_of_mapFind h)
      have hlt : strLt k k' = false := by
        unfold KeysSorted at hs
        simp only [List.map_cons, List.pairwise_cons] at hs
        exact strLt_asymm _ _ (hs.1 k hmem)
      simp only [mapInsert, h1, hlt, if_false, List.mem_cons, Bool.false_eq_true] at hp
      rcases hp with hp | hp
      · right
        subst hp
        exact ⟨List.mem_cons_self _ _, h1⟩
      · rcases ih hs.tail h hp with h2 | h2
        · exact Or.inl h2
        · exact Or.inr ⟨List.mem_cons_of_mem _ h2.1, h2.2⟩

/-! ## Lemmas on the selection of a connection -/

theorem mem_get_available_connections (m : CTPConnectionManager) (c : CTPConnection) :
    c ∈ m.get_available_connections ↔
      ∃ k, (k, c) ∈ m.connections_ ∧ c.status_ = .LOGGED_IN ∧
        c.subscribed_instruments_.length < toSizeT c.config_.max_subscriptions := by
  unfold CTPConnectionManager.get_available_connections
    CTPConnection.can_accept_more_subscriptions
  simp only [List.mem_map, List.mem_filter, Bool.and_eq_true, decide_eq_true_eq]
  constructor
  · rintro ⟨⟨k, c'⟩, ⟨hmem, hst, hcap⟩, rfl⟩
    simp only at hst hcap ⊢
    rw [if_neg (by simp [hst])] at hcap
    exact ⟨k, hmem, hst, by simpa using hcap⟩
  · rintro ⟨k, hmem, hst, hcap⟩
    refine ⟨(k, c), ⟨hmem, hst, ?_⟩, rfl⟩
    simp [hst, hcap]

/-- In a well-formed pool an available connection is the connection that
`get_connection` finds under its id. -/
theorem get_connection_of_available (m : CTPConnectionManager) (hwf : m.WellFormed)
    (c : CTPConnection) (h : c ∈ m.get_available_connections) :
    m.get_connection c.config_.connection_id = some c ∧ c.status_ = .LOGGED_IN ∧
      c.subscribed_instruments_.length < toSizeT c.config_.max_subscriptions := by
  obtain ⟨k, hmem, hst, hcap⟩ := (mem_get_available_connections m c).mp h
  refine ⟨?_, hst, hcap⟩
  have hk := hwf.2 (k, c) hmem
  simp only at hk
  rw [hk]
  exact mapFind_of_mem_nodup hwf.1.nodup hmem

theorem select_connection_round_robin_mem (d : SubscriptionDispatcher) (c : CTPConnection)
    (h : (select_connection_round_robin d).1 = some c) :
    c ∈ d.connection_manager_.get_available_connections := by
  unfold select_connection_round_robin at h
  simp only at h
  split at h
  · cases h
  · exact List.getElem?_mem h

theorem leastLoop_mem (best : CTPConnection) (n : Nat) (l : List CTPConnection) :
    leastLoop best n l = best ∨ leastLoop best n l ∈ l := by
  induction l generalizing best n with
  | nil => exact Or.inl rfl
  | cons conn rest ih =>
    unfold leastLoop
    split
    · rcases ih conn conn.get_subscription_count with h | h
      · rw [h]; exact Or.inr (List.mem_cons_self _ _)
      · exact Or.inr (List.mem_cons_of_mem _ h)
    · rcases ih best n with h | h
      · exact Or.inl h
      · exact Or.inr (List.mem_cons_of_mem _ h)

theorem select_connection_least_connections_mem (d : SubscriptionDispatcher)
    (c : CTPConnection) (h : select_connection_least_connections d = some c) :
    c ∈ d.connection_manager_.get_available_connections := by
  unfold select_connection_least_connections at h
  split at h
  · cases h
  · rename_i first rest heq
    rw [heq]
    simp only [Option.some.injEq] at h
    rw [← h]
    rcases leastLoop_mem first first.get_subscription_count (first :: rest) with h1 | h1
    · rw [h1]; exact List.mem_cons_self _ _
    · exact h1

theorem qualityLoop_mem (best : CTPConnection) (n : Int) (l : List CTPConnection) :
    qualityLoop best n l = best ∨ qualityLoop best n l ∈ l := by
  induction l generalizing best n with
  | nil => exact Or.inl rfl
  | cons conn rest ih =>
    unfold qualityLoop
    split
    · rcases ih conn (calculate_connection_score conn) with h | h
      · rw [h]; exact Or.inr (List.mem_cons_self _ _)
      · exact Or.inr (List.mem_cons_of_mem _ h)
    · rcases ih best n with h | h
      · exact Or.inl h
      · exact Or.inr (List.mem_cons_of_mem _ h)

theorem select_connection_by_quality_mem (d : SubscriptionDispatcher)
    (c : CTPConnection) (h : select_connection_by_quality d = some c) :
    c ∈ d.connection_manager_.get_available_connections := by
  unfold select_connection_by_quality at h
  split at h
  · cases h
  · rename_i first rest heq
    rw [heq]
    simp only [Option.some.injEq] at h
    rw [← h]
    rcases qualityLoop_mem first (calculate_connection_score first) (first :: rest) with h1 | h1
    · rw [h1]; exact List.mem_cons_self _ _
    · exact h1

theorem select_connection_by_hash_mem (env : Env) (d : SubscriptionDispatcher)
    (instrument_id : String) (c : CTPConnection)
    (h : select_connection_by_hash env d instrument_id = some c) :
    c ∈ d.connection_manager_.get_available_connections := by
  unfold select_connection_by_hash at h
  simp only at h
  split at h
  · cases h
  · exact List.getElem?_mem h

theorem select_connection_by_quality_none (d : SubscriptionDispatcher)
    (h : d.connection_manager_.get_available_connections = []) :
    select_connection_by_quality d = none := by
  unfold select_connection_by_quality
  rw [h]

theorem select_connection_by_quality_some (d : SubscriptionDispatcher)
    (h : d.connection_manager_.get_available_connections ≠ []) :
    ∃ c, select_connection_by_quality d = some c := by
  unfold select_connection_by_quality
  cases hav : d.connection_manager_.get_available_connections with
  | nil => exact absurd hav h
  | cons first rest => exact ⟨_, rfl⟩

theorem getElem?_mod_ne_none {α : Type} (l : List α) (i : Nat) (h : l ≠ []) :
    l[i % l.length]? ≠ none := by
  have hpos : 0 < l.length := List.length_pos.mpr h
  have hlt : i % l.length < l.length := Nat.mod_lt _ hpos
  simp [List.getElem?_eq_none_iff, hlt]

theorem select_connection_round_robin_none (d : SubscriptionDispatcher)
    (h : (select_connection_round_robin d).1 = none) :
    d.connection_manager_.get_available_connections = [] := by
  unfold select_connection_round_robin at h
  simp only at h
  split at h
  · assumption
  · rename_i hne
    exact absurd h (getElem?_mod_ne_none _ _ hne)

theorem select_connection_least_connections_none (d : SubscriptionDispatcher)
    (h : select_connection_least_connections d = none) :
    d.connection_manager_.get_available_connections = [] := by
  unfold select_connection_least_connections at h
  split at h
  · assumption
  · cases h

theorem select_connection_by_quality_available (d : SubscriptionDispatcher)
    (h : select_connection_by_quality d = none) :
    d.connection_manager_.get_available_connections = [] := by
  unfold select_connection_by_quality at h
  split at h
  · assumption
  · cases h

theorem select_connection_by_hash_none (env : Env) (d : SubscriptionDispatcher)
    (instrument_id : String) (h : select_connection_by_hash env d instrument_id = none) :
    d.connection_manager_.get_available_connections = [] := by
  unfold select_connection_by_hash at h
  simp only at h
  split at h
  · assumption
  · rename_i hne
    exact absurd h (getElem?_mod_ne_none _ _ hne)

/-- The connection chosen by `add_subscription` for a new instrument, as a
function of the strategy: the `switch` of `add_subscription`. -/
theorem add_subscription_new_eq (env : Env) (now : Int) (d : SubscriptionDispatcher)
    (session_id instrument_id : String)
    (hnew : mapFind instrument_id d.global_subscriptions_ = none) :
    (∀ best, best ∉ d.connection_manager_.get_available_connections) ∧
      (add_subscription env now d session_id instrument_id).2 = false ∧
      (add_subscription env now d session_id instrument_id).1.connection_manager_ =
        d.connection_manager_ ∧
      mapFind instrument_id
        (add_subscription env now d session_id instrument_id).1.global_subscriptions_ =
        some { SubscriptionInfo.new instrument_id now with
          requesting_sessions := [session_id], status := .FAILED } ∨
    ∃ best, best ∈ d.connection_manager_.get_available_connections ∧
      (add_subscription env now d session_id instrument_id).2 =
        (execute_subscription env d.connection_manager_ instrument_id
          best.config_.connection_id).2 ∧
      (add_subscription env now d session_id instrument_id).1.connection_manager_ =
        (execute_subscription env d.connection_manager_ instrument_id
          best.config_.connection_id).1 ∧
      mapFind instrument_id
        (add_subscription env now d session_id instrument_id).1.global_subscriptions_ =
        some { SubscriptionInfo.new instrument_id now with
          requesting_sessions := [session_id]
          assigned_connection_id := best.config_.connection_id
          status :=
            if (execute_subscription env d.connection_manager_ instrument_id
              best.config_.connection_id).2 then .SUBSCRIBING else .FAILED } := by
  simp only [add_subscription, hnew]
  split
  · rename_i hsel
    left
    refine ⟨?_, rfl, rfl, mapFind_mapInsert_self _ _ _⟩
    intro best hbest
    cases hs : d.load_balance_strategy_ <;> simp only [hs] at hsel
    · rw [select_connection_round_robin_none _ hsel] at hbest
      cases hbest
    · rw [select_connection_least_connections_none _ hsel] at hbest
      cases hbest
    · rw [select_connection_by_quality_available _ hsel] at hbest
      cases hbest
    · rw [select_connection_by_hash_none env _ instrument_id hsel] at hbest
      cases hbest
  · rename_i best hsel
    right
    refine ⟨best, ?_, ?_⟩
    · cases hs : d.load_balance_strategy_ <;> simp only [hs] at hsel
      · exact select_connection_round_robin_mem _ best hsel
      · exact select_connection_least_connections_mem _ best hsel
      · exact select_connection_by_quality_mem _ best hsel
      · exact select_connection_by_hash_mem env _ instrument_id best hsel
    · split
      · rename_i hr
        refine ⟨hr.symm, rfl, ?_⟩
        simp only [hr, if_true]
        exact mapFind_mapInsert_self _ _ _
      · rename_i hr
        simp only [Bool.not_eq_true] at hr
        refine ⟨hr.symm, rfl, ?_⟩
        simp only [hr, Bool.false_eq_true, if_false]
        exact mapFind_mapInsert_self _ _ _

/-! ## Lemmas on `remove_subscription` -/

theorem setErase_eq_nil_iff (x : String) (s : List String) :
    setErase x s = [] ↔ ∀ y ∈ s, y = x := by
  unfold setErase
  rw [List.filter_eq_nil_iff]
  simp

theorem mapFind_mapSetErase_other (k x k2 : String) (m : List (String × List String))
    (h : k2 ≠ k) : mapFind k2 (mapSetErase k x m) = mapFind k2 m := by
  unfold mapSetErase
  cases mapFind k m with
  | none => rfl
  | some s =>
    simp only
    split
    · exact mapFind_mapErase_other _ _ _ h
    · exact mapFind_mapInsert_other _ _ _ _ h

theorem mapFind_mapSetErase_self (k x : String) (m : List (String × List String)) :
    mapFind k (mapSetErase k x m) =
      match mapFind k m with
      | none => none
      | some s => if setErase x s = [] then none else some (setErase x s) := by
  unfold mapSetErase
  cases h : mapFind k m with
  | none => simp [h]
  | some s =>
    simp only
    split
    · exact mapFind_mapErase_self _ _
    · exact mapFind_mapInsert_self _ _ _

theorem not_mem_mapSetErase (k x : String) (m : List (String × List String))
    (s : List String) (h : mapFind k (mapSetErase k x m) = some s) : x ∉ s := by
  rw [mapFind_mapSetErase_self] at h
  cases hm : mapFind k m with
  | none => simp [hm] at h
  | some s0 =>
    simp only [hm] at h
    split at h
    · cases h
    · cases h
      simp [mem_setErase]

/-- The three outcomes of `remove_subscription`, by the entry of the
instrument. -/
theorem remove_subscription_eq (env : Env) (d : SubscriptionDispatcher)
    (session_id instrument_id : String) :
    (remove_subscription env d session_id instrument_id).2 = true ∧
    (remove_subscription env d session_id instrument_id).1.session_subscriptions_ =
      mapSetErase session_id instrument_id d.session_subscriptions_ ∧
    (remove_subscription env d session_id instrument_id).1.global_subscriptions_ =
      match mapFind instrument_id d.global_subscriptions_ with
      | none => d.global_subscriptions_
      | some info =>
        if setErase session_id info.requesting_sessions = [] then
          mapErase instrument_id d.global_subscriptions_
        else
          mapInsert instrument_id
            { info with requesting_sessions := setErase session_id info.requesting_sessions }
            d.global_subscriptions_ := by
  cases h : mapFind instrument_id d.global_subscriptions_ with
  | none =>
    simp only [remove_subscription, h]
    exact ⟨trivial, trivial, trivial⟩
  | some info =>
    simp only [remove_subscription, h]
    split
    · exact ⟨rfl, rfl, rfl⟩
    · exact ⟨rfl, rfl, rfl⟩

/-! ## Lemmas on the reachable states of the dispatcher -/

theorem KeepsSessions.refl (d : SubscriptionDispatcher) : KeepsSessions d d :=
  ⟨rfl, fun _ _ h => h⟩

theorem KeepsSessions.trans {a b c : SubscriptionDispatcher} (h1 : KeepsSessions a b)
    (h2 : KeepsSessions b c) : KeepsSessions a c :=
  ⟨h2.1.trans h1.1, fun i s h => h1.2 i s (h2.2 i s h)⟩

theorem KeepsSessions.sessionsIndexed {d d' : SubscriptionDispatcher} (h : KeepsSessions d d')
    (hd : SessionsIndexed d) : SessionsIndexed d' := by
  refine ⟨fun s i hs => ?_, fun s => ?_⟩
  · rw [h.1]
    exact hd.1 s i (h.2 i s hs)
  · rw [h.1]
    exact hd.2 s

theorem KeepsSessions.foldl {α : Type} (f : SubscriptionDispatcher → α → SubscriptionDispatcher)
    (hf : ∀ d a, KeepsSessions d (f d a)) (l : List α) (d : SubscriptionDispatcher) :
    KeepsSessions d (l.foldl f d) := by
  induction l generalizing d with
  | nil => exact KeepsSessions.refl d
  | cons a l ih => exact (hf d a).trans (ih (f d a))

/-- An operation that leaves the two session fields of the state as they are
keeps the sessions. -/
theorem KeepsSessions.of_eq {d d' : SubscriptionDispatcher}
    (h1 : d'.session_subscriptions_ = d.session_subscriptions_)
    (h2 : d'.global_subscriptions_ = d.global_subscriptions_) : KeepsSessions d d' := by
  refine ⟨h1, fun i s h => ?_⟩
  unfold requestingSessions at h ⊢
  rw [h2] at h
  exact h

/-- An operation that rewrites the entry of one instrument without touching its
requesting sessions keeps the sessions. -/
theorem KeepsSessions.of_update {d d' : SubscriptionDispatcher} (instrument_id : String)
    (info info' : SubscriptionInfo)
    (h1 : d'.session_subscriptions_ = d.session_subscriptions_)
    (hinfo : mapFind instrument_id d.global_subscriptions_ = some info)
    (h2 : d'.global_subscriptions_ = mapInsert instrument_id info' d.global_subscriptions_)
    (h3 : info'.requesting_sessions = info.requesting_sessions) : KeepsSessions d d' := by
  refine ⟨h1, fun i s h => ?_⟩
  unfold requestingSessions at h ⊢
  rw [h2] at h
  by_cases hi : i = instrument_id
  · subst hi
    rw [mapFind_mapInsert_self] at h
    rw [hinfo]
    simp only at h ⊢
    rw [← h3]
    exact h
  · rw [mapFind_mapInsert_other _ _ _ _ hi] at h
    exact h

theorem migrate_subscription_keepsSessions (env : Env) (d : SubscriptionDispatcher)
    (instrument_id from_connection_id to_connection_id : String) :
    KeepsSessions d
      (migrate_subscription env d instrument_id from_connection_id to_connection_id) := by
  unfold migrate_subscription
  cases h : mapFind instrument_id d.global_subscriptions_ with
  | none => exact KeepsSessions.refl d
  | some info =>
    simp only
    split
    · exact KeepsSessions.of_update instrument_id info _ rfl h rfl rfl
    · exact KeepsSessions.of_update instrument_id info _ rfl h rfl rfl

theorem mapFind_map_entry {V : Type} (f : V → V) (k : String) (m : List (String × V)) :
    mapFind k (m.map (fun p => (p.1, f p.2))) = (mapFind k m).map f := by
  induction m with
  | nil => rfl
  | cons p m ih =>
    obtain ⟨k', v'⟩ := p
    by_cases h : k' = k
    · simp [mapFind, h]
    · simpa [mapFind, h] using ih

/-- The marking of `handle_connection_failure` as a map over the entries. -/
theorem markFailed_global (d : SubscriptionDispatcher) (connection_id : String) :
    (markFailed d connection_id).global_subscriptions_ =
      d.global_subscriptions_.map (fun p => (p.1,
        if p.2.assigned_connection_id = connection_id ∧ p.2.status = .ACTIVE then
          { p.2 with status := .FAILED }
        else p.2)) := by
  unfold markFailed
  simp only
  congr 1
  funext p
  split <;> rfl

theorem mapFind_markFailed (d : SubscriptionDispatcher) (connection_id instrument_id : String) :
    mapFind instrument_id (markFailed d connection_id).global_subscriptions_ =
      (mapFind instrument_id d.global_subscriptions_).map (fun info =>
        if info.assigned_connection_id = connection_id ∧ info.status = .ACTIVE then
          { info with status := .FAILED }
        else info) := by
  rw [markFailed_global]
  exact mapFind_map_entry (fun info =>
    if info.assigned_connection_id = connection_id ∧ info.status = .ACTIVE then
      { info with status := .FAILED }
    else info) instrument_id d.global_subscriptions_

theorem markFailed_keepsSessions (d : SubscriptionDispatcher) (connection_id : String) :
    KeepsSessions d (markFailed d connection_id) := by
  refine ⟨rfl, fun i s h => ?_⟩
  unfold requestingSessions at h ⊢
  rw [mapFind_markFailed] at h
  cases hm : mapFind i d.global_subscriptions_ with
  | none => simp [hm] at h
  | some info =>
    simp only [hm, Option.map_some'] at h
    split at h
    · exact h
    · exact h

theorem handle_connection_failure_keepsSessions (env : Env) (d : SubscriptionDispatcher)
    (connection_id : String) :
    KeepsSessions d (handle_connection_failure env d connection_id) := by
  unfold handle_connection_failure
  refine ((markFailed_keepsSessions d connection_id).trans
    (KeepsSessions.foldl _ ?_ _ _)).trans (KeepsSessions.of_eq rfl rfl)
  intro acc instrument_id
  split
  · split
    · exact migrate_subscription_keepsSessions _ _ _ _ _
    · exact KeepsSessions.refl _
  · exact KeepsSessions.refl _

theorem retryOne_keepsSessions (env : Env) (d : SubscriptionDispatcher)
    (instrument_id : String) : KeepsSessions d (retryOne env d instrument_id) := by
  unfold retryOne
  cases h : mapFind instrument_id d.global_subscriptions_ with
  | none => exact KeepsSessions.refl d
  | some info =>
    simp only
    split
    · exact KeepsSessions.refl d
    · split
      · exact KeepsSessions.refl d
      · split
        · exact KeepsSessions.of_update instrument_id info _ rfl h rfl rfl
        · exact KeepsSessions.of_update instrument_id info _ rfl h rfl rfl

theorem process_pending_subscriptions_keepsSessions (env : Env) (d : SubscriptionDispatcher) :
    KeepsSessions d (process_pending_subscriptions env d) := by
  unfold process_pending_subscriptions
  have h0 : KeepsSessions d { d with retry_queue_ := [] } := KeepsSessions.of_eq rfl rfl
  exact h0.trans (KeepsSessions.foldl _ (retryOne_keepsSessions env) _ _)

theorem on_subscription_success_keepsSessions (now : Int) (d : SubscriptionDispatcher)
    (connection_id instrument_id : String) :
    KeepsSessions d (on_subscription_success now d connection_id instrument_id) := by
  unfold on_subscription_success
  cases h : mapFind instrument_id d.global_subscriptions_ with
  | none => exact KeepsSessions.refl d
  | some info => exact KeepsSessions.of_update instrument_id info _ rfl h rfl rfl

theorem on_subscription_failed_keepsSessions (now : Int) (d : SubscriptionDispatcher)
    (connection_id instrument_id : String) :
    KeepsSessions d (on_subscription_failed now d connection_id instrument_id) := by
  unfold on_subscription_failed
  cases h : mapFind instrument_id d.global_subscriptions_ with
  | none => exact KeepsSessions.refl d
  | some info => exact KeepsSessions.of_update instrument_id info _ rfl h rfl rfl

theorem mapFind_foldl_mapErase {V : Type} (l : List String) (m : List (String × V))
    (k : String) :
    mapFind k (l.foldl (fun m i => mapErase i m) m) = if k ∈ l then none else mapFind k m := by
  induction l generalizing m with
  | nil => simp
  | cons i l ih =>
    rw [List.foldl_cons, ih]
    by_cases h1 : k ∈ l
    · simp [h1]
    · by_cases h2 : k = i
      · subst h2
        simp [h1, mapFind_mapErase_self]
      · simp [h1, h2, mapFind_mapErase_other _ _ _ h2]

theorem cleanup_expired_subscriptions_keepsSessions (now : Int) (d : SubscriptionDispatcher) :
    KeepsSessions d (cleanup_expired_subscriptions now d) := by
  refine ⟨rfl, fun i s h => ?_⟩
  unfold requestingSessions at h ⊢
  unfold cleanup_expired_subscriptions at h
  simp only [mapFind_foldl_mapErase] at h
  split_ifs at h with hk
  · simp at h
  · exact h

theorem setInsert_ne_nil (x : String) (s : List String) : setInsert x s ≠ [] := by
  cases s with
  | nil => simp [setInsert]
  | cons y ys =>
    unfold setInsert
    split
    · simp
    · split <;> simp

theorem mapFind_mapSetInsert_other (k x k2 : String) (m : List (String × List String))
    (h : k2 ≠ k) : mapFind k2 (mapSetInsert k x m) = mapFind k2 m := by
  unfold mapSetInsert
  cases mapFind k m with
  | none => exact mapFind_mapInsert_other _ _ _ _ h
  | some s => exact mapFind_mapInsert_other _ _ _ _ h

theorem mapFind_mapSetInsert_eq (k x : String) (m : List (String × List String)) :
    mapFind k (mapSetInsert k x m) =
      some (match mapFind k m with
        | some s => setInsert x s
        | none => [x]) := by
  unfold mapSetInsert
  cases mapFind k m with
  | none => exact mapFind_mapInsert_self _ _ _
  | some s => exact mapFind_mapInsert_self _ _ _

/-- What `add_subscription` does to the two session indexes. -/
theorem add_subscription_sessions (env : Env) (now : Int) (d : SubscriptionDispatcher)
    (session_id instrument_id : String) :
    (add_subscription env now d session_id instrument_id).1.session_subscriptions_ =
      mapSetInsert session_id instrument_id d.session_subscriptions_ ∧
    (∀ other, other ≠ instrument_id →
      mapFind other
        (add_subscription env now d session_id instrument_id).1.global_subscriptions_ =
          mapFind other d.global_subscriptions_) ∧
    ∀ x, x ∈ requestingSessions (add_subscription env now d session_id instrument_id).1
        instrument_id →
      x = session_id ∨ x ∈ requestingSessions d instrument_id := by
  cases hg : mapFind instrument_id d.global_subscriptions_ with
  | some info =>
    simp only [add_subscription, hg, requestingSessions, mapFind_mapInsert_self]
    refine ⟨trivial, fun other ho => mapFind_mapInsert_other _ _ _ _ ho, fun x hx => ?_⟩
    exact (mem_setInsert _ _ _).mp hx
  | none =>
    refine ⟨?_, ?_, ?_⟩
    · simp only [add_subscription, hg]
      split
      · rfl
      · split <;> rfl
    · intro other ho
      simp only [add_subscription, hg]
      split
      · simp only [mapFind_mapInsert_other _ _ _ _ ho]
      · split <;> simp only [mapFind_mapInsert_other _ _ _ _ ho]
    · intro x hx
      unfold requestingSessions at hx
      rcases add_subscription_new_eq env now d session_id instrument_id hg with
        ⟨_, _, _, hinfo⟩ | ⟨best, _, _, _, hinfo⟩
      · rw [hinfo] at hx
        simp only [List.mem_singleton] at hx
        exact Or.inl hx
      · rw [hinfo] at hx
        simp only [List.mem_singleton] at hx
        exact Or.inl hx

theorem add_subscription_sessionsIndexed (env : Env) (now : Int) (d : SubscriptionDispatcher)
    (session_id instrument_id : String) (hd : SessionsIndexed d) :
    SessionsIndexed (add_subscription env now d session_id instrument_id).1 := by
  obtain ⟨hsess, hother, hreq⟩ := add_subscription_sessions env now d session_id instrument_id
  refine ⟨fun s i hs => ?_, fun s => ?_⟩
  · rw [hsess]
    have hold : s ∈ requestingSessions d i → ∃ instruments,
        mapFind s (mapSetInsert session_id instrument_id d.session_subscriptions_) =
          some instruments ∧ i ∈ instruments := by
      intro h
      obtain ⟨instruments, hm, hi⟩ := hd.1 s i h
      by_cases hss : s = session_id
      · subst hss
        rw [mapFind_mapSetInsert_eq, hm]
        exact ⟨_, rfl, (mem_setInsert _ _ _).mpr (Or.inr hi)⟩
      · rw [mapFind_mapSetInsert_other _ _ _ _ hss]
        exact ⟨instruments, hm, hi⟩
    by_cases hi : i = instrument_id
    · subst hi
      rcases hreq s hs with h | h
      · subst h
        exact mapFind_mapSetInsert_self _ _ _
      · exact hold h
    · apply hold
      unfold requestingSessions at hs ⊢
      rw [hother i hi] at hs
      exact hs
  · rw [hsess]
    by_cases hss : s = session_id
    · subst hss
      rw [mapFind_mapSetInsert_eq]
      cases mapFind s d.session_subscriptions_ with
      | none => simp
      | some instruments =>
        simp only [ne_eq, Option.some.injEq]
        exact setInsert_ne_nil _ _
    · rw [mapFind_mapSetInsert_other _ _ _ _ hss]
      exact hd.2 s

/-- What `remove_subscription` does to the requesting sessions. -/
theorem remove_subscription_requesting (env : Env) (d : SubscriptionDispatcher)
    (session_id instrument_id : String) (i s : String)
    (h : s ∈ requestingSessions (remove_subscription env d session_id instrument_id).1 i) :
    s ∈ requestingSessions d i ∧ (i = instrument_id → s ≠ session_id) := by
  obtain ⟨-, -, hglob⟩ := remove_subscription_eq env d session_id instrument_id
  unfold requestingSessions at h ⊢
  rw [hglob] at h
  cases hg : mapFind instrument_id d.global_subscriptions_ with
  | none =>
    simp only [hg] at h
    refine ⟨h, fun hi => ?_⟩
    subst hi
    rw [hg] at h
    cases h
  | some info =>
    simp only [hg] at h
    by_cases hi : i = instrument_id
    · subst hi
      rw [hg]
      split_ifs at h with he
      · rw [mapFind_mapErase_self] at h
        cases h
      · rw [mapFind_mapInsert_self] at h
        simp only [mem_setErase] at h
        exact ⟨h.1, fun _ => h.2⟩
    · refine ⟨?_, fun e => absurd e hi⟩
      split_ifs at h with he
      · rw [mapFind_mapErase_other _ _ _ hi] at h
        exact h
      · rw [mapFind_mapInsert_other _ _ _ _ hi] at h
        exact h

theorem remove_subscription_sessionsIndexed (env : Env) (d : SubscriptionDispatcher)
    (session_id instrument_id : String) (hd : SessionsIndexed d) :
    SessionsIndexed (remove_subscription env d session_id instrument_id).1 := by
  obtain ⟨-, hsess, -⟩ := remove_subscription_eq env d session_id instrument_id
  refine ⟨fun s i hs => ?_, fun s => ?_⟩
  · obtain ⟨hold, hne⟩ := remove_subscription_requesting env d session_id instrument_id i s hs
    obtain ⟨instruments, hm, hi⟩ := hd.1 s i hold
    rw [hsess]
    by_cases hss : s = session_id
    · subst hss
      have hii : i ≠ instrument_id := fun e => hne e rfl
      have hmem : i ∈ setErase instrument_id instruments := (mem_setErase _ _ _).mpr ⟨hi, hii⟩
      rw [mapFind_mapSetErase_self, hm]
      simp only
      rw [if_neg (fun e => by rw [e] at hmem; cases hmem)]
      exact ⟨_, rfl, hmem⟩
    · rw [mapFind_mapSetErase_other _ _ _ _ hss]
      exact ⟨instruments, hm, hi⟩
  · rw [hsess]
    by_cases hss : s = session_id
    · subst hss
      rw [mapFind_mapSetErase_self]
      cases mapFind s d.session_subscriptions_ with
      | none => simp
      | some instruments =>
        simp only
        split_ifs with he
        · simp
        · simpa using he
    · rw [mapFind_mapSetErase_other _ _ _ _ hss]
      exact hd.2 s

theorem remove_subscription_sessionInstruments (env : Env) (d : SubscriptionDispatcher)
    (session_id instrument_id : String) :
    instrument_id ∉
        sessionInstruments (remove_subscription env d session_id instrument_id).1 session_id ∧
      ∀ x, x ∈ sessionInstruments (remove_subscription env d session_id instrument_id).1
          session_id → x ∈ sessionInstruments d session_id := by
  obtain ⟨-, hsess, -⟩ := remove_subscription_eq env d session_id instrument_id
  unfold sessionInstruments
  rw [hsess, mapFind_mapSetErase_self]
  cases mapFind session_id d.session_subscriptions_ with
  | none => simp
  | some instruments =>
    simp only
    split_ifs with he
    · simp
    · simp only [mem_setErase]
      exact ⟨fun h => h.2 rfl, fun x hx => hx.1⟩

/-- The loop of `remove_all_subscriptions_for_session` over any list of
instruments. -/
theorem remove_loop_spec (env : Env) (session_id : String) (l : List String)
    (d : SubscriptionDispatcher) (hd : SessionsIndexed d) :
    SessionsIndexed (l.foldl
      (fun acc instrument_id => (remove_subscription env acc session_id instrument_id).1) d) ∧
    (∀ x, x ∈ sessionInstruments (l.foldl
        (fun acc instrument_id => (remove_subscription env acc session_id instrument_id).1) d)
        session_id → x ∈ sessionInstruments d session_id ∧ x ∉ l) := by
  induction l generalizing d with
  | nil => exact ⟨hd, fun x hx => ⟨hx, by simp⟩⟩
  | cons i l ih =>
    rw [List.foldl_cons]
    obtain ⟨h1, h2⟩ := ih _ (remove_subscription_sessionsIndexed env d session_id i hd)
    obtain ⟨h3, h4⟩ := remove_subscription_sessionInstruments env d session_id i
    refine ⟨h1, fun x hx => ?_⟩
    obtain ⟨h5, h6⟩ := h2 x hx
    refine ⟨h4 x h5, ?_⟩
    simp only [List.mem_cons, not_or]
    exact ⟨fun e => h3 (e ▸ h5), h6⟩

theorem remove_all_subscriptions_for_session_sessionsIndexed (env : Env)
    (d : SubscriptionDispatcher) (session_id : String) (hd : SessionsIndexed d) :
    SessionsIndexed (remove_all_subscriptions_for_session env d session_id) := by
  unfold remove_all_subscriptions_for_session
  exact (remove_loop_spec env session_id _ d hd).1

/-- Every operation keeps the sessions indexed. -/
theorem run_sessionsIndexed (op : DispatcherOp) (d : SubscriptionDispatcher)
    (ih : SessionsIndexed d) : SessionsIndexed (op.run d) := by
  cases op with
  | pool connection_manager => exact (KeepsSessions.of_eq rfl rfl).sessionsIndexed ih
  | set_load_balance_strategy strategy => exact (KeepsSessions.of_eq rfl rfl).sessionsIndexed ih
  | add_subscription env now session_id instrument_id =>
    exact add_subscription_sessionsIndexed env now d session_id instrument_id ih
  | remove_subscription env session_id instrument_id =>
    exact remove_subscription_sessionsIndexed env d session_id instrument_id ih
  | remove_all_subscriptions_for_session env session_id =>
    exact remove_all_subscriptions_for_session_sessionsIndexed env d session_id ih
  | handle_connection_failure env connection_id =>
    exact (handle_connection_failure_keepsSessions env d connection_id).sessionsIndexed ih
  | handle_connection_recovery env connection_id =>
    exact (process_pending_subscriptions_keepsSessions env d).sessionsIndexed ih
  | on_subscription_success now connection_id instrument_id =>
    exact (on_subscription_success_keepsSessions now d connection_id instrument_id).sessionsIndexed
      ih
  | on_subscription_failed now connection_id instrument_id =>
    exact (on_subscription_failed_keepsSessions now d connection_id instrument_id).sessionsIndexed
      ih
  | on_unsubscription_success connection_id instrument_id =>
    exact (KeepsSessions.of_eq rfl rfl).sessionsIndexed ih
  | process_pending_subscriptions env =>
    exact (process_pending_subscriptions_keepsSessions env d).sessionsIndexed ih
  | cleanup_expired_subscriptions now =>
    exact (cleanup_expired_subscriptions_keepsSessions now d).sessionsIndexed ih
  | shutdown =>
    refine ⟨fun s i hs => ?_, fun s => ?_⟩
    · simp [requestingSessions, DispatcherOp.run, shutdown, mapFind] at hs
    · simp [DispatcherOp.run, shutdown, mapFind]

/-- Every reachable state of the dispatcher has its sessions indexed. -/
theorem reachable_sessionsIndexed (d : SubscriptionDispatcher) (h : d.Reachable) :
    SessionsIndexed d := by
  induction h with
  | new connection_manager =>
    refine ⟨fun s i hs => ?_, fun s => ?_⟩
    · simp [requestingSessions, SubscriptionDispatcher.new, mapFind] at hs
    · simp [SubscriptionDispatcher.new, mapFind]
  | step op d _ ih => exact run_sessionsIndexed op d ih

/-! ## Lemmas on `handle_connection_failure` -/

theorem handle_connection_failure_eq (env : Env) (d : SubscriptionDispatcher)
    (connection_id : String) :
    handle_connection_failure env d connection_id =
      { (affectedInstruments d connection_id).foldl (failoverStep env connection_id)
          (markFailed d connection_id) with
        connection_subscriptions_ := mapErase connection_id
          ((affectedInstruments d connection_id).foldl (failoverStep env connection_id)
            (markFailed d connection_id)).connection_subscriptions_ } := rfl

theorem migrate_subscription_other (env : Env) (d : SubscriptionDispatcher)
    (instrument_id from_connection_id to_connection_id other : String)
    (h : other ≠ instrument_id) :
    mapFind other (migrate_subscription env d instrument_id from_connection_id
      to_connection_id).global_subscriptions_ = mapFind other d.global_subscriptions_ := by
  unfold migrate_subscription
  cases mapFind instrument_id d.global_subscriptions_ with
  | none => rfl
  | some info => exact mapFind_mapInsert_other _ _ _ _ h

theorem migrate_subscription_retry_queue (env : Env) (d : SubscriptionDispatcher)
    (instrument_id from_connection_id to_connection_id : String) :
    (migrate_subscription env d instrument_id from_connection_id
      to_connection_id).retry_queue_ = d.retry_queue_ := by
  unfold migrate_subscription
  cases mapFind instrument_id d.global_subscriptions_ with
  | none => rfl
  | some info => rfl

theorem failoverStep_other (env : Env) (connection_id : String) (acc : SubscriptionDispatcher)
    (instrument_id other : String) (h : other ≠ instrument_id) :
    mapFind other (failoverStep env connection_id acc instrument_id).global_subscriptions_ =
      mapFind other acc.global_subscriptions_ := by
  unfold failoverStep
  split
  · split
    · exact migrate_subscription_other _ _ _ _ _ _ h
    · rfl
  · rfl

theorem failoverStep_retry_queue (env : Env) (connection_id : String)
    (acc : SubscriptionDispatcher) (instrument_id : String) :
    (failoverStep env connection_id acc instrument_id).retry_queue_ = acc.retry_queue_ := by
  unfold failoverStep
  split
  · split
    · exact migrate_subscription_retry_queue _ _ _ _ _
    · rfl
  · rfl

theorem failover_loop_other (env : Env) (connection_id : String) (l : List String)
    (acc : SubscriptionDispatcher) (other : String) (h : other ∉ l) :
    mapFind other (l.foldl (failoverStep env connection_id) acc).global_subscriptions_ =
      mapFind other acc.global_subscriptions_ := by
  induction l generalizing acc with
  | nil => rfl
  | cons i l ih =>
    simp only [List.mem_cons, not_or] at h
    rw [List.foldl_cons, ih _ h.2]
    exact failoverStep_other _ _ _ _ _ h.1

theorem failover_loop_retry_queue (env : Env) (connection_id : String) (l : List String)
    (acc : SubscriptionDispatcher) :
    (l.foldl (failoverStep env connection_id) acc).retry_queue_ = acc.retry_queue_ := by
  induction l generalizing acc with
  | nil => rfl
  | cons i l ih =>
    rw [List.foldl_cons, ih]
    exact failoverStep_retry_queue _ _ _ _

theorem mem_affectedInstruments (d : SubscriptionDispatcher)
    (connection_id instrument_id : String) :
    instrument_id ∈ affectedInstruments d connection_id ↔
      ∃ info, (instrument_id, info) ∈ d.global_subscriptions_ ∧
        info.assigned_connection_id = connection_id ∧ info.status = .ACTIVE := by
  unfold affectedInstruments
  simp only [List.mem_map, List.mem_filter, Bool.and_eq_true, decide_eq_true_eq]
  constructor
  · rintro ⟨⟨k, info⟩, ⟨hmem, h1, h2⟩, rfl⟩
    exact ⟨info, hmem, h1, h2⟩
  · rintro ⟨info, hmem, h1, h2⟩
    exact ⟨(instrument_id, info), ⟨hmem, h1, h2⟩, rfl⟩

/-- In a map, an entry that is not both assigned to the connection and `ACTIVE`
is not among the affected instruments, and `handle_connection_failure` leaves it
as it is. -/
theorem handle_connection_failure_other (env : Env) (d : SubscriptionDispatcher)
    (connection_id instrument_id : String) (info : SubscriptionInfo)
    (hsorted : KeysSorted d.global_subscriptions_)
    (hinfo : mapFind instrument_id d.global_subscriptions_ = some info)
    (hne : ¬ (info.assigned_connection_id = connection_id ∧ info.status = .ACTIVE)) :
    mapFind instrument_id
      (handle_connection_failure env d connection_id).global_subscriptions_ = some info := by
  have hnot : instrument_id ∉ affectedInstruments d connection_id := by
    intro hmem
    obtain ⟨info2, hmem2, h1, h2⟩ := (mem_affectedInstruments _ _ _).mp hmem
    have := mapFind_of_mem_nodup hsorted.nodup hmem2
    rw [hinfo] at this
    cases this
    exact hne ⟨h1, h2⟩
  rw [handle_connection_failure_eq]
  simp only
  rw [failover_loop_other _ _ _ _ _ hnot, mapFind_markFailed, hinfo]
  simp only [Option.map_some', Option.some.injEq]
  rw [if_neg hne]

theorem handle_connection_failure_retry_queue (env : Env) (d : SubscriptionDispatcher)
    (connection_id : String) :
    (handle_connection_failure env d connection_id).retry_queue_ = d.retry_queue_ := by
  rw [handle_connection_failure_eq]
  simp only
  rw [failover_loop_retry_queue]
  rfl

theorem subscribe_instrument_status (env : Env) (c : CTPConnection) (instrument_id : String) :
    (c.subscribe_instrument env instrument_id).1.status_ = c.status_ := by
  unfold CTPConnection.subscribe_instrument
  repeat' split
  all_goals rfl

theorem subscribe_instrument_length (env : Env) (c : CTPConnection) (instrument_id : String) :
    (c.subscribe_instrument env instrument_id).1.subscribed_instruments_.length ≤
      c.subscribed_instruments_.length + 1 := by
  rcases subscribe_instrument_subscribed env c instrument_id with h | h
  · rw [h]
    omega
  · rw [h]
    exact length_setInsert_le _ _

theorem subscribe_instrument_mono (env : Env) (c : CTPConnection) (instrument_id x : String)
    (hx : x ∈ c.subscribed_instruments_) :
    x ∈ (c.subscribe_instrument env instrument_id).1.subscribed_instruments_ := by
  rcases subscribe_instrument_subscribed env c instrument_id with h | h
  · rw [h]
    exact hx
  · rw [h]
    exact (mem_setInsert _ _ _).mpr (Or.inr hx)

theorem subscribe_instrument_accepts (env : Env) (c : CTPConnection) (instrument_id : String)
    (hst : c.status_ = .LOGGED_IN)
    (hroom : c.subscribed_instruments_.length < toSizeT c.config_.max_subscriptions)
    (hdriver : env.SubscribeMarketData c.config_.connection_id instrument_id = 0) :
    (c.subscribe_instrument env instrument_id).2 = true := by
  unfold CTPConnection.subscribe_instrument
  rw [if_neg (by simp [hst])]
  by_cases hmem : instrument_id ∈ c.subscribed_instruments_
  · rw [if_pos hmem]
  · rw [if_neg hmem, if_neg (by omega), if_pos hdriver]

theorem execute_subscription_eq (env : Env) (m : CTPConnectionManager)
    (instrument_id connection_id : String) (c : CTPConnection)
    (hc : m.get_connection connection_id = some c) :
    execute_subscription env m instrument_id connection_id =
      ({ m with
          connections_ :=
            mapInsert connection_id (c.subscribe_instrument env instrument_id).1
              m.connections_ },
        (c.subscribe_instrument env instrument_id).2) := by
  unfold execute_subscription
  rw [hc]

theorem execute_subscription_mono (env : Env) (m : CTPConnectionManager)
    (instrument_id connection_id k x : String) (c : CTPConnection)
    (hc : m.get_connection k = some c) (hx : x ∈ c.subscribed_instruments_) :
    ∃ c', (execute_subscription env m instrument_id connection_id).1.get_connection k =
        some c' ∧ x ∈ c'.subscribed_instruments_ := by
  by_cases hk : k = connection_id
  · subst hk
    rw [execute_subscription_eq env m instrument_id k c hc]
    exact ⟨_, mapFind_mapInsert_self _ _ _, subscribe_instrument_mono env c instrument_id x hx⟩
  · refine ⟨c, ?_, hx⟩
    unfold CTPConnectionManager.get_connection at hc ⊢
    rw [execute_subscription_other env m instrument_id connection_id k hk]
    exact hc

theorem wellFormed_execute_subscription (env : Env) (m : CTPConnectionManager)
    (instrument_id connection_id : String) (hwf : m.WellFormed) :
    (execute_subscription env m instrument_id connection_id).1.WellFormed := by
  cases hc : m.get_connection connection_id with
  | none =>
    unfold execute_subscription
    rw [hc]
    exact hwf
  | some c =>
    rw [execute_subscription_eq env m instrument_id connection_id c hc]
    unfold CTPConnectionManager.get_connection at hc
    refine ⟨KeysSorted.mapInsert_of_mapFind _ _ c _ hwf.1 hc, fun p hp => ?_⟩
    rcases mem_mapInsert_of_mapFind _ _ c _ hwf.1 hc p hp with h | h
    · rw [h]
      simp only
      rw [subscribe_instrument_config]
      exact hwf.2 (connection_id, c) (mem_of_mapFind hc)
    · exact hwf.2 p h.1

theorem failoverReady_execute_subscription (env : Env) (failed : String) (n : Nat)
    (m : CTPConnectionManager) (instrument_id connection_id : String)
    (h : FailoverReady failed (n + 1) m) (hk : connection_id ≠ failed) :
    FailoverReady failed n (execute_subscription env m instrument_id connection_id).1 := by
  obtain ⟨hwf, hdown, k, c, hkf, hc, hst, hroom⟩ := h
  refine ⟨wellFormed_execute_subscription env m instrument_id connection_id hwf, ?_, ?_⟩
  · intro c0 hc0
    apply hdown c0
    unfold CTPConnectionManager.get_connection at hc0 ⊢
    rw [execute_subscription_other env m instrument_id connection_id failed
      (fun e => hk e.symm)] at hc0
    exact hc0
  · by_cases hkc : k = connection_id
    · subst hkc
      rw [execute_subscription_eq env m instrument_id k c hc]
      refine ⟨k, _, hkf, mapFind_mapInsert_self _ _ _, ?_, ?_⟩
      · rw [subscribe_instrument_status]
        exact hst
      · rw [subscribe_instrument_config]
        have := subscribe_instrument_length env c instrument_id
        omega
    · refine ⟨k, c, hkf, ?_, hst, by omega⟩
      unfold CTPConnectionManager.get_connection at hc ⊢
      rw [execute_subscription_other env m instrument_id connection_id k hkc]
      exact hc

/-- With the pool ready, a round of the failover loop migrates the instrument to
a connection other than the failed one, and the subscribe request succeeds. -/
theorem failoverStep_migrates (env : Env) (failed : String) (acc : SubscriptionDispatcher)
    (instrument_id : String) (n : Nat)
    (hready : FailoverReady failed (n + 1) acc.connection_manager_)
    (hdriver : ∀ k, env.SubscribeMarketData k instrument_id = 0) :
    ∃ k, k ≠ failed ∧
      failoverStep env failed acc instrument_id =
        migrate_subscription env acc instrument_id failed k ∧
      (execute_subscription env acc.connection_manager_ instrument_id k).2 = true := by
  obtain ⟨hwf, hdown, k, c, hkf, hc, hst, hroom⟩ := hready
  have havail : c ∈ acc.connection_manager_.get_available_connections :=
    (mem_get_available_connections _ _).mpr ⟨k, mem_of_mapFind hc, hst, by omega⟩
  obtain ⟨best, hbest⟩ := select_connection_by_quality_some acc
    (fun e => by rw [e] at havail; cases havail)
  obtain ⟨hget, hbst, hbroom⟩ := get_connection_of_available _ hwf best
    (select_connection_by_quality_mem acc best hbest)
  have hne : best.config_.connection_id ≠ failed := by
    intro e
    rw [e] at hget
    exact hdown best hget hbst
  refine ⟨best.config_.connection_id, hne, ?_, ?_⟩
  · unfold failoverStep
    rw [hbest]
    simp only
    rw [if_pos hne]
  · rw [execute_subscription_eq env _ instrument_id _ best hget]
    exact subscribe_instrument_accepts env best instrument_id hbst hbroom (hdriver _)

theorem migrate_subscription_eq (env : Env) (d : SubscriptionDispatcher)
    (instrument_id from_connection_id to_connection_id : String) (info : SubscriptionInfo)
    (hinfo : mapFind instrument_id d.global_subscriptions_ = some info)
    (hex : (execute_subscription env d.connection_manager_ instrument_id
      to_connection_id).2 = true) :
    migrate_subscription env d instrument_id from_connection_id to_connection_id =
      { d with
        global_subscriptions_ := mapInsert instrument_id
          { info with
            assigned_connection_id := to_connection_id
            status := .SUBSCRIBING
            retry_count := 0 } d.global_subscriptions_
        connection_manager_ :=
          (execute_subscription env d.connection_manager_ instrument_id to_connection_id).1 } := by
  unfold migrate_subscription
  rw [hinfo]
  simp only [hex, if_true]

theorem migrate_subscription_pool (env : Env) (d : SubscriptionDispatcher)
    (instrument_id from_connection_id to_connection_id : String)
    (hentry : mapFind instrument_id d.global_subscriptions_ ≠ none) :
    (migrate_subscription env d instrument_id from_connection_id
      to_connection_id).connection_manager_ =
        (execute_subscription env d.connection_manager_ instrument_id to_connection_id).1 := by
  unfold migrate_subscription
  cases h : mapFind instrument_id d.global_subscriptions_ with
  | none => exact absurd h hentry
  | some info => rfl

/-- The failover loop over any list of instruments that have entries, with the
pool ready for all of them and a driver that accepts the requests: every
instrument of the list ends re-subscribed, and an instrument that was
re-subscribed before stays so. -/
theorem failover_loop_resubscribes (env : Env) (failed : String) (l : List String)
    (acc : SubscriptionDispatcher)
    (hready : FailoverReady failed l.length acc.connection_manager_)
    (hentry : ∀ i ∈ l, mapFind i acc.global_subscriptions_ ≠ none)
    (hdriver : ∀ k, ∀ i ∈ l, env.SubscribeMarketData k i = 0) :
    (∀ i ∈ l, Resubscribed failed (l.foldl (failoverStep env failed) acc) i) ∧
    (∀ i, Resubscribed failed acc i →
      Resubscribed failed (l.foldl (failoverStep env failed) acc) i) := by
  induction l generalizing acc with
  | nil => exact ⟨fun i hi => absurd hi (List.not_mem_nil i), fun i hi => hi⟩
  | cons j l ih =>
    rw [List.foldl_cons]
    obtain ⟨k, hk, hstep, hex⟩ := failoverStep_migrates env failed acc j l.length hready
      (fun k => hdriver k j (List.mem_cons_self _ _))
    have hj := hentry j (List.mem_cons_self _ _)
    have hpool : (failoverStep env failed acc j).connection_manager_ =
        (execute_subscription env acc.connection_manager_ j k).1 := by
      rw [hstep]
      exact migrate_subscription_pool env acc j failed k hj
    have hready' : FailoverReady failed l.length
        (failoverStep env failed acc j).connection_manager_ := by
      rw [hpool]
      exact failoverReady_execute_subscription env failed l.length _ j k hready hk
    have hentry' : ∀ i ∈ l,
        mapFind i (failoverStep env failed acc j).global_subscriptions_ ≠ none := by
      intro i hi
      by_cases hij : i = j
      · subst hij
        rw [hstep]
        obtain ⟨info, hinfo⟩ := Option.ne_none_iff_exists'.mp hj
        rw [migrate_subscription_eq env acc i failed k info hinfo hex]
        simp only
        rw [mapFind_mapInsert_self]
        simp
      · rw [failoverStep_other _ _ _ _ _ hij]
        exact hentry i (List.mem_cons_of_mem _ hi)
    have hdone : Resubscribed failed (failoverStep env failed acc j) j := by
      obtain ⟨info, hinfo⟩ := Option.ne_none_iff_exists'.mp hj
      obtain ⟨c, hc, hmem⟩ := execute_subscription_true env acc.connection_manager_ j k hex
      rw [hstep, migrate_subscription_eq env acc j failed k info hinfo hex]
      exact ⟨_, c, mapFind_mapInsert_self _ _ _, hk, rfl, rfl, hc, hmem⟩
    have hkeep : ∀ i, Resubscribed failed acc i →
        Resubscribed failed (failoverStep env failed acc j) i := by
      intro i hi
      by_cases hij : i = j
      · subst hij
        exact hdone
      · obtain ⟨info, c, h1, h2, h3, h4, h5, h6⟩ := hi
        obtain ⟨c', hc', hmem'⟩ := execute_subscription_mono env acc.connection_manager_ j k
          info.assigned_connection_id i c h5 h6
        refine ⟨info, c', ?_, h2, h3, h4, ?_, hmem'⟩
        · rw [failoverStep_other _ _ _ _ _ hij]
          exact h1
        · rw [hpool]
          exact hc'
    obtain ⟨ih1, ih2⟩ := ih (failoverStep env failed acc j) hready' hentry'
      (fun k i hi => hdriver k i (List.mem_cons_of_mem _ hi))
    refine ⟨fun i hi => ?_, fun i hi => ih2 i (hkeep i hi)⟩
    rcases List.mem_cons.mp hi with h | h
    · subst h
      exact ih2 i hdone
    · exact ih1 i h

/-! ## Lemmas on the status `ACTIVE` -/

theorem NoNewActive.unchanged (d : SubscriptionDispatcher) : NoNewActive d d :=
  fun _ info' h hs => ⟨info', h, hs⟩

theorem NoNewActive.andThen {a b c : SubscriptionDispatcher} (h1 : NoNewActive a b)
    (h2 : NoNewActive b c) : NoNewActive a c := by
  intro i info' h hs
  obtain ⟨info, hi, hst⟩ := h2 i info' h hs
  exact h1 i info hi hst

theorem NoNewActive.loop {α : Type} (f : SubscriptionDispatcher → α → SubscriptionDispatcher)
    (hf : ∀ d a, NoNewActive d (f d a)) (l : List α) (d : SubscriptionDispatcher) :
    NoNewActive d (l.foldl f d) := by
  induction l generalizing d with
  | nil => exact NoNewActive.unchanged d
  | cons a l ih => exact (hf d a).andThen (ih (f d a))

theorem NoNewActive.of_global_eq {d d' : SubscriptionDispatcher}
    (h : d'.global_subscriptions_ = d.global_subscriptions_) : NoNewActive d d' := by
  intro i info' hi hs
  rw [h] at hi
  exact ⟨info', hi, hs⟩

/-- An operation that rewrites the entry of one instrument, keeping its status or
giving it a status other than `ACTIVE`, makes no entry `ACTIVE`. -/
theorem NoNewActive.of_entry {d d' : SubscriptionDispatcher} (instrument_id : String)
    (info info' : SubscriptionInfo)
    (hinfo : mapFind instrument_id d.global_subscriptions_ = some info)
    (h2 : d'.global_subscriptions_ = mapInsert instrument_id info' d.global_subscriptions_)
    (h3 : info'.status = info.status ∨ info'.status ≠ .ACTIVE) : NoNewActive d d' := by
  intro i info2 hi hs
  rw [h2] at hi
  by_cases hii : i = instrument_id
  · subst hii
    rw [mapFind_mapInsert_self] at hi
    cases hi
    rcases h3 with h | h
    · exact ⟨info, hinfo, h ▸ hs⟩
    · exact absurd hs h
  · rw [mapFind_mapInsert_other _ _ _ _ hii] at hi
    exact ⟨info2, hi, hs⟩

theorem add_subscription_noNewActive (env : Env) (now : Int) (d : SubscriptionDispatcher)
    (session_id instrument_id : String) :
    NoNewActive d (add_subscription env now d session_id instrument_id).1 := by
  cases hg : mapFind instrument_id d.global_subscriptions_ with
  | some info =>
    refine NoNewActive.of_entry instrument_id info
      { info with requesting_sessions := setInsert session_id info.requesting_sessions } hg ?_
      (Or.inl rfl)
    simp only [add_subscription, hg]
  | none =>
    intro i info2 hi hs
    by_cases hii : i = instrument_id
    · subst hii
      exfalso
      rcases add_subscription_new_eq env now d session_id i hg with
        ⟨_, _, _, hinfo⟩ | ⟨best, _, _, _, hinfo⟩
      · rw [hinfo] at hi
        cases hi
        cases hs
      · rw [hinfo] at hi
        cases hi
        simp only at hs
        split at hs <;> cases hs
    · rw [(add_subscription_sessions env now d session_id instrument_id).2.1 i hii] at hi
      exact ⟨info2, hi, hs⟩

theorem remove_subscription_noNewActive (env : Env) (d : SubscriptionDispatcher)
    (session_id instrument_id : String) :
    NoNewActive d (remove_subscription env d session_id instrument_id).1 := by
  obtain ⟨-, -, hglob⟩ := remove_subscription_eq env d session_id instrument_id
  cases hg : mapFind instrument_id d.global_subscriptions_ with
  | none =>
    rw [hg] at hglob
    exact NoNewActive.of_global_eq hglob
  | some info =>
    rw [hg] at hglob
    simp only at hglob
    by_cases he : setErase session_id info.requesting_sessions = []
    · rw [if_pos he] at hglob
      intro i info2 hi hs
      rw [hglob] at hi
      by_cases hii : i = instrument_id
      · subst hii
        rw [mapFind_mapErase_self] at hi
        cases hi
      · rw [mapFind_mapErase_other _ _ _ hii] at hi
        exact ⟨info2, hi, hs⟩
    · rw [if_neg he] at hglob
      exact NoNewActive.of_entry instrument_id info _ hg hglob (Or.inl rfl)

theorem migrate_subscription_noNewActive (env : Env) (d : SubscriptionDispatcher)
    (instrument_id from_connection_id to_connection_id : String) :
    NoNewActive d
      (migrate_subscription env d instrument_id from_connection_id to_connection_id) := by
  unfold migrate_subscription
  cases h : mapFind instrument_id d.global_subscriptions_ with
  | none => exact NoNewActive.unchanged d
  | some info =>
    simp only
    split
    · exact NoNewActive.of_entry instrument_id info _ h rfl (Or.inr (by simp))
    · exact NoNewActive.of_entry instrument_id info _ h rfl (Or.inr (by simp))

theorem markFailed_noNewActive (d : SubscriptionDispatcher) (connection_id : String) :
    NoNewActive d (markFailed d connection_id) := by
  intro i info2 hi hs
  rw [mapFind_markFailed] at hi
  cases hm : mapFind i d.global_subscriptions_ with
  | none => simp [hm] at hi
  | some info =>
    simp only [hm, Option.map_some', Option.some.injEq] at hi
    split_ifs at hi with hc
    · rw [← hi] at hs
      cases hs
    · exact ⟨info, rfl, hi ▸ hs⟩

theorem handle_connection_failure_noNewActive (env : Env) (d : SubscriptionDispatcher)
    (connection_id : String) :
    NoNewActive d (handle_connection_failure env d connection_id) := by
  rw [handle_connection_failure_eq]
  refine ((markFailed_noNewActive d connection_id).andThen
    (NoNewActive.loop _ ?_ _ _)).andThen (NoNewActive.of_global_eq rfl)
  intro acc instrument_id
  unfold failoverStep
  split
  · split
    · exact migrate_subscription_noNewActive _ _ _ _ _
    · exact NoNewActive.unchanged _
  · exact NoNewActive.unchanged _

theorem retryOne_noNewActive (env : Env) (d : SubscriptionDispatcher)
    (instrument_id : String) : NoNewActive d (retryOne env d instrument_id) := by
  unfold retryOne
  cases h : mapFind instrument_id d.global_subscriptions_ with
  | none => exact NoNewActive.unchanged d
  | some info =>
    simp only
    split
    · exact NoNewActive.unchanged d
    · split
      · exact NoNewActive.unchanged d
      · split
        · exact NoNewActive.of_entry instrument_id info _ h rfl (Or.inr (by simp))
        · exact NoNewActive.of_entry instrument_id info _ h rfl (Or.inr (by simp))

theorem process_pending_subscriptions_noNewActive (env : Env) (d : SubscriptionDispatcher) :
    NoNewActive d (process_pending_subscriptions env d) := by
  unfold process_pending_subscriptions
  have h0 : NoNewActive d { d with retry_queue_ := [] } := NoNewActive.of_global_eq rfl
  exact h0.andThen (NoNewActive.loop _ (retryOne_noNewActive env) _ _)

theorem cleanup_expired_subscriptions_noNewActive (now : Int) (d : SubscriptionDispatcher) :
    NoNewActive d (cleanup_expired_subscriptions now d) := by
  intro i info2 hi hs
  unfold cleanup_expired_subscriptions at hi
  simp only [mapFind_foldl_mapErase] at hi
  split_ifs at hi with hk
  exact ⟨info2, hi, hs⟩

theorem on_subscription_failed_noNewActive (now : Int) (d : SubscriptionDispatcher)
    (connection_id instrument_id : String) :
    NoNewActive d (on_subscription_failed now d connection_id instrument_id) := by
  unfold on_subscription_failed
  cases h : mapFind instrument_id d.global_subscriptions_ with
  | none => exact NoNewActive.unchanged d
  | some info => exact NoNewActive.of_entry instrument_id info _ h rfl (Or.inr (by simp))

/-- No operation other than `on_subscription_success` makes an entry `ACTIVE`. -/
theorem run_noNewActive (op : DispatcherOp) (d : SubscriptionDispatcher)
    (hop : op.isAck = false) : NoNewActive d (op.run d) := by
  cases op with
  | pool connection_manager => exact NoNewActive.of_global_eq rfl
  | set_load_balance_strategy strategy => exact NoNewActive.of_global_eq rfl
  | add_subscription env now session_id instrument_id =>
    exact add_subscription_noNewActive env now d session_id instrument_id
  | remove_subscription env session_id instrument_id =>
    exact remove_subscription_noNewActive env d session_id instrument_id
  | remove_all_subscriptions_for_session env session_id =>
    exact NoNewActive.loop _ (fun acc i => remove_subscription_noNewActive env acc session_id i)
      _ _
  | handle_connection_failure env connection_id =>
    exact handle_connection_failure_noNewActive env d connection_id
  | handle_connection_recovery env connection_id =>
    exact process_pending_subscriptions_noNewActive env d
  | on_subscription_success now connection_id instrument_id => cases hop
  | on_subscription_failed now connection_id instrument_id =>
    exact on_subscription_failed_noNewActive now d connection_id instrument_id
  | on_unsubscription_success connection_id instrument_id => exact NoNewActive.of_global_eq rfl
  | process_pending_subscriptions env => exact process_pending_subscriptions_noNewActive env d
  | cleanup_expired_subscriptions now => exact cleanup_expired_subscriptions_noNewActive now d
  | shutdown =>
    intro i info2 hi hs
    simp [DispatcherOp.run, shutdown, mapFind] at hi

/-! ## Reachability of the sample states -/

theorem cappedConnection_reachable : cappedConnection.Reachable := by
  have h0 := CTPConnection.Reachable.new smallConfig 0
  have h1 := CTPConnection.Reachable.step _ _ h0 (.start _ true)
  have h2 := CTPConnection.Reachable.step _ _ h1 (.OnFrontConnected _ 1 0)
  have h3 := CTPConnection.Reachable.step _ _ h2 (.OnRspUserLogin _ false)
  have h4 := CTPConnection.Reachable.step _ _ h3 (.subscribe_instrument sampleEnv _ "cu2501")
  exact CTPConnection.Reachable.step _ _ h4 (.subscribe_instrument sampleEnv _ "ag2501")

theorem sharedDispatcher_reachable : sharedDispatcher.Reachable := by
  have h0 := SubscriptionDispatcher.Reachable.new
    { connections_ := [("c1", sampleConnection "c1" .LOGGED_IN),
        ("c2", sampleConnection "c2" .LOGGED_IN)]
      next_restart_allowed_ := [] }
  have h1 := SubscriptionDispatcher.Reachable.step
    (.add_subscription sampleEnv 0 "A" "cu2501") _ h0
  have h2 := SubscriptionDispatcher.Reachable.step
    (.on_subscription_success 1 "c1" "cu2501") _ h1
  exact SubscriptionDispatcher.Reachable.step (.add_subscription sampleEnv 3 "B" "cu2501") _ h2

/-! ## The claims on the pool and on the dispatcher, continued -/

/-- Claim C11: subscription cap.  For every connection whose configuration has
`max_subscriptions > 0`, in every state reachable from its construction through
`start`, `stop`, `subscribe_instrument`, `unsubscribe_instrument` and the
callbacks of the driver, the size of the subscribed set is at most
`max_subscriptions`. -/
theorem subscription_cap (c : CTPConnection) (hreach : c.Reachable)
    (hmax : 0 < c.config_.max_subscriptions) :
    (c.subscribed_instruments_.length : Int) ≤ c.config_.max_subscriptions := by
  have h := reachable_withinCap c hreach
  unfold CTPConnection.WithinCap at h
  have h2 := toSizeT_le c.config_.max_subscriptions (le_of_lt hmax)
  omega

/-- Claim C11, witness: a connection with a cap of one instrument, logged in,
that was asked for two instruments holds one. -/
theorem subscription_cap_witness :
    cappedConnection.subscribed_instruments_ = ["cu2501"] ∧
      (cappedConnection.subscribed_instruments_.length : Int) ≤
        cappedConnection.config_.max_subscriptions :=
  ⟨by decide, subscription_cap cappedConnection cappedConnection_reachable (by decide)⟩

/-- Claim C12: for every load-balancing strategy (the strategy of the state is
arbitrary), when `add_subscription` for an instrument without an entry returns
true, the entry is `SUBSCRIBING` and assigned to a connection of the pool that
was `LOGGED_IN` and held fewer instruments than its `max_subscriptions` before
the call, and the instrument is in the subscribed set of that connection after
the call.  An entry becomes `ACTIVE` only through `on_subscription_success`:
after any other operation of the dispatcher an `ACTIVE` entry was `ACTIVE`
before.  The pool is a map of connections stored under their own ids, with caps
that are not negative (`validate_config` admits positive caps only). -/
theorem add_subscription_assigns_available_connection (env : Env) (now : Int)
    (d : SubscriptionDispatcher) (session_id instrument_id : String)
    (hwf : d.connection_manager_.WellFormed)
    (hmax : ∀ p ∈ d.connection_manager_.connections_, 0 ≤ p.2.config_.max_subscriptions)
    (hnew : mapFind instrument_id d.global_subscriptions_ = none)
    (htrue : (add_subscription env now d session_id instrument_id).2 = true) :
    (∃ info before after,
      mapFind instrument_id
        (add_subscription env now d session_id instrument_id).1.global_subscriptions_ =
          some info ∧
      info.status = .SUBSCRIBING ∧
      d.connection_manager_.get_connection info.assigned_connection_id = some before ∧
      before.status_ = .LOGGED_IN ∧
      (before.subscribed_instruments_.length : Int) < before.config_.max_subscriptions ∧
      (add_subscription env now d session_id instrument_id).1.connection_manager_.get_connection
        info.assigned_connection_id = some after ∧
      instrument_id ∈ after.subscribed_instruments_) ∧
    ∀ (op : DispatcherOp) (d0 : SubscriptionDispatcher) (other : String)
      (info' : SubscriptionInfo), op.isAck = false →
      mapFind other (op.run d0).global_subscriptions_ = some info' → info'.status = .ACTIVE →
      ∃ info, mapFind other d0.global_subscriptions_ = some info ∧ info.status = .ACTIVE := by
  refine ⟨?_, fun op d0 other info' hop => run_noNewActive op d0 hop other info'⟩
  rcases add_subscription_new_eq env now d session_id instrument_id hnew with
    ⟨_, hfalse, _, _⟩ | ⟨best, hbest, hres, hconn, hinfo⟩
  · rw [hfalse] at htrue
    cases htrue
  · have hex : (execute_subscription env d.connection_manager_ instrument_id
        best.config_.connection_id).2 = true := by
      rw [← hres]
      exact htrue
    obtain ⟨hget, hst, hcap⟩ := get_connection_of_available _ hwf best hbest
    obtain ⟨after, hafter, hmem⟩ := execute_subscription_true env _ instrument_id _ hex
    refine ⟨_, best, after, hinfo, by simp [hex], hget, hst, ?_, ?_, hmem⟩
    · have h0 := hmax (best.config_.connection_id, best) (mem_of_mapFind hget)
      simp only at h0
      have h1 := toSizeT_le _ h0
      omega
    · rw [hconn]
      exact hafter

/-- Claim C12, witness: with two connections logged in and empty, session `A`
asks for `cu2501`. -/
theorem add_subscription_assigns_available_connection_witness :
    (∃ info before after,
      mapFind "cu2501"
        (add_subscription sampleEnv 0 onlineDispatcher "A" "cu2501").1.global_subscriptions_ =
          some info ∧
      info.status = .SUBSCRIBING ∧
      onlineDispatcher.connection_manager_.get_connection info.assigned_connection_id =
        some before ∧
      before.status_ = .LOGGED_IN ∧
      (before.subscribed_instruments_.length : Int) < before.config_.max_subscriptions ∧
      (add_subscription sampleEnv 0 onlineDispatcher "A"
        "cu2501").1.connection_manager_.get_connection info.assigned_connection_id = some after ∧
      "cu2501" ∈ after.subscribed_instruments_) ∧
    ∀ (op : DispatcherOp) (d0 : SubscriptionDispatcher) (other : String)
      (info' : SubscriptionInfo), op.isAck = false →
      mapFind other (op.run d0).global_subscriptions_ = some info' → info'.status = .ACTIVE →
      ∃ info, mapFind other d0.global_subscriptions_ = some info ∧ info.status = .ACTIVE :=
  add_subscription_assigns_available_connection sampleEnv 0 onlineDispatcher "A" "cu2501"
    (by decide) (by decide) (by decide) (by decide)

/-- Claim C13: from any reachable dispatcher state, after
`remove_all_subscriptions_for_session(s)` no entry of `global_subscriptions_`
has `s` among its requesting sessions, and `session_subscriptions_` has no entry
for `s`. -/
theorem remove_all_subscriptions_clears_session (env : Env) (d : SubscriptionDispatcher)
    (session_id : String) (hreach : d.Reachable) :
    (∀ instrument_id info,
      mapFind instrument_id
        (remove_all_subscriptions_for_session env d session_id).global_subscriptions_ =
          some info → session_id ∉ info.requesting_sessions) ∧
    mapFind session_id
      (remove_all_subscriptions_for_session env d session_id).session_subscriptions_ = none := by
  have hd := reachable_sessionsIndexed d hreach
  obtain ⟨h1, h2⟩ := remove_loop_spec env session_id (sessionInstruments d session_id) d hd
  have hnone : mapFind session_id
      (remove_all_subscriptions_for_session env d session_id).session_subscriptions_ = none := by
    cases hm : mapFind session_id
        (remove_all_subscriptions_for_session env d session_id).session_subscriptions_ with
    | none => rfl
    | some instruments =>
      exfalso
      cases instruments with
      | nil => exact h1.2 session_id hm
      | cons x xs =>
        have hx : x ∈ sessionInstruments
            (remove_all_subscriptions_for_session env d session_id) session_id := by
          unfold sessionInstruments
          rw [hm]
          exact List.mem_cons_self _ _
        obtain ⟨h3, h4⟩ := h2 x hx
        exact h4 h3
  refine ⟨fun instrument_id info hinfo hmem => ?_, hnone⟩
  have hreq : session_id ∈ requestingSessions
      (remove_all_subscriptions_for_session env d session_id) instrument_id := by
    unfold requestingSessions
    rw [hinfo]
    exact hmem
  obtain ⟨instruments, hm, -⟩ := h1.1 session_id instrument_id hreq
  have hm2 : mapFind session_id
      (remove_all_subscriptions_for_session env d session_id).session_subscriptions_ =
        some instruments := hm
  rw [hnone] at hm2
  cases hm2

/-- Claim C13, witness: sessions `A` and `B` share the subscription of `cu2501`,
and session `A` closes. -/
theorem remove_all_subscriptions_clears_session_witness :
    (∀ instrument_id info,
      mapFind instrument_id
        (remove_all_subscriptions_for_session sampleEnv sharedDispatcher
          "A").global_subscriptions_ = some info → "A" ∉ info.requesting_sessions) ∧
    mapFind "A"
      (remove_all_subscriptions_for_session sampleEnv sharedDispatcher
        "A").session_subscriptions_ = none :=
  remove_all_subscriptions_clears_session sampleEnv sharedDispatcher "A"
    sharedDispatcher_reachable

/-- Claim C14 fails on the code: `cu2501` is subscribed on `c1` for session `A`
alone; `remove_subscription("A", "cu2501")` deletes the entry although the
driver refuses the unsubscribe request, and `cu2501` stays in the subscribed set
of `c1`. -/
theorem remove_last_session_driver_refuses :
    (∃ info, mapFind "cu2501" activeDispatcher.global_subscriptions_ = some info ∧
      info.requesting_sessions = ["A"] ∧ info.assigned_connection_id = "c1") ∧
    mapFind "cu2501"
      (remove_subscription refusingEnv activeDispatcher "A" "cu2501").1.global_subscriptions_ =
        none ∧
    ∃ c, (remove_subscription refusingEnv activeDispatcher "A"
        "cu2501").1.connection_manager_.get_connection "c1" = some c ∧
      "cu2501" ∈ c.subscribed_instruments_ := by
  refine ⟨⟨⟨"cu2501", "c1", .ACTIVE, ["A"], 0, 1, 0⟩, by decide, rfl, rfl⟩, by decide, ?_⟩
  exact ⟨{ sampleConnection "c1" .LOGGED_IN with
    subscribed_instruments_ := ["cu2501"], error_count_ := 1 }, by decide, by decide⟩

/-- Claim C14, amended: when `remove_subscription(s, I)` removes the last
requesting session of `I`, the entry is deleted and unsubscription is requested
on the connection assigned to `I`; if that connection is `LOGGED_IN` and the
driver accepts the request, `I` is afterwards not in the subscribed set of that
connection.  Every other connection is unchanged. -/
theorem remove_last_session_unsubscribes (env : Env) (d : SubscriptionDispatcher)
    (session_id instrument_id : String) (info : SubscriptionInfo) (c : CTPConnection)
    (hinfo : mapFind instrument_id d.global_subscriptions_ = some info)
    (hlast : ∀ x ∈ info.requesting_sessions, x = session_id)
    (hc : d.connection_manager_.get_connection info.assigned_connection_id = some c)
    (hlogged : c.status_ = .LOGGED_IN)
    (hdriver : env.UnSubscribeMarketData c.config_.connection_id instrument_id = 0) :
    mapFind instrument_id
      (remove_subscription env d session_id instrument_id).1.global_subscriptions_ = none ∧
    (∃ c', (remove_subscription env d session_id
        instrument_id).1.connection_manager_.get_connection info.assigned_connection_id =
          some c' ∧
      instrument_id ∉ c'.subscribed_instruments_) ∧
    ∀ k, k ≠ info.assigned_connection_id →
      (remove_subscription env d session_id instrument_id).1.connection_manager_.get_connection
        k = d.connection_manager_.get_connection k := by
  have he : setErase session_id info.requesting_sessions = [] :=
    (setErase_eq_nil_iff _ _).mpr hlast
  unfold CTPConnectionManager.get_connection at hc ⊢
  simp only [remove_subscription, hinfo, he, if_true, execute_unsubscription,
    CTPConnectionManager.get_connection, hc]
  refine ⟨mapFind_mapErase_self _ _, ⟨_, mapFind_mapInsert_self _ _ _, ?_⟩,
    fun k hk => mapFind_mapInsert_other _ _ _ _ hk⟩
  unfold CTPConnection.unsubscribe_instrument
  rw [if_neg (by simp [hlogged])]
  by_cases hmem : instrument_id ∈ c.subscribed_instruments_
  · rw [if_neg (by simpa using hmem), if_pos hdriver]
    simp [mem_setErase]
  · rw [if_pos hmem]
    exact hmem

/-- Claim C14, witness: session `A`, alone on `cu2501`, leaves while `c1` is
logged in and the driver accepts the request. -/
theorem remove_last_session_unsubscribes_witness :
    mapFind "cu2501"
      (remove_subscription sampleEnv activeDispatcher "A" "cu2501").1.global_subscriptions_ =
        none ∧
    (∃ c', (remove_subscription sampleEnv activeDispatcher "A"
        "cu2501").1.connection_manager_.get_connection
          (⟨"cu2501", "c1", .ACTIVE, ["A"], 0, 1, 0⟩ : SubscriptionInfo).assigned_connection_id =
            some c' ∧
      "cu2501" ∉ c'.subscribed_instruments_) ∧
    ∀ k, k ≠ (⟨"cu2501", "c1", .ACTIVE, ["A"], 0, 1, 0⟩ :
        SubscriptionInfo).assigned_connection_id →
      (remove_subscription sampleEnv activeDispatcher "A"
        "cu2501").1.connection_manager_.get_connection k =
          activeDispatcher.connection_manager_.get_connection k :=
  remove_last_session_unsubscribes sampleEnv activeDispatcher "A" "cu2501"
    ⟨"cu2501", "c1", .ACTIVE, ["A"], 0, 1, 0⟩
    { sampleConnection "c1" .LOGGED_IN with subscribed_instruments_ := ["cu2501"] }
    (by decide) (by decide) (by decide) (by decide) (by decide)

/-- Claim C15 fails on the code in multi-CTP mode.  Session `s1` subscribed to
`cu2501` through `subscribe_instrument`, which recorded it in the dispatcher and
in `instrument_subscribers_`.  `remove_session("s1")` removes the session from
`sessions_`, from `session_last_sent_json_`, from the pending set and from the
dispatcher, and leaves it in `instrument_subscribers_["cu2501"]`; the
single-CTP branch of `remove_session` erases it there on the same state. -/
theorem remove_session_multi_ctp_keeps_subscriber :
    mapFind "cu2501" multiCtpServer.1.instrument_subscribers_ = some ["s1"] ∧
    (multiCtpServer.2.map (fun d => d.session_subscriptions_)) = some [("s1", ["cu2501"])] ∧
    (MarketDataServer.remove_session sampleEnv true multiCtpServer.2 multiCtpServer.1
      "s1").1.sessions_ = [] ∧
    (MarketDataServer.remove_session sampleEnv true multiCtpServer.2 multiCtpServer.1
      "s1").1.session_last_sent_json_ = [] ∧
    (MarketDataServer.remove_session sampleEnv true multiCtpServer.2 multiCtpServer.1
      "s1").1.pending_peek_sessions_ = [] ∧
    ((MarketDataServer.remove_session sampleEnv true multiCtpServer.2 multiCtpServer.1
      "s1").2.map (fun d => (d.session_subscriptions_, d.global_subscriptions_))) =
        some ([], []) ∧
    mapFind "cu2501"
      (MarketDataServer.remove_session sampleEnv true multiCtpServer.2 multiCtpServer.1
        "s1").1.instrument_subscribers_ = some ["s1"] ∧
    (MarketDataServer.remove_session sampleEnv false none multiCtpServer.1
      "s1").1.instrument_subscribers_ = [] := by
  refine ⟨?_, ?_, ?_, ?_, ?_, ?_, ?_, ?_⟩ <;> first | decide | rfl

/-- Claim C16: `add_subscription(s, I)` for an instrument without an entry,
when no connection is available, returns false and leaves an entry for `I` with
status `FAILED`, empty `assigned_connection_id` and `requesting_sessions = {s}`,
with `I` recorded in `session_subscriptions_[s]`; the pool, so the subscribed
set of every connection, is unchanged. -/
theorem add_subscription_no_connection (env : Env) (now : Int) (d : SubscriptionDispatcher)
    (session_id instrument_id : String)
    (hnew : mapFind instrument_id d.global_subscriptions_ = none)
    (hnone : d.connection_manager_.get_available_connections = []) :
    (add_subscription env now d session_id instrument_id).2 = false ∧
    (∃ info, mapFind instrument_id
        (add_subscription env now d session_id instrument_id).1.global_subscriptions_ =
          some info ∧
      info.status = .FAILED ∧ info.assigned_connection_id = "" ∧
      info.requesting_sessions = [session_id]) ∧
    (∃ instruments, mapFind session_id
        (add_subscription env now d session_id instrument_id).1.session_subscriptions_ =
          some instruments ∧
      instrument_id ∈ instruments) ∧
    (add_subscription env now d session_id instrument_id).1.connection_manager_ =
      d.connection_manager_ := by
  have hsess : ∃ instruments, mapFind session_id
      (add_subscription env now d session_id instrument_id).1.session_subscriptions_ =
        some instruments ∧ instrument_id ∈ instruments := by
    have : (add_subscription env now d session_id instrument_id).1.session_subscriptions_ =
        mapSetInsert session_id instrument_id d.session_subscriptions_ := by
      simp only [add_subscription, hnew]
      split
      · rfl
      · split <;> rfl
    rw [this]
    exact mapFind_mapSetInsert_self _ _ _
  rcases add_subscription_new_eq env now d session_id instrument_id hnew with
    ⟨_, hfalse, hconn, hinfo⟩ | ⟨best, hbest, _⟩
  · exact ⟨hfalse, ⟨_, hinfo, rfl, rfl, rfl⟩, hsess, hconn⟩
  · rw [hnone] at hbest
    cases hbest

/-- Claim C16, witness: session `A` asks for `cu2501` while the only connection
has not been started. -/
theorem add_subscription_no_connection_witness :
    (add_subscription sampleEnv 0 offlineDispatcher "A" "cu2501").2 = false ∧
    (∃ info, mapFind "cu2501"
        (add_subscription sampleEnv 0 offlineDispatcher "A" "cu2501").1.global_subscriptions_ =
          some info ∧
      info.status = .FAILED ∧ info.assigned_connection_id = "" ∧
      info.requesting_sessions = ["A"]) ∧
    (∃ instruments, mapFind "A"
        (add_subscription sampleEnv 0 offlineDispatcher "A" "cu2501").1.session_subscriptions_ =
          some instruments ∧
      "cu2501" ∈ instruments) ∧
    (add_subscription sampleEnv 0 offlineDispatcher "A" "cu2501").1.connection_manager_ =
      offlineDispatcher.connection_manager_ :=
  add_subscription_no_connection sampleEnv 0 offlineDispatcher "A" "cu2501" (by decide)
    (by decide)

/-- Claim C17: `remove_subscription(s, I)` always returns true, and afterwards
`I` is not in `session_subscriptions_[s]`; an entry for `I` exists exactly when
the entry before the call had a requesting session other than `s`, and then its
`requesting_sessions` is the old set without `s` and its status and
`assigned_connection_id` are unchanged; the entries of all other instruments and
the subscription sets of all other sessions are unchanged. -/
theorem remove_subscription_frame (env : Env) (d : SubscriptionDispatcher)
    (session_id instrument_id : String) :
    (remove_subscription env d session_id instrument_id).2 = true ∧
    (∀ instruments,
      mapFind session_id
        (remove_subscription env d session_id instrument_id).1.session_subscriptions_ =
          some instruments → instrument_id ∉ instruments) ∧
    ((∃ info', mapFind instrument_id
        (remove_subscription env d session_id instrument_id).1.global_subscriptions_ =
          some info') ↔
      ∃ info, mapFind instrument_id d.global_subscriptions_ = some info ∧
        ∃ other ∈ info.requesting_sessions, other ≠ session_id) ∧
    (∀ info info', mapFind instrument_id d.global_subscriptions_ = some info →
      mapFind instrument_id
        (remove_subscription env d session_id instrument_id).1.global_subscriptions_ =
          some info' →
      (∀ x, x ∈ info'.requesting_sessions ↔ x ∈ info.requesting_sessions ∧ x ≠ session_id) ∧
      info'.status = info.status ∧
      info'.assigned_connection_id = info.assigned_connection_id) ∧
    (∀ other, other ≠ instrument_id →
      mapFind other
        (remove_subscription env d session_id instrument_id).1.global_subscriptions_ =
          mapFind other d.global_subscriptions_) ∧
    (∀ other, other ≠ session_id →
      mapFind other
        (remove_subscription env d session_id instrument_id).1.session_subscriptions_ =
          mapFind other d.session_subscriptions_) := by
  obtain ⟨hret, hsess, hglob⟩ := remove_subscription_eq env d session_id instrument_id
  rw [hsess, hglob]
  refine ⟨hret, fun s hs => not_mem_mapSetErase _ _ _ s hs, ?_, ?_, ?_,
    fun other ho => mapFind_mapSetErase_other _ _ _ _ ho⟩
  · cases hg : mapFind instrument_id d.global_subscriptions_ with
    | none => simp [hg]
    | some info =>
      simp only
      by_cases he : setErase session_id info.requesting_sessions = []
      · rw [if_pos he, mapFind_mapErase_self]
        have := (setErase_eq_nil_iff _ _).mp he
        simp only [Option.some.injEq, exists_eq_left', false_iff, reduceCtorEq, exists_false]
        rintro ⟨other, hmem, hne⟩
        exact hne (this other hmem)
      · rw [if_neg he, mapFind_mapInsert_self]
        simp only [Option.some.injEq, exists_eq', exists_eq_left', true_iff]
        by_contra hcon
        apply he
        rw [setErase_eq_nil_iff]
        intro y hy
        by_contra hne
        exact hcon ⟨y, hy, hne⟩
  · intro info info' hinfo hinfo'
    simp only [hinfo] at hinfo'
    by_cases he : setErase session_id info.requesting_sessions = []
    · rw [if_pos he, mapFind_mapErase_self] at hinfo'
      cases hinfo'
    · rw [if_neg he, mapFind_mapInsert_self] at hinfo'
      cases hinfo'
      exact ⟨fun x => mem_setErase _ _ _, rfl, rfl⟩
  · intro other ho
    cases hg : mapFind instrument_id d.global_subscriptions_ with
    | none => rfl
    | some info =>
      simp only
      split
      · exact mapFind_mapErase_other _ _ _ ho
      · exact mapFind_mapInsert_other _ _ _ _ ho

/-- Claim C17, witness: session `A` leaves the subscription of `cu2501` that it
shares with session `B`; the entry stays, with `B` alone. -/
theorem remove_subscription_frame_witness :
    mapFind "cu2501"
      (remove_subscription sampleEnv sharedDispatcher "A" "cu2501").1.global_subscriptions_ =
        some ⟨"cu2501", "c1", .ACTIVE, ["B"], 0, 1, 0⟩ ∧
    ((∃ info', mapFind "cu2501"
        (remove_subscription sampleEnv sharedDispatcher "A" "cu2501").1.global_subscriptions_ =
          some info') ↔
      ∃ info, mapFind "cu2501" sharedDispatcher.global_subscriptions_ = some info ∧
        ∃ other ∈ info.requesting_sessions, other ≠ "A") :=
  ⟨by decide, (remove_subscription_frame sampleEnv sharedDispatcher "A" "cu2501").2.2.1⟩

/-- Claim C18 fails on the code, in three ways.  In each state `cu2501` is
`ACTIVE` on `c1` and `c2` is available, and after
`handle_connection_failure("c1")` the entry of `cu2501` is `FAILED`: when the
driver refuses the subscribe request on `c2`; when `c1` is still logged in (a
heartbeat time-out) and scores best, so that the selection returns `c1` itself;
and when `c2`, with a cap of one, was filled by the instrument migrated before
it. -/
theorem failover_leaves_entry_failed :
    (droppedDispatcher.connection_manager_.get_available_connections.map
        (fun c => c.config_.connection_id) = ["c2"] ∧
      mapFind "cu2501" droppedDispatcher.global_subscriptions_ =
        some ⟨"cu2501", "c1", .ACTIVE, ["A"], 0, 1, 0⟩ ∧
      mapFind "cu2501"
        (handle_connection_failure c2RefusingEnv droppedDispatcher
          "c1").global_subscriptions_ = some ⟨"cu2501", "c2", .FAILED, ["A"], 0, 1, 0⟩) ∧
    (activeDispatcher.connection_manager_.get_available_connections.map
        (fun c => c.config_.connection_id) = ["c1", "c2"] ∧
      mapFind "cu2501" activeDispatcher.global_subscriptions_ =
        some ⟨"cu2501", "c1", .ACTIVE, ["A"], 0, 1, 0⟩ ∧
      mapFind "cu2501"
        (handle_connection_failure sampleEnv activeDispatcher "c1").global_subscriptions_ =
          some ⟨"cu2501", "c1", .FAILED, ["A"], 0, 1, 0⟩) ∧
    (crowdedDispatcher.connection_manager_.get_available_connections.map
        (fun c => c.config_.connection_id) = ["c2"] ∧
      mapFind "cu2501" crowdedDispatcher.global_subscriptions_ =
        some ⟨"cu2501", "c1", .ACTIVE, ["A"], 0, 1, 0⟩ ∧
      mapFind "cu2501"
        (handle_connection_failure sampleEnv crowdedDispatcher "c1").global_subscriptions_ =
          some ⟨"cu2501", "c1", .FAILED, ["A"], 0, 1, 0⟩) := by
  refine ⟨⟨?_, ?_, ?_⟩, ⟨?_, ?_, ?_⟩, ⟨?_, ?_, ?_⟩⟩ <;> decide

/-- Claim C18, amended: failover.  Let the pool be a map of connections stored
under their own ids and `global_subscriptions_` a map, let the connection `id`
not be logged in, let another connection be logged in with room for all the
instruments whose entry is assigned to `id` and `ACTIVE`, and let the driver
accept the subscribe requests for these instruments.  Then after
`handle_connection_failure(id)` every entry that was assigned to `id` and
`ACTIVE` is assigned to a connection other than `id` with status `SUBSCRIBING`
and retry count 0, and its instrument is in the subscribed set of that
connection; `connection_subscriptions_` has no entry for `id`; and every entry
that was not both assigned to `id` and `ACTIVE` is unchanged. -/
theorem failover_resubscribes (env : Env) (d : SubscriptionDispatcher) (connection_id : String)
    (hwf : d.connection_manager_.WellFormed)
    (hsorted : KeysSorted d.global_subscriptions_)
    (hdown : ∀ p ∈ d.connection_manager_.connections_,
      p.1 = connection_id → p.2.status_ ≠ .LOGGED_IN)
    (hspare : ∃ p ∈ d.connection_manager_.connections_,
      p.1 ≠ connection_id ∧ p.2.status_ = .LOGGED_IN ∧
        p.2.subscribed_instruments_.length + (affectedInstruments d connection_id).length ≤
          toSizeT p.2.config_.max_subscriptions)
    (hdriver : ∀ k, ∀ i ∈ affectedInstruments d connection_id,
      env.SubscribeMarketData k i = 0) :
    (∀ instrument_id info, mapFind instrument_id d.global_subscriptions_ = some info →
      info.assigned_connection_id = connection_id → info.status = .ACTIVE →
      ∃ info' c,
        mapFind instrument_id
          (handle_connection_failure env d connection_id).global_subscriptions_ = some info' ∧
        info'.assigned_connection_id ≠ connection_id ∧ info'.status = .SUBSCRIBING ∧
        info'.retry_count = 0 ∧
        (handle_connection_failure env d connection_id).connection_manager_.get_connection
          info'.assigned_connection_id = some c ∧
        instrument_id ∈ c.subscribed_instruments_) ∧
    mapFind connection_id
      (handle_connection_failure env d connection_id).connection_subscriptions_ = none ∧
    (∀ instrument_id info, mapFind instrument_id d.global_subscriptions_ = some info →
      ¬ (info.assigned_connection_id = connection_id ∧ info.status = .ACTIVE) →
      mapFind instrument_id
        (handle_connection_failure env d connection_id).global_subscriptions_ = some info) := by
  refine ⟨fun instrument_id info hinfo hassigned hactive => ?_, ?_,
    fun instrument_id info hinfo hne =>
      handle_connection_failure_other env d connection_id instrument_id info hsorted hinfo hne⟩
  · have hready : FailoverReady connection_id (affectedInstruments d connection_id).length
        (markFailed d connection_id).connection_manager_ := by
      refine ⟨hwf, fun c hc => hdown (connection_id, c) (mem_of_mapFind hc) rfl, ?_⟩
      obtain ⟨p, hp, h1, h2, h3⟩ := hspare
      exact ⟨p.1, p.2, h1, mapFind_of_mem_nodup hwf.1.nodup hp, h2, h3⟩
    have hentry : ∀ i ∈ affectedInstruments d connection_id,
        mapFind i (markFailed d connection_id).global_subscriptions_ ≠ none := by
      intro i hi
      obtain ⟨info2, hmem2, -, -⟩ := (mem_affectedInstruments _ _ _).mp hi
      rw [mapFind_markFailed, mapFind_of_mem_nodup hsorted.nodup hmem2]
      simp
    have hmem : instrument_id ∈ affectedInstruments d connection_id :=
      (mem_affectedInstruments _ _ _).mpr ⟨info, mem_of_mapFind hinfo, hassigned, hactive⟩
    exact (failover_loop_resubscribes env connection_id _ _ hready hentry hdriver).1
      instrument_id hmem
  · rw [handle_connection_failure_eq]
    exact mapFind_mapErase_self _ _

/-- Claim C18, witness: the front of `c1` drops while `cu2501` is active on it,
`c2` is logged in and empty, and the driver accepts the request. -/
theorem failover_resubscribes_witness :
    (∀ instrument_id info,
      mapFind instrument_id droppedDispatcher.global_subscriptions_ = some info →
      info.assigned_connection_id = "c1" → info.status = .ACTIVE →
      ∃ info' c,
        mapFind instrument_id
          (handle_connection_failure sampleEnv droppedDispatcher "c1").global_subscriptions_ =
            some info' ∧
        info'.assigned_connection_id ≠ "c1" ∧ info'.status = .SUBSCRIBING ∧
        info'.retry_count = 0 ∧
        (handle_connection_failure sampleEnv droppedDispatcher
          "c1").connection_manager_.get_connection info'.assigned_connection_id = some c ∧
        instrument_id ∈ c.subscribed_instruments_) ∧
    mapFind "c1"
      (handle_connection_failure sampleEnv droppedDispatcher "c1").connection_subscriptions_ =
        none ∧
    (∀ instrument_id info,
      mapFind instrument_id droppedDispatcher.global_subscriptions_ = some info →
      ¬ (info.assigned_connection_id = "c1" ∧ info.status = .ACTIVE) →
      mapFind instrument_id
        (handle_connection_failure sampleEnv droppedDispatcher "c1").global_subscriptions_ =
          some info) :=
  failover_resubscribes sampleEnv droppedDispatcher "c1" (by decide) (by decide) (by decide)
    (by decide) (fun k i hi => by
      have hi2 : i ∈ ["cu2501"] := hi
      simp only [List.mem_singleton] at hi2
      subst hi2
      simp [sampleEnv])

/-- Claim C19 fails on the code.  The subscribe request for `cu2501` is out on
`c1` and unanswered when the front of `c1` drops.  The loop of
`handle_connection_failure("c1")` that is to find the subscriptions of the
failed connection takes `ACTIVE` entries only: the entry stays `SUBSCRIBING` on
`c1` and the retry queue stays empty, so that `handle_connection_recovery`,
which works through the retry queue, leaves the entry as it is too.  The entry
of the same instrument when it is `ACTIVE` on `c1` is taken by the loop and
subscribed again on `c2`. -/
theorem failure_leaves_pending_subscribe :
    mapFind "cu2501" pendingDispatcher.global_subscriptions_ =
      some ⟨"cu2501", "c1", .SUBSCRIBING, ["A"], 0, 0, 0⟩ ∧
    (pendingDispatcher.connection_manager_.get_connection "c1").map (fun c => c.status_) =
      some .DISCONNECTED ∧
    mapFind "cu2501"
      (handle_connection_failure sampleEnv pendingDispatcher "c1").global_subscriptions_ =
        some ⟨"cu2501", "c1", .SUBSCRIBING, ["A"], 0, 0, 0⟩ ∧
    (handle_connection_failure sampleEnv pendingDispatcher "c1").retry_queue_ = [] ∧
    mapFind "cu2501"
      (handle_connection_recovery sampleEnv
        (handle_connection_failure sampleEnv pendingDispatcher "c1") "c1").global_subscriptions_ =
        some ⟨"cu2501", "c1", .SUBSCRIBING, ["A"], 0, 0, 0⟩ ∧
    mapFind "cu2501"
      (handle_connection_failure sampleEnv droppedDispatcher "c1").global_subscriptions_ =
        some ⟨"cu2501", "c2", .SUBSCRIBING, ["A"], 0, 1, 0⟩ := by
  refine ⟨?_, ?_, ?_, ?_, ?_, ?_⟩ <;> decide

/-- The extent of the defect of `handle_connection_failure`: with
`global_subscriptions_` a map, no entry with status `SUBSCRIBING`, whatever
connection it is assigned to, is changed by `handle_connection_failure(id)`,
and the retry queue is unchanged. -/
theorem failure_keeps_pending_subscribes (env : Env) (d : SubscriptionDispatcher)
    (connection_id instrument_id : String) (info : SubscriptionInfo)
    (hsorted : KeysSorted d.global_subscriptions_)
    (hinfo : mapFind instrument_id d.global_subscriptions_ = some info)
    (hstatus : info.status = .SUBSCRIBING) :
    mapFind instrument_id
      (handle_connection_failure env d connection_id).global_subscriptions_ = some info ∧
    (handle_connection_failure env d connection_id).retry_queue_ = d.retry_queue_ :=
  ⟨handle_connection_failure_other env d connection_id instrument_id info hsorted hinfo
      (fun h => by rw [hstatus] at h; cases h.2),
    handle_connection_failure_retry_queue env d connection_id⟩

/-- Claim C20: `on_subscription_failed(c, I)` for an instrument that has an
entry sets its status to `FAILED` and increases its `retry_count` by exactly one
(the time of the last update becomes `now`, the assignment and the requesting
sessions stay), and appends `I` to the retry queue if and only if the new
`retry_count` is less than `max_retry_count_`; if `I` has no entry, the
dispatcher state, the retry queue included, is unchanged. -/
theorem on_subscription_failed_effect (now : Int) (d : SubscriptionDispatcher)
    (connection_id instrument_id : String) :
    (∀ info, mapFind instrument_id d.global_subscriptions_ = some info →
      mapFind instrument_id
        (on_subscription_failed now d connection_id instrument_id).global_subscriptions_ =
          some { info with
            status := .FAILED, retry_count := info.retry_count + 1, last_update_time := now } ∧
      (info.retry_count + 1 < d.max_retry_count_ →
        (on_subscription_failed now d connection_id instrument_id).retry_queue_ =
          d.retry_queue_ ++ [instrument_id]) ∧
      (¬ info.retry_count + 1 < d.max_retry_count_ →
        (on_subscription_failed now d connection_id instrument_id).retry_queue_ =
          d.retry_queue_)) ∧
    (mapFind instrument_id d.global_subscriptions_ = none →
      on_subscription_failed now d connection_id instrument_id = d) := by
  constructor
  · intro info hinfo
    simp only [on_subscription_failed, hinfo]
    refine ⟨mapFind_mapInsert_self _ _ _, fun h => ?_, fun h => ?_⟩
    · rw [if_pos h]
    · rw [if_neg h]
  · intro hnone
    simp only [on_subscription_failed, hnone]

/-- Claim C20, witness: the pending subscribe of `cu2501` is refused by the
upstream; the entry becomes `FAILED` with retry count 1, and `cu2501` joins the
retry queue. -/
theorem on_subscription_failed_effect_witness :
    mapFind "cu2501"
      (on_subscription_failed 5 pendingDispatcher "c1" "cu2501").global_subscriptions_ =
        some ⟨"cu2501", "c1", .FAILED, ["A"], 0, 5, 1⟩ ∧
    (on_subscription_failed 5 pendingDispatcher "c1" "cu2501").retry_queue_ = ["cu2501"] :=
  ⟨((on_subscription_failed_effect 5 pendingDispatcher "c1" "cu2501").1
      ⟨"cu2501", "c1", .SUBSCRIBING, ["A"], 0, 0, 0⟩ (by decide)).1,
    ((on_subscription_failed_effect 5 pendingDispatcher "c1" "cu2501").1
      ⟨"cu2501", "c1", .SUBSCRIBING, ["A"], 0, 0, 0⟩ (by decide)).2.1 (by decide)⟩

/-! ## Lemmas on the configuration check and on `add_connection` -/

theorem validateConnections_iff (connection_ids : List String)
    (connections : List CTPConnectionConfig) :
    validateConnections connection_ids connections = true ↔
      (∀ conn ∈ connections, conn.connection_id ≠ "" ∧ conn.front_addr ≠ "" ∧
        conn.broker_id ≠ "" ∧ 0 < conn.max_subscriptions) ∧
      (connections.map (fun conn => conn.connection_id)).Nodup ∧
      ∀ conn ∈ connections, conn.connection_id ∉ connection_ids := by
  induction connections generalizing connection_ids with
  | nil => simp [validateConnections]
  | cons conn rest ih =>
    unfold validateConnections
    by_cases h1 : conn.connection_id = ""
    · simp [h1]
    by_cases h2 : conn.connection_id ∈ connection_ids
    · simp [h1, h2]
    by_cases h3 : conn.front_addr = ""
    · simp [h1, h2, h3]
    by_cases h4 : conn.broker_id = ""
    · simp [h1, h2, h3, h4]
    by_cases h5 : conn.max_subscriptions ≤ 0
    · simp only [h1, h2, h3, h4, h5, if_true, if_false]
      constructor
      · intro h
        exact absurd h (by simp)
      · rintro ⟨h, _, _⟩
        have := (h conn (List.mem_cons_self _ _)).2.2.2
        omega
    simp only [h1, h2, h3, h4, h5, if_false]
    rw [ih]
    have h5' : 0 < conn.max_subscriptions := by omega
    constructor
    · rintro ⟨ha, hnd, hseen⟩
      refine ⟨?_, ?_, ?_⟩
      · intro x hx
        rcases List.mem_cons.mp hx with rfl | hx
        · exact ⟨h1, h3, h4, h5'⟩
        · exact ha x hx
      · rw [List.map_cons, List.nodup_cons]
        refine ⟨?_, hnd⟩
        intro hmem
        obtain ⟨y, hy, hyid⟩ := List.mem_map.mp hmem
        exact hseen y hy ((mem_setInsert _ _ _).mpr (Or.inl hyid))
      · intro x hx
        rcases List.mem_cons.mp hx with rfl | hx
        · exact h2
        · intro hmem
          exact hseen x hx ((mem_setInsert _ _ _).mpr (Or.inr hmem))
    · rintro ⟨ha, hnd, hseen⟩
      rw [List.map_cons, List.nodup_cons] at hnd
      refine ⟨fun x hx => ha x (List.mem_cons_of_mem _ hx), hnd.2, ?_⟩
      intro x hx hmem
      rcases (mem_setInsert _ _ _).mp hmem with heq | hmem
      · exact hnd.1 (List.mem_map.mpr ⟨x, hx, heq⟩)
      · exact hseen x (List.mem_cons_of_mem _ hx) hmem

theorem mapInsert_perm_of_mapFind_none {V : Type} (k : String) (v : V) (m : List (String × V))
    (h : mapFind k m = none) : List.Perm (mapInsert k v m) ((k, v) :: m) := by
  induction m with
  | nil => simp [mapInsert]
  | cons p m ih =>
    obtain ⟨k', v'⟩ := p
    by_cases h1 : k' = k
    · simp [mapFind, h1] at h
    · simp only [mapFind, h1, if_false] at h
      by_cases h2 : strLt k k' = true
      · simp [mapInsert, h1, h2]
      · simp only [mapInsert, h1, h2, if_false]
        exact ((ih h).cons (k', v')).trans (List.Perm.swap _ _ _)

/-! ## Lemmas on the best connection -/

theorem bestLoop_spec (best : CTPConnection) (xs : List CTPConnection) :
    (bestLoop best best.connection_quality_ xs = best ∧
      ∀ x ∈ xs, x.connection_quality_ ≤ best.connection_quality_) ∨
    ∃ pre post, xs = pre ++ bestLoop best best.connection_quality_ xs :: post ∧
      (∀ x ∈ pre, x.connection_quality_ <
        (bestLoop best best.connection_quality_ xs).connection_quality_) ∧
      best.connection_quality_ <
        (bestLoop best best.connection_quality_ xs).connection_quality_ ∧
      ∀ x ∈ post, x.connection_quality_ ≤
        (bestLoop best best.connection_quality_ xs).connection_quality_ := by
  induction xs generalizing best with
  | nil => left; exact ⟨rfl, fun x hx => absurd hx (List.not_mem_nil x)⟩
  | cons x rest ih =>
    by_cases hq : x.connection_quality_ > best.connection_quality_
    · have hstep : bestLoop best best.connection_quality_ (x :: rest) =
          bestLoop x x.connection_quality_ rest := by
        simp [bestLoop, hq]
      rw [hstep]
      right
      rcases ih x with ⟨heq, hall⟩ | ⟨pre, post, hsplit, hpre, hlt, hpost⟩
      · refine ⟨[], rest, by rw [heq]; rfl, fun y hy => absurd hy (List.not_mem_nil y), ?_, ?_⟩
        · rw [heq]; exact hq
        · rw [heq]; exact hall
      · refine ⟨x :: pre, post, by rw [List.cons_append, ← hsplit], ?_, by omega, hpost⟩
        intro y hy
        rcases List.mem_cons.mp hy with rfl | hy
        · exact hlt
        · exact hpre y hy
    · have hstep : bestLoop best best.connection_quality_ (x :: rest) =
          bestLoop best best.connection_quality_ rest := by
        simp [bestLoop, hq]
      rw [hstep]
      rcases ih best with ⟨heq, hall⟩ | ⟨pre, post, hsplit, hpre, hlt, hpost⟩
      · left
        refine ⟨heq, ?_⟩
        intro y hy
        rcases List.mem_cons.mp hy with rfl | hy
        · omega
        · exact hall y hy
      · right
        refine ⟨x :: pre, post, by rw [List.cons_append, ← hsplit], ?_, hlt, hpost⟩
        intro y hy
        rcases List.mem_cons.mp hy with rfl | hy
        · omega
        · exact hpre y hy

theorem get_best_connection_split (m : CTPConnectionManager) (c : CTPConnection)
    (h : m.get_best_connection_for_subscription = some c) :
    ∃ pre post, m.get_available_connections = pre ++ c :: post ∧
      (∀ x ∈ pre, x.connection_quality_ < c.connection_quality_) ∧
      ∀ x ∈ post, x.connection_quality_ ≤ c.connection_quality_ := by
  unfold CTPConnectionManager.get_best_connection_for_subscription at h
  cases hav : m.get_available_connections with
  | nil => simp [hav] at h
  | cons first rest =>
    simp only [hav, Option.some.injEq] at h
    rcases bestLoop_spec first (first :: rest) with ⟨heq, hall⟩ | ⟨pre, post, hsplit, hpre, _, hpost⟩
    · rw [h] at heq
      subst heq
      exact ⟨[], rest, rfl, fun x hx => absurd hx (List.not_mem_nil x),
        fun x hx => hall x (List.mem_cons_of_mem _ hx)⟩
    · rw [h] at hsplit hpre hpost
      exact ⟨pre, post, hsplit, hpre, hpost⟩

theorem available_sorted (m : CTPConnectionManager) (hw : m.WellFormed) :
    m.get_available_connections.Pairwise
      (fun a b => strLt a.config_.connection_id b.config_.connection_id = true) := by
  obtain ⟨hs, hid⟩ := hw
  unfold CTPConnectionManager.get_available_connections
  rw [List.pairwise_map]
  apply List.Pairwise.filter
  unfold KeysSorted at hs
  rw [List.pairwise_map] at hs
  have hs2 : m.connections_.Pairwise (fun a b => a ∈ m.connections_ ∧ b ∈ m.connections_ ∧
      strLt a.1 b.1 = true) := by
    rw [List.pairwise_iff_forall_sublist] at hs ⊢
    intro a b hab
    exact ⟨hab.subset (List.mem_cons_self _ _),
      hab.subset (List.mem_cons_of_mem _ (List.mem_cons_self _ _)), hs hab⟩
  refine hs2.imp ?_
  rintro a b ⟨ha, hb, hlt⟩
  rw [hid a ha, hid b hb]
  exact hlt

/-! ## Lemmas on the health monitor -/

theorem restartGate_cases (now : Int) (next_restart_allowed_ : List (String × Int))
    (conn_id : String) :
    restartGate now next_restart_allowed_ conn_id = (next_restart_allowed_, false) ∨
    (restartGate now next_restart_allowed_ conn_id =
        (mapInsert conn_id (now + tenSeconds) next_restart_allowed_, true) ∧
      ∀ allowed, mapFind conn_id next_restart_allowed_ = some allowed → allowed ≤ now) := by
  unfold restartGate
  cases h : mapFind conn_id next_restart_allowed_ with
  | none => right; simp
  | some allowed =>
    by_cases hn : now ≥ allowed
    · right
      simp only [hn, if_true, true_and, Option.some.injEq]
      intro a ha
      omega
    · left
      simp [hn]

theorem restartLog_check_cases (api_created : Bool) (now now_ms : Int) (key : String)
    (rest : List HealthEvent) (m : CTPConnectionManager) :
    (∃ m2 : CTPConnectionManager, m2.next_restart_allowed_ = m.next_restart_allowed_ ∧
      restartLog (.check api_created now now_ms key :: rest) m = restartLog rest m2) ∨
    ∃ (m2 : CTPConnectionManager) (conn_id : String),
      m2.next_restart_allowed_ = mapInsert conn_id (now + tenSeconds) m.next_restart_allowed_ ∧
      (∀ allowed, mapFind conn_id m.next_restart_allowed_ = some allowed → allowed ≤ now) ∧
      restartLog (.check api_created now now_ms key :: rest) m =
        (conn_id, now) :: restartLog rest m2 := by
  cases hk : mapFind key m.connections_ with
  | none =>
    left
    exact ⟨m, rfl, by simp [restartLog, health_check_connection, hk]⟩
  | some conn =>
    by_cases hst : conn.status_ = .ERROR ∨ (conn.status_ = .DISCONNECTED ∧ conn.error_count_ > 5)
    · rcases restartGate_cases now m.next_restart_allowed_ conn.config_.connection_id with
        hg | ⟨hg, hallowed⟩
      · left
        refine ⟨_, ?_, by simp only [restartLog, health_check_connection, hk, hst, if_true, hg]; rfl⟩
        rfl
      · right
        refine ⟨_, conn.config_.connection_id, ?_, hallowed,
          by simp only [restartLog, health_check_connection, hk, hst, if_true, hg]; rfl⟩
        rfl
    · left
      refine ⟨_, ?_, by simp only [restartLog, health_check_connection, hk, hst, if_false]; rfl⟩
      rfl

theorem restartLog_bound (events : List HealthEvent) (m : CTPConnectionManager)
    (conn_id : String) (allowed : Int)
    (h : mapFind conn_id m.next_restart_allowed_ = some allowed) :
    ∀ e ∈ restartLog events m, e.1 = conn_id → allowed ≤ e.2 := by
  induction events generalizing m allowed with
  | nil => intro e he; simp [restartLog] at he
  | cons ev rest ih =>
    cases ev with
    | connections connections_ =>
      intro e he
      exact ih { m with connections_ := connections_ } allowed h e he
    | check api_created now now_ms key =>
      rcases restartLog_check_cases api_created now now_ms key rest m with
        ⟨m2, hm2, hlog⟩ | ⟨m2, cid, hm2, hallowed, hlog⟩
      · rw [hlog]
        exact ih m2 allowed (by rw [hm2]; exact h)
      · rw [hlog]
        intro e he heid
        by_cases hc : cid = conn_id
        · subst hc
          have hle := hallowed allowed h
          rcases List.mem_cons.mp he with rfl | he
          · exact hle
          · have := ih m2 (now + tenSeconds)
              (by rw [hm2]; exact mapFind_mapInsert_self _ _ _) e he heid
            unfold tenSeconds at this
            omega
        · rcases List.mem_cons.mp he with rfl | he
          · exact absurd heid hc
          · exact ih m2 allowed
              (by rw [hm2, mapFind_mapInsert_other _ _ _ _ (Ne.symm hc)]; exact h) e he heid

theorem restartLog_pairwise (events : List HealthEvent) (m : CTPConnectionManager) :
    (restartLog events m).Pairwise (fun a b => a.1 = b.1 → a.2 + tenSeconds ≤ b.2) := by
  induction events generalizing m with
  | nil => simp [restartLog]
  | cons ev rest ih =>
    cases ev with
    | connections connections_ => exact ih { m with connections_ := connections_ }
    | check api_created now now_ms key =>
      rcases restartLog_check_cases api_created now now_ms key rest m with
        ⟨m2, _, hlog⟩ | ⟨m2, cid, hm2, _, hlog⟩
      · rw [hlog]
        exact ih m2
      · rw [hlog, List.pairwise_cons]
        refine ⟨?_, ih m2⟩
        intro e he heid
        exact restartLog_bound rest m2 cid (now + tenSeconds)
          (by rw [hm2]; exact mapFind_mapInsert_self _ _ _) e he heid.symm

/-- A run on the sample pool: the connection stays in `ERROR` (the driver API
cannot be created), and of the passes at 0 s, 5 s and 10 s the first and the
third restart it. -/
theorem restartLog_failingPool :
    restartLog [.check false 0 0 "c1", .check false 5000000000 5000 "c1",
      .check false 10000000000 10000 "c1"] failingPool =
      [("c1", 0), ("c1", 10000000000)] := by
  decide

/-! ## Lemmas on the diff of flat objects -/

theorem Dbl.val_scaled (a : Dbl) (m : Int) (h : m ≤ a.exp) :
    a.val = (if a.neg then -1 else 1) *
      ((a.mant * 2 ^ (a.exp - m).toNat : Nat) : ℚ) * (2 : ℚ) ^ m := by
  unfold Dbl.val
  rw [zpow_split a.exp m h]
  push_cast
  ring

theorem Dbl.val_ne_of_ne_true (a b : Dbl) (h : Dbl.ne a b = true) : a.val ≠ b.val := by
  unfold Dbl.ne at h
  by_cases h0 : a.mant = 0 ∧ b.mant = 0
  · simp [h0] at h
  · simp only [h0, if_false, Bool.not_eq_true', decide_eq_false_iff_not] at h
    intro heq
    rw [Dbl.val_scaled a (min a.exp b.exp) (min_le_left _ _),
      Dbl.val_scaled b (min a.exp b.exp) (min_le_right _ _)] at heq
    have h2 : (2 : ℚ) ^ min a.exp b.exp ≠ 0 := zpow_ne_zero _ (by norm_num)
    have heq2 := mul_right_cancel₀ h2 heq
    have hA : (0 : ℚ) ≤ ((a.mant * 2 ^ (a.exp - min a.exp b.exp).toNat : Nat) : ℚ) :=
      Nat.cast_nonneg _
    have hB : (0 : ℚ) ≤ ((b.mant * 2 ^ (b.exp - min a.exp b.exp).toNat : Nat) : ℚ) :=
      Nat.cast_nonneg _
    have hzero : ∀ (x k : Nat), ((x * 2 ^ k : Nat) : ℚ) = 0 → x = 0 := by
      intro x k hx
      have hx' : x * 2 ^ k = 0 := by exact_mod_cast hx
      rcases Nat.mul_eq_zero.mp hx' with hx0 | hk
      · exact hx0
      · exact absurd hk (by positivity)
    cases han : a.neg <;> cases hbn : b.neg <;> simp only [han, hbn, if_true, if_false,
      Bool.false_eq_true] at heq2
    · apply h
      refine ⟨by rw [han, hbn], ?_⟩
      have : ((a.mant * 2 ^ (a.exp - min a.exp b.exp).toNat : Nat) : ℚ) =
          ((b.mant * 2 ^ (b.exp - min a.exp b.exp).toNat : Nat) : ℚ) := by linarith
      exact_mod_cast this
    · apply h0
      exact ⟨hzero _ _ (by linarith), hzero _ _ (by linarith)⟩
    · apply h0
      exact ⟨hzero _ _ (by linarith), hzero _ _ (by linarith)⟩
    · apply h
      refine ⟨by rw [han, hbn], ?_⟩
      have : ((a.mant * 2 ^ (a.exp - min a.exp b.exp).toNat : Nat) : ℚ) =
          ((b.mant * 2 ^ (b.exp - min a.exp b.exp).toNat : Nat) : ℚ) := by linarith
      exact_mod_cast this

/-- Numeric equality is equality of the values as long as the integers are at
most `2^53` in magnitude, so that their conversion to double is exact. -/
theorem numericallyEqual_iff_val (a b : Num) (ha : a.Exact) (hb : b.Exact) :
    numericallyEqual a b = true ↔ a.val = b.val := by
  have hdbl : ∀ x y : Dbl, (!(Dbl.ne x y)) = true ↔ x.val = y.val := by
    intro x y
    cases hc : Dbl.ne x y with
    | true =>
      have := Dbl.val_ne_of_ne_true _ _ hc
      simp [this]
    | false =>
      have := Dbl.val_eq_of_ne_false _ _ hc
      simp [this]
  cases a with
  | int i =>
    cases b with
    | int j =>
      simp only [numericallyEqual, decide_eq_true_eq, Num.val]
      constructor
      · intro h
        rw [h]
      · intro h
        exact_mod_cast h
    | dbl e =>
      simp only [numericallyEqual]
      rw [hdbl, intToDouble_val i ha]
      rfl
  | dbl d =>
    cases b with
    | int j =>
      simp only [numericallyEqual]
      rw [hdbl, intToDouble_val j hb]
      rfl
    | dbl e =>
      simp only [numericallyEqual]
      rw [hdbl]
      rfl

theorem fieldDiff_scalar_value (write : Json → String) (key : String) (old_field new_field : Json)
    (hn : IsJsonScalar new_field) (ho : IsJsonScalar old_field)
    (hne : ScalarInt64 new_field) (hoe : ScalarInt64 old_field) :
    fieldDiff write key old_field new_field =
      some (if valueDiffers old_field new_field then [(key, new_field)] else []) := by
  cases new_field with
  | arr xs => exact absurd hn (by simp [IsJsonScalar])
  | obj ms => exact absurd hn (by simp [IsJsonScalar])
  | null =>
    cases old_field with
    | arr xs => exact absurd ho (by simp [IsJsonScalar])
    | obj ms => exact absurd ho (by simp [IsJsonScalar])
    | null => simp [fieldDiff, valueDiffers]
    | bool c => cases c <;> simp [fieldDiff, valueDiffers, Json.GetType]
    | num o => simp [fieldDiff, valueDiffers, Json.GetType]
    | str t => simp [fieldDiff, valueDiffers, Json.GetType]
  | bool b =>
    cases old_field with
    | arr xs => exact absurd ho (by simp [IsJsonScalar])
    | obj ms => exact absurd ho (by simp [IsJsonScalar])
    | null => cases b <;> simp [fieldDiff, valueDiffers, Json.GetType]
    | bool c => cases b <;> cases c <;> simp [fieldDiff, valueDiffers, Json.GetType]
    | num o => cases b <;> simp [fieldDiff, valueDiffers, Json.GetType]
    | str t => cases b <;> simp [fieldDiff, valueDiffers, Json.GetType]
  | str s =>
    cases old_field with
    | arr xs => exact absurd ho (by simp [IsJsonScalar])
    | obj ms => exact absurd ho (by simp [IsJsonScalar])
    | null => simp [fieldDiff, valueDiffers, Json.GetType]
    | bool c => cases c <;> simp [fieldDiff, valueDiffers, Json.GetType]
    | num o => simp [fieldDiff, valueDiffers, Json.GetType]
    | str t =>
      by_cases hst : s = t
      · simp [fieldDiff, valueDiffers, Json.GetType, hst]
      · have hts : ¬ t = s := fun h => hst h.symm
        simp [fieldDiff, valueDiffers, Json.GetType, hst, hts]
  | num n =>
    cases old_field with
    | arr xs => exact absurd ho (by simp [IsJsonScalar])
    | obj ms => exact absurd ho (by simp [IsJsonScalar])
    | null => simp [fieldDiff, valueDiffers, Json.GetType]
    | bool c => cases c <;> simp [fieldDiff, valueDiffers, Json.GetType]
    | str t => simp [fieldDiff, valueDiffers, Json.GetType]
    | num o =>
      have hv := numIsDifferent_int64 n o hne hoe
      cases he : numericallyEqual o n with
      | false =>
        rw [he] at hv
        simp [fieldDiff, valueDiffers, Json.GetType, hv, he]
      | true =>
        rw [he] at hv
        simp [fieldDiff, valueDiffers, Json.GetType, hv, he]

theorem diffMembers_flatDiff (write : Json → String) (old_members new_members : List (String × Json))
    (hn : ∀ p ∈ new_members, IsJsonScalar p.2) (ho : ∀ p ∈ old_members, IsJsonScalar p.2)
    (hne : ∀ p ∈ new_members, ScalarInt64 p.2) (hoe : ∀ p ∈ old_members, ScalarInt64 p.2) :
    diffMembers write old_members new_members = some (flatDiff old_members new_members) := by
  induction new_members with
  | nil => rfl
  | cons p rest ih =>
    obtain ⟨k, v⟩ := p
    rw [diffMembers_cons, ih (fun p hp => hn p (List.mem_cons_of_mem _ hp))
      (fun p hp => hne p (List.mem_cons_of_mem _ hp))]
    cases hf : FindMember k old_members with
    | none => simp [flatDiff, hf]
    | some ov =>
      have hmem := mem_of_FindMember hf
      simp only
      rw [fieldDiff_scalar_value write k ov v (hn _ (List.mem_cons_self _ _)) (ho _ hmem)
        (hne _ (List.mem_cons_self _ _)) (hoe _ hmem)]
      cases hd : valueDiffers ov v <;> simp [flatDiff, hf, hd]

theorem FindMember_filter_nodup (keep : String × Json → Bool) (ms : List (String × Json))
    (hnd : (ms.map Prod.fst).Nodup) (k : String) (v : Json) :
    FindMember k (ms.filter keep) = some v ↔ FindMember k ms = some v ∧ keep (k, v) = true := by
  have hnd2 : ((ms.filter keep).map Prod.fst).Nodup :=
    hnd.sublist ((List.filter_sublist ms).map Prod.fst)
  constructor
  · intro h
    have hmem := List.mem_filter.mp (mem_of_FindMember h)
    exact ⟨FindMember_of_mem_nodup hnd hmem.1, hmem.2⟩
  · rintro ⟨h, hk⟩
    exact FindMember_of_mem_nodup hnd2 (List.mem_filter.mpr ⟨mem_of_FindMember h, hk⟩)

/-- The numeric comparison rounds an integer that is compared with a double: the
integer `2^53 + 1` and the double `2^53` have different values and are
numerically equal, because the integer converts to the double `2^53`; the diff of
the flat objects that hold them under one name is empty. -/
theorem numericallyEqual_rounds :
    numericallyEqual (.int 9007199254740993) (.dbl ⟨false, 1, 53⟩) = true ∧
    (Num.int 9007199254740993).val ≠ (Num.dbl ⟨false, 1, 53⟩).val ∧
    ComputeJsonDiff sampleWrite flatRoundingOld flatRoundingNew = some (.obj []) := by
  refine ⟨by decide, ?_, rfl⟩
  simp only [Num.val, Dbl.val]
  norm_num

/-! ## Lemmas on the `subscribe_quote` message -/

/-- The text of the items joined by commas. -/
theorem intercalate_go_data (acc s : String) (items : List String) :
    (String.intercalate.go acc s items).data =
      acc.data ++ (items.map (fun t => s.data ++ t.data)).flatten := by
  induction items generalizing acc with
  | nil => simp [String.intercalate.go]
  | cons t rest ih =>
    simp [String.intercalate.go, ih, String.data_append, List.append_assoc]

theorem getlineItems_item (current w : List Char) (hw : ',' ∉ w) :
    getlineItems current w = if current ++ w = [] then [] else [String.mk (current ++ w)] := by
  induction w generalizing current with
  | nil => simp [getlineItems]
  | cons c rest ih =>
    have hc : c ≠ ',' := fun h => hw (h ▸ List.mem_cons_self _ _)
    have hrest : ',' ∉ rest := fun h => hw (List.mem_cons_of_mem _ h)
    simp only [getlineItems, hc, if_false]
    rw [ih _ hrest]
    simp

theorem getlineItems_comma (current w rest : List Char) (hw : ',' ∉ w) :
    getlineItems current (w ++ ',' :: rest) = String.mk (current ++ w) :: getlineItems [] rest := by
  induction w generalizing current with
  | nil => simp [getlineItems]
  | cons c w ih =>
    have hc : c ≠ ',' := fun h => hw (h ▸ List.mem_cons_self _ _)
    have hrest : ',' ∉ w := fun h => hw (List.mem_cons_of_mem _ h)
    have h1 : getlineItems current (c :: w ++ ',' :: rest) =
        getlineItems (current ++ [c]) (w ++ ',' :: rest) := by
      rw [List.cons_append, getlineItems, if_neg hc]
    rw [h1, ih _ hrest]
    simp

theorem getlineItems_joined (t : String) (rest : List String)
    (hitems : ∀ u ∈ t :: rest, ',' ∉ u.data) :
    (getlineItems [] (t.data ++ (rest.map (fun u => ",".data ++ u.data)).flatten)).filter
        (fun u => decide (u ≠ "")) =
      (t :: rest).filter (fun u => decide (u ≠ "")) := by
  induction rest generalizing t with
  | nil =>
    simp only [List.map_nil, List.flatten_nil, List.append_nil]
    rw [getlineItems_item [] t.data (hitems t (List.mem_cons_self _ _))]
    by_cases ht : t = ""
    · subst ht
      simp
    · have : t.data ≠ [] := fun h => ht (String.ext h)
      simp [this, ht]
  | cons u rest ih =>
    have hstep : t.data ++ (List.map (fun u => ",".data ++ u.data) (u :: rest)).flatten =
        t.data ++ ',' :: (u.data ++ (rest.map (fun u => ",".data ++ u.data)).flatten) := by
      simp
    rw [hstep, getlineItems_comma [] t.data _ (hitems t (List.mem_cons_self _ _))]
    have hfil := ih u (fun x hx => hitems x (List.mem_cons_of_mem _ hx))
    have ht : String.mk ([] ++ t.data) = t := rfl
    rw [ht, List.filter_cons, hfil]
    conv_rhs => rw [List.filter_cons]

theorem getlineItems_intercalate (items : List String) (hitems : ∀ u ∈ items, ',' ∉ u.data) :
    (getlineItems [] (String.intercalate "," items).data).filter (fun u => decide (u ≠ "")) =
      items.filter (fun u => decide (u ≠ "")) := by
  cases items with
  | nil => rfl
  | cons t rest =>
    have : (String.intercalate "," (t :: rest)).data =
        t.data ++ (rest.map (fun u => ",".data ++ u.data)).flatten := by
      simp only [String.intercalate]
      exact intercalate_go_data t "," rest
    rw [this]
    exact getlineItems_joined t rest hitems

theorem nohead_instrument_no_dot (t : String) (h : '.' ∉ t.data) : nohead_instrument t = t := by
  unfold nohead_instrument
  have : t.data.dropWhile (fun c => c != '.') = [] := by
    rw [List.dropWhile_eq_nil_iff]
    intro c hc
    have : c ≠ '.' := fun heq => h (heq ▸ hc)
    simpa using this
  rw [this]

theorem nohead_instrument_dot (t : String) (pre post : List Char)
    (h : t.data = pre ++ '.' :: post) (hpre : '.' ∉ pre) :
    nohead_instrument t = String.mk post := by
  unfold nohead_instrument
  have : t.data.dropWhile (fun c => c != '.') = '.' :: post := by
    rw [h]
    clear h
    induction pre with
    | nil => simp [List.dropWhile]
    | cons c pre ih =>
      have hc : c ≠ '.' := fun heq => hpre (heq ▸ List.mem_cons_self _ _)
      have hc' : (c != '.') = true := by simpa using hc
      rw [List.cons_append, List.dropWhile_cons, if_pos hc']
      exact ih (fun hm => hpre (List.mem_cons_of_mem _ hm))
  rw [this]

/-! ## The effect of the loop over the items -/

theorem subscribeQuoteItem_empty (env : Env) (now : Int) (use_multi_ctp_mode_ : Bool)
    (session_id : String) (acc : MarketDataServer × Option SubscriptionDispatcher) :
    subscribeQuoteItem env now use_multi_ctp_mode_ session_id acc "" = acc := by
  simp [subscribeQuoteItem]

theorem subscribeQuoteItem_fields (env : Env) (now : Int) (use_multi_ctp_mode_ : Bool)
    (session_id : String) (acc : MarketDataServer × Option SubscriptionDispatcher)
    (t : String) (ht : t ≠ "") :
    (subscribeQuoteItem env now use_multi_ctp_mode_ session_id acc
        t).1.noheadtohead_instruments_map_ =
      mapInsert (nohead_instrument t) t acc.1.noheadtohead_instruments_map_ ∧
    (subscribeQuoteItem env now use_multi_ctp_mode_ session_id acc t).1.instrument_subscribers_ =
      mapSetInsert (nohead_instrument t) session_id acc.1.instrument_subscribers_ ∧
    (subscribeQuoteItem env now use_multi_ctp_mode_ session_id acc t).1.sessions_ =
      (match mapFind session_id acc.1.sessions_ with
        | some session =>
          mapInsert session_id
            { session with
              subscriptions_ := setInsert (nohead_instrument t) session.subscriptions_ }
            acc.1.sessions_
        | none => acc.1.sessions_) ∧
    (subscribeQuoteItem env now use_multi_ctp_mode_ session_id acc t).2 =
      if use_multi_ctp_mode_ then
        acc.2.map (fun d => (add_subscription env now d session_id (nohead_instrument t)).1)
      else acc.2 := by
  cases use_multi_ctp_mode_ <;>
    simp [subscribeQuoteItem, MarketDataServer.subscribe_instrument, ht]

theorem foldl_subscribeQuoteItem_filter (env : Env) (now : Int) (use_multi_ctp_mode_ : Bool)
    (session_id : String) (items : List String)
    (acc : MarketDataServer × Option SubscriptionDispatcher) :
    items.foldl (subscribeQuoteItem env now use_multi_ctp_mode_ session_id) acc =
      (items.filter (fun u => decide (u ≠ ""))).foldl
        (subscribeQuoteItem env now use_multi_ctp_mode_ session_id) acc := by
  induction items generalizing acc with
  | nil => rfl
  | cons t rest ih =>
    by_cases ht : t = ""
    · subst ht
      simp only [List.foldl_cons, subscribeQuoteItem_empty]
      rw [ih]
      simp
    · rw [List.filter_cons_of_pos (by simpa using ht)]
      simp only [List.foldl_cons]
      exact ih _

theorem foldl_subscribeQuoteItem_map_other (env : Env) (now : Int) (use_multi_ctp_mode_ : Bool)
    (session_id : String) (items : List String)
    (acc : MarketDataServer × Option SubscriptionDispatcher) (k : String)
    (h : ∀ t ∈ items, t ≠ "" → nohead_instrument t ≠ k) :
    mapFind k (items.foldl (subscribeQuoteItem env now use_multi_ctp_mode_ session_id)
        acc).1.noheadtohead_instruments_map_ =
      mapFind k acc.1.noheadtohead_instruments_map_ := by
  induction items generalizing acc with
  | nil => rfl
  | cons t rest ih =>
    simp only [List.foldl_cons]
    rw [ih _ (fun u hu => h u (List.mem_cons_of_mem _ hu))]
    by_cases ht : t = ""
    · subst ht
      rw [subscribeQuoteItem_empty]
    · rw [(subscribeQuoteItem_fields env now use_multi_ctp_mode_ session_id acc t ht).1]
      exact mapFind_mapInsert_other _ _ _ _ (Ne.symm (h t (List.mem_cons_self _ _) ht))

theorem foldl_subscribeQuoteItem_map_last (env : Env) (now : Int) (use_multi_ctp_mode_ : Bool)
    (session_id : String) (pre post : List String) (t : String)
    (acc : MarketDataServer × Option SubscriptionDispatcher) (ht : t ≠ "")
    (h : ∀ u ∈ post, u ≠ "" → nohead_instrument u ≠ nohead_instrument t) :
    mapFind (nohead_instrument t)
      ((pre ++ t :: post).foldl (subscribeQuoteItem env now use_multi_ctp_mode_ session_id)
        acc).1.noheadtohead_instruments_map_ = some t := by
  rw [List.foldl_append, List.foldl_cons,
    foldl_subscribeQuoteItem_map_other env now use_multi_ctp_mode_ session_id post _ _ h,
    (subscribeQuoteItem_fields env now use_multi_ctp_mode_ session_id _ t ht).1]
  exact mapFind_mapInsert_self _ _ _

theorem foldl_subscribeQuoteItem_subscribers (env : Env) (now : Int) (use_multi_ctp_mode_ : Bool)
    (session_id : String) (items : List String)
    (acc : MarketDataServer × Option SubscriptionDispatcher) (k x : String) :
    (∃ subs, mapFind k (items.foldl (subscribeQuoteItem env now use_multi_ctp_mode_ session_id)
        acc).1.instrument_subscribers_ = some subs ∧ x ∈ subs) ↔
      (∃ subs, mapFind k acc.1.instrument_subscribers_ = some subs ∧ x ∈ subs) ∨
      (x = session_id ∧ ∃ t ∈ items, t ≠ "" ∧ nohead_instrument t = k) := by
  induction items generalizing acc with
  | nil => simp
  | cons t rest ih =>
    simp only [List.foldl_cons]
    rw [ih]
    by_cases ht : t = ""
    · subst ht
      rw [subscribeQuoteItem_empty]
      simp
    · rw [(subscribeQuoteItem_fields env now use_multi_ctp_mode_ session_id acc t ht).2.1]
      by_cases hk : nohead_instrument t = k
      · subst hk
        rw [mapFind_mapSetInsert_eq]
        cases hf : mapFind (nohead_instrument t) acc.1.instrument_subscribers_ with
        | none =>
          simp only [Option.some.injEq, exists_eq_left', List.mem_singleton, false_and,
            exists_false, false_or, List.mem_cons, exists_eq_or_imp, ne_eq, ht,
            not_false_eq_true, and_self, true_or, and_true, reduceCtorEq]
          tauto
        | some s =>
          simp only [Option.some.injEq, exists_eq_left', mem_setInsert, List.mem_cons,
            exists_eq_or_imp, ne_eq, ht, not_false_eq_true, and_self, true_or, and_true]
          tauto
      · rw [mapFind_mapSetInsert_other _ _ _ _ (Ne.symm hk)]
        simp only [List.mem_cons, exists_eq_or_imp, ne_eq, ht, not_false_eq_true, hk, and_false,
          false_or, true_and]

theorem foldl_subscribeQuoteItem_sessions (env : Env) (now : Int) (use_multi_ctp_mode_ : Bool)
    (session_id : String) (items : List String)
    (acc : MarketDataServer × Option SubscriptionDispatcher) (s0 : WebSocketSession)
    (h0 : mapFind session_id acc.1.sessions_ = some s0) :
    ∃ s, mapFind session_id (items.foldl
        (subscribeQuoteItem env now use_multi_ctp_mode_ session_id) acc).1.sessions_ = some s ∧
      s.sent = s0.sent ∧
      ∀ x, x ∈ s.subscriptions_ ↔
        x ∈ s0.subscriptions_ ∨ ∃ t ∈ items, t ≠ "" ∧ nohead_instrument t = x := by
  induction items generalizing acc s0 with
  | nil => exact ⟨s0, h0, rfl, by simp⟩
  | cons t rest ih =>
    simp only [List.foldl_cons]
    by_cases ht : t = ""
    · subst ht
      rw [subscribeQuoteItem_empty]
      obtain ⟨s, hs, hsent, hmem⟩ := ih acc s0 h0
      refine ⟨s, hs, hsent, ?_⟩
      intro x
      rw [hmem x]
      simp
    · have hstep : mapFind session_id
          (subscribeQuoteItem env now use_multi_ctp_mode_ session_id acc t).1.sessions_ =
          some { s0 with
            subscriptions_ := setInsert (nohead_instrument t) s0.subscriptions_ } := by
        rw [(subscribeQuoteItem_fields env now use_multi_ctp_mode_ session_id acc t ht).2.2.1,
          h0]
        exact mapFind_mapInsert_self _ _ _
      obtain ⟨s, hs, hsent, hmem⟩ := ih _ _ hstep
      refine ⟨s, hs, hsent, ?_⟩
      intro x
      rw [hmem x]
      simp only [mem_setInsert, List.mem_cons, exists_eq_or_imp, ne_eq, ht, not_false_eq_true,
        true_and]
      constructor
      · rintro ((h | h) | h)
        · exact Or.inr (Or.inl h.symm)
        · exact Or.inl h
        · exact Or.inr (Or.inr h)
      · rintro (h | h | h)
        · exact Or.inl (Or.inr h)
        · exact Or.inl (Or.inl h.symm)
        · exact Or.inr h

theorem add_subscription_requesting_self (env : Env) (now : Int) (d : SubscriptionDispatcher)
    (session_id instrument_id : String) :
    session_id ∈ requestingSessions (add_subscription env now d session_id instrument_id).1
      instrument_id := by
  cases hg : mapFind instrument_id d.global_subscriptions_ with
  | some info =>
    simp only [requestingSessions, add_subscription, hg]
    rw [mapFind_mapInsert_self]
    exact (mem_setInsert _ _ _).mpr (Or.inl rfl)
  | none =>
    rcases add_subscription_new_eq env now d session_id instrument_id hg with
      ⟨_, _, _, h⟩ | ⟨_, _, _, _, h⟩
    · simp [requestingSessions, h]
    · simp [requestingSessions, h]

theorem add_subscription_requesting_mono (env : Env) (now : Int) (d : SubscriptionDispatcher)
    (session_id instrument_id other x : String) (h : x ∈ requestingSessions d other) :
    x ∈ requestingSessions (add_subscription env now d session_id instrument_id).1 other := by
  by_cases ho : other = instrument_id
  · subst ho
    cases hg : mapFind other d.global_subscriptions_ with
    | none => simp [requestingSessions, hg] at h
    | some info =>
      simp only [requestingSessions, hg] at h
      simp only [requestingSessions, add_subscription, hg]
      rw [mapFind_mapInsert_self]
      exact (mem_setInsert _ _ _).mpr (Or.inr h)
  · unfold requestingSessions at h ⊢
    rw [(add_subscription_sessions env now d session_id instrument_id).2.1 other ho]
    exact h

theorem add_subscription_sessionInstruments (env : Env) (now : Int) (d : SubscriptionDispatcher)
    (session_id instrument_id x : String) :
    x ∈ sessionInstruments (add_subscription env now d session_id instrument_id).1 session_id ↔
      x = instrument_id ∨ x ∈ sessionInstruments d session_id := by
  unfold sessionInstruments
  rw [(add_subscription_sessions env now d session_id instrument_id).1, mapFind_mapSetInsert_eq]
  cases mapFind session_id d.session_subscriptions_ with
  | none => simp
  | some s => simp [mem_setInsert]

theorem foldl_subscribeQuoteItem_dispatcher (env : Env) (now : Int) (session_id : String)
    (items : List String) (acc : MarketDataServer × Option SubscriptionDispatcher)
    (d0 : SubscriptionDispatcher) (h0 : acc.2 = some d0) :
    ∃ d, (items.foldl (subscribeQuoteItem env now true session_id) acc).2 = some d ∧
      ∀ k, (session_id ∈ requestingSessions d0 k ∧ k ∈ sessionInstruments d0 session_id) ∨
          (∃ t ∈ items, t ≠ "" ∧ nohead_instrument t = k) →
        session_id ∈ requestingSessions d k ∧ k ∈ sessionInstruments d session_id := by
  induction items generalizing acc d0 with
  | nil =>
    refine ⟨d0, h0, ?_⟩
    intro k hk
    rcases hk with hk | ⟨t, ht, _⟩
    · exact hk
    · exact absurd ht (List.not_mem_nil t)
  | cons t rest ih =>
    simp only [List.foldl_cons]
    by_cases ht : t = ""
    · subst ht
      rw [subscribeQuoteItem_empty]
      obtain ⟨d, hd, hmem⟩ := ih acc d0 h0
      refine ⟨d, hd, ?_⟩
      intro k hk
      apply hmem
      rcases hk with hk | ⟨u, hu, hne, hku⟩
      · exact Or.inl hk
      · rcases List.mem_cons.mp hu with rfl | hu
        · exact absurd rfl hne
        · exact Or.inr ⟨u, hu, hne, hku⟩
    · have hstep : (subscribeQuoteItem env now true session_id acc t).2 =
          some (add_subscription env now d0 session_id (nohead_instrument t)).1 := by
        rw [(subscribeQuoteItem_fields env now true session_id acc t ht).2.2.2, h0]
        rfl
      obtain ⟨d, hd, hmem⟩ := ih _ _ hstep
      refine ⟨d, hd, ?_⟩
      intro k hk
      apply hmem
      rcases hk with ⟨hk1, hk2⟩ | ⟨u, hu, hne, hku⟩
      · exact Or.inl ⟨add_subscription_requesting_mono env now d0 _ _ _ _ hk1,
          (add_subscription_sessionInstruments env now d0 _ _ _).mpr (Or.inr hk2)⟩
      · rcases List.mem_cons.mp hu with rfl | hu
        · subst hku
          exact Or.inl ⟨add_subscription_requesting_self env now d0 _ _,
            (add_subscription_sessionInstruments env now d0 _ _ _).mpr (Or.inl rfl)⟩
        · exact Or.inr ⟨u, hu, hne, hku⟩

theorem foldl_subscribeQuoteItem_single (env : Env) (now : Int) (session_id : String)
    (items : List String) (acc : MarketDataServer × Option SubscriptionDispatcher) :
    (items.foldl (subscribeQuoteItem env now false session_id) acc).2 = acc.2 := by
  induction items generalizing acc with
  | nil => rfl
  | cons t rest ih =>
    simp only [List.foldl_cons]
    rw [ih]
    by_cases ht : t = ""
    · subst ht
      rw [subscribeQuoteItem_empty]
    · rw [(subscribeQuoteItem_fields env now false session_id acc t ht).2.2.2]
      rfl

/-! ## Lemmas on the retry count -/

theorem foldl_max_retry_count {α : Type} (f : SubscriptionDispatcher → α → SubscriptionDispatcher)
    (hf : ∀ d a, (f d a).max_retry_count_ = d.max_retry_count_) (xs : List α)
    (d : SubscriptionDispatcher) :
    (xs.foldl f d).max_retry_count_ = d.max_retry_count_ := by
  induction xs generalizing d with
  | nil => rfl
  | cons x xs ih =>
    simp only [List.foldl_cons]
    rw [ih, hf]

theorem add_subscription_max_retry_count (env : Env) (now : Int) (d : SubscriptionDispatcher)
    (session_id instrument_id : String) :
    (add_subscription env now d session_id instrument_id).1.max_retry_count_ =
      d.max_retry_count_ := by
  unfold add_subscription
  simp only
  split
  · rfl
  · split
    · rfl
    · split <;> rfl

theorem remove_subscription_max_retry_count (env : Env) (d : SubscriptionDispatcher)
    (session_id instrument_id : String) :
    (remove_subscription env d session_id instrument_id).1.max_retry_count_ =
      d.max_retry_count_ := by
  unfold remove_subscription
  simp only
  split
  · rfl
  · split <;> rfl

theorem migrate_subscription_max_retry_count (env : Env) (d : SubscriptionDispatcher)
    (instrument_id from_connection_id to_connection_id : String) :
    (migrate_subscription env d instrument_id from_connection_id
      to_connection_id).max_retry_count_ = d.max_retry_count_ := by
  unfold migrate_subscription
  split <;> rfl

theorem failoverStep_max_retry_count (env : Env) (connection_id : String)
    (d : SubscriptionDispatcher) (instrument_id : String) :
    (failoverStep env connection_id d instrument_id).max_retry_count_ = d.max_retry_count_ := by
  unfold failoverStep
  split
  · split
    · exact migrate_subscription_max_retry_count _ _ _ _ _
    · rfl
  · rfl

theorem retryOne_max_retry_count (env : Env) (d : SubscriptionDispatcher)
    (instrument_id : String) :
    (retryOne env d instrument_id).max_retry_count_ = d.max_retry_count_ := by
  unfold retryOne
  split
  · rfl
  · split
    · rfl
    · split
      · rfl
      · simp only
        split <;> rfl

theorem run_max_retry_count (op : DispatcherOp) (d : SubscriptionDispatcher) :
    (op.run d).max_retry_count_ = d.max_retry_count_ := by
  cases op with
  | pool connection_manager => rfl
  | set_load_balance_strategy strategy => rfl
  | add_subscription env now session_id instrument_id =>
    exact add_subscription_max_retry_count env now d session_id instrument_id
  | remove_subscription env session_id instrument_id =>
    exact remove_subscription_max_retry_count env d session_id instrument_id
  | remove_all_subscriptions_for_session env session_id =>
    exact foldl_max_retry_count _
      (fun acc i => remove_subscription_max_retry_count env acc session_id i) _ d
  | handle_connection_failure env connection_id =>
    show (handle_connection_failure env d connection_id).max_retry_count_ = _
    rw [handle_connection_failure_eq]
    exact foldl_max_retry_count _ (failoverStep_max_retry_count env connection_id) _ _
  | handle_connection_recovery env connection_id =>
    exact foldl_max_retry_count _ (retryOne_max_retry_count env) _ _
  | on_subscription_success now connection_id instrument_id =>
    show (on_subscription_success now d connection_id instrument_id).max_retry_count_ = _
    unfold on_subscription_success
    split <;> rfl
  | on_subscription_failed now connection_id instrument_id =>
    show (on_subscription_failed now d connection_id instrument_id).max_retry_count_ = _
    unfold on_subscription_failed
    split <;> rfl
  | on_unsubscription_success connection_id instrument_id => rfl
  | process_pending_subscriptions env =>
    exact foldl_max_retry_count _ (retryOne_max_retry_count env) _ _
  | cleanup_expired_subscriptions now => rfl
  | shutdown => rfl

/-- What `on_subscription_failed` does to the entry of an instrument and to the
retry queue. -/
theorem on_subscription_failed_pushes (now : Int) (d : SubscriptionDispatcher)
    (connection_id instrument_id other : String) (r r' : Int)
    (h : retryCount d other = some r)
    (h' : retryCount (on_subscription_failed now d connection_id instrument_id) other =
      some r') :
    (DispatcherOp.on_subscription_failed now connection_id instrument_id).pushes d other = 0 ∨
    ((DispatcherOp.on_subscription_failed now connection_id instrument_id).pushes d other = 1 ∧
      r' = r + 1 ∧ r' < d.max_retry_count_) := by
  have hrun : (DispatcherOp.on_subscription_failed now connection_id instrument_id).run d =
      on_subscription_failed now d connection_id instrument_id := rfl
  unfold DispatcherOp.pushes
  simp only [hrun]
  by_cases ho : other = instrument_id
  · subst ho
    unfold retryCount at h h'
    cases hg : mapFind other d.global_subscriptions_ with
    | none => simp [hg] at h
    | some info =>
      simp only [hg, Option.map_some', Option.some.injEq] at h
      simp only [on_subscription_failed, hg] at h' ⊢
      rw [mapFind_mapInsert_self] at h'
      simp only [Option.map_some', Option.some.injEq] at h'
      by_cases hlt : info.retry_count + 1 < d.max_retry_count_
      · right
        simp only [hlt, if_true, List.count_append, List.count_singleton_self,
          Nat.add_sub_cancel_left, true_and]
        omega
      · left
        simp [hlt]
  · left
    unfold on_subscription_failed
    split
    · simp
    · simp only
      split
      · rw [List.count_append]
        have : List.count other [instrument_id] = 0 :=
          List.count_eq_zero.mpr (by simpa using ho)
        omega
      · simp

theorem failurePushes_bounded (instrument_id : String) (ops : List DispatcherOp)
    (d : SubscriptionDispatcher) (n : Nat) (r : Int)
    (hr : retryCount d instrument_id = some r) (hn : (n : Int) ≤ r)
    (hmax : n = 0 ∨ (n : Int) ≤ d.max_retry_count_ - 1)
    (hkept : EntryKept instrument_id d ops) :
    n + failurePushesAlong instrument_id ops d = 0 ∨
      ((n + failurePushesAlong instrument_id ops d : Nat) : Int) ≤ d.max_retry_count_ - 1 := by
  induction ops generalizing d n r with
  | nil =>
    simp only [failurePushesAlong, Nat.add_zero]
    exact hmax
  | cons op ops ih =>
    obtain ⟨hstep, hrest⟩ := hkept
    rw [hr] at hstep
    cases hr' : retryCount (op.run d) instrument_id with
    | none => simp [hr'] at hstep
    | some r' =>
      simp only [hr'] at hstep
      have hm := run_max_retry_count op d
      have key : ∀ k : Nat, (if op.isFailure then op.pushes d instrument_id else 0) = k →
          ((n + k : Nat) : Int) ≤ r' →
          (n + k = 0 ∨ ((n + k : Nat) : Int) ≤ d.max_retry_count_ - 1) →
          n + failurePushesAlong instrument_id (op :: ops) d = 0 ∨
            ((n + failurePushesAlong instrument_id (op :: ops) d : Nat) : Int) ≤
              d.max_retry_count_ - 1 := by
        intro k hk h1 h2
        have := ih (op.run d) (n + k) r' hr' h1 (by rw [hm]; exact h2) hrest
        rw [hm] at this
        simp only [failurePushesAlong, hk]
        rw [← Nat.add_assoc]
        exact this
      cases op with
      | on_subscription_failed now connection_id failed_id =>
        rcases on_subscription_failed_pushes now d connection_id failed_id instrument_id r r'
            hr hr' with h0 | ⟨h1, hinc, hlt⟩
        · exact key 0 (by simp [DispatcherOp.isFailure, h0]) (by push_cast; omega)
            (by simpa using hmax)
        · exact key 1 (by simp [DispatcherOp.isFailure, h1]) (by push_cast; omega)
            (Or.inr (by push_cast; omega))
      | pool _ =>
        exact key 0 rfl (by push_cast; omega) (by simpa using hmax)
      | set_load_balance_strategy _ =>
        exact key 0 rfl (by push_cast; omega) (by simpa using hmax)
      | add_subscription _ _ _ _ =>
        exact key 0 rfl (by push_cast; omega) (by simpa using hmax)
      | remove_subscription _ _ _ =>
        exact key 0 rfl (by push_cast; omega) (by simpa using hmax)
      | remove_all_subscriptions_for_session _ _ =>
        exact key 0 rfl (by push_cast; omega) (by simpa using hmax)
      | handle_connection_failure _ _ =>
        exact key 0 rfl (by push_cast; omega) (by simpa using hmax)
      | handle_connection_recovery _ _ =>
        exact key 0 rfl (by push_cast; omega) (by simpa using hmax)
      | on_subscription_success _ _ _ =>
        exact key 0 rfl (by push_cast; omega) (by simpa using hmax)
      | on_unsubscription_success _ _ =>
        exact key 0 rfl (by push_cast; omega) (by simpa using hmax)
      | process_pending_subscriptions _ =>
        exact key 0 rfl (by push_cast; omega) (by simpa using hmax)
      | cleanup_expired_subscriptions _ =>
        exact key 0 rfl (by push_cast; omega) (by simpa using hmax)
      | shutdown =>
        exact key 0 rfl (by push_cast; omega) (by simpa using hmax)

/-! ## Claims on the retry queue -/

/-- Counterexample to C21 as stated, with `max_retry_count_ = 3` and an entry
for `cu2501` that is created once and lives through each run.  In the first run
the instrument fails twice on `c1`, is migrated to `c2` (which resets its
`retry_count`) and fails twice on `c2`: `on_subscription_failed` pushes it four
times.  In the second run it fails once and the maintenance loop retries it four
times on a connection whose driver refuses: `process_pending_subscriptions`
pushes it back each time without counting, five pushes in all. -/
theorem retry_pushes_exceed_max_retry_count :
    onlineDispatcher = SubscriptionDispatcher.new onlineDispatcher.connection_manager_ ∧
    onlineDispatcher.max_retry_count_ = 3 ∧
    mapFind "cu2501" onlineDispatcher.global_subscriptions_ = none ∧
    EntryLives "cu2501" onlineDispatcher migrationOps ∧
    pushesAlong "cu2501" migrationOps onlineDispatcher = 4 ∧
    failurePushesAlong "cu2501" migrationOps onlineDispatcher = 4 ∧
    retryCount (runOps migrationOps onlineDispatcher) "cu2501" = some 2 ∧
    EntryLives "cu2501" onlineDispatcher refusedRetryOps ∧
    pushesAlong "cu2501" refusedRetryOps onlineDispatcher = 5 ∧
    failurePushesAlong "cu2501" refusedRetryOps onlineDispatcher = 1 ∧
    retryCount (runOps refusedRetryOps onlineDispatcher) "cu2501" = some 1 := by
  refine ⟨rfl, ?_, ?_, ?_, ?_, ?_, ?_, ?_, ?_, ?_, ?_⟩ <;> decide

/-- Claim C21, amended.  From the creation of the entry of an instrument by
`add_subscription`, as long as the entry is neither deleted nor reset by a
migration (no operation removes it or lowers its `retry_count`),
`on_subscription_failed` pushes the instrument onto the retry queue at most
`max_retry_count - 1` times, hence at most `max_retry_count` times; the creation
itself pushes nothing.  The pushes of `process_pending_subscriptions` are not
counted here. -/
theorem failure_pushes_bounded (env : Env) (now : Int) (d : SubscriptionDispatcher)
    (session_id instrument_id : String) (ops : List DispatcherOp)
    (hnew : mapFind instrument_id d.global_subscriptions_ = none)
    (hkept : EntryKept instrument_id (add_subscription env now d session_id instrument_id).1
      ops) :
    (DispatcherOp.add_subscription env now session_id instrument_id).pushes d instrument_id = 0 ∧
    (failurePushesAlong instrument_id ops
        (add_subscription env now d session_id instrument_id).1 = 0 ∨
      ((failurePushesAlong instrument_id ops
        (add_subscription env now d session_id instrument_id).1 : Nat) : Int) ≤
          d.max_retry_count_ - 1) ∧
    (0 ≤ d.max_retry_count_ →
      ((failurePushesAlong instrument_id ops
        (add_subscription env now d session_id instrument_id).1 : Nat) : Int) ≤
          d.max_retry_count_) := by
  have hcount : retryCount (add_subscription env now d session_id instrument_id).1
      instrument_id = some 0 := by
    unfold retryCount
    rcases add_subscription_new_eq env now d session_id instrument_id hnew with
      ⟨_, _, _, h⟩ | ⟨_, _, _, _, h⟩
    · rw [h]; rfl
    · rw [h]; rfl
  have hqueue : (add_subscription env now d session_id instrument_id).1.retry_queue_ =
      d.retry_queue_ := by
    unfold add_subscription
    simp only [hnew]
    split
    · rfl
    · split <;> rfl
  have hb := failurePushes_bounded instrument_id ops
    (add_subscription env now d session_id instrument_id).1 0 0 hcount (le_refl _)
    (Or.inl rfl) hkept
  rw [add_subscription_max_retry_count, Nat.zero_add] at hb
  refine ⟨?_, hb, ?_⟩
  · show (add_subscription env now d session_id instrument_id).1.retry_queue_.count
      instrument_id - d.retry_queue_.count instrument_id = 0
    rw [hqueue]
    exact Nat.sub_self _
  · intro hpos
    rcases hb with h | h
    · rw [h]
      exact hpos
    · omega

/-- Witness of C21: the run until the migration, in which `cu2501` is created,
fails twice on `c1` and becomes active. -/
theorem failure_pushes_bounded_witness :
    mapFind "cu2501" onlineDispatcher.global_subscriptions_ = none ∧
    EntryKept "cu2501" (add_subscription sampleEnv 0 onlineDispatcher "A" "cu2501").1
      [.on_subscription_failed 1 "c1" "cu2501", .process_pending_subscriptions sampleEnv,
        .on_subscription_failed 2 "c1" "cu2501", .process_pending_subscriptions sampleEnv,
        .on_subscription_success 3 "c1" "cu2501"] ∧
    (0 ≤ onlineDispatcher.max_retry_count_ →
      ((failurePushesAlong "cu2501"
        [.on_subscription_failed 1 "c1" "cu2501", .process_pending_subscriptions sampleEnv,
          .on_subscription_failed 2 "c1" "cu2501", .process_pending_subscriptions sampleEnv,
          .on_subscription_success 3 "c1" "cu2501"]
        (add_subscription sampleEnv 0 onlineDispatcher "A" "cu2501").1 : Nat) : Int) ≤
          onlineDispatcher.max_retry_count_) :=
  ⟨by decide, by decide,
    (failure_pushes_bounded sampleEnv 0 onlineDispatcher "A" "cu2501"
      [.on_subscription_failed 1 "c1" "cu2501", .process_pending_subscriptions sampleEnv,
        .on_subscription_failed 2 "c1" "cu2501", .process_pending_subscriptions sampleEnv,
        .on_subscription_success 3 "c1" "cu2501"] (by decide) (by decide)).2.2⟩

/-! ## Claims on the hash-based selection -/

/-- Claim C22.  With a non-empty list of available connections,
`select_connection_by_hash` returns the connection at index `hash(I) mod n` of
that list, where `hash(I)` is the `size_t` value of `std::hash` and `n` the
length of the list; the index is within bounds; any other selection for the same
instrument over the same list of available connections returns the same
connection; and `add_subscription` with strategy `HASH_BASED` assigns a new
instrument to that connection. -/
theorem select_connection_by_hash_affinity (env : Env) (d : SubscriptionDispatcher)
    (instrument_id : String)
    (h : d.connection_manager_.get_available_connections ≠ []) :
    ∃ hlt : env.hasher instrument_id % 2 ^ 64 %
        d.connection_manager_.get_available_connections.length <
        d.connection_manager_.get_available_connections.length,
      select_connection_by_hash env d instrument_id =
        some (d.connection_manager_.get_available_connections.get
          ⟨env.hasher instrument_id % 2 ^ 64 %
            d.connection_manager_.get_available_connections.length, hlt⟩) ∧
      (∀ d2 : SubscriptionDispatcher,
        d2.connection_manager_.get_available_connections =
          d.connection_manager_.get_available_connections →
        select_connection_by_hash env d2 instrument_id =
          select_connection_by_hash env d instrument_id) ∧
      ∀ (now : Int) (session_id : String), d.load_balance_strategy_ = .HASH_BASED →
        mapFind instrument_id d.global_subscriptions_ = none →
        ∃ info, mapFind instrument_id
            (add_subscription env now d session_id instrument_id).1.global_subscriptions_ =
              some info ∧
          info.assigned_connection_id =
            (d.connection_manager_.get_available_connections.get
              ⟨env.hasher instrument_id % 2 ^ 64 %
                d.connection_manager_.get_available_connections.length,
                hlt⟩).config_.connection_id := by
  have hpos : 0 < d.connection_manager_.get_available_connections.length :=
    List.length_pos.mpr h
  have hlt := Nat.mod_lt (env.hasher instrument_id % 2 ^ 64) hpos
  have hsel : select_connection_by_hash env d instrument_id =
      some (d.connection_manager_.get_available_connections.get
        ⟨env.hasher instrument_id % 2 ^ 64 %
          d.connection_manager_.get_available_connections.length, hlt⟩) := by
    simp only [select_connection_by_hash, h, if_false]
    rw [List.getElem?_eq_getElem hlt]
    rfl
  refine ⟨hlt, hsel, ?_, ?_⟩
  · intro d2 h2
    simp only [select_connection_by_hash, h2]
  · intro now session_id hs hnew
    simp only [add_subscription, hnew, hs, select_connection_by_hash, h, if_false]
    rw [List.getElem?_eq_getElem hlt]
    simp only
    split_ifs
    · exact ⟨_, mapFind_mapInsert_self _ _ _, rfl⟩
    · exact ⟨_, mapFind_mapInsert_self _ _ _, rfl⟩

/-- Witness of C22: the first selection over the two logged-in connections of
the sample pool. -/
theorem select_connection_by_hash_affinity_witness :
    onlineDispatcher.connection_manager_.get_available_connections ≠ [] ∧
    ∃ hlt : sampleEnv.hasher "cu2501" % 2 ^ 64 %
        onlineDispatcher.connection_manager_.get_available_connections.length <
        onlineDispatcher.connection_manager_.get_available_connections.length,
      select_connection_by_hash sampleEnv onlineDispatcher "cu2501" =
        some (onlineDispatcher.connection_manager_.get_available_connections.get
          ⟨sampleEnv.hasher "cu2501" % 2 ^ 64 %
            onlineDispatcher.connection_manager_.get_available_connections.length, hlt⟩) :=
  ⟨by decide,
    (select_connection_by_hash_affinity sampleEnv onlineDispatcher "cu2501" (by decide)).imp
      (fun _ h => h.1)⟩

/-! ## Claims on the best connection -/

/-- Counterexample to C23 as stated: the connection `b` is added to the pool
first and the connection `a` second (both calls of `add_connection` return
true), both log in and are available with the same quality 80, and
`get_best_connection_for_subscription` returns `a`, the connection added last. -/
theorem best_connection_not_first_added :
    (emptyPool.add_connection 0 (sampleConnection "b" .DISCONNECTED).config_).2 = true ∧
    ((emptyPool.add_connection 0 (sampleConnection "b" .DISCONNECTED).config_).1.add_connection 1
      (sampleConnection "a" .DISCONNECTED).config_).2 = true ∧
    tiePool.get_available_connections.map
        (fun c => (c.config_.connection_id, c.connection_quality_)) = [("a", 80), ("b", 80)] ∧
    tiePool.get_best_connection_for_subscription.map (fun c => c.config_.connection_id) =
      some "a" := by
  decide

/-- Claim C23, amended.  In a well-formed pool,
`get_best_connection_for_subscription` returns null exactly when no connection
is available; otherwise it returns an available connection (`LOGGED_IN`, below
its cap) whose quality is maximal among the available ones, and among the
available connections of that quality the first in the order of the map
`connections_`, which is the one with the least connection id. -/
theorem get_best_connection_least_id (m : CTPConnectionManager) (hw : m.WellFormed) :
    (m.get_best_connection_for_subscription = none ↔ m.get_available_connections = []) ∧
    ∀ c, m.get_best_connection_for_subscription = some c →
      c ∈ m.get_available_connections ∧ c.status_ = .LOGGED_IN ∧
      c.subscribed_instruments_.length < toSizeT c.config_.max_subscriptions ∧
      (∀ x ∈ m.get_available_connections, x.connection_quality_ ≤ c.connection_quality_) ∧
      ∀ x ∈ m.get_available_connections, x.connection_quality_ = c.connection_quality_ →
        x = c ∨ strLt c.config_.connection_id x.config_.connection_id = true := by
  constructor
  · unfold CTPConnectionManager.get_best_connection_for_subscription
    cases m.get_available_connections <;> simp
  · intro c hc
    obtain ⟨pre, post, hsplit, hpre, hpost⟩ := get_best_connection_split m c hc
    have hmem : c ∈ m.get_available_connections := by
      rw [hsplit]
      exact List.mem_append_right _ (List.mem_cons_self _ _)
    obtain ⟨_, _, hst, hcap⟩ := (mem_get_available_connections m c).mp hmem
    have hsorted := available_sorted m hw
    rw [hsplit, List.pairwise_append] at hsorted
    have hafter := (List.pairwise_cons.mp hsorted.2.1).1
    refine ⟨hmem, hst, hcap, ?_, ?_⟩
    · intro x hx
      rw [hsplit] at hx
      rcases List.mem_append.mp hx with hx | hx
      · exact le_of_lt (hpre x hx)
      · rcases List.mem_cons.mp hx with rfl | hx
        · exact le_refl _
        · exact hpost x hx
    · intro x hx hq
      rw [hsplit] at hx
      rcases List.mem_append.mp hx with hx | hx
      · have := hpre x hx
        omega
      · rcases List.mem_cons.mp hx with rfl | hx
        · exact Or.inl rfl
        · exact Or.inr (hafter x hx)

/-- Witness of C23: the pool with the connections `a` and `b` of equal
quality. -/
theorem get_best_connection_least_id_witness :
    tiePool.WellFormed ∧
    (tiePool.get_best_connection_for_subscription = none ↔
      tiePool.get_available_connections = []) :=
  ⟨by decide, (get_best_connection_least_id tiePool (by decide)).1⟩

/-! ## Claims on the states of a connection -/

/-- Claim C24 fails on the code.  The connection `subscribedConnection` is
reachable (created, started, connected, logged in, `cu2501` subscribed) and is
`LOGGED_IN` with quality 80.  The callback `OnFrontDisconnected` takes it to
`DISCONNECTED` with quality 0 and leaves `cu2501` in the subscribed set, which
`stop()` clears on the same state; `stop()` in turn takes it to `DISCONNECTED`
and leaves the quality at 80; and after the front is back, a failed login takes
the connection to `ERROR` with `cu2501` still in the subscribed set. -/
theorem front_disconnected_keeps_subscribed_set :
    subscribedConnection.Reachable ∧
    subscribedConnection.OnFrontDisconnected.Reachable ∧
    subscribedConnection.status_ = .LOGGED_IN ∧
    subscribedConnection.subscribed_instruments_ = ["cu2501"] ∧
    subscribedConnection.connection_quality_ = 80 ∧
    subscribedConnection.OnFrontDisconnected.status_ = .DISCONNECTED ∧
    subscribedConnection.OnFrontDisconnected.connection_quality_ = 0 ∧
    subscribedConnection.OnFrontDisconnected.subscribed_instruments_ = ["cu2501"] ∧
    subscribedConnection.stop.status_ = .DISCONNECTED ∧
    subscribedConnection.stop.subscribed_instruments_ = [] ∧
    subscribedConnection.stop.connection_quality_ = 80 ∧
    ((subscribedConnection.OnFrontDisconnected.OnFrontConnected 3 0).OnRspUserLogin true).status_ =
      .ERROR ∧
    ((subscribedConnection.OnFrontDisconnected.OnFrontConnected 3 0).OnRspUserLogin
      true).subscribed_instruments_ = ["cu2501"] := by
  have h0 := CTPConnection.Reachable.new (sampleConnection "c1" .DISCONNECTED).config_ 0
  have h1 := CTPConnection.Reachable.step _ _ h0 (.start _ true)
  have h2 := CTPConnection.Reachable.step _ _ h1 (.OnFrontConnected _ 2 0)
  have h3 := CTPConnection.Reachable.step _ _ h2 (.OnRspUserLogin _ false)
  have h4 : subscribedConnection.Reachable :=
    CTPConnection.Reachable.step _ _ h3 (.subscribe_instrument sampleEnv _ "cu2501")
  refine ⟨h4, CTPConnection.Reachable.step _ _ h4 (.OnFrontDisconnected _), ?_⟩
  decide

/-! ## Claims on `subscribe_instrument` and `add_connection` -/

/-- Claim C25.  On a `LOGGED_IN` connection that already has the instrument in
its subscribed set, `subscribe_instrument` returns true and leaves the
connection as it is (subscribed set, error count and everything else), whatever
the driver would answer: the driver is not asked.  Hence after a call that
returned true, a second call for the same instrument returns true and leaves the
state that the first call left. -/
theorem subscribe_instrument_idempotent (env env2 : Env) (c : CTPConnection)
    (instrument_id : String) :
    (c.status_ = .LOGGED_IN → instrument_id ∈ c.subscribed_instruments_ →
      c.subscribe_instrument env instrument_id = (c, true)) ∧
    ((c.subscribe_instrument env instrument_id).2 = true →
      (c.subscribe_instrument env instrument_id).1.subscribe_instrument env2 instrument_id =
        ((c.subscribe_instrument env instrument_id).1, true)) := by
  have hfirst : ∀ (e : Env) (x : CTPConnection), x.status_ = .LOGGED_IN →
      instrument_id ∈ x.subscribed_instruments_ →
      x.subscribe_instrument e instrument_id = (x, true) := by
    intro e x hs hm
    simp [CTPConnection.subscribe_instrument, hs, hm]
  refine ⟨hfirst env c, ?_⟩
  intro hret
  apply hfirst
  · unfold CTPConnection.subscribe_instrument at hret ⊢
    by_cases hs : c.status_ ≠ .LOGGED_IN
    · simp [hs] at hret
    · have hs' : c.status_ = .LOGGED_IN := by simpa using hs
      split_ifs <;> simp_all
  · unfold CTPConnection.subscribe_instrument at hret ⊢
    split_ifs at hret ⊢ <;> simp_all [mem_setInsert]

/-- Claim C26.  When a connection with the id of `config` exists,
`add_connection` returns false and the pool is unchanged.  Otherwise it returns
true and the pool afterwards is the old one with one more connection (a
permutation of the old entries and the new one, so one longer): the new
connection is stored under the id of `config`, carries `config`, has status
`DISCONNECTED`, and every other id has the connection it had. -/
theorem add_connection_effect (now : Int) (m : CTPConnectionManager)
    (config : CTPConnectionConfig) :
    (∀ existing, mapFind config.connection_id m.connections_ = some existing →
      m.add_connection now config = (m, false)) ∧
    (mapFind config.connection_id m.connections_ = none →
      (m.add_connection now config).2 = true ∧
      (∃ c, List.Perm (m.add_connection now config).1.connections_
          ((config.connection_id, c) :: m.connections_) ∧
        mapFind config.connection_id (m.add_connection now config).1.connections_ = some c ∧
        c.config_ = config ∧ c.status_ = .DISCONNECTED) ∧
      (m.add_connection now config).1.connections_.length = m.connections_.length + 1 ∧
      ∀ k, k ≠ config.connection_id →
        mapFind k (m.add_connection now config).1.connections_ = mapFind k m.connections_) := by
  constructor
  · intro existing h
    simp [CTPConnectionManager.add_connection, h]
  · intro h
    have hperm := mapInsert_perm_of_mapFind_none config.connection_id
      (CTPConnection.new config now) m.connections_ h
    simp only [CTPConnectionManager.add_connection, h]
    refine ⟨trivial, ⟨CTPConnection.new config now, hperm, mapFind_mapInsert_self _ _ _, rfl, rfl⟩,
      ?_, ?_⟩
    · rw [hperm.length_eq, List.length_cons]
    · intro k hk
      exact mapFind_mapInsert_other _ _ _ _ hk

/-! ## Claims on the health monitor -/

/-- Claim C27.  Over any run of the health monitor, from any state of the pool
and with any changes of the connections by other threads in between, whenever
two restart attempts are made for the same connection id the later one is made
at a reading of the steady clock at least ten seconds after that of the earlier
one; so no window of ten seconds `[t, t + 10 s)` holds two restart attempts of
one connection.  (The gate compares each reading with the instant stored at the
previous attempt, so the bound holds for the readings as they are taken.) -/
theorem restart_backoff (events : List HealthEvent) (m : CTPConnectionManager) :
    (restartLog events m).Pairwise (fun a b => a.1 = b.1 → a.2 + tenSeconds ≤ b.2) ∧
    ∀ (conn_id : String) (t : Int),
      ((restartLog events m).filter (fun a =>
        decide (a.1 = conn_id ∧ t ≤ a.2 ∧ a.2 < t + tenSeconds))).length ≤ 1 := by
  have hp := restartLog_pairwise events m
  refine ⟨hp, ?_⟩
  intro conn_id t
  have hf := hp.filter (fun a => decide (a.1 = conn_id ∧ t ≤ a.2 ∧ a.2 < t + tenSeconds))
  generalize hl : (restartLog events m).filter (fun a =>
    decide (a.1 = conn_id ∧ t ≤ a.2 ∧ a.2 < t + tenSeconds)) = l at hf
  have hmem : ∀ a ∈ l, a.1 = conn_id ∧ t ≤ a.2 ∧ a.2 < t + tenSeconds := by
    intro a ha
    rw [← hl] at ha
    simpa using (List.mem_filter.mp ha).2
  match l, hf, hmem with
  | [], _, _ => simp
  | [_], _, _ => simp
  | a :: b :: rest, hf, hmem =>
    exfalso
    have ha := hmem a (List.mem_cons_self _ _)
    have hb := hmem b (List.mem_cons_of_mem _ (List.mem_cons_self _ _))
    have hab := (List.pairwise_cons.mp hf).1 b (List.mem_cons_self _ _)
      (ha.1.trans hb.1.symm)
    omega

/-! ## Claims on the configuration -/

/-- Claim C28.  `validate_config` returns true exactly when the port is in
`(0, 65535]`, there is at least one connection, every connection id is non-empty,
the connection ids are pairwise distinct, every front address and broker id is
non-empty, and every `max_subscriptions` is positive (disabled connections are
checked like the others). -/
theorem validate_config_iff (config : MultiCTPConfig) :
    validate_config config = true ↔
      (0 < config.websocket_port ∧ config.websocket_port ≤ 65535) ∧
      config.connections ≠ [] ∧
      (∀ conn ∈ config.connections, conn.connection_id ≠ "") ∧
      (config.connections.map (fun conn => conn.connection_id)).Nodup ∧
      (∀ conn ∈ config.connections, conn.front_addr ≠ "" ∧ conn.broker_id ≠ "") ∧
      ∀ conn ∈ config.connections, 0 < conn.max_subscriptions := by
  unfold validate_config
  by_cases hp : config.websocket_port ≤ 0 ∨ config.websocket_port > 65535
  · simp only [hp, if_true]
    constructor
    · intro h
      exact absurd h (by simp)
    · rintro ⟨⟨h1, h2⟩, _⟩
      omega
  by_cases he : config.connections = []
  · simp [hp, he]
  simp only [hp, he, if_false]
  rw [validateConnections_iff]
  have hp' : 0 < config.websocket_port ∧ config.websocket_port ≤ 65535 := by omega
  constructor
  · rintro ⟨ha, hnd, _⟩
    exact ⟨hp', he, fun x hx => (ha x hx).1, hnd, fun x hx => ⟨(ha x hx).2.1, (ha x hx).2.2.1⟩,
      fun x hx => (ha x hx).2.2.2⟩
  · rintro ⟨_, _, hid, hnd, hfb, hmax⟩
    exact ⟨fun x hx => ⟨hid x hx, (hfb x hx).1, (hfb x hx).2, hmax x hx⟩, hnd,
      fun x _ => List.not_mem_nil _⟩

/-! ## Claims on the diff of flat objects -/

/-- Claim C29.  For flat JSON objects `old` and `new` (member names pairwise
distinct, values null, booleans, numbers or strings; numbers are doubles or
64-bit integers), `ComputeJsonDiff old new` is the object that holds, in the
order of `new`, the members of `new` whose name `old` lacks or whose value
differs from the value in `old`, and nothing else: a name maps to `v` in the
diff exactly when it maps to `v` in `new` and is absent from `old` or has a
differing value there; a name that `new` lacks is not in the diff.  Two numbers
differ when they are not numerically equal, compared as doubles if either is a
double and as integers otherwise.  When every member of `new` other than
`last_price` and `volume` has the value it has in `old` and these two differ,
the diff is the members `last_price` and `volume` of `new`. -/
theorem flat_diff_exact (write : Json → String) (old_members new_members : List (String × Json))
    (ho : IsFlatObject (.obj old_members)) (hn : IsFlatObject (.obj new_members))
    (hoi : FlatInt64 (.obj old_members)) (hni : FlatInt64 (.obj new_members)) :
    ComputeJsonDiff write (.obj old_members) (.obj new_members) =
      some (.obj (flatDiff old_members new_members)) ∧
    (∀ k v, FindMember k (flatDiff old_members new_members) = some v ↔
      FindMember k new_members = some v ∧
        (FindMember k old_members = none ∨
          ∃ ov, FindMember k old_members = some ov ∧ valueDiffers ov v = true)) ∧
    (∀ k, FindMember k new_members = none →
      FindMember k (flatDiff old_members new_members) = none) ∧
    ((∀ p ∈ new_members, p.1 ≠ "last_price" → p.1 ≠ "volume" →
        ∃ ov, FindMember p.1 old_members = some ov ∧ valueDiffers ov p.2 = false) →
      (∀ p ∈ new_members, p.1 = "last_price" ∨ p.1 = "volume" →
        ∀ ov, FindMember p.1 old_members = some ov → valueDiffers ov p.2 = true) →
      flatDiff old_members new_members =
        new_members.filter (fun p => decide (p.1 = "last_price" ∨ p.1 = "volume"))) := by
  have hchar : ∀ k v, FindMember k (flatDiff old_members new_members) = some v ↔
      FindMember k new_members = some v ∧
        (FindMember k old_members = none ∨
          ∃ ov, FindMember k old_members = some ov ∧ valueDiffers ov v = true) := by
    intro k v
    unfold flatDiff
    rw [FindMember_filter_nodup _ _ hn.1]
    cases FindMember k old_members <;> simp
  refine ⟨?_, hchar, ?_, ?_⟩
  · rw [ComputeJsonDiff_obj, diffMembers_flatDiff write old_members new_members hn.2 ho.2 hni hoi]
    rfl
  · intro k hk
    cases hd : FindMember k (flatDiff old_members new_members) with
    | none => rfl
    | some v =>
      have := ((hchar k v).mp hd).1
      rw [hk] at this
      exact absurd this (by simp)
  · intro hsame hdiff
    unfold flatDiff
    apply List.filter_congr
    intro p hp
    by_cases hk : p.1 = "last_price" ∨ p.1 = "volume"
    · cases hf : FindMember p.1 old_members with
      | none => simp [hk]
      | some ov => simp [hk, hdiff p hp hk ov hf]
    · obtain ⟨ov, hov, hv⟩ := hsame p hp (fun h => hk (Or.inl h)) (fun h => hk (Or.inr h))
      simp [hk, hov, hv]

/-- Witness of C29: two ticks of one instrument that differ in `last_price` and
`volume`. -/
theorem flat_diff_exact_witness :
    ComputeJsonDiff sampleWrite sampleQuote sampleQuote2 =
      some (.obj (flatDiff
        [("last_price", .num (.dbl ⟨false, 71230, 0⟩)), ("volume", .num (.int 10))]
        [("last_price", .num (.dbl ⟨false, 71235, 0⟩)), ("volume", .num (.int 12))])) :=
  (flat_diff_exact sampleWrite
    [("last_price", .num (.dbl ⟨false, 71230, 0⟩)), ("volume", .num (.int 10))]
    [("last_price", .num (.dbl ⟨false, 71235, 0⟩)), ("volume", .num (.int 12))]
    (by decide) (by decide) (by decide) (by decide)).1

/-! ## Claims on the `subscribe_quote` message -/

/-- Counterexample to C30 as stated: for `ins_list = "SHFE.cu2501,cu2501"` the
items are `SHFE.cu2501` and `cu2501`, both with the raw id `cu2501`; after the
message `noheadtohead_instruments_map_["cu2501"]` is `cu2501`, the later item,
and not `SHFE.cu2501`. -/
theorem subscribe_quote_later_item_overwrites :
    getlineItems [] "SHFE.cu2501,cu2501".data = ["SHFE.cu2501", "cu2501"] ∧
    nohead_instrument "SHFE.cu2501" = "cu2501" ∧
    nohead_instrument "cu2501" = "cu2501" ∧
    mapFind "cu2501"
      (handle_message_subscribe_quote sampleWrite sampleEnv 0 false none newSessionServer "s1"
        "SHFE.cu2501,cu2501").1.noheadtohead_instruments_map_ = some "cu2501" := by
  decide

/-- Claim C30, amended.  Let `ins_list` be the items `items` joined by commas
(no item holds a comma) and let the session be registered.  The raw id of an
item is the item itself when it has no dot and the text after its first dot
otherwise.  After the `subscribe_quote` message, for every non-empty item `t`
with raw id `raw`: `noheadtohead_instruments_map_[raw]` is `t` unless a later
non-empty item has the same raw id (the last such item is stored); `raw` is in
the session's subscription set; the session is in `instrument_subscribers_[raw]`;
and in multi-CTP mode the dispatcher has the session among the requesting
sessions of `raw` and `raw` among the instruments of the session.  Empty items
are skipped: a key that is the raw id of no non-empty item keeps its entry in
the map, its subscribers and its membership in the session's set.  In single-CTP
mode the dispatcher is untouched, and the session gets the reply. -/
theorem subscribe_quote_items (write : Json → String) (env : Env) (now : Int)
    (use_multi_ctp_mode_ : Bool) (subscription_dispatcher_ : Option SubscriptionDispatcher)
    (st : MarketDataServer) (session_id : String) (items : List String) (s0 : WebSocketSession)
    (R : MarketDataServer × Option SubscriptionDispatcher)
    (hitems : ∀ t ∈ items, ',' ∉ t.data)
    (hsess : mapFind session_id st.sessions_ = some s0)
    (hR : R = handle_message_subscribe_quote write env now use_multi_ctp_mode_
      subscription_dispatcher_ st session_id (String.intercalate "," items)) :
    (∀ t : String, ('.' ∉ t.data → nohead_instrument t = t) ∧
      ∀ pre post, t.data = pre ++ '.' :: post → '.' ∉ pre →
        nohead_instrument t = String.mk post) ∧
    (∀ pre t post, items = pre ++ t :: post → t ≠ "" →
      ((∀ u ∈ post, u ≠ "" → nohead_instrument u ≠ nohead_instrument t) →
        mapFind (nohead_instrument t) R.1.noheadtohead_instruments_map_ = some t) ∧
      (∃ s, mapFind session_id R.1.sessions_ = some s ∧
        nohead_instrument t ∈ s.subscriptions_) ∧
      (∃ subs, mapFind (nohead_instrument t) R.1.instrument_subscribers_ = some subs ∧
        session_id ∈ subs) ∧
      (use_multi_ctp_mode_ = true → ∀ d0, subscription_dispatcher_ = some d0 →
        ∃ d, R.2 = some d ∧ session_id ∈ requestingSessions d (nohead_instrument t) ∧
          nohead_instrument t ∈ sessionInstruments d session_id)) ∧
    (∀ k, (∀ t ∈ items, t ≠ "" → nohead_instrument t ≠ k) →
      mapFind k R.1.noheadtohead_instruments_map_ =
        mapFind k st.noheadtohead_instruments_map_ ∧
      (∀ x, (∃ subs, mapFind k R.1.instrument_subscribers_ = some subs ∧ x ∈ subs) ↔
        ∃ subs, mapFind k st.instrument_subscribers_ = some subs ∧ x ∈ subs) ∧
      ∀ s, mapFind session_id R.1.sessions_ = some s →
        (k ∈ s.subscriptions_ ↔ k ∈ s0.subscriptions_)) ∧
    (use_multi_ctp_mode_ = false → R.2 = subscription_dispatcher_) ∧
    ∃ s, mapFind session_id R.1.sessions_ = some s ∧
      s.sent = s0.sent ++ [write subscribeQuoteResponse] := by
  have hfold : (getlineItems [] (String.intercalate "," items).data).foldl
      (subscribeQuoteItem env now use_multi_ctp_mode_ session_id)
        (st, subscription_dispatcher_) =
      items.foldl (subscribeQuoteItem env now use_multi_ctp_mode_ session_id)
        (st, subscription_dispatcher_) := by
    rw [foldl_subscribeQuoteItem_filter, getlineItems_intercalate items hitems,
      ← foldl_subscribeQuoteItem_filter]
  obtain ⟨s, hs, hsent, hsubs⟩ := foldl_subscribeQuoteItem_sessions env now use_multi_ctp_mode_
    session_id items (st, subscription_dispatcher_) s0 hsess
  have hmap : R.1.noheadtohead_instruments_map_ =
      (items.foldl (subscribeQuoteItem env now use_multi_ctp_mode_ session_id)
        (st, subscription_dispatcher_)).1.noheadtohead_instruments_map_ := by
    rw [hR, ← hfold]
    rfl
  have hsub : R.1.instrument_subscribers_ =
      (items.foldl (subscribeQuoteItem env now use_multi_ctp_mode_ session_id)
        (st, subscription_dispatcher_)).1.instrument_subscribers_ := by
    rw [hR, ← hfold]
    rfl
  have hdisp : R.2 =
      (items.foldl (subscribeQuoteItem env now use_multi_ctp_mode_ session_id)
        (st, subscription_dispatcher_)).2 := by
    rw [hR, ← hfold]
    rfl
  have hsession : mapFind session_id R.1.sessions_ =
      some (s.send_message (write subscribeQuoteResponse)) := by
    rw [hR]
    simp only [handle_message_subscribe_quote]
    rw [hfold, hs]
    exact mapFind_mapInsert_self _ _ _
  refine ⟨fun t => ⟨nohead_instrument_no_dot t, nohead_instrument_dot t⟩, ?_, ?_, ?_, ?_⟩
  · intro pre t post hsplit ht
    have hmem : t ∈ items := by
      rw [hsplit]
      exact List.mem_append_right _ (List.mem_cons_self _ _)
    refine ⟨?_, ?_, ?_, ?_⟩
    · intro hlater
      rw [hmap, hsplit]
      exact foldl_subscribeQuoteItem_map_last env now use_multi_ctp_mode_ session_id pre post t
        _ ht hlater
    · exact ⟨_, hsession, (hsubs _).mpr (Or.inr ⟨t, hmem, ht, rfl⟩)⟩
    · rw [hsub]
      exact (foldl_subscribeQuoteItem_subscribers env now use_multi_ctp_mode_ session_id items
        _ _ _).mpr (Or.inr ⟨rfl, t, hmem, ht, rfl⟩)
    · intro hmode d0 hd0
      subst hmode
      obtain ⟨d, hd, hall⟩ := foldl_subscribeQuoteItem_dispatcher env now session_id items
        (st, subscription_dispatcher_) d0 hd0
      rw [hdisp]
      exact ⟨d, hd, hall _ (Or.inr ⟨t, hmem, ht, rfl⟩)⟩
  · intro k hk
    refine ⟨?_, ?_, ?_⟩
    · rw [hmap]
      exact foldl_subscribeQuoteItem_map_other env now use_multi_ctp_mode_ session_id items _ k hk
    · intro x
      rw [hsub, foldl_subscribeQuoteItem_subscribers]
      constructor
      · rintro (h | ⟨_, t, ht, hne, hkt⟩)
        · exact h
        · exact absurd hkt (hk t ht hne)
      · exact Or.inl
    · intro s2 hs2
      rw [hsession] at hs2
      cases hs2
      show k ∈ s.subscriptions_ ↔ _
      rw [hsubs]
      constructor
      · rintro (h | ⟨t, ht, hne, hkt⟩)
        · exact h
        · exact absurd hkt (hk t ht hne)
      · exact Or.inl
  · intro hmode
    subst hmode
    rw [hdisp]
    exact foldl_subscribeQuoteItem_single env now session_id items _
  · refine ⟨_, hsession, ?_⟩
    show s.sent ++ _ = _
    rw [hsent]

/-- Witness of C30: the message with `ins_list = "SHFE.cu2501,,ag2501"` in
multi-CTP mode. -/
theorem subscribe_quote_items_witness :
    (∀ t ∈ ["SHFE.cu2501", "", "ag2501"], ',' ∉ t.data) ∧
    mapFind "s1" newSessionServer.sessions_ = some { subscriptions_ := [], sent := [] } ∧
    ∃ s, mapFind "s1"
        (handle_message_subscribe_quote sampleWrite sampleEnv 0 true (some onlineDispatcher)
          newSessionServer "s1"
          (String.intercalate "," ["SHFE.cu2501", "", "ag2501"])).1.sessions_ = some s ∧
      s.sent = [] ++ [sampleWrite subscribeQuoteResponse] :=
  ⟨by decide, rfl,
    (subscribe_quote_items sampleWrite sampleEnv 0 true (some onlineDispatcher) newSessionServer
      "s1" ["SHFE.cu2501", "", "ag2501"] { subscriptions_ := [], sent := [] } _ (by decide) rfl
      rfl).2.2.2.2⟩

/-! ## Lemmas on the write path -/

/-- The invariant of the write path with respect to the messages `passed` to
`send_message` so far. -/
theorem writer_step_invariant (e : WriterEvent) (w : SessionWriter) (passed : List String)
    (hlen : w.in_flight.length ≤ 1) (hbusy : w.in_flight ≠ [] → w.is_writing_ = true)
    (hseq : w.handed ++ w.message_queue_ = passed) (hrun : WriterRun w [e]) :
    (e.run w).in_flight.length ≤ 1 ∧ ((e.run w).in_flight ≠ [] → (e.run w).is_writing_ = true) ∧
      (e.run w).handed ++ (e.run w).message_queue_ = passed ++ passedMessages [e] := by
  cases e with
  | send_message message =>
    simp only [WriterEvent.run, passedMessages, SessionWriter.send_message]
    by_cases hw : w.is_writing_ = true
    · simp only [hw, Bool.not_true, Bool.false_eq_true, if_false]
      refine ⟨hlen, fun _ => trivial, ?_⟩
      rw [← List.append_assoc, hseq]
    · have hw' : w.is_writing_ = false := by simpa using hw
      have hnone : w.in_flight = [] := by
        by_contra hne
        exact hw (hbusy hne)
      simp only [hw', Bool.not_false, if_true, SessionWriter.start_write]
      cases hq : w.message_queue_ with
      | nil =>
        simp only [List.nil_append, hnone, List.length_singleton, le_refl, true_and]
        refine ⟨fun _ => trivial, ?_⟩
        rw [← hseq, hq]
        simp
      | cons front rest =>
        simp only [List.cons_append, hnone, List.nil_append, List.length_singleton, le_refl,
          true_and]
        refine ⟨fun _ => trivial, ?_⟩
        rw [← hseq, hq]
        simp
  | on_write ec =>
    obtain ⟨hne, _⟩ := hrun
    have htail : w.in_flight.tail = [] := by
      cases hf : w.in_flight with
      | nil => rfl
      | cons x xs =>
        rw [hf] at hlen
        simp only [List.length_cons] at hlen
        have : xs.length = 0 := by omega
        simpa using this
    have hw : w.is_writing_ = true := hbusy hne
    simp only [WriterEvent.run, passedMessages, List.append_nil, SessionWriter.on_write, htail]
    cases ec with
    | true =>
      simp only [if_true, List.length_nil, Nat.zero_le, true_and]
      exact ⟨fun h => absurd rfl h, hseq⟩
    | false =>
      simp only [Bool.false_eq_true, if_false, SessionWriter.start_write]
      cases hq : w.message_queue_ with
      | nil =>
        simp only [List.length_nil, Nat.zero_le, true_and]
        refine ⟨fun h => absurd rfl h, ?_⟩
        rw [← hseq, hq]
      | cons front rest =>
        simp only [List.nil_append, List.length_singleton, le_refl, true_and]
        refine ⟨fun _ => hw, ?_⟩
        rw [← hseq, hq]
        simp

theorem writer_run_invariant (events : List WriterEvent) (w : SessionWriter)
    (passed : List String)
    (hlen : w.in_flight.length ≤ 1) (hbusy : w.in_flight ≠ [] → w.is_writing_ = true)
    (hseq : w.handed ++ w.message_queue_ = passed) (hrun : WriterRun w events) :
    (runWriter events w).in_flight.length ≤ 1 ∧
      ((runWriter events w).in_flight ≠ [] → (runWriter events w).is_writing_ = true) ∧
      (runWriter events w).handed ++ (runWriter events w).message_queue_ =
        passed ++ passedMessages events := by
  induction events generalizing w passed with
  | nil => simpa [runWriter, passedMessages] using ⟨hlen, hbusy, hseq⟩
  | cons e rest ih =>
    have hfirst : WriterRun w [e] := by
      cases e with
      | send_message message => simp [WriterRun]
      | on_write ec => exact ⟨hrun.1, trivial⟩
    have hrest : WriterRun (e.run w) rest := by
      cases e with
      | send_message message => exact hrun
      | on_write ec => exact hrun.2
    obtain ⟨h1, h2, h3⟩ := writer_step_invariant e w passed hlen hbusy hseq hfirst
    have := ih (e.run w) (passed ++ passedMessages [e]) h1 h2 h3 hrest
    simp only [runWriter]
    refine ⟨this.1, this.2.1, ?_⟩
    rw [this.2.2, List.append_assoc]
    congr 1
    cases e <;> rfl

/-! ## Lemmas on the quote object -/

theorem levelMembers_keys {D : Type} (ops : DoubleOps D) (price_key volume_key : String)
    (price : D) (volume : Int) :
    (levelMembers ops price_key volume_key price volume).map Prod.fst =
      [price_key, volume_key] := by
  unfold levelMembers
  split <;> rfl

theorem priceMember_key {D : Type} (ops : DoubleOps D) (key : String) (price : D)
    (missing : Json) : (priceMember ops key price missing).1 = key := rfl

theorem build_quote_data_keys {D : Type} (ops : DoubleOps D)
    (pDepthMarketData : CThostFtdcDepthMarketDataField D) (display_instrument : String) :
    ∃ ms, build_quote_data ops pDepthMarketData display_instrument = .obj ms ∧
      ms.map Prod.fst = quoteKeys ∧
      ∀ key ∈ deepLevelKeys, (key, Json.null) ∈ ms := by
  refine ⟨_, rfl, ?_, ?_⟩
  · simp only [List.map_append, List.map_cons, List.map_nil, levelMembers_keys, priceMember_key,
      quoteKeys, List.cons_append, List.nil_append, List.append_assoc]
  · intro key hkey
    simp only [deepLevelKeys, List.mem_cons, List.mem_singleton, List.not_mem_nil,
      or_false] at hkey
    simp only [List.mem_append, List.mem_cons, Prod.mk.injEq]
    rcases hkey with h | h | h | h | h | h | h | h | h | h | h | h | h | h | h | h | h | h | h | h <;>
      subst h <;> simp

theorem sample_quote_members :
    (build_quote_data sampleDoubleOps sampleDepthRecord "SHFE.cu2501").member "datetime" =
      some (.str "2025-01-02 09:30:00.50000") ∧
    (build_quote_data sampleDoubleOps sampleDepthRecord "SHFE.cu2501").member "ask_price1" =
      some (.num (.dbl ⟨false, 7124000, 0⟩)) ∧
    (build_quote_data sampleDoubleOps sampleDepthRecord "SHFE.cu2501").member "ask_price2" =
      some .null ∧
    (build_quote_data sampleDoubleOps sampleDepthRecord "SHFE.cu2501").member "close" =
      some (.str "-") := by
  refine ⟨?_, ?_, ?_, ?_⟩ <;> rfl

/-! ## Lemmas on `connection_subscriptions_` -/

theorem foldl_connection_subscriptions {α : Type}
    (f : SubscriptionDispatcher → α → SubscriptionDispatcher)
    (hf : ∀ d a, (f d a).connection_subscriptions_ = d.connection_subscriptions_) (xs : List α)
    (d : SubscriptionDispatcher) :
    (xs.foldl f d).connection_subscriptions_ = d.connection_subscriptions_ := by
  induction xs generalizing d with
  | nil => rfl
  | cons x xs ih =>
    simp only [List.foldl_cons]
    rw [ih, hf]

theorem add_subscription_connection_subscriptions (env : Env) (now : Int)
    (d : SubscriptionDispatcher) (session_id instrument_id : String) :
    (add_subscription env now d session_id instrument_id).1.connection_subscriptions_ =
      d.connection_subscriptions_ := by
  unfold add_subscription
  simp only
  split
  · rfl
  · split
    · rfl
    · split <;> rfl

theorem remove_subscription_connection_subscriptions (env : Env) (d : SubscriptionDispatcher)
    (session_id instrument_id : String) :
    (remove_subscription env d session_id instrument_id).1.connection_subscriptions_ =
      d.connection_subscriptions_ := by
  unfold remove_subscription
  simp only
  split
  · rfl
  · split <;> rfl

theorem migrate_subscription_connection_subscriptions (env : Env) (d : SubscriptionDispatcher)
    (instrument_id from_connection_id to_connection_id : String) :
    (migrate_subscription env d instrument_id from_connection_id
      to_connection_id).connection_subscriptions_ = d.connection_subscriptions_ := by
  unfold migrate_subscription
  split <;> rfl

theorem failoverStep_connection_subscriptions (env : Env) (connection_id : String)
    (d : SubscriptionDispatcher) (instrument_id : String) :
    (failoverStep env connection_id d instrument_id).connection_subscriptions_ =
      d.connection_subscriptions_ := by
  unfold failoverStep
  split
  · split
    · exact migrate_subscription_connection_subscriptions _ _ _ _ _
    · rfl
  · rfl

theorem retryOne_connection_subscriptions (env : Env) (d : SubscriptionDispatcher)
    (instrument_id : String) :
    (retryOne env d instrument_id).connection_subscriptions_ = d.connection_subscriptions_ := by
  unfold retryOne
  split
  · rfl
  · split
    · rfl
    · split
      · rfl
      · simp only
        split <;> rfl

theorem mem_of_mapFind_mapErase {V : Type} (k k2 : String) (m : List (String × V)) (v : V)
    (h : mapFind k2 (mapErase k m) = some v) : mapFind k2 m = some v := by
  by_cases hk : k2 = k
  · subst hk
    rw [mapFind_mapErase_self] at h
    cases h
  · rw [mapFind_mapErase_other _ _ _ hk] at h
    exact h

/-- An instrument recorded for a connection after an operation was recorded
before it, unless the operation is the acknowledgement for that connection and
instrument, which found an entry. -/
theorem run_connectionInstruments (op : DispatcherOp) (d : SubscriptionDispatcher)
    (connection_id instrument_id : String)
    (h : instrument_id ∈ connectionInstruments (op.run d) connection_id) :
    instrument_id ∈ connectionInstruments d connection_id ∨
      ∃ now info, op = .on_subscription_success now connection_id instrument_id ∧
        mapFind instrument_id d.global_subscriptions_ = some info := by
  have hsame : ∀ d2 : SubscriptionDispatcher,
      d2.connection_subscriptions_ = d.connection_subscriptions_ →
      instrument_id ∈ connectionInstruments d2 connection_id →
      instrument_id ∈ connectionInstruments d connection_id := by
    intro d2 h2 hm
    unfold connectionInstruments at hm ⊢
    rw [h2] at hm
    exact hm
  cases op with
  | pool connection_manager => exact Or.inl (hsame _ rfl h)
  | set_load_balance_strategy strategy => exact Or.inl (hsame _ rfl h)
  | add_subscription env now session_id other =>
    exact Or.inl (hsame _ (add_subscription_connection_subscriptions env now d session_id other) h)
  | remove_subscription env session_id other =>
    exact Or.inl (hsame _ (remove_subscription_connection_subscriptions env d session_id other) h)
  | remove_all_subscriptions_for_session env session_id =>
    exact Or.inl (hsame _ (foldl_connection_subscriptions _
      (fun acc i => remove_subscription_connection_subscriptions env acc session_id i) _ d) h)
  | handle_connection_failure env failed_id =>
    left
    have hrun : (DispatcherOp.handle_connection_failure env failed_id).run d =
        handle_connection_failure env d failed_id := rfl
    rw [hrun, handle_connection_failure_eq] at h
    have hfold : ((affectedInstruments d failed_id).foldl (failoverStep env failed_id)
        (markFailed d failed_id)).connection_subscriptions_ = d.connection_subscriptions_ := by
      rw [foldl_connection_subscriptions _ (failoverStep_connection_subscriptions env failed_id)]
      rfl
    unfold connectionInstruments at h ⊢
    simp only [hfold] at h
    cases hf : mapFind connection_id (mapErase failed_id d.connection_subscriptions_) with
    | none => simp [hf] at h
    | some s =>
      rw [hf] at h
      rw [mem_of_mapFind_mapErase _ _ _ _ hf]
      exact h
  | handle_connection_recovery env recovered_id =>
    have hc : (process_pending_subscriptions env d).connection_subscriptions_ =
        d.connection_subscriptions_ := by
      unfold process_pending_subscriptions
      rw [foldl_connection_subscriptions _ (retryOne_connection_subscriptions env)]
    exact Or.inl (hsame (process_pending_subscriptions env d) hc h)
  | on_subscription_success now acked_id other =>
    have hrun : (DispatcherOp.on_subscription_success now acked_id other).run d =
        on_subscription_success now d acked_id other := rfl
    rw [hrun] at h
    unfold on_subscription_success at h
    cases hg : mapFind other d.global_subscriptions_ with
    | none =>
      simp only [hg] at h
      exact Or.inl h
    | some info =>
      simp only [hg] at h
      unfold connectionInstruments at h ⊢
      simp only at h
      by_cases hc : connection_id = acked_id
      · subst hc
        rw [mapFind_mapSetInsert_eq] at h
        cases hf : mapFind connection_id d.connection_subscriptions_ with
        | none =>
          simp only [hf, List.mem_singleton] at h
          subst h
          exact Or.inr ⟨now, info, rfl, hg⟩
        | some s =>
          simp only [hf, mem_setInsert] at h
          rcases h with h | h
          · subst h
            exact Or.inr ⟨now, info, rfl, hg⟩
          · exact Or.inl h
      · rw [mapFind_mapSetInsert_other _ _ _ _ hc] at h
        exact Or.inl h
  | on_subscription_failed now failed_id other =>
    left
    have hrun : (DispatcherOp.on_subscription_failed now failed_id other).run d =
        on_subscription_failed now d failed_id other := rfl
    rw [hrun] at h
    refine hsame _ ?_ h
    unfold on_subscription_failed
    split <;> rfl
  | on_unsubscription_success unsub_id other =>
    left
    have hrun : (DispatcherOp.on_unsubscription_success unsub_id other).run d =
        on_unsubscription_success d unsub_id other := rfl
    rw [hrun] at h
    unfold connectionInstruments on_unsubscription_success at *
    simp only at h
    by_cases hc : connection_id = unsub_id
    · subst hc
      rw [mapFind_mapSetErase_self] at h
      cases hf : mapFind connection_id d.connection_subscriptions_ with
      | none => simp [hf] at h
      | some s =>
        by_cases he : setErase other s = []
        · simp [hf, he] at h
        · simp only [hf, he, if_false] at h
          exact ((mem_setErase _ _ _).mp h).1
    · rw [mapFind_mapSetErase_other _ _ _ _ hc] at h
      exact h
  | process_pending_subscriptions env =>
    have hc : (process_pending_subscriptions env d).connection_subscriptions_ =
        d.connection_subscriptions_ := by
      unfold process_pending_subscriptions
      rw [foldl_connection_subscriptions _ (retryOne_connection_subscriptions env)]
    exact Or.inl (hsame (process_pending_subscriptions env d) hc h)
  | cleanup_expired_subscriptions now => exact Or.inl (hsame _ rfl h)
  | shutdown =>
    have : connectionInstruments (DispatcherOp.shutdown.run d) connection_id = [] := rfl
    rw [this] at h
    exact absurd h (List.not_mem_nil _)

theorem runOps_append (ops : List DispatcherOp) (op : DispatcherOp) (d : SubscriptionDispatcher) :
    runOps (ops ++ [op]) d = op.run (runOps ops d) := by
  induction ops generalizing d with
  | nil => rfl
  | cons first rest ih => exact ih (first.run d)

/-! ## Lemmas on the scores and on the round robin -/

theorem qualityLoop_max (best : CTPConnection) (xs : List CTPConnection) :
    calculate_connection_score best ≤
        calculate_connection_score (qualityLoop best (calculate_connection_score best) xs) ∧
      ∀ x ∈ xs, calculate_connection_score x ≤
        calculate_connection_score (qualityLoop best (calculate_connection_score best) xs) := by
  induction xs generalizing best with
  | nil => exact ⟨le_refl _, fun x hx => absurd hx (List.not_mem_nil x)⟩
  | cons x rest ih =>
    by_cases hq : calculate_connection_score x > calculate_connection_score best
    · have hstep : qualityLoop best (calculate_connection_score best) (x :: rest) =
          qualityLoop x (calculate_connection_score x) rest := by
        simp [qualityLoop, hq]
      rw [hstep]
      obtain ⟨h1, h2⟩ := ih x
      refine ⟨by omega, ?_⟩
      intro y hy
      rcases List.mem_cons.mp hy with rfl | hy
      · exact h1
      · exact h2 y hy
    · have hstep : qualityLoop best (calculate_connection_score best) (x :: rest) =
          qualityLoop best (calculate_connection_score best) rest := by
        simp [qualityLoop, hq]
      rw [hstep]
      obtain ⟨h1, h2⟩ := ih best
      refine ⟨h1, ?_⟩
      intro y hy
      rcases List.mem_cons.mp hy with rfl | hy
      · omega
      · exact h2 y hy

theorem loadBonus_500 (subs : Nat) :
    loadBonus subs 500 = if subs < 250 then 20 else if subs > 400 then -30 else 0 := by
  unfold loadBonus
  have h1 : ((subs : ℚ) < (1 / 2 : ℚ) * ((500 : Int) : ℚ)) ↔ subs < 250 := by
    have : (1 / 2 : ℚ) * ((500 : Int) : ℚ) = ((250 : Nat) : ℚ) := by norm_num
    rw [this, Nat.cast_lt]
  have h2 : ((subs : ℚ) > (4 / 5 : ℚ) * ((500 : Int) : ℚ)) ↔ subs > 400 := by
    have : (4 / 5 : ℚ) * ((500 : Int) : ℚ) = ((400 : Nat) : ℚ) := by norm_num
    rw [this, gt_iff_lt, Nat.cast_lt]
  simp only [h1, h2]

theorem fifths_gt (n : Nat) (m k : Int) :
    ((n : ℚ) > ((k : ℚ) / 5) * (m : ℚ)) ↔ 5 * (n : Int) > k * m := by
  constructor
  · intro h
    have h2 : ((k * m : Int) : ℚ) < ((5 * (n : Int) : Int) : ℚ) := by
      push_cast
      linarith
    exact_mod_cast h2
  · intro h
    have h2 : ((k * m : Int) : ℚ) < ((5 * (n : Int) : Int) : ℚ) := by exact_mod_cast h
    push_cast at h2
    linarith

theorem loadPenalty_eq (n : Nat) (m : Int) :
    loadPenalty n m =
      if 5 * (n : Int) > 4 * m then 20 else if 5 * (n : Int) > 3 * m then 10 else 0 := by
  unfold loadPenalty
  have h4 := fifths_gt n m 4
  have h3 := fifths_gt n m 3
  simp only [Int.cast_ofNat] at h4 h3
  simp only [h4, h3]

theorem roundRobinAfter_pool (k : Nat) (d : SubscriptionDispatcher) :
    (roundRobinAfter k d).connection_manager_ = d.connection_manager_ := by
  induction k generalizing d with
  | zero => rfl
  | succ k ih =>
    simp only [roundRobinAfter]
    rw [ih]

theorem roundRobinAfter_counter (k : Nat) (d : SubscriptionDispatcher)
    (hav : d.connection_manager_.get_available_connections ≠ [])
    (hk : d.round_robin_counter_ + k < 2 ^ 64) :
    (roundRobinAfter k d).round_robin_counter_ = d.round_robin_counter_ + k := by
  induction k generalizing d with
  | zero => rfl
  | succ k ih =>
    simp only [roundRobinAfter]
    have hstep : (select_connection_round_robin d).2 = d.round_robin_counter_ + 1 := by
      simp only [select_connection_round_robin, hav, if_false]
      exact Nat.mod_eq_of_lt (by omega)
    have hnext := ih { d with round_robin_counter_ := (select_connection_round_robin d).2 } hav
      (by simp only [hstep]; omega)
    rw [hnext]
    simp only [hstep]
    omega

theorem range_map_getElem? {α : Type} (l : List α) :
    (List.range l.length).map (fun i => l[i]?) = l.map some := by
  apply List.ext_getElem?
  intro i
  by_cases hi : i < l.length
  · simp [hi]
  · have hle : l.length ≤ i := Nat.le_of_not_lt hi
    have h1 : (List.range l.length)[i]? = none := List.getElem?_eq_none (by simpa using hle)
    have h2 : l[i]? = none := List.getElem?_eq_none hle
    simp [h1, h2]

/-! ## Claims on the write path -/

/-- Claim C31.  In every run of the write path of a session from its
construction, driven by `send_message` and by the completions `on_write` of the
writes in flight (with or without error), at most one write is in flight, and
the messages handed to the transport followed by the messages still queued are
the messages passed to `send_message`, in their order: the handed messages are
a prefix of the passed ones.  The statement holds after every event, since every
initial part of a run is a run. -/
theorem write_path_order (events : List WriterEvent) (h : WriterRun SessionWriter.new events) :
    (runWriter events SessionWriter.new).in_flight.length ≤ 1 ∧
    (runWriter events SessionWriter.new).handed ++
      (runWriter events SessionWriter.new).message_queue_ = passedMessages events ∧
    (runWriter events SessionWriter.new).handed <+: passedMessages events ∧
    ∀ first rest, events = first ++ rest → WriterRun SessionWriter.new first := by
  have hinv := writer_run_invariant events SessionWriter.new [] (by decide)
    (fun hne => absurd rfl hne) rfl h
  rw [List.nil_append] at hinv
  refine ⟨hinv.1, hinv.2.2, ⟨_, hinv.2.2⟩, ?_⟩
  intro first rest hsplit
  subst hsplit
  clear hinv
  generalize SessionWriter.new = w at h
  induction first generalizing w with
  | nil => trivial
  | cons e first ih =>
    cases e with
    | send_message message => exact ih _ h
    | on_write ec => exact ⟨h.1, ih _ h.2⟩

/-- Witness of C31: three messages, the first write completes, the second ends
in an error, and a fourth message restarts the writer with the third. -/
theorem write_path_order_witness :
    WriterRun SessionWriter.new
      [.send_message "a", .send_message "b", .send_message "c", .on_write false,
        .on_write true, .send_message "d"] ∧
    (runWriter [.send_message "a", .send_message "b", .send_message "c", .on_write false,
      .on_write true, .send_message "d"] SessionWriter.new).handed <+:
      passedMessages [.send_message "a", .send_message "b", .send_message "c", .on_write false,
        .on_write true, .send_message "d"] :=
  ⟨by decide,
    (write_path_order [.send_message "a", .send_message "b", .send_message "c", .on_write false,
      .on_write true, .send_message "d"] (by decide)).2.2.1⟩

/-! ## Claims on the quote object -/

/-- Claim C32.  For every depth record, whatever its field values and whatever
the floating-point operations give on them, `build_quote_data` returns an object
whose member names are the 57 keys of the quote schema, each once and in the
order of the schema, and whose members of the levels 6 to 10 of both sides are
null. -/
theorem build_quote_data_schema {D : Type} (ops : DoubleOps D)
    (pDepthMarketData : CThostFtdcDepthMarketDataField D) (display_instrument : String) :
    ∃ ms, build_quote_data ops pDepthMarketData display_instrument = .obj ms ∧
      ms.map Prod.fst = quoteKeys ∧
      quoteKeys.length = 57 ∧ quoteKeys.Nodup ∧
      (ms.map Prod.fst).Nodup ∧
      ∀ key ∈ deepLevelKeys, FindMember key ms = some .null := by
  obtain ⟨ms, hms, hkeys, hnull⟩ := build_quote_data_keys ops pDepthMarketData display_instrument
  have hnd : quoteKeys.Nodup := by decide
  refine ⟨ms, hms, hkeys, by decide, hnd, by rw [hkeys]; exact hnd, ?_⟩
  intro key hkey
  exact FindMember_of_mem_nodup (by rw [hkeys]; exact hnd) (hnull key hkey)

/-! ## Claims on the records of the dispatcher -/

/-- Counterexample to C33 as stated.  The state `unsubscribedDispatcher` is
reachable (subscribe, acknowledgement, the last session unsubscribes): `cu2501`
is recorded in `connection_subscriptions_["c1"]` and has no entry in
`global_subscriptions_`.  The state `failedActiveDispatcher` is reachable too
(subscribe, acknowledgement, failed response): `cu2501` is recorded for `c1` and
its entry is `FAILED`. -/
theorem recorded_instrument_without_active_entry :
    unsubscribedDispatcher.Reachable ∧
    mapFind "c1" unsubscribedDispatcher.connection_subscriptions_ = some ["cu2501"] ∧
    mapFind "cu2501" unsubscribedDispatcher.global_subscriptions_ = none ∧
    failedActiveDispatcher.Reachable ∧
    mapFind "c1" failedActiveDispatcher.connection_subscriptions_ = some ["cu2501"] ∧
    (mapFind "cu2501" failedActiveDispatcher.global_subscriptions_).map (fun info => info.status) =
      some .FAILED := by
  have h0 := SubscriptionDispatcher.Reachable.new
    { connections_ := [("c1", sampleConnection "c1" .LOGGED_IN),
        ("c2", sampleConnection "c2" .LOGGED_IN)]
      next_restart_allowed_ := [] }
  have h1 := SubscriptionDispatcher.Reachable.step
    (.add_subscription sampleEnv 0 "A" "cu2501") _ h0
  have h2 := SubscriptionDispatcher.Reachable.step
    (.on_subscription_success 1 "c1" "cu2501") _ h1
  have h3 : unsubscribedDispatcher.Reachable :=
    SubscriptionDispatcher.Reachable.step (.remove_subscription sampleEnv "A" "cu2501") _ h2
  have h4 : failedActiveDispatcher.Reachable :=
    SubscriptionDispatcher.Reachable.step (.on_subscription_failed 2 "c1" "cu2501") _ h2
  refine ⟨h3, ?_, ?_, h4, ?_, ?_⟩ <;> decide

/-- Claim C33, amended.  In every reachable dispatcher state `d`, every
instrument `I` recorded in `connection_subscriptions_[c]` was inserted there by
an acknowledgement `on_subscription_success(c, I)`: there is a reachable state
`d0` that did not record `I` for `c` and had a `SubscriptionInfo` for `I`, the
acknowledgement set that entry to `ACTIVE` and recorded `I` for `c`, and `d` is
reached from the state after the acknowledgement by a run of operations, each of
which left `I` recorded for `c`.  (The entry may have been deleted or have left
`ACTIVE` during that run.) -/
theorem recorded_instruments_were_acknowledged (d : SubscriptionDispatcher)
    (connection_id instrument_id : String) (hd : d.Reachable)
    (h : instrument_id ∈ connectionInstruments d connection_id) :
    ∃ d0 now info ops, d0.Reachable ∧
      instrument_id ∉ connectionInstruments d0 connection_id ∧
      mapFind instrument_id d0.global_subscriptions_ = some info ∧
      mapFind instrument_id
        (on_subscription_success now d0 connection_id instrument_id).global_subscriptions_ =
          some { info with status := .ACTIVE, last_update_time := now } ∧
      d = runOps ops (on_subscription_success now d0 connection_id instrument_id) ∧
      ∀ n, instrument_id ∈
        connectionInstruments
          (runOps (ops.take n) (on_subscription_success now d0 connection_id instrument_id))
          connection_id := by
  induction hd with
  | new connection_manager => exact absurd h (List.not_mem_nil _)
  | step op d hd ih =>
    by_cases hbefore : instrument_id ∈ connectionInstruments d connection_id
    · obtain ⟨d0, now, info, ops, hd0, hnot, hinfo, hact, hrun, hkept⟩ := ih hbefore
      refine ⟨d0, now, info, ops ++ [op], hd0, hnot, hinfo, hact, ?_, ?_⟩
      · rw [runOps_append, ← hrun]
      · intro n
        by_cases hn : n ≤ ops.length
        · rw [List.take_append_of_le_length hn]
          exact hkept n
        · have hall : (ops ++ [op]).take n = ops ++ [op] :=
            List.take_of_length_le (by simp only [List.length_append, List.length_singleton]; omega)
          rw [hall, runOps_append, ← hrun]
          exact h
    · rcases run_connectionInstruments op d connection_id instrument_id h with
        hold | ⟨now, info, hop, hinfo⟩
      · exact absurd hold hbefore
      · subst hop
        have hact : mapFind instrument_id
            (on_subscription_success now d connection_id instrument_id).global_subscriptions_ =
            some { info with status := .ACTIVE, last_update_time := now } := by
          simp only [on_subscription_success, hinfo]
          exact mapFind_mapInsert_self _ _ _
        refine ⟨d, now, info, [], hd, hbefore, hinfo, hact, rfl, ?_⟩
        intro n
        rw [List.take_nil]
        exact h

/-- Witness of C33: `cu2501`, recorded for `c1` in the sample state. -/
theorem recorded_instruments_were_acknowledged_witness :
    activeDispatcher.Reachable ∧ "cu2501" ∈ connectionInstruments activeDispatcher "c1" ∧
    ∃ d0 now info ops, d0.Reachable ∧
      "cu2501" ∉ connectionInstruments d0 "c1" ∧
      mapFind "cu2501" d0.global_subscriptions_ = some info ∧
      mapFind "cu2501" (on_subscription_success now d0 "c1" "cu2501").global_subscriptions_ =
        some { info with status := .ACTIVE, last_update_time := now } ∧
      activeDispatcher = runOps ops (on_subscription_success now d0 "c1" "cu2501") ∧
      ∀ n, "cu2501" ∈
        connectionInstruments (runOps (ops.take n) (on_subscription_success now d0 "c1" "cu2501"))
          "c1" :=
  have hr : activeDispatcher.Reachable :=
    SubscriptionDispatcher.Reachable.step (.on_subscription_success 1 "c1" "cu2501") _
      (SubscriptionDispatcher.Reachable.step (.add_subscription sampleEnv 0 "A" "cu2501") _
        (SubscriptionDispatcher.Reachable.new
          { connections_ := [("c1", sampleConnection "c1" .LOGGED_IN),
              ("c2", sampleConnection "c2" .LOGGED_IN)]
            next_restart_allowed_ := [] }))
  ⟨hr, by decide,
    recorded_instruments_were_acknowledged activeDispatcher "c1" "cu2501" hr (by decide)⟩

/-- Claim C34 fails on the code.  `cu2501` was acknowledged at time 1 and is
still `ACTIVE` at time `tenMinutes + 1`, when a cleanup leaves it alone.  Then
both connections lose their front and `handle_connection_failure("c1")` marks
the entry `FAILED` without touching `last_update_time`, which stays 1.  The
cleanup at time `tenMinutes + 2` removes the entry, which has been `FAILED` for
one tick; `on_subscription_failed` stamps `last_update_time` when it sets the
same status, and an entry stamped so at `tenMinutes + 1` is kept. -/
theorem cleanup_removes_fresh_failure :
    (mapFind "cu2501"
      (add_subscription sampleEnv (tenMinutes + 1) activeDispatcher "B"
        "cu2501").1.global_subscriptions_).map (fun info => info.status) = some .ACTIVE ∧
    mapFind "cu2501"
      (cleanup_expired_subscriptions (tenMinutes + 1)
        (add_subscription sampleEnv (tenMinutes + 1) activeDispatcher "B"
          "cu2501").1).global_subscriptions_ =
      some ⟨"cu2501", "c1", .ACTIVE, ["A", "B"], 0, 1, 0⟩ ∧
    mapFind "cu2501" lateFailureDispatcher.global_subscriptions_ =
      some ⟨"cu2501", "c1", .FAILED, ["A", "B"], 0, 1, 0⟩ ∧
    mapFind "cu2501"
      (cleanup_expired_subscriptions (tenMinutes + 2)
        lateFailureDispatcher).global_subscriptions_ = none ∧
    mapFind "cu2501"
      (cleanup_expired_subscriptions (tenMinutes + 2)
        (on_subscription_failed (tenMinutes + 1) bothDroppedDispatcher "c1"
          "cu2501")).global_subscriptions_ =
      some ⟨"cu2501", "c1", .FAILED, ["A", "B"], 0, tenMinutes + 1, 1⟩ := by
  refine ⟨?_, ?_, ?_, ?_, ?_⟩ <;> decide

/-! ## Claims on the scores and on the round robin -/

/-- Counterexample to C35 as stated: a reachable connection with a cap of two
instruments, one subscription, quality 80 and no error.  With the cap of the
connection the bonus is 0 (one subscription is not below half of two) and the
score would be 80; `calculate_connection_score` returns 100, because it measures
the load against 500 subscriptions. -/
theorem score_ignores_configured_cap :
    halfLoadedConnection.Reachable ∧
    halfLoadedConnection.config_.max_subscriptions = 2 ∧
    halfLoadedConnection.get_subscription_count = 1 ∧
    halfLoadedConnection.connection_quality_ = 80 ∧
    halfLoadedConnection.error_count_ = 0 ∧
    max 0 (halfLoadedConnection.connection_quality_ +
      loadBonus halfLoadedConnection.get_subscription_count
        halfLoadedConnection.config_.max_subscriptions -
      min (halfLoadedConnection.error_count_ * 5) 40) = 80 ∧
    calculate_connection_score halfLoadedConnection = 100 := by
  have h0 := CTPConnection.Reachable.new { smallConfig with max_subscriptions := 2 } 0
  have h1 := CTPConnection.Reachable.step _ _ h0 (.start _ true)
  have h2 := CTPConnection.Reachable.step _ _ h1 (.OnFrontConnected _ 2 0)
  have h3 := CTPConnection.Reachable.step _ _ h2 (.OnRspUserLogin _ false)
  have h4 : halfLoadedConnection.Reachable :=
    CTPConnection.Reachable.step _ _ h3 (.subscribe_instrument sampleEnv _ "cu2501")
  have hb : loadBonus 1 2 = 0 := by
    unfold loadBonus
    norm_num
  have hq : halfLoadedConnection.connection_quality_ = 80 := by decide
  have hc : halfLoadedConnection.get_subscription_count = 1 := by decide
  have hm : halfLoadedConnection.config_.max_subscriptions = 2 := by decide
  have he : halfLoadedConnection.error_count_ = 0 := by decide
  refine ⟨h4, hm, hc, hq, he, ?_, by decide⟩
  rw [hq, hc, hm, he, hb]
  decide

/-- Claim C35, amended.  For every connection `c`,
`calculate_connection_score(c) = max(0, quality + bonus - min(error_count * 5, 40))`
where the bonus is +20 if `subs < 0.5 * 500`, -30 if `subs > 0.8 * 500` and 0
otherwise, with `subs` the subscription count of `c`: the load is measured
against 500 subscriptions, whatever the configured `max_subscriptions` is.
`select_connection_by_quality` returns null exactly when no connection is
available, and otherwise an available connection of maximal score. -/
theorem calculate_connection_score_formula (c : CTPConnection) (d : SubscriptionDispatcher) :
    calculate_connection_score c =
      max 0 (c.connection_quality_ + loadBonus c.get_subscription_count 500 -
        min (c.error_count_ * 5) 40) ∧
    (select_connection_by_quality d = none ↔
      d.connection_manager_.get_available_connections = []) ∧
    ∀ best, select_connection_by_quality d = some best →
      best ∈ d.connection_manager_.get_available_connections ∧
      ∀ x ∈ d.connection_manager_.get_available_connections,
        calculate_connection_score x ≤ calculate_connection_score best := by
  refine ⟨?_, ?_, ?_⟩
  · rw [loadBonus_500]
    unfold calculate_connection_score
    simp only
    split_ifs <;> first | rfl | simp
  · unfold select_connection_by_quality
    cases d.connection_manager_.get_available_connections <;> simp
  · intro best hbest
    refine ⟨select_connection_by_quality_mem d best hbest, ?_⟩
    unfold select_connection_by_quality at hbest
    cases hav : d.connection_manager_.get_available_connections with
    | nil => simp [hav] at hbest
    | cons first rest =>
      simp only [hav, Option.some.injEq] at hbest
      rw [← hbest]
      exact (qualityLoop_max first (first :: rest)).2

/-- Counterexample to C36 as stated: three connections are available and the
counter is at `2^64 - 1`.  The first call returns `available[0]` and the counter
wraps to 0; the second call returns `available[0]` again, where
`(c0 + 1) mod 3 = 1`. -/
theorem round_robin_wraps :
    wrappingDispatcher.connection_manager_.get_available_connections.map
      (fun c => c.config_.connection_id) = ["c1", "c2", "c3"] ∧
    wrappingDispatcher.round_robin_counter_ = 2 ^ 64 - 1 ∧
    (select_connection_round_robin wrappingDispatcher).1.map
      (fun c => c.config_.connection_id) = some "c1" ∧
    (select_connection_round_robin wrappingDispatcher).2 = 0 ∧
    (select_connection_round_robin (roundRobinAfter 1 wrappingDispatcher)).1.map
      (fun c => c.config_.connection_id) = some "c1" ∧
    (wrappingDispatcher.round_robin_counter_ + 1) % 3 = 1 := by
  refine ⟨?_, ?_, ?_, ?_, ?_, ?_⟩ <;> decide

/-- Claim C36, amended.  With a non-empty list of `n` available connections that
stays fixed and the counter at `c0` before the first call, as long as the
counter does not wrap (`c0 + k < 2^64`) the `k`-th call of
`select_connection_round_robin` returns `available[(c0 + k) mod n]` and leaves
the counter at `c0 + k + 1`; any `n` consecutive calls before the wrap return
the available connections, each once.  When no connection is available the
function returns null and leaves the counter as it is. -/
theorem round_robin_rotation (d : SubscriptionDispatcher) (k : Nat)
    (hav : d.connection_manager_.get_available_connections ≠ [])
    (hk : d.round_robin_counter_ + k < 2 ^ 64) :
    (select_connection_round_robin (roundRobinAfter k d)).1 =
      d.connection_manager_.get_available_connections[(d.round_robin_counter_ + k) %
        d.connection_manager_.get_available_connections.length]? ∧
    (select_connection_round_robin (roundRobinAfter k d)).1 ≠ none ∧
    (d.round_robin_counter_ + k + 1 < 2 ^ 64 →
      (select_connection_round_robin (roundRobinAfter k d)).2 = d.round_robin_counter_ + k + 1) ∧
    (d.round_robin_counter_ + k + d.connection_manager_.get_available_connections.length ≤
        2 ^ 64 →
      List.Perm
        ((List.range d.connection_manager_.get_available_connections.length).map (fun i =>
          (select_connection_round_robin (roundRobinAfter (k + i) d)).1))
        (d.connection_manager_.get_available_connections.map some)) ∧
    ∀ d2 : SubscriptionDispatcher, d2.connection_manager_.get_available_connections = [] →
      select_connection_round_robin d2 = (none, d2.round_robin_counter_) := by
  have hcall : ∀ j, d.round_robin_counter_ + j < 2 ^ 64 →
      select_connection_round_robin (roundRobinAfter j d) =
        (d.connection_manager_.get_available_connections[(d.round_robin_counter_ + j) %
          d.connection_manager_.get_available_connections.length]?,
          (d.round_robin_counter_ + j + 1) % 2 ^ 64) := by
    intro j hj
    have hpool := roundRobinAfter_pool j d
    have hcount := roundRobinAfter_counter j d hav hj
    simp only [select_connection_round_robin, hpool, hcount, hav, if_false]
  refine ⟨?_, ?_, ?_, ?_, ?_⟩
  · rw [hcall k hk]
  · rw [hcall k hk]
    exact getElem?_mod_ne_none _ _ hav
  · intro hk1
    rw [hcall k hk]
    exact Nat.mod_eq_of_lt hk1
  · intro hn
    have hmap : (List.range d.connection_manager_.get_available_connections.length).map
        (fun i => (select_connection_round_robin (roundRobinAfter (k + i) d)).1) =
        (List.range (d.connection_manager_.get_available_connections.rotate
          (d.round_robin_counter_ + k)).length).map (fun i =>
            (d.connection_manager_.get_available_connections.rotate
              (d.round_robin_counter_ + k))[i]?) := by
      rw [List.length_rotate]
      apply List.map_congr_left
      intro i hi
      have hi' : i < d.connection_manager_.get_available_connections.length :=
        List.mem_range.mp hi
      rw [hcall (k + i) (by omega), List.getElem?_rotate hi']
      simp only
      congr 2
      omega
    rw [hmap, range_map_getElem?]
    exact (List.rotate_perm _ _).map some
  · intro d2 h2
    simp [select_connection_round_robin, h2]

/-- Witness of C36: the second call over the two connections of the sample
pool. -/
theorem round_robin_rotation_witness :
    onlineDispatcher.connection_manager_.get_available_connections ≠ [] ∧
    onlineDispatcher.round_robin_counter_ + 1 < 2 ^ 64 ∧
    (select_connection_round_robin (roundRobinAfter 1 onlineDispatcher)).1 =
      onlineDispatcher.connection_manager_.get_available_connections[
        (onlineDispatcher.round_robin_counter_ + 1) %
          onlineDispatcher.connection_manager_.get_available_connections.length]? :=
  ⟨by decide, by decide, (round_robin_rotation onlineDispatcher 1 (by decide) (by decide)).1⟩

/-- Claim C37.  `update_connection_quality` at time `now` sets the quality to
`clamp(100 - hb - min(error_count * 10, 50) - load, 0, 100)`, where `hb` is 30
when `now - last_heartbeat` exceeds ten seconds, 15 when it exceeds five, else
0, and `load` is 20 when the subscribed set is larger than `0.8` times
`max_subscriptions`, 10 when it is larger than `0.6` times it, else 0; the
result is within `[0, 100]` for every error count, and nothing else of the
connection changes. -/
theorem update_connection_quality_formula (now : Int) (c : CTPConnection) :
    (c.update_connection_quality now).connection_quality_ =
      max 0 (min 100 (100 - heartbeatPenalty now c.last_heartbeat_ -
        min (c.error_count_ * 10) 50 -
        loadPenalty c.subscribed_instruments_.length c.config_.max_subscriptions)) ∧
    0 ≤ (c.update_connection_quality now).connection_quality_ ∧
    (c.update_connection_quality now).connection_quality_ ≤ 100 ∧
    c.update_connection_quality now =
      { c with connection_quality_ := (c.update_connection_quality now).connection_quality_ } := by
  have hform : (c.update_connection_quality now).connection_quality_ =
      max 0 (min 100 (100 - heartbeatPenalty now c.last_heartbeat_ -
        min (c.error_count_ * 10) 50 -
        loadPenalty c.subscribed_instruments_.length c.config_.max_subscriptions)) := by
    rw [loadPenalty_eq]
    unfold CTPConnection.update_connection_quality heartbeatPenalty
      CTPConnection.get_subscription_count
    simp only
    split_ifs <;> first | rfl | simp
  refine ⟨hform, ?_, ?_, rfl⟩
  · rw [hform]
    exact le_max_left _ _
  · rw [hform]
    exact max_le (by norm_num) (min_le_left _ _)

/-! ## Claims on the errors of a connection, on empty ids and on acknowledgements -/

/-- Claim C38 fails on the code.  The connection `tenErrorsConnection` is
reachable, logged in with quality 80, and has counted ten errors.  An eleventh
error leaves `error_count_` at 11, and only `OnRspError` then forces status
`ERROR` and quality 0: a subscribe request refused by the driver and a failed
subscribe response leave the connection `LOGGED_IN` with quality 80, a front
disconnect leaves it `DISCONNECTED`, and a failed login leaves it in `ERROR`
with quality 80.  For `OnRspError` the claim holds on every connection. -/
theorem error_count_above_ten_without_error_status :
    tenErrorsConnection.Reachable ∧
    (tenErrorsConnection.status_, tenErrorsConnection.connection_quality_,
      tenErrorsConnection.error_count_) = (.LOGGED_IN, 80, 10) ∧
    ((tenErrorsConnection.subscribe_instrument sampleEnv "bad").1.status_,
      (tenErrorsConnection.subscribe_instrument sampleEnv "bad").1.connection_quality_,
      (tenErrorsConnection.subscribe_instrument sampleEnv "bad").1.error_count_) =
        (.LOGGED_IN, 80, 11) ∧
    ((tenErrorsConnection.OnRspSubMarketData true).status_,
      (tenErrorsConnection.OnRspSubMarketData true).connection_quality_,
      (tenErrorsConnection.OnRspSubMarketData true).error_count_) = (.LOGGED_IN, 80, 11) ∧
    ((tenErrorsConnection.OnRspUnSubMarketData true).status_,
      (tenErrorsConnection.OnRspUnSubMarketData true).connection_quality_,
      (tenErrorsConnection.OnRspUnSubMarketData true).error_count_) = (.LOGGED_IN, 80, 11) ∧
    (tenErrorsConnection.OnFrontDisconnected.status_,
      tenErrorsConnection.OnFrontDisconnected.connection_quality_,
      tenErrorsConnection.OnFrontDisconnected.error_count_) = (.DISCONNECTED, 0, 11) ∧
    ((tenErrorsConnection.OnRspUserLogin true).status_,
      (tenErrorsConnection.OnRspUserLogin true).connection_quality_,
      (tenErrorsConnection.OnRspUserLogin true).error_count_) = (.ERROR, 80, 11) ∧
    ((tenErrorsConnection.OnRspError true).status_,
      (tenErrorsConnection.OnRspError true).connection_quality_,
      (tenErrorsConnection.OnRspError true).error_count_) = (.ERROR, 0, 11) ∧
    ∀ c : CTPConnection, (c.OnRspError true).error_count_ > 10 →
      (c.OnRspError true).status_ = .ERROR ∧ (c.OnRspError true).connection_quality_ = 0 := by
  have h0 := CTPConnection.Reachable.new (sampleConnection "c1" .DISCONNECTED).config_ 0
  have h1 := CTPConnection.Reachable.step _ _ h0 (.start _ true)
  have h2 := CTPConnection.Reachable.step _ _ h1 (.OnFrontConnected _ 2 0)
  have h3 := CTPConnection.Reachable.step _ _ h2 (.OnRspUserLogin _ false)
  have hloop : ∀ (n : Nat) (c : CTPConnection), c.Reachable →
      ((List.range n).foldl (fun c _ => c.OnRspSubMarketData true) c).Reachable := by
    intro n
    induction n with
    | zero => intro c hc; exact hc
    | succ n ih =>
      intro c hc
      rw [List.range_succ, List.foldl_append]
      exact CTPConnection.Reachable.step _ _ (ih c hc) (.OnRspSubMarketData _ true)
  have h4 : tenErrorsConnection.Reachable := hloop 10 _ h3
  refine ⟨h4, by decide, by decide, by decide, by decide, by decide, by decide, by decide, ?_⟩
  intro c hc
  unfold CTPConnection.OnRspError CTPConnection.handle_connection_error at hc ⊢
  simp only [if_true] at hc ⊢
  split_ifs at hc ⊢ with hgt
  · exact ⟨rfl, rfl⟩
  · exact absurd hc hgt

/-- Claim C39 fails on the code.  For `ins_list = "SHFE."` the only item is
`SHFE.`, which is not empty and passes the guard of the loop; its raw id, the
text after the dot, is the empty string.  After the message the empty string is
in the subscription set of the session, the session is a subscriber of the empty
instrument, the dispatcher has an entry for it, and the driver of `c1` was asked
to subscribe to it. -/
theorem subscribe_quote_empty_raw_id :
    getlineItems [] "SHFE.".data = ["SHFE."] ∧
    nohead_instrument "SHFE." = "" ∧
    (mapFind "s1"
      (handle_message_subscribe_quote sampleWrite sampleEnv 0 true (some onlineDispatcher)
        newSessionServer "s1" "SHFE.").1.sessions_).map (fun s => s.subscriptions_) =
      some [""] ∧
    mapFind ""
      (handle_message_subscribe_quote sampleWrite sampleEnv 0 true (some onlineDispatcher)
        newSessionServer "s1" "SHFE.").1.instrument_subscribers_ = some ["s1"] ∧
    mapFind ""
      (handle_message_subscribe_quote sampleWrite sampleEnv 0 true (some onlineDispatcher)
        newSessionServer "s1" "SHFE.").1.noheadtohead_instruments_map_ = some "SHFE." ∧
    (handle_message_subscribe_quote sampleWrite sampleEnv 0 true (some onlineDispatcher)
      newSessionServer "s1" "SHFE.").2.map
        (fun d => mapFind "" d.global_subscriptions_) =
      some (some ⟨"", "c1", .SUBSCRIBING, ["s1"], 0, 0, 0⟩) ∧
    (handle_message_subscribe_quote sampleWrite sampleEnv 0 true (some onlineDispatcher)
      newSessionServer "s1" "SHFE.").2.map
        (fun d => (d.connection_manager_.get_connection "c1").map
          (fun c => c.subscribed_instruments_)) = some (some [""]) := by
  refine ⟨?_, ?_, ?_, ?_, ?_, ?_, ?_⟩ <;> decide

/-- Counterexample to C40 as stated: `cu2501` was migrated from `c1` to `c2`
and waits for the acknowledgement of `c2` (status `SUBSCRIBING`, assigned to
`c2`).  An acknowledgement from `c1` sets the entry to `ACTIVE` and records the
instrument in `connection_subscriptions_["c1"]`. -/
theorem late_ack_activates_migrated_entry :
    mapFind "cu2501" failedOverDispatcher.global_subscriptions_ =
      some ⟨"cu2501", "c2", .SUBSCRIBING, ["A"], 0, 1, 0⟩ ∧
    mapFind "c1" failedOverDispatcher.connection_subscriptions_ = none ∧
    mapFind "cu2501"
      (on_subscription_success 5 failedOverDispatcher "c1" "cu2501").global_subscriptions_ =
      some ⟨"cu2501", "c2", .ACTIVE, ["A"], 0, 5, 0⟩ ∧
    mapFind "c1"
      (on_subscription_success 5 failedOverDispatcher "c1" "cu2501").connection_subscriptions_ =
      some ["cu2501"] := by
  refine ⟨?_, ?_, ?_, ?_⟩ <;> decide

/-- Claim C40, amended.  `on_subscription_success(c, I)` does not look at the
connection of the entry: when `I` has an entry, whatever its
`assigned_connection_id` is, the entry becomes `ACTIVE` with `last_update_time`
set to the time of the call and everything else kept, `I` is recorded in
`connection_subscriptions_[c]`, the counter of successes grows by one and
nothing else changes; when `I` has no entry the state is unchanged. -/
theorem on_subscription_success_effect (now : Int) (d : SubscriptionDispatcher)
    (connection_id instrument_id : String) :
    (∀ info, mapFind instrument_id d.global_subscriptions_ = some info →
      on_subscription_success now d connection_id instrument_id =
        { d with
          global_subscriptions_ := mapInsert instrument_id
            { info with status := .ACTIVE, last_update_time := now } d.global_subscriptions_
          connection_subscriptions_ :=
            mapSetInsert connection_id instrument_id d.connection_subscriptions_
          successful_subscriptions_ := d.successful_subscriptions_ + 1 } ∧
      mapFind instrument_id
        (on_subscription_success now d connection_id instrument_id).global_subscriptions_ =
          some { info with status := .ACTIVE, last_update_time := now } ∧
      instrument_id ∈
        connectionInstruments (on_subscription_success now d connection_id instrument_id)
          connection_id) ∧
    (mapFind instrument_id d.global_subscriptions_ = none →
      on_subscription_success now d connection_id instrument_id = d) := by
  constructor
  · intro info hinfo
    have heq : on_subscription_success now d connection_id instrument_id =
        { d with
          global_subscriptions_ := mapInsert instrument_id
            { info with status := .ACTIVE, last_update_time := now } d.global_subscriptions_
          connection_subscriptions_ :=
            mapSetInsert connection_id instrument_id d.connection_subscriptions_
          successful_subscriptions_ := d.successful_subscriptions_ + 1 } := by
      simp only [on_subscription_success, hinfo]
    refine ⟨heq, ?_, ?_⟩
    · rw [heq]
      exact mapFind_mapInsert_self _ _ _
    · rw [heq]
      unfold connectionInstruments
      simp only
      rw [mapFind_mapSetInsert_eq]
      cases mapFind connection_id d.connection_subscriptions_ with
      | none => simp
      | some s => exact (mem_setInsert _ _ _).mpr (Or.inl rfl)
  · intro hnone
    simp only [on_subscription_success, hnone]

/-- Witness of C40: the acknowledgement from `c1` for the entry that is assigned
to `c2`. -/
theorem on_subscription_success_effect_witness :
    mapFind "cu2501" failedOverDispatcher.global_subscriptions_ =
      some ⟨"cu2501", "c2", .SUBSCRIBING, ["A"], 0, 1, 0⟩ ∧
    mapFind "cu2501"
      (on_subscription_success 5 failedOverDispatcher "c1" "cu2501").global_subscriptions_ =
      some ⟨"cu2501", "c2", .ACTIVE, ["A"], 0, 5, 0⟩ :=
  ⟨by decide,
    ((on_subscription_success_effect 5 failedOverDispatcher "c1" "cu2501").1
      ⟨"cu2501", "c2", .SUBSCRIBING, ["A"], 0, 1, 0⟩ (by decide)).2.1⟩

end MdGateway
